import Mathlib

/-!
# VINS-Fusion estimator: sensor buffers, interval extraction, window slide

A shallow embedding of parts of `vins_estimator/src/estimator/estimator.cpp`.

Conventions of the embedding.

* `double` values are rationals (`ℚ`). A decimal literal of the source that is compared with
  a value (`0.1`, `0.2`, `0.3`) and the constant `M_PI` are the doubles they denote, and the two
  wrapping loops of `optimization` round after each operation (`roundDouble`). Elsewhere
  comparisons and the four arithmetic operations are exact: the operations of Eigen and the
  sums of timestamps are not rounded.
* A `time_pq` (a `std::priority_queue` whose comparator looks only at the timestamp, so that
  `top()` is an element of least timestamp) is the list of its elements in ascending
  timestamp order: `top()` is the head, `pop()` removes the head, `push` inserts in order.
* Undefined behaviour of the C++ code (`top()` or `pop()` on an empty queue, an index past the
  end of a `std::vector`, a dereferenced null or end iterator) is the result `none`.
* A C array indexed by the window slot is a function on `Nat`; `WINDOW_SIZE` is the
  parameter `W`.
-/

namespace VINS

/-! ## Basic types -/

/-- Timestamps (`double`, seconds). -/
abbrev Time := ℚ

/-- Stands for `Eigen::Vector3d`. -/
abbrev Vector3d := ℚ × ℚ × ℚ

/-- Stands for `Eigen::Matrix3d`, as its three rows. -/
abbrev Matrix3d := Vector3d × Vector3d × Vector3d

/-- Stands for `Eigen::Matrix<double, 6, 1>` (left and right wheel velocity). -/
abbrev Vector6d := Vector3d × Vector3d

/-- The queue type `time_pq<T>` of `estimator.h`: elements in ascending timestamp order. -/
abbrev TimePQ (α : Type) := List (Time × α)

/-- The representation invariant of a `TimePQ`: timestamps ascend from the head. -/
def TimePQ.Ascending {α : Type} (q : TimePQ α) : Prop :=
  q.Pairwise (fun a b => a.1 ≤ b.1)

/-- Stands for `priority_queue::push` (and `emplace`): insertion in timestamp order. Among
elements with the same timestamp the order in which a heap hands them out is not fixed by the
standard; here the new element goes behind them. -/
def TimePQ.push {α : Type} (x : Time × α) : TimePQ α → TimePQ α
  | [] => [x]
  | y :: ys => if x.1 < y.1 then x :: y :: ys else y :: TimePQ.push x ys

/-! ## Sensor input (`inputIMU`, `inputEncoder`, `inputGNSS`) -/

/-- The two queue writes of `Estimator::inputIMU` (lines 221-222). -/
def inputIMU (t : Time) (linearAcceleration angularVelocity : Vector3d)
    (bufs : TimePQ Vector3d × TimePQ Vector3d) : TimePQ Vector3d × TimePQ Vector3d :=
  (TimePQ.push (t, linearAcceleration) bufs.1, TimePQ.push (t, angularVelocity) bufs.2)

/-! ## Interval extraction -/

/-- The first loop of `getIMUInterval` (lines 269-273):
`while (accBuf.top().first <= t0) { accBuf.pop(); gyrBuf.pop(); }`. -/
def getIMUInterval.discard {α β : Type} (t0 : Time) :
    TimePQ α → TimePQ β → Option (TimePQ α × TimePQ β)
  | [], _ => none
  | a :: accBuf, gyrBuf =>
    if a.1 ≤ t0 then
      match gyrBuf with
      | [] => none
      | _ :: gyrBuf' => getIMUInterval.discard t0 accBuf gyrBuf'
    else some (a :: accBuf, gyrBuf)

/-- The second loop of `getIMUInterval` (lines 274-280): while the top of `accBuf` is before
`t1`, move the tops of both queues to the output vectors. -/
def getIMUInterval.drain {α β : Type} (t1 : Time) :
    TimePQ α → TimePQ β → List (Time × α) → List (Time × β) →
      Option (TimePQ α × TimePQ β × List (Time × α) × List (Time × β))
  | [], _, _, _ => none
  | a :: accBuf, gyrBuf, accVector, gyrVector =>
    if a.1 < t1 then
      match gyrBuf with
      | [] => none
      | g :: gyrBuf' => getIMUInterval.drain t1 accBuf gyrBuf' (accVector ++ [a]) (gyrVector ++ [g])
    else some (a :: accBuf, gyrBuf, accVector, gyrVector)

/-- The state `getIMUInterval` works on: the two queues and the two output vectors. -/
structure IMUExtraction (α β : Type) where
  accBuf : TimePQ α
  gyrBuf : TimePQ β
  accVector : List (Time × α)
  gyrVector : List (Time × β)
deriving DecidableEq, Repr

/-- Embedding of `Estimator::getIMUInterval` (lines 266-283). -/
def getIMUInterval {α β : Type} (t0 t1 : Time) (accBuf : TimePQ α) (gyrBuf : TimePQ β)
    (accVector : List (Time × α)) (gyrVector : List (Time × β)) : Option (IMUExtraction α β) :=
  match getIMUInterval.discard t0 accBuf gyrBuf with
  | none => none
  | some (accBuf, gyrBuf) =>
    match getIMUInterval.drain t1 accBuf gyrBuf accVector gyrVector with
    | none => none
    | some (accBuf, gyrBuf, accVector, gyrVector) =>
      match accBuf.head?, gyrBuf.head? with
      | some a, some g =>
        some { accBuf := accBuf, gyrBuf := gyrBuf,
               accVector := accVector ++ [a], gyrVector := gyrVector ++ [g] }
      | _, _ => none

/-- The loop `while (q.top().first <= t0) q.pop();` on one queue
(`getGNSSInterval`, lines 288-289). -/
def popWhileLE {α : Type} (t0 : Time) : TimePQ α → Option (TimePQ α)
  | [] => none
  | x :: q => if x.1 ≤ t0 then popWhileLE t0 q else some (x :: q)

/-- The loop `while (q.top().first < t1) { v.push_back(q.top()); q.pop(); }` on one queue
(`getEncoderInterval`, lines 257-261; `getGNSSInterval`, lines 290-294). -/
def drainWhileLT {α : Type} (t1 : Time) : TimePQ α → List (Time × α) →
    Option (TimePQ α × List (Time × α))
  | [], _ => none
  | x :: q, v => if x.1 < t1 then drainWhileLT t1 q (v ++ [x]) else some (x :: q, v)

/-- Embedding of `Estimator::getEncoderInterval` (lines 254-264). The parameter `t0` is not
read by the body. The index `encVector.size() - 2` is computed in `size_t`: for a vector of
fewer than two elements it wraps around and is past the end. The result is the queue and the
output vector. -/
def getEncoderInterval {α : Type} (_t0 t1 : Time) (encBuf : TimePQ α)
    (encVector : List (Time × α)) : Option (TimePQ α × List (Time × α)) :=
  match drainWhileLT t1 encBuf encVector with
  | none => none
  | some (encBuf, encVector) =>
    match encBuf.head? with
    | none => none
    | some top =>
      let encVector := encVector ++ [top]
      if 2 ≤ encVector.length then
        match encVector[encVector.length - 2]? with
        | none => none
        | some e => some (TimePQ.push e encBuf, encVector)
      else none

/-- Embedding of `Estimator::getGNSSInterval` (lines 285-295). The result is the queue and the
output vector. -/
def getGNSSInterval {α : Type} (t0 t1 : Time) (gnssBuf : TimePQ α)
    (gnssVector : List (Time × α)) : Option (TimePQ α × List (Time × α)) :=
  match popWhileLE t0 gnssBuf with
  | none => none
  | some gnssBuf => drainWhileLT t1 gnssBuf gnssVector

/-! ## The estimator state -/

/-- The enum `Estimator::SolverFlag`. -/
inductive SolverFlag where
  | INITIAL
  | NON_LINEAR
deriving DecidableEq, Repr

/-- The enum `Estimator::MarginalizationFlag`. -/
inductive MarginalizationFlag where
  | MARGIN_OLD
  | MARGIN_SECOND_NEW
deriving DecidableEq, Repr

/-- One raw sample as `IntegrationBase::push_back` receives it: `dt`, acceleration, angular
velocity and, with the encoder, the wheel velocities. -/
structure RawSample where
  dt : ℚ
  acc : Vector3d
  gyr : Vector3d
  enc : Option Vector6d
deriving DecidableEq, Repr

/-- Modelled from the spec: the class `IntegrationBase` (`integration_base.h` is not among the
sources). A pre-integration is built from the previous IMU sample and the linearization biases
(and, with the encoder, the previous encoder velocity) and buffers the raw samples handed to
`push_back`; the integrated quantities are functions of these, so the object is represented by
its constructor arguments and its buffered samples. -/
structure IntegrationBase where
  acc_0 : Vector3d
  gyr_0 : Vector3d
  linearized_ba : Vector3d
  linearized_bg : Vector3d
  enc_v_0 : Option Vector6d
  samples : List RawSample
deriving DecidableEq, Repr

/-- Modelled from the spec: the constructor `IntegrationBase{acc_0, gyr_0, ba, bg[, enc_v_0]}`,
with no sample buffered. -/
def IntegrationBase.create (acc_0 gyr_0 ba bg : Vector3d) (enc_v_0 : Option Vector6d) :
    IntegrationBase :=
  { acc_0 := acc_0, gyr_0 := gyr_0, linearized_ba := ba, linearized_bg := bg,
    enc_v_0 := enc_v_0, samples := [] }

/-- Modelled from the spec: `push_back(dt, a, ω[, v])` of `IntegrationBase` buffers the raw
sample behind those already buffered. -/
def IntegrationBase.push_back (p : IntegrationBase) (dt : ℚ) (acc gyr : Vector3d)
    (enc : Option Vector6d) : IntegrationBase :=
  { p with samples := p.samples ++ [{ dt := dt, acc := acc, gyr := gyr, enc := enc }] }

/-- Modelled from the spec: the integrated duration `sum_dt` of an `IntegrationBase`, the sum
of the `dt` of the samples pushed. -/
def IntegrationBase.sum_dt (p : IntegrationBase) : ℚ :=
  (p.samples.map (fun x => x.dt)).sum

/-- A raw owning pointer: null, pointing to a live object, or dangling after `delete`. -/
inductive Ptr (α : Type) where
  | null
  | live (a : α)
  | deleted
deriving DecidableEq, Repr

/-- Stands for `delete p;`: no effect on a null pointer, a second `delete` of the same object is
undefined. The pointer keeps its (now dangling) value. -/
def Ptr.delete {α : Type} : Ptr α → Option (Ptr α)
  | Ptr.null => some Ptr.null
  | Ptr.live _ => some Ptr.deleted
  | Ptr.deleted => none

/-- Modelled from the spec: the class `ImageFrame` (`initial_alignment.h` is not among the
sources), reduced to the field `slideWindow` touches, the owning pointer to the temporary
pre-integration. -/
structure ImageFrame where
  pre_integration : Ptr IntegrationBase
deriving DecidableEq, Repr

/-- The calls `slideWindow` makes on the feature manager (`feature_manager.h` is not among the
sources): the feature manager is represented by the calls it has received. -/
inductive FeatureManagerCall where
  | removeBackShiftDepth (R0 : Matrix3d) (P0 : Vector3d) (R1 : Matrix3d) (P1 : Vector3d)
  | removeBack
  | removeFront (frame_count : Nat)
  | setDepth (dep : List ℚ)
  | setRic (ric : List Matrix3d)
  | clearState
deriving DecidableEq, Repr

/-- Stands for `Vector3d + Vector3d`. -/
def Vector3d.add (a b : Vector3d) : Vector3d := (a.1 + b.1, a.2.1 + b.2.1, a.2.2 + b.2.2)

/-- Stands for `Vector3d::squaredNorm`. -/
def Vector3d.squaredNorm (a : Vector3d) : ℚ := a.1 * a.1 + a.2.1 * a.2.1 + a.2.2 * a.2.2

/-- Stands for the test `a.norm() > c` with a constant `c >= 0`, which holds exactly when the
squared norm exceeds `c * c`. -/
def Vector3d.normGt (a : Vector3d) (c : ℚ) : Bool := decide (c * c < Vector3d.squaredNorm a)

/-- Stands for `Matrix3d * Vector3d`. -/
def Matrix3d.mulVec (m : Matrix3d) (v : Vector3d) : Vector3d :=
  (m.1.1 * v.1 + m.1.2.1 * v.2.1 + m.1.2.2 * v.2.2,
   m.2.1.1 * v.1 + m.2.1.2.1 * v.2.1 + m.2.1.2.2 * v.2.2,
   m.2.2.1 * v.1 + m.2.2.2.1 * v.2.1 + m.2.2.2.2 * v.2.2)

/-- Stands for `Matrix3d * Matrix3d`. -/
def Matrix3d.mul (m n : Matrix3d) : Matrix3d :=
  let c1 : Vector3d := Matrix3d.mulVec m (n.1.1, n.2.1.1, n.2.2.1)
  let c2 : Vector3d := Matrix3d.mulVec m (n.1.2.1, n.2.1.2.1, n.2.2.2.1)
  let c3 : Vector3d := Matrix3d.mulVec m (n.1.2.2, n.2.1.2.2, n.2.2.2.2)
  ((c1.1, c2.1, c3.1), (c1.2.1, c2.2.1, c3.2.1), (c1.2.2, c2.2.2, c3.2.2))

/-- Stands for `Matrix3d::Identity()`. -/
def Matrix3d.identity : Matrix3d := ((1, 0, 0), (0, 1, 0), (0, 0, 1))

/-- Stands for `Vector3d::Zero()`. -/
def Vector3d.zero : Vector3d := (0, 0, 0)

/-- Stands for `Vector3d - Vector3d`. -/
def Vector3d.sub (a b : Vector3d) : Vector3d := (a.1 - b.1, a.2.1 - b.2.1, a.2.2 - b.2.2)

/-- Stands for `Matrix3d::transpose`. -/
def Matrix3d.transpose (m : Matrix3d) : Matrix3d :=
  ((m.1.1, m.2.1.1, m.2.2.1), (m.1.2.1, m.2.1.2.1, m.2.2.2.1), (m.1.2.2, m.2.1.2.2, m.2.2.2.2))

/-- The calls the estimator makes on the feature tracker (`feature_tracker.h` is not among the
sources). -/
inductive FeatureTrackerCall where
  | readIntrinsicParameter
  | removeOutliers
  | setPrediction
  | trackImage (t : ℚ)
deriving DecidableEq, Repr

/-- One GNSS observation as `processGNSS` reads it through an `ObsPtr`: the identity of the
shared object, the satellite, the observation time in seconds (`time2sec(obs->time)`),
whether `obs->freqs` is empty, and the per-frequency standard deviations. -/
structure Obs where
  ptr : Nat
  sat : Nat
  time : ℚ
  freqs_empty : Bool
  psr_std : List ℚ
  dopp_std : List ℚ
deriving DecidableEq, Repr

/-- A parameter block of the optimization, named by the array it lives in: the address
`para_Pose[i]`, `para_SpeedBias[i]`, `para_Ex_Pose[i]`, `para_Feature[i]`, `para_Td[0]`,
`para_yaw_enu_local`, `para_anc_ecef`, `para_rcv_dt + n`, `para_rcv_ddt + i`, or the null
pointer. Distinct blocks are distinct objects and have distinct addresses. -/
inductive ParamBlock where
  | Pose (i : Nat)
  | SpeedBias (i : Nat)
  | Ex_Pose (i : Nat)
  | Feature (i : Nat)
  | Td
  | yaw_enu_local
  | anc_ecef
  | rcv_dt (n : Nat)
  | rcv_ddt (i : Nat)
  | null
deriving DecidableEq, Repr

/-- The cost functions the estimator hands to the solver and to the marginalization. -/
inductive FactorKind where
  | marginalization
  | imu
  | imuEncoder
  | gnssPsrDopp
  | dtDdt
  | ddtSmooth
  | projectionTwoFrameOneCam
  | projectionTwoFrameTwoCam
  | projectionOneFrameTwoCam
deriving DecidableEq, Repr

/-- Stands for `ResidualBlockInfo(cost_function, loss_function, parameter_blocks, drop_set)`
(and for the arguments of `problem.AddResidualBlock`, with an empty `drop_set`). -/
structure ResidualBlockInfo where
  cost_function : FactorKind
  parameter_blocks : List ParamBlock
  drop_set : List Nat
deriving DecidableEq, Repr

/-- Modelled from the spec: the class `MarginalizationInfo` (`marginalization_factor.h` is not
among the sources), the "marginalization prior" with its validity flag, reduced to the
residual blocks it was given and the flag. -/
structure MarginalizationInfo where
  factors : List ResidualBlockInfo
  valid : Bool
deriving DecidableEq, Repr

/-- The members of `Estimator` (`estimator.h`) that the functions embedded here read or write,
with the globals `USE_IMU`, `ENCODER_ENABLE` and `ESTIMATE_EXTRINSIC` of the configuration. The arrays of
`WINDOW_SIZE + 1` slots are functions of the slot index. GNSS observations and ephemerides
are plain handles. The integer flags (`USE_IMU`, `STEREO`, ...) take the values 0 and 1 and
are booleans; a `std::map` is a function from its keys to `Option`; a parameter block
`para_X[i][k]` is a function of `i` and `k`; `last_marginalization_parameter_blocks` lists
the addresses of parameter blocks; `featureTracker` is the list of the calls it has
received. -/
structure Estimator where
  USE_IMU : Bool
  ENCODER_ENABLE : Bool
  solver_flag : SolverFlag
  marginalization_flag : MarginalizationFlag
  frame_count : Nat
  Headers : Nat → Time
  Ps : Nat → Vector3d
  Vs : Nat → Vector3d
  Rs : Nat → Matrix3d
  Bas : Nat → Vector3d
  Bgs : Nat → Vector3d
  pre_integrations : Nat → Option IntegrationBase
  acc_0 : Vector3d
  gyr_0 : Vector3d
  enc_v_0 : Vector6d
  dt_buf : Nat → List ℚ
  linear_acceleration_buf : Nat → List Vector3d
  angular_velocity_buf : Nat → List Vector3d
  encoder_velocity_buf : Nat → List Vector6d
  gnss_meas_buf : Nat → List Nat
  gnss_ephem_buf : Nat → List Nat
  para_rcv_dt : Nat → ℚ
  para_rcv_ddt : Nat → ℚ
  all_image_frame : List (Time × ImageFrame)
  back_R0 : Matrix3d
  back_P0 : Vector3d
  ric : Nat → Matrix3d
  tic : Nat → Vector3d
  sum_of_back : Int
  sum_of_front : Int
  f_manager : List FeatureManagerCall
  gnss_ready : Bool
  yaw_enu_local : ℚ
  para_yaw_enu_local : ℚ
  STEREO : Bool := false
  MULTIPLE_THREAD : Bool := false
  GNSS_ENABLE : Bool := false
  NUM_OF_CAM : Nat := 1
  TIC : Nat → Vector3d := fun _ => (0, 0, 0)
  RIC : Nat → Matrix3d := fun _ => ((1, 0, 0), (0, 1, 0), (0, 0, 1))
  TD : ℚ := 0
  G : Vector3d := (0, 0, 0)
  GNSS_IONO_DEFAULT_PARAMS : List ℚ := []
  accBuf : TimePQ Vector3d := []
  gyrBuf : TimePQ Vector3d := []
  encBuf : TimePQ Vector6d := []
  featureBuf : TimePQ Nat := []
  gnssBuf : TimePQ (List Obs) := []
  latest_imu_time : Time := 0
  latest_encoder_time : Time := 0
  latest_gnss_time : Time := 0
  prevTime : Time := -1
  curTime : Time := 0
  openExEstimation : Bool := false
  initP : Vector3d := (0, 0, 0)
  initR : Matrix3d := ((1, 0, 0), (0, 1, 0), (0, 0, 1))
  inputImageCnt : Int := 0
  initFirstPoseFlag : Bool := false
  initThreadFlag : Bool := false
  processThread_started : Bool := false
  first_imu : Bool := false
  initial_timestamp : ℚ := 0
  td : ℚ := 0
  g : Vector3d := (0, 0, 0)
  anc_ecef : Vector3d := (0, 0, 0)
  R_ecef_enu : Matrix3d := ((1, 0, 0), (0, 1, 0), (0, 0, 1))
  ecef_pos : Vector3d := (0, 0, 0)
  sat2ephem : Nat → Option (List Nat) := fun _ => none
  sat2time_index : Nat → Option (List (ℚ × Nat)) := fun _ => none
  sat_track_status : Nat → Option Nat := fun _ => none
  latest_gnss_iono_params : List ℚ := []
  diff_t_gnss_local : ℚ := 0
  tmp_pre_integration : Option IntegrationBase := none
  last_marginalization_info : Option MarginalizationInfo := none
  last_marginalization_parameter_blocks : List ParamBlock := []
  failure_occur : Bool := false
  last_R0 : Matrix3d := ((1, 0, 0), (0, 1, 0), (0, 0, 1))
  last_P0 : Vector3d := (0, 0, 0)
  para_Pose : Nat → Nat → ℚ := fun _ _ => 0
  para_SpeedBias : Nat → Nat → ℚ := fun _ _ => 0
  para_Ex_Pose : Nat → Nat → ℚ := fun _ _ => 0
  para_Feature : Nat → ℚ := fun _ => 0
  para_Td : ℚ := 0
  para_anc_ecef : Nat → ℚ := fun _ => 0
  featureTracker : List FeatureTrackerCall := []
  ESTIMATE_EXTRINSIC : Int := 0

/-- Headers ascend over the window slots `0..W` (spec invariant 1). -/
def Estimator.HeadersSorted (W : Nat) (s : Estimator) : Prop :=
  ∀ i, i < W → s.Headers i ≤ s.Headers (i + 1)

/-! ## `slideWindow` -/

/-- Stands for `a[i].swap(a[j])` and `std::swap(a[i], a[j])` on an array of slots. -/
def swapSlots {α : Type} (a : Nat → α) (i j : Nat) : Nat → α :=
  Function.update (Function.update a i (a j)) j (a i)

/-- One pass of the inner loop `for (k = 0; k < 4; ++k) para_rcv_dt[i*4+k] = para_rcv_dt[j*4+k]`
(`slideWindow`, lines 1910-1911 and 1984-1985). -/
def copyClockBlock (para_rcv_dt : Nat → ℚ) (i j : Nat) : Nat → ℚ :=
  (List.range 4).foldl (fun p k => Function.update p (i * 4 + k) (p (j * 4 + k))) para_rcv_dt

/-- The body of the loop `for (int i = 0; i < WINDOW_SIZE; i++)` of the `MARGIN_OLD` branch of
`slideWindow` (lines 1889-1913). -/
def slideWindow.shiftSlot (s : Estimator) (i : Nat) : Estimator :=
  let s := { s with
    Headers := Function.update s.Headers i (s.Headers (i + 1))
    Rs := swapSlots s.Rs i (i + 1)
    Ps := swapSlots s.Ps i (i + 1) }
  let s := if s.USE_IMU then
    { s with
      pre_integrations := swapSlots s.pre_integrations i (i + 1)
      dt_buf := swapSlots s.dt_buf i (i + 1)
      linear_acceleration_buf := swapSlots s.linear_acceleration_buf i (i + 1)
      angular_velocity_buf := swapSlots s.angular_velocity_buf i (i + 1)
      encoder_velocity_buf := swapSlots s.encoder_velocity_buf i (i + 1)
      Vs := swapSlots s.Vs i (i + 1)
      Bas := swapSlots s.Bas i (i + 1)
      Bgs := swapSlots s.Bgs i (i + 1) }
    else s
  { s with
    gnss_meas_buf := swapSlots s.gnss_meas_buf i (i + 1)
    gnss_ephem_buf := swapSlots s.gnss_ephem_buf i (i + 1)
    para_rcv_dt := copyClockBlock s.para_rcv_dt i (i + 1)
    para_rcv_ddt := Function.update s.para_rcv_ddt i (s.para_rcv_ddt (i + 1)) }

/-- The statements `delete pre_integrations[WINDOW_SIZE]; pre_integrations[WINDOW_SIZE] = new
IntegrationBase{...};` common to both branches of `slideWindow` (lines 1928-1932 and
1989-1993). -/
def slideWindow.freshPreIntegration (W : Nat) (s : Estimator) : Estimator :=
  { s with
    pre_integrations := Function.update s.pre_integrations W
      (some (IntegrationBase.create s.acc_0 s.gyr_0 (s.Bas W) (s.Bgs W)
        (if s.ENCODER_ENABLE then some s.enc_v_0 else none))) }

/-- The `if (USE_IMU)` block after the loop of the `MARGIN_OLD` branch (lines 1922-1938). -/
def slideWindow.reseedLast (W : Nat) (s : Estimator) : Estimator :=
  let s := { s with
    Vs := Function.update s.Vs W (s.Vs (W - 1))
    Bas := Function.update s.Bas W (s.Bas (W - 1))
    Bgs := Function.update s.Bgs W (s.Bgs (W - 1)) }
  let s := slideWindow.freshPreIntegration W s
  { s with
    dt_buf := Function.update s.dt_buf W []
    linear_acceleration_buf := Function.update s.linear_acceleration_buf W []
    angular_velocity_buf := Function.update s.angular_velocity_buf W []
    encoder_velocity_buf := Function.update s.encoder_velocity_buf W [] }

/-- The block on `all_image_frame` of the `MARGIN_OLD` branch (lines 1940-1945):
`it_0 = all_image_frame.find(t_0); delete it_0->second.pre_integration;
all_image_frame.erase(all_image_frame.begin(), it_0);` on the map as the list of its entries in
key order. When `t_0` is not a key, `find` returns `end()` and `it_0->` is undefined. -/
def slideWindow.eraseImageFrames (t_0 : Time) :
    List (Time × ImageFrame) → Option (List (Time × ImageFrame))
  | [] => none
  | e :: m =>
    if e.1 = t_0 then
      match Ptr.delete e.2.pre_integration with
      | none => none
      | some p => some ((e.1, ({ pre_integration := p } : ImageFrame)) :: m)
    else slideWindow.eraseImageFrames t_0 m

/-- Embedding of `Estimator::slideWindowOld` (lines 2014-2031). -/
def slideWindowOld (s : Estimator) : Estimator :=
  let s := { s with sum_of_back := s.sum_of_back + 1 }
  if s.solver_flag = SolverFlag.NON_LINEAR then
    let R0 := Matrix3d.mul s.back_R0 (s.ric 0)
    let R1 := Matrix3d.mul (s.Rs 0) (s.ric 0)
    let P0 := Vector3d.add s.back_P0 (Matrix3d.mulVec s.back_R0 (s.tic 0))
    let P1 := Vector3d.add (s.Ps 0) (Matrix3d.mulVec (s.Rs 0) (s.tic 0))
    { s with f_manager := s.f_manager ++ [FeatureManagerCall.removeBackShiftDepth R0 P0 R1 P1] }
  else
    { s with f_manager := s.f_manager ++ [FeatureManagerCall.removeBack] }

/-- Embedding of `Estimator::slideWindowNew` (lines 2008-2012). -/
def slideWindowNew (s : Estimator) : Estimator :=
  { s with
    sum_of_front := s.sum_of_front + 1
    f_manager := s.f_manager ++ [FeatureManagerCall.removeFront s.frame_count] }

/-- The body of the loop `for (unsigned int i = 0; i < dt_buf[frame_count].size(); i++)` of the
`MARGIN_SECOND_NEW` branch (lines 1959-1975): sample `i` of slot `frame_count` is read from
the raw-sample buffers, pushed into `pre_integrations[frame_count - 1]` and appended to the
buffers of slot `frame_count - 1`. Reading past the end of a buffer and calling `push_back`
through a null pointer are undefined. -/
def slideWindow.foldSample (s : Estimator) (i : Nat) : Option Estimator :=
  match (s.dt_buf s.frame_count)[i]?, (s.linear_acceleration_buf s.frame_count)[i]?,
      (s.angular_velocity_buf s.frame_count)[i]? with
  | some tmp_dt, some tmp_linear_acceleration, some tmp_angular_velocity =>
    let afterPush : Option Estimator :=
      if s.ENCODER_ENABLE then
        match (s.encoder_velocity_buf s.frame_count)[i]?,
            s.pre_integrations (s.frame_count - 1) with
        | some tmp_encoder_velocity, some p =>
          some { s with
            pre_integrations := Function.update s.pre_integrations (s.frame_count - 1)
              (some (IntegrationBase.push_back p tmp_dt tmp_linear_acceleration
                tmp_angular_velocity (some tmp_encoder_velocity)))
            encoder_velocity_buf := Function.update s.encoder_velocity_buf (s.frame_count - 1)
              (s.encoder_velocity_buf (s.frame_count - 1) ++ [tmp_encoder_velocity]) }
        | _, _ => none
      else
        match s.pre_integrations (s.frame_count - 1) with
        | some p =>
          some { s with
            pre_integrations := Function.update s.pre_integrations (s.frame_count - 1)
              (some (IntegrationBase.push_back p tmp_dt tmp_linear_acceleration
                tmp_angular_velocity none)) }
        | none => none
    match afterPush with
    | none => none
    | some s =>
      some { s with
        dt_buf := Function.update s.dt_buf (s.frame_count - 1)
          (s.dt_buf (s.frame_count - 1) ++ [tmp_dt])
        linear_acceleration_buf := Function.update s.linear_acceleration_buf (s.frame_count - 1)
          (s.linear_acceleration_buf (s.frame_count - 1) ++ [tmp_linear_acceleration])
        angular_velocity_buf := Function.update s.angular_velocity_buf (s.frame_count - 1)
          (s.angular_velocity_buf (s.frame_count - 1) ++ [tmp_angular_velocity]) }
  | _, _, _ => none

/-- The loop of the `MARGIN_SECOND_NEW` branch, from index `i`, with `fuel` bounding the number
of passes; the bound `dt_buf[frame_count].size()` is read again before every pass. -/
def slideWindow.foldLoop : Nat → Nat → Estimator → Option Estimator
  | 0, _, _ => none
  | fuel + 1, i, s =>
    if i < (s.dt_buf s.frame_count).length then
      match slideWindow.foldSample s i with
      | none => none
      | some s => slideWindow.foldLoop fuel (i + 1) s
    else some s

/-- The `if (USE_IMU)` block of the `MARGIN_SECOND_NEW` branch after its loop (lines 1977-1998).
The buffer `encoder_velocity_buf[WINDOW_SIZE]` is not cleared here. -/
def slideWindow.mergeLast (W : Nat) (s : Estimator) : Estimator :=
  let s := { s with
    Vs := Function.update s.Vs (s.frame_count - 1) (s.Vs s.frame_count)
    Bas := Function.update s.Bas (s.frame_count - 1) (s.Bas s.frame_count)
    Bgs := Function.update s.Bgs (s.frame_count - 1) (s.Bgs s.frame_count) }
  let s := { s with
    gnss_meas_buf := Function.update s.gnss_meas_buf (s.frame_count - 1)
      (s.gnss_meas_buf s.frame_count)
    gnss_ephem_buf := Function.update s.gnss_ephem_buf (s.frame_count - 1)
      (s.gnss_ephem_buf s.frame_count) }
  let s := { s with
    para_rcv_dt := copyClockBlock s.para_rcv_dt (s.frame_count - 1) s.frame_count
    para_rcv_ddt := Function.update s.para_rcv_ddt (s.frame_count - 1)
      (s.para_rcv_ddt s.frame_count) }
  let s := { s with
    gnss_meas_buf := Function.update s.gnss_meas_buf s.frame_count []
    gnss_ephem_buf := Function.update s.gnss_ephem_buf s.frame_count [] }
  let s := slideWindow.freshPreIntegration W s
  { s with
    dt_buf := Function.update s.dt_buf W []
    linear_acceleration_buf := Function.update s.linear_acceleration_buf W []
    angular_velocity_buf := Function.update s.angular_velocity_buf W [] }

/-- The statements of the `MARGIN_OLD` branch of `slideWindow` after its loop (lines
1914-1947): slot `WINDOW_SIZE` is reseeded from slot `WINDOW_SIZE - 1`, the image frames up to
`t_0` are erased, `slideWindowOld` is called. -/
def slideWindow.afterShift (W : Nat) (t_0 : Time) (s : Estimator) : Option Estimator :=
  let s := { s with
    Headers := Function.update s.Headers W (s.Headers (W - 1))
    Ps := Function.update s.Ps W (s.Ps (W - 1))
    Rs := Function.update s.Rs W (s.Rs (W - 1)) }
  let s := { s with
    gnss_meas_buf := Function.update s.gnss_meas_buf W []
    gnss_ephem_buf := Function.update s.gnss_ephem_buf W [] }
  let s := if s.USE_IMU then slideWindow.reseedLast W s else s
  match slideWindow.eraseImageFrames t_0 s.all_image_frame with
  | none => none
  | some m => some (slideWindowOld { s with all_image_frame := m })

/-- The `MARGIN_SECOND_NEW` branch of `slideWindow` on a full window (lines 1953-2001). -/
def slideWindow.secondNew (W : Nat) (s : Estimator) : Option Estimator :=
  let s := { s with
    Headers := Function.update s.Headers (s.frame_count - 1) (s.Headers s.frame_count)
    Ps := Function.update s.Ps (s.frame_count - 1) (s.Ps s.frame_count)
    Rs := Function.update s.Rs (s.frame_count - 1) (s.Rs s.frame_count) }
  if s.USE_IMU then
    match slideWindow.foldLoop ((s.dt_buf s.frame_count).length + 1) 0 s with
    | none => none
    | some s => some (slideWindowNew (slideWindow.mergeLast W s))
  else some (slideWindowNew s)

/-- Embedding of `Estimator::slideWindow` (lines 1877-2004) with `WINDOW_SIZE = W`. The slot
`WINDOW_SIZE - 1` (and `frame_count - 1` when `frame_count == WINDOW_SIZE`) is an array index:
with `W = 0` it is `-1`, outside every array. -/
def slideWindow (W : Nat) (s : Estimator) : Option Estimator :=
  match s.marginalization_flag with
  | MarginalizationFlag.MARGIN_OLD =>
    let t_0 := s.Headers 0
    let s := { s with back_R0 := s.Rs 0, back_P0 := s.Ps 0 }
    if s.frame_count = W then
      if W = 0 then none
      else slideWindow.afterShift W t_0 ((List.range W).foldl slideWindow.shiftSlot s)
    else some s
  | MarginalizationFlag.MARGIN_SECOND_NEW =>
    if s.frame_count = W then
      if W = 0 then none
      else slideWindow.secondNew W s
    else some s

/-! ## Closed forms of the loops of `slideWindow` (used in the proofs) -/

/-- An array after `k` passes of the swap loop `a[i].swap(a[i + 1])`, `i = 0..k-1`: slots below
`k` hold their right neighbour, slot `k` holds the old slot 0. -/
def rotatedSlots {α : Type} (a : Nat → α) (k : Nat) : Nat → α :=
  fun j => if j < k then a (j + 1) else if j = k then a 0 else a j

/-- An array after `k` passes of the copy loop `a[i] = a[i + 1]`, `i = 0..k-1`. -/
def shiftedSlots {α : Type} (a : Nat → α) (k : Nat) : Nat → α :=
  fun j => if j < k then a (j + 1) else a j

/-- The array `para_rcv_dt` after `k` passes of the copy loop on its blocks of four. -/
def shiftedClock (p : Nat → ℚ) (k : Nat) : Nat → ℚ :=
  fun n => if n < 4 * k then p (n + 4) else p n

/-- The estimator after `k` passes of the loop of the `MARGIN_OLD` branch, with IMU. -/
def slideWindow.shifted (s : Estimator) (k : Nat) : Estimator :=
  { s with
    Headers := shiftedSlots s.Headers k
    Rs := rotatedSlots s.Rs k
    Ps := rotatedSlots s.Ps k
    pre_integrations := rotatedSlots s.pre_integrations k
    dt_buf := rotatedSlots s.dt_buf k
    linear_acceleration_buf := rotatedSlots s.linear_acceleration_buf k
    angular_velocity_buf := rotatedSlots s.angular_velocity_buf k
    encoder_velocity_buf := rotatedSlots s.encoder_velocity_buf k
    Vs := rotatedSlots s.Vs k
    Bas := rotatedSlots s.Bas k
    Bgs := rotatedSlots s.Bgs k
    gnss_meas_buf := rotatedSlots s.gnss_meas_buf k
    gnss_ephem_buf := rotatedSlots s.gnss_ephem_buf k
    para_rcv_dt := shiftedClock s.para_rcv_dt k
    para_rcv_ddt := shiftedSlots s.para_rcv_ddt k }

/-- The estimator the `MARGIN_OLD` branch hands to `slideWindowOld`, with IMU: `s` is the state
at the loop entry, `m` the image-frame map after the erasure. -/
def slideWindow.shiftedReseeded (W : Nat) (s : Estimator) (m : List (Time × ImageFrame)) :
    Estimator :=
  { slideWindow.reseedLast W
      { slideWindow.shifted s W with
        Headers := Function.update (shiftedSlots s.Headers W) W (shiftedSlots s.Headers W (W - 1))
        Ps := Function.update (rotatedSlots s.Ps W) W (rotatedSlots s.Ps W (W - 1))
        Rs := Function.update (rotatedSlots s.Rs W) W (rotatedSlots s.Rs W (W - 1))
        gnss_meas_buf := Function.update (rotatedSlots s.gnss_meas_buf W) W []
        gnss_ephem_buf := Function.update (rotatedSlots s.gnss_ephem_buf W) W [] } with
    all_image_frame := m }

/-- The raw samples the loop of the `MARGIN_SECOND_NEW` branch pushes in its first `k` passes:
sample `i` of the buffers of slot `frame_count`. -/
def slideWindow.foldedSamples (s : Estimator) (k : Nat) : List RawSample :=
  (List.range k).map (fun i =>
    { dt := (s.dt_buf s.frame_count).getD i 0
      acc := (s.linear_acceleration_buf s.frame_count).getD i (0, 0, 0)
      gyr := (s.angular_velocity_buf s.frame_count).getD i (0, 0, 0)
      enc := if s.ENCODER_ENABLE then
          some ((s.encoder_velocity_buf s.frame_count).getD i ((0, 0, 0), (0, 0, 0)))
        else none })

/-- The estimator after `k` passes of the loop of the `MARGIN_SECOND_NEW` branch, `p` being
the pre-integration of slot `frame_count - 1` at the loop entry. -/
def slideWindow.folded (s : Estimator) (p : IntegrationBase) (k : Nat) : Estimator :=
  { s with
    pre_integrations := Function.update s.pre_integrations (s.frame_count - 1)
      (some { p with samples := p.samples ++ slideWindow.foldedSamples s k })
    encoder_velocity_buf :=
      if s.ENCODER_ENABLE then
        Function.update s.encoder_velocity_buf (s.frame_count - 1)
          (s.encoder_velocity_buf (s.frame_count - 1) ++
            (s.encoder_velocity_buf s.frame_count).take k)
      else s.encoder_velocity_buf
    dt_buf := Function.update s.dt_buf (s.frame_count - 1)
      (s.dt_buf (s.frame_count - 1) ++ (s.dt_buf s.frame_count).take k)
    linear_acceleration_buf := Function.update s.linear_acceleration_buf (s.frame_count - 1)
      (s.linear_acceleration_buf (s.frame_count - 1) ++
        (s.linear_acceleration_buf s.frame_count).take k)
    angular_velocity_buf := Function.update s.angular_velocity_buf (s.frame_count - 1)
      (s.angular_velocity_buf (s.frame_count - 1) ++
        (s.angular_velocity_buf s.frame_count).take k) }

/-- The estimator the `MARGIN_SECOND_NEW` branch leaves on a full window, with IMU, `p` being
the pre-integration of slot `frame_count - 1` before the call. -/
def slideWindow.mergedFolded (W : Nat) (s : Estimator) (p : IntegrationBase) : Estimator :=
  slideWindowNew (slideWindow.mergeLast W
    (slideWindow.folded
      { s with
        Headers := Function.update s.Headers (s.frame_count - 1) (s.Headers s.frame_count)
        Ps := Function.update s.Ps (s.frame_count - 1) (s.Ps s.frame_count)
        Rs := Function.update s.Rs (s.frame_count - 1) (s.Rs s.frame_count) }
      p (s.dt_buf s.frame_count).length))

/-! ## `failureDetection` -/

/-- The two bias tests of `failureDetection` (lines 1356-1365), the only statements below its
first one that can return; those around them log or compute values that are not used. -/
def failureDetection.biasChecks (W : Nat) (s : Estimator) : Bool :=
  if Vector3d.normGt (s.Bas W) (5 / 2) then true
  else if Vector3d.normGt (s.Bgs W) 1 then true
  else false

/-- Embedding of `Estimator::failureDetection` (lines 1348-1395). Its first statement is
`return false;` (line 1350): the statements below it are never reached. -/
def failureDetection (W : Nat) (s : Estimator) : Bool :=
  if true then false else failureDetection.biasChecks W s

/-! ## Doubles -/

/-- The rounding of IEEE 754 binary64 arithmetic, which the compiler applies to the result of
every operation on `double`: the nearest number with 53 significant bits, ties to the even
one. `Int.log 2 |x|` is the exponent of the binade of `x`, `ulp` the spacing of the doubles in
it. Overflow and subnormal numbers are not modelled. -/
def roundDouble (x : ℚ) : ℚ :=
  if x = 0 then 0
  else
    let ulp : ℚ := 2 ^ (Int.log 2 |x| - 52)
    let q := x / ulp
    let f := ⌊q⌋
    if q - f < 1 / 2 then f * ulp
    else if 1 / 2 < q - f then (f + 1) * ulp
    else if f % 2 = 0 then f * ulp else (f + 1) * ulp

/-- The literal `0.3` of the source as the compiler reads it: the double nearest to 3/10, as an
exact rational. It is smaller than 3/10. -/
def literal_0_3 : ℚ := 5404319552844595 / 18014398509481984

/-- The literal `0.2` of the source as the compiler reads it: the double nearest to 1/5, as an
exact rational. It is greater than 1/5. -/
def literal_0_2 : ℚ := 3602879701896397 / 18014398509481984

/-- The literal `0.1` of the source as the compiler reads it: the double nearest to 1/10, as an
exact rational. It is greater than 1/10. -/
def literal_0_1 : ℚ := 3602879701896397 / 36028797018963968

/-! ## The yaw wrap of `optimization` -/

/-- The constant `M_PI` of `<cmath>`: the double nearest to π, as an exact rational. It is
smaller than π. -/
def M_PI : ℚ := 884279719003555 / 281474976710656

/-- The loop `while (para_yaw_enu_local[0] > M_PI) para_yaw_enu_local[0] -= 2.0*M_PI;`
(`optimization`, line 1616), with `fuel` bounding the number of tests of the condition. The
product `2.0*M_PI` is exact; the difference is rounded to a double. -/
def optimization.wrapHigh : Nat → ℚ → Option ℚ
  | 0, _ => none
  | fuel + 1, yaw =>
    if yaw > M_PI then optimization.wrapHigh fuel (roundDouble (yaw - 2 * M_PI)) else some yaw

/-- The loop `while (para_yaw_enu_local[0] < -M_PI) para_yaw_enu_local[0] += 2.0*M_PI;`
(`optimization`, line 1617), with `fuel` bounding the number of tests of the condition. The
sum is rounded to a double. -/
def optimization.wrapLow : Nat → ℚ → Option ℚ
  | 0, _ => none
  | fuel + 1, yaw =>
    if yaw < -M_PI then optimization.wrapLow fuel (roundDouble (yaw + 2 * M_PI)) else some yaw

/-- The two wrapping loops of `optimization` (lines 1616-1617), one after the other, on the
estimator. -/
def optimization.wrapYaw (fuel : Nat) (s : Estimator) : Option Estimator :=
  match optimization.wrapHigh fuel s.para_yaw_enu_local with
  | none => none
  | some yaw =>
    match optimization.wrapLow fuel yaw with
    | none => none
    | some yaw => some { s with para_yaw_enu_local := yaw }

/-- The statement `if (gnss_ready) yaw_enu_local = para_yaw_enu_local[0];` of `double2vector`
(lines 1338-1341). -/
def double2vector.unpackYaw (s : Estimator) : Estimator :=
  if s.gnss_ready then { s with yaw_enu_local := s.para_yaw_enu_local } else s

/-! ## The IMU loop of the dispatcher -/

/-- The value of `dt` in pass `i` of the loop over `accVector` in `processMeasurements`
(lines 520-526). -/
def processMeasurements.imuDt {α : Type} (prevTime curTime : Time)
    (accVector : List (Time × α)) (i : Nat) : Option ℚ :=
  if i = 0 then
    match accVector[i]? with
    | some a => some (a.1 - prevTime)
    | none => none
  else if i = accVector.length - 1 then
    match accVector[i - 1]? with
    | some b => some (curTime - b.1)
    | none => none
  else
    match accVector[i]?, accVector[i - 1]? with
    | some a, some b => some (a.1 - b.1)
    | _, _ => none

/-- The arguments of one call `processIMU(t, dt, linear_acceleration, angular_velocity)`. -/
structure ProcessIMUCall (α β : Type) where
  t : Time
  dt : ℚ
  linear_acceleration : α
  angular_velocity : β
deriving DecidableEq, Repr

/-- The loop `for (size_t i = 0; i < accVector.size(); i++)` of `processMeasurements` without
encoder (lines 518-528) from pass `i` on, with `remaining = accVector.size() - i` passes to go:
the calls of `processIMU` it makes, in order. -/
def processMeasurements.imuLoop {α β : Type} (prevTime curTime : Time)
    (accVector : List (Time × α)) (gyrVector : List (Time × β)) :
    Nat → Nat → Option (List (ProcessIMUCall α β))
  | 0, _ => some []
  | remaining + 1, i =>
    match processMeasurements.imuDt prevTime curTime accVector i, accVector[i]?,
        gyrVector[i]? with
    | some dt, some a, some g =>
      match processMeasurements.imuLoop prevTime curTime accVector gyrVector remaining (i + 1) with
      | some calls =>
        some ({ t := a.1, dt := dt, linear_acceleration := a.2, angular_velocity := g.2 } :: calls)
      | none => none
    | _, _, _ => none

/-- The calls of `processIMU` made by the loop of `processMeasurements` without encoder
(lines 518-528), in order. -/
def processMeasurements.imuCalls {α β : Type} (prevTime curTime : Time)
    (accVector : List (Time × α)) (gyrVector : List (Time × β)) :
    Option (List (ProcessIMUCall α β)) :=
  processMeasurements.imuLoop prevTime curTime accVector gyrVector accVector.length 0

/-- The extraction and the loop of one pass of `processMeasurements` with `USE_IMU` and without
encoder (lines 432 and 518-528): `getIMUInterval(prevTime, curTime, accVector, gyrVector)` on
empty vectors, then the calls of `processIMU`. -/
def processMeasurements.imuStep {α β : Type} (prevTime curTime : Time) (accBuf : TimePQ α)
    (gyrBuf : TimePQ β) : Option (List (ProcessIMUCall α β)) :=
  match getIMUInterval prevTime curTime accBuf gyrBuf [] [] with
  | none => none
  | some r => processMeasurements.imuCalls prevTime curTime r.accVector r.gyrVector

/-! ## `vector2double` and `double2vector` -/

/-- Stands for `Eigen::Quaterniond`, with the coefficients in the order of the constructor
`Quaterniond(w, x, y, z)`. -/
structure Quaternion where
  w : ℚ
  x : ℚ
  y : ℚ
  z : ℚ
deriving DecidableEq, Repr

/-- The geometry helpers the estimator calls and whose code is not among the sources, taken as
parameters: `Utility::R2ypr` and `Utility::ypr2R` (`utility.h`, angles in degrees), the
conversions of `Eigen::Quaterniond` (`toRotationMatrix`, `normalized`, the constructor from a
rotation matrix) and `ecef2rotation`. -/
structure Geometry where
  R2ypr : Matrix3d → Vector3d
  ypr2R : Vector3d → Matrix3d
  toRotationMatrix : Quaternion → Matrix3d
  normalized : Quaternion → Quaternion
  fromRotationMatrix : Matrix3d → Quaternion
  ecef2rotation : Vector3d → Matrix3d

/-- The queries of the feature manager the estimator uses (`feature_manager.h` is not among
the sources), taken as parameters, as functions of the calls the manager has received:
`getFeatureCount()`, the entries of `getDepthVector()` and `getCorresponding(i, j)`. -/
structure FeatureQueries where
  getFeatureCount : List FeatureManagerCall → Nat
  getDepthVector : List FeatureManagerCall → Nat → ℚ
  getCorresponding : List FeatureManagerCall → Nat → Nat → List (Vector3d × Vector3d)

/-- The quaternion `Quaterniond(p[6], p[3], p[4], p[5])` stored in a pose block `p`. -/
def poseQuaternion (p : Nat → ℚ) : Quaternion := { w := p 6, x := p 3, y := p 4, z := p 5 }

/-- The position `Vector3d(p[0], p[1], p[2])` stored in a pose block `p`. -/
def posePosition (p : Nat → ℚ) : Vector3d := (p 0, p 1, p 2)

/-- The pose block written from a position and a rotation by `vector2double` (lines
1204-1211 and 1230-1237): entries 0-2 the position, 3-5 the `x, y, z` and 6 the `w` of the
quaternion of the rotation; the entries from 7 on do not exist and keep `old`. -/
def packPose (g : Geometry) (P : Vector3d) (R : Matrix3d) (old : Nat → ℚ) : Nat → ℚ :=
  fun k =>
    if k = 0 then P.1 else if k = 1 then P.2.1 else if k = 2 then P.2.2
    else if k = 3 then (g.fromRotationMatrix R).x
    else if k = 4 then (g.fromRotationMatrix R).y
    else if k = 5 then (g.fromRotationMatrix R).z
    else if k = 6 then (g.fromRotationMatrix R).w
    else old k

/-- The speed-bias block written by `vector2double` (lines 1215-1225): velocity, accelerometer
bias, gyroscope bias. -/
def packSpeedBias (V Ba Bg : Vector3d) (old : Nat → ℚ) : Nat → ℚ :=
  fun k =>
    if k = 0 then V.1 else if k = 1 then V.2.1 else if k = 2 then V.2.2
    else if k = 3 then Ba.1 else if k = 4 then Ba.2.1 else if k = 5 then Ba.2.2
    else if k = 6 then Bg.1 else if k = 7 then Bg.2.1 else if k = 8 then Bg.2.2
    else old k

/-- Embedding of `Estimator::vector2double` (lines 1200-1251). Every loop writes one block per
pass from members the loop does not write, so it is the block-wise assignment. -/
def vector2double (g : Geometry) (fq : FeatureQueries) (W : Nat) (s : Estimator) : Estimator :=
  { s with
    para_Pose := fun i =>
      if i ≤ W then packPose g (s.Ps i) (s.Rs i) (s.para_Pose i) else s.para_Pose i
    para_SpeedBias := fun i =>
      if i ≤ W ∧ s.USE_IMU = true then
        packSpeedBias (s.Vs i) (s.Bas i) (s.Bgs i) (s.para_SpeedBias i)
      else s.para_SpeedBias i
    para_Ex_Pose := fun i =>
      if i < s.NUM_OF_CAM then packPose g (s.tic i) (s.ric i) (s.para_Ex_Pose i)
      else s.para_Ex_Pose i
    para_Feature := fun i =>
      if i < fq.getFeatureCount s.f_manager then fq.getDepthVector s.f_manager i
      else s.para_Feature i
    para_Td := s.td
    para_yaw_enu_local := s.yaw_enu_local
    para_anc_ecef := fun k =>
      if k = 0 then s.anc_ecef.1 else if k = 1 then s.anc_ecef.2.1
      else if k = 2 then s.anc_ecef.2.2 else s.para_anc_ecef k }

/-- The values `origin_R0` and `origin_P0` of `double2vector` (lines 1255-1263): the
yaw-pitch-roll and position of frame 0 before the solve, or those of the last window before a
failure. -/
def double2vector.origin (g : Geometry) (s : Estimator) : Vector3d × Vector3d :=
  if s.failure_occur then (g.R2ypr s.last_R0, s.last_P0) else (g.R2ypr (s.Rs 0), s.Ps 0)

/-- The rotation `rot_diff` of `double2vector` (lines 1267-1281): the yaw between frame 0
before the solve and the rotation in `para_Pose[0]`, or, within a degree of the Euler
singularity, the whole rotation between them. -/
def double2vector.rot_diff (g : Geometry) (s : Estimator) : Matrix3d :=
  let origin_R0 := (double2vector.origin g s).1
  let origin_R00 := g.R2ypr (g.toRotationMatrix (poseQuaternion (s.para_Pose 0)))
  let y_diff := origin_R0.1 - origin_R00.1
  if |(|origin_R0.2.1| - 90)| < 1 ∨ |(|origin_R00.2.1| - 90)| < 1 then
    Matrix3d.mul (s.Rs 0)
      (Matrix3d.transpose (g.toRotationMatrix (poseQuaternion (s.para_Pose 0))))
  else g.ypr2R (y_diff, 0, 0)

/-- Embedding of `Estimator::double2vector` (lines 1253-1346). Every loop writes one slot per
pass from the parameter blocks, `rot_diff` and `origin_P0`, which the loop does not write, so
it is the slot-wise assignment. The depths go to the feature manager by `setDepth`. -/
def double2vector (g : Geometry) (fq : FeatureQueries) (W : Nat) (s : Estimator) : Estimator :=
  let origin_P0 := (double2vector.origin g s).2
  let rot_diff := double2vector.rot_diff g s
  let rot (i : Nat) : Matrix3d :=
    g.toRotationMatrix (g.normalized (poseQuaternion (s.para_Pose i)))
  let s1 : Estimator :=
    if s.USE_IMU then
      { s with
        failure_occur := false
        Rs := fun i => if i ≤ W then Matrix3d.mul rot_diff (rot i) else s.Rs i
        Ps := fun i =>
          if i ≤ W then
            Vector3d.add
              (Matrix3d.mulVec rot_diff
                (s.para_Pose i 0 - s.para_Pose 0 0, s.para_Pose i 1 - s.para_Pose 0 1,
                  s.para_Pose i 2 - s.para_Pose 0 2))
              origin_P0
          else s.Ps i
        Vs := fun i =>
          if i ≤ W then
            Matrix3d.mulVec rot_diff
              (s.para_SpeedBias i 0, s.para_SpeedBias i 1, s.para_SpeedBias i 2)
          else s.Vs i
        Bas := fun i =>
          if i ≤ W then (s.para_SpeedBias i 3, s.para_SpeedBias i 4, s.para_SpeedBias i 5)
          else s.Bas i
        Bgs := fun i =>
          if i ≤ W then (s.para_SpeedBias i 6, s.para_SpeedBias i 7, s.para_SpeedBias i 8)
          else s.Bgs i
        tic := fun i => if i < s.NUM_OF_CAM then posePosition (s.para_Ex_Pose i) else s.tic i
        ric := fun i =>
          if i < s.NUM_OF_CAM then
            g.toRotationMatrix (g.normalized (poseQuaternion (s.para_Ex_Pose i)))
          else s.ric i
        td := s.para_Td }
    else
      { s with
        failure_occur := false
        Rs := fun i => if i ≤ W then rot i else s.Rs i
        Ps := fun i => if i ≤ W then posePosition (s.para_Pose i) else s.Ps i }
  let s2 : Estimator :=
    { s1 with
      f_manager := s1.f_manager ++
        [FeatureManagerCall.setDepth
          ((List.range (fq.getFeatureCount s1.f_manager)).map s1.para_Feature)] }
  if s2.gnss_ready then
    { s2 with
      yaw_enu_local := s2.para_yaw_enu_local
      anc_ecef := (s2.para_anc_ecef 0, s2.para_anc_ecef 1, s2.para_anc_ecef 2)
      R_ecef_enu :=
        g.ecef2rotation (s2.para_anc_ecef 0, s2.para_anc_ecef 1, s2.para_anc_ecef 2) }
  else s2

/-! ## `clearState`, `setParameter`, `changeSensorType` -/

/-- The loop `while(!q.empty()) q.pop();` of `clearState` (lines 32-41). -/
def popAll {α : Type} : TimePQ α → TimePQ α
  | [] => []
  | _ :: q => popAll q

/-- Embedding of `Estimator::clearState` (lines 29-111) with `WINDOW_SIZE = W`. The loops over
the window slots and the cameras write one slot per pass. The per-slot buffers
`gnss_meas_buf[i]` and `gnss_ephem_buf[i]`, and the clock blocks, are not written. -/
def clearState (W : Nat) (s : Estimator) : Estimator :=
  { s with
    accBuf := popAll s.accBuf
    gyrBuf := popAll s.gyrBuf
    featureBuf := popAll s.featureBuf
    gnssBuf := popAll s.gnssBuf
    encBuf := popAll s.encBuf
    prevTime := -1
    curTime := 0
    openExEstimation := false
    initP := (0, 0, 0)
    initR := Matrix3d.identity
    inputImageCnt := 0
    initFirstPoseFlag := false
    Rs := fun i => if i < W + 1 then Matrix3d.identity else s.Rs i
    Ps := fun i => if i < W + 1 then Vector3d.zero else s.Ps i
    Vs := fun i => if i < W + 1 then Vector3d.zero else s.Vs i
    Bas := fun i => if i < W + 1 then Vector3d.zero else s.Bas i
    Bgs := fun i => if i < W + 1 then Vector3d.zero else s.Bgs i
    dt_buf := fun i => if i < W + 1 then [] else s.dt_buf i
    linear_acceleration_buf := fun i => if i < W + 1 then [] else s.linear_acceleration_buf i
    angular_velocity_buf := fun i => if i < W + 1 then [] else s.angular_velocity_buf i
    encoder_velocity_buf := fun i => if i < W + 1 then [] else s.encoder_velocity_buf i
    pre_integrations := fun i => if i < W + 1 then none else s.pre_integrations i
    tic := fun i => if i < s.NUM_OF_CAM then Vector3d.zero else s.tic i
    ric := fun i => if i < s.NUM_OF_CAM then Matrix3d.identity else s.ric i
    first_imu := false
    sum_of_back := 0
    sum_of_front := 0
    frame_count := 0
    solver_flag := SolverFlag.INITIAL
    initial_timestamp := 0
    all_image_frame := []
    gnss_ready := false
    anc_ecef := Vector3d.zero
    R_ecef_enu := Matrix3d.identity
    para_yaw_enu_local := 0
    yaw_enu_local := 0
    sat2ephem := fun _ => none
    sat2time_index := fun _ => none
    sat_track_status := fun _ => none
    latest_gnss_iono_params := s.GNSS_IONO_DEFAULT_PARAMS
    diff_t_gnss_local := 0
    tmp_pre_integration := none
    last_marginalization_info := none
    last_marginalization_parameter_blocks := []
    f_manager := s.f_manager ++ [FeatureManagerCall.clearState]
    failure_occur := false }

/-- Embedding of `Estimator::setParameter` (lines 113-138): the extrinsics, `td` and `g` are
reloaded from the configuration, and with `MULTIPLE_THREAD` the processing thread is started
once. The static `sqrt_info` of the projection factors is not a member of the estimator. -/
def setParameter (s : Estimator) : Estimator :=
  let s := { s with
    tic := fun i => if i < s.NUM_OF_CAM then s.TIC i else s.tic i
    ric := fun i => if i < s.NUM_OF_CAM then s.RIC i else s.ric i }
  let s := { s with
    f_manager := s.f_manager ++ [FeatureManagerCall.setRic [s.ric 0, s.ric 1]]
    td := s.TD
    g := s.G
    featureTracker := s.featureTracker ++ [FeatureTrackerCall.readIntrinsicParameter] }
  if s.MULTIPLE_THREAD ∧ ¬ s.initThreadFlag then
    { s with initThreadFlag := true, processThread_started := true }
  else s

/-- The part of `changeSensorType` under the lock (lines 142-170): the state it leaves and the
final value of the local variable `restart`. -/
def changeSensorType.flags (use_imu use_stereo : Bool) (s : Estimator) : Estimator × Bool :=
  if !use_imu && !use_stereo then (s, false)
  else
    let r : Estimator × Bool :=
      if s.USE_IMU != use_imu then
        let s := { s with USE_IMU := use_imu }
        if s.USE_IMU then (s, true)
        else
          ({ s with
            tmp_pre_integration := none
            last_marginalization_info := none
            last_marginalization_parameter_blocks := [] }, false)
      else (s, false)
    ({ r.1 with STEREO := use_stereo }, r.2)

/-- Embedding of `Estimator::changeSensorType` (lines 140-176) with `WINDOW_SIZE = W`. -/
def changeSensorType (W : Nat) (use_imu use_stereo : Bool) (s : Estimator) : Estimator :=
  let r := changeSensorType.flags use_imu use_stereo s
  if r.2 then setParameter (clearState W r.1) else r.1

/-! ## `relativePose` -/

/-- The two helpers of `relativePose` whose code is outside the estimator: the Euclidean norm
of a 2-vector (`Vector2d::norm`, a square root) and
`MotionEstimator::solveRelativeRT`, which returns `true` together with the rotation and the
translation it wrote, or `false` (`none`). -/
structure RelativeHelpers where
  norm2 : ℚ → ℚ → ℚ
  solveRelativeRT : List (Vector3d × Vector3d) → Option (Matrix3d × Vector3d)

/-- The value of `average_parallax` (lines 1179-1188): the sum, in the order of the list, of
the norms of the differences of the first two coordinates of each pair, over the number of
pairs. -/
def relativePose.average_parallax (h : RelativeHelpers)
    (corres : List (Vector3d × Vector3d)) : ℚ :=
  1 * (corres.foldl
    (fun sum_parallax c => sum_parallax + h.norm2 (c.1.1 - c.2.1) (c.1.2.1 - c.2.2.1)) 0) /
    (corres.length : ℚ)

/-- The loop of `relativePose` (lines 1172-1196) with `n` passes left, at index `i`. -/
def relativePose.loop (h : RelativeHelpers) (fq : FeatureQueries) (W : Nat) (s : Estimator) :
    Nat → Nat → Option (Matrix3d × Vector3d × Nat)
  | 0, _ => none
  | n + 1, i =>
    let corres := fq.getCorresponding s.f_manager i W
    if corres.length > 20 then
      if relativePose.average_parallax h corres * 460 > 30 then
        match h.solveRelativeRT corres with
        | some RT => some (RT.1, RT.2, i)
        | none => relativePose.loop h fq W s n (i + 1)
      else relativePose.loop h fq W s n (i + 1)
    else relativePose.loop h fq W s n (i + 1)

/-- Embedding of `Estimator::relativePose` (lines 1169-1198) with `WINDOW_SIZE = W`:
`some (relative_R, relative_T, l)` when it returns `true`, `none` when it returns `false`. -/
def relativePose (h : RelativeHelpers) (fq : FeatureQueries) (W : Nat) (s : Estimator) :
    Option (Matrix3d × Vector3d × Nat) :=
  relativePose.loop h fq W s W 0

/-- Frame `i` passes the three tests of the loop body of `relativePose`: more than 20
correspondences with frame `W`, average parallax times 460 above 30, and a successful
solve. -/
def relativePose.accepts (h : RelativeHelpers) (fq : FeatureQueries) (W : Nat) (s : Estimator)
    (i : Nat) : Prop :=
  20 < (fq.getCorresponding s.f_manager i W).length ∧
  30 < relativePose.average_parallax h (fq.getCorresponding s.f_manager i W) * 460 ∧
  (h.solveRelativeRT (fq.getCorresponding s.f_manager i W)).isSome = true

/-! ## `processGNSS` -/

/-- The configuration values and the helpers of the GNSS library that `processGNSS` reads:
whether `satsys(sat, NULL)` is one of GPS, GLONASS, Galileo and BeiDou; the index that
`L1_freq` stores in `freq_idx` (negative when there is no L1 signal); the elevation `azel[1]`
that `sat_azel` computes from the receiver position and the satellite position given by the
ephemeris; and the gating thresholds. -/
structure GnssHelpers where
  validSys : Nat → Bool
  L1_freq : Obs → Int
  elevation : Vector3d → Obs → Nat → ℚ
  EPH_VALID_SECONDS : ℚ
  GNSS_PSR_STD_THRES : ℚ
  GNSS_DOPP_STD_THRES : ℚ
  GNSS_TRACK_NUM_THRES : Nat
  GNSS_ELEVATION_THRES : ℚ

/-- The search for the ephemeris nearest in time (lines 351-360): `(ephem_time, ephem_index)`
after the loop over `time2index`, from `(EPH_VALID_SECONDS, size_t(-1))`. -/
def processGNSS.findEphem (h : GnssHelpers) (obs_time : ℚ) (time2index : List (ℚ × Nat)) :
    ℚ × Nat :=
  time2index.foldl
    (fun acc ti => if |ti.1 - obs_time| < acc.1 then (|ti.1 - obs_time|, ti.2) else acc)
    (h.EPH_VALID_SECONDS, 2 ^ 64 - 1)

/-- The filters of the loop body before the tracking test (lines 336-366), on one observation:
`some none` when the observation is skipped by a `continue`, `some (some (freq_idx,
best_ephem))` when it reaches the tracking test, `none` when an `at()` throws. -/
def processGNSS.select (h : GnssHelpers) (s : Estimator) (obs : Obs) :
    Option (Option (Nat × Nat)) :=
  if h.validSys obs.sat = false then some none
  else
    match s.sat2ephem obs.sat with
    | none => some none
    | some ephems =>
      if obs.freqs_empty then some none
      else if h.L1_freq obs < 0 then some none
      else
        match s.sat2time_index obs.sat with
        | none => none
        | some time2index =>
          let e := processGNSS.findEphem h obs.time time2index
          if e.1 ≥ h.EPH_VALID_SECONDS then some none
          else
            match ephems.get? e.2 with
            | none => none
            | some best_ephem => some (some ((h.L1_freq obs).toNat, best_ephem))

/-- The assignment `sat_track_status[sat] = c`. -/
def processGNSS.setTrack (s : Estimator) (sat c : Nat) : Estimator :=
  { s with sat_track_status := Function.update s.sat_track_status sat (some c) }

/-- The tracking test and the elevation test (lines 368-398) on an observation that reached
them with `freq_idx` and `best_ephem`; `v` holds `valid_meas` and `valid_ephems`. The counter
is a `uint32_t`; a read of `psr_std` or `dopp_std` past the end is `none`. -/
def processGNSS.track (h : GnssHelpers) (s : Estimator) (v : List Nat × List Nat) (obs : Obs)
    (freq_idx best_ephem : Nat) : Option (Estimator × (List Nat × List Nat)) :=
  match obs.psr_std.get? freq_idx with
  | none => none
  | some psr =>
    if psr > h.GNSS_PSR_STD_THRES then some (processGNSS.setTrack s obs.sat 0, v)
    else
      match obs.dopp_std.get? freq_idx with
      | none => none
      | some dopp =>
        if dopp > h.GNSS_DOPP_STD_THRES then some (processGNSS.setTrack s obs.sat 0, v)
        else
          let c := (((s.sat_track_status obs.sat).getD 0) + 1) % 2 ^ 32
          let s := processGNSS.setTrack s obs.sat c
          if c < h.GNSS_TRACK_NUM_THRES then some (s, v)
          else if s.gnss_ready ∧
              h.elevation s.ecef_pos obs best_ephem < h.GNSS_ELEVATION_THRES * M_PI / 180 then
            some (s, v)
          else some (s, (v.1 ++ [obs.ptr], v.2 ++ [best_ephem]))

/-- The body of the loop of `processGNSS` (lines 335-400) on one observation. -/
def processGNSS.body (h : GnssHelpers) (s : Estimator) (v : List Nat × List Nat) (obs : Obs) :
    Option (Estimator × (List Nat × List Nat)) :=
  match processGNSS.select h s obs with
  | none => none
  | some none => some (s, v)
  | some (some r) => processGNSS.track h s v obs r.1 r.2

/-- The loop of `processGNSS` over the observations of one epoch. -/
def processGNSS.loop (h : GnssHelpers) :
    Estimator → List Nat × List Nat → List Obs → Option (Estimator × (List Nat × List Nat))
  | s, v, [] => some (s, v)
  | s, v, obs :: rest =>
    match processGNSS.body h s v obs with
    | none => none
    | some r => processGNSS.loop h r.1 r.2 rest

/-- Embedding of `Estimator::processGNSS` (lines 329-404). -/
def processGNSS (h : GnssHelpers) (s : Estimator) (gnss_meas : List Obs) : Option Estimator :=
  match processGNSS.loop h s ([], []) gnss_meas with
  | none => none
  | some r =>
    some { r.1 with
      gnss_meas_buf := Function.update r.1.gnss_meas_buf r.1.frame_count r.2.1
      gnss_ephem_buf := Function.update r.1.gnss_ephem_buf r.1.frame_count r.2.2 }

/-! ## `GNSSVIAlign` -/

/-- The three steps of the class `GNSSVIInitializer` (its source is not among the files of the
estimator), taken as parameters. Each is a function of the constructor arguments (the
observations and ephemerides of the window and the ionosphere parameters) and of its inputs,
and returns `none` for `false`, or the values it stored in its output arguments:
`rough_xyzt`, the pair `(aligned_yaw, aligned_rcv_ddt)`, and `refined_xyzt`. -/
structure GnssInitializer where
  coarse_localization : List (List Nat) → List (List Nat) → List ℚ → Option (Nat → ℚ)
  yaw_alignment : List (List Nat) → List (List Nat) → List ℚ → List Vector3d → Vector3d →
    Option (ℚ × ℚ)
  anchor_refinement : List (List Nat) → List (List Nat) → List ℚ → List Vector3d → ℚ → ℚ →
    (Nat → ℚ) → Option (Nat → ℚ)

/-- Stands for the test `a.norm() < c` on a `Vector2d` with a constant `c >= 0`, which holds
exactly when the squared norm is below `c * c`. -/
def Vector2d.normLt (a : ℚ × ℚ) (c : ℚ) : Bool := decide (a.1 * a.1 + a.2 * a.2 < c * c)

/-- The value of `avg_hor_vel` at the test of line 1077: the sum over the slots `[0, W]` of
`Vs[i].head<2>().cwiseAbs()`, divided by `WINDOW_SIZE + 1`. -/
def GNSSVIAlign.avg_hor_vel (W : Nat) (s : Estimator) : ℚ × ℚ :=
  let sum := (List.range (W + 1)).foldl
    (fun a i => (a.1 + |(s.Vs i).1|, a.2 + |(s.Vs i).2.1|)) ((0 : ℚ), (0 : ℚ))
  (sum.1 / ((W + 1 : Nat) : ℚ), sum.2 / ((W + 1 : Nat) : ℚ))

/-- The value of `one_observed_sys` after the loop of lines 1131-1139: the first `k < 4` with
`rough_xyzt(k+3) != 0`, or `uint32_t(-1)`. -/
def GNSSVIAlign.one_observed_sys (rough_xyzt : Nat → ℚ) : Nat :=
  match (List.range 4).find? (fun k => decide (rough_xyzt (k + 3) ≠ 0)) with
  | some k => k
  | none => 2 ^ 32 - 1

/-- The inner loop of lines 1143-1149 for slot `i`; the index `3+one_observed_sys` is computed
in `uint32_t`. -/
def GNSSVIAlign.restoreSlot (rough_xyzt refined_xyzt : Nat → ℚ) (aligned_rcv_ddt : ℚ)
    (para_rcv_dt : Nat → ℚ) (i : Nat) : Nat → ℚ :=
  (List.range 4).foldl
    (fun p k => Function.update p (i * 4 + k)
      (if rough_xyzt (k + 3) = 0 then
        refined_xyzt ((3 + GNSSVIAlign.one_observed_sys rough_xyzt) % 2 ^ 32) +
          aligned_rcv_ddt * (i : ℚ)
      else refined_xyzt (3 + k) + aligned_rcv_ddt * (i : ℚ)))
    para_rcv_dt

/-- The loop of lines 1140-1150 over the slots `[0, W]`. -/
def GNSSVIAlign.restore (W : Nat) (rough_xyzt refined_xyzt : Nat → ℚ) (aligned_rcv_ddt : ℚ)
    (s : Estimator) : Estimator :=
  (List.range (W + 1)).foldl
    (fun s i => { s with
      para_rcv_ddt := Function.update s.para_rcv_ddt i aligned_rcv_ddt
      para_rcv_dt :=
        GNSSVIAlign.restoreSlot rough_xyzt refined_xyzt aligned_rcv_ddt s.para_rcv_dt i })
    s

/-- Embedding of `Estimator::GNSSVIAlign` (lines 1058-1158) with `WINDOW_SIZE = W`: the
returned flag and the state it leaves. The literal `0.3` is the double `literal_0_3`; the sums,
the division and the norm are exact. -/
def GNSSVIAlign (g : Geometry) (ini : GnssInitializer) (W : Nat) (s : Estimator) :
    Bool × Estimator :=
  if s.solver_flag = SolverFlag.INITIAL then (false, s)
  else if s.gnss_ready then (true, s)
  else if (List.range (W + 1)).any
      (fun i => (s.gnss_meas_buf i).isEmpty || decide ((s.gnss_meas_buf i).length < 10)) then
    (false, s)
  else if Vector2d.normLt (GNSSVIAlign.avg_hor_vel W s) literal_0_3 then (false, s)
  else
    let curr_gnss_meas_buf := (List.range (W + 1)).map s.gnss_meas_buf
    let curr_gnss_ephem_buf := (List.range (W + 1)).map s.gnss_ephem_buf
    match ini.coarse_localization curr_gnss_meas_buf curr_gnss_ephem_buf
      s.latest_gnss_iono_params with
    | none => (false, s)
    | some rough_xyzt =>
      match ini.yaw_alignment curr_gnss_meas_buf curr_gnss_ephem_buf s.latest_gnss_iono_params
        ((List.range (W + 1)).map s.Vs) (rough_xyzt 0, rough_xyzt 1, rough_xyzt 2) with
      | none => (false, s)
      | some aligned =>
        match ini.anchor_refinement curr_gnss_meas_buf curr_gnss_ephem_buf
          s.latest_gnss_iono_params ((List.range (W + 1)).map s.Ps) aligned.1 aligned.2
          rough_xyzt with
        | none => (false, s)
        | some refined_xyzt =>
          let s := GNSSVIAlign.restore W rough_xyzt refined_xyzt aligned.2 s
          let s := { s with anc_ecef := (refined_xyzt 0, refined_xyzt 1, refined_xyzt 2) }
          let s := { s with R_ecef_enu := g.ecef2rotation s.anc_ecef }
          (true, { s with yaw_enu_local := aligned.1 })

/-! ## The dispatcher: `inputFeature`, `inputImage`, `processMeasurements` -/

/-- The functions the dispatcher calls between the extraction of the intervals and the end of
a pass, taken as parameters, each as the change of state it makes: `initFirstIMUPose`,
`processIMU` (one call), the loop of lines 458-515 that calls `processIMUEncoder` for the
samples of `accVector` and `gyrVector` against `encVector` (`none` when it reads out of
range), and `processImage` on a feature frame and its header time. The publishing calls of
lines 543-554 write no member. -/
structure DispatchCallees where
  initFirstIMUPose : List (Time × Vector3d) → Estimator → Estimator
  processIMU : ProcessIMUCall Vector3d Vector3d → Estimator → Estimator
  encoderLoop : List (Time × Vector3d) → List (Time × Vector3d) → List (Time × Vector6d) →
    Estimator → Option Estimator
  processImage : Nat → Time → Estimator → Estimator

/-- The loop of lines 518-528 from pass `i` on, with `remaining` passes to go, as a change of
state: each pass reads `prevTime` and `curTime` and calls `processIMU`. -/
def processMeasurements.imuStateLoop (c : DispatchCallees) (accVector : List (Time × Vector3d))
    (gyrVector : List (Time × Vector3d)) : Nat → Nat → Estimator → Option Estimator
  | 0, _, s => some s
  | remaining + 1, i, s =>
    match processMeasurements.imuDt s.prevTime s.curTime accVector i, accVector[i]?,
        gyrVector[i]? with
    | some dt, some a, some g =>
      processMeasurements.imuStateLoop c accVector gyrVector remaining (i + 1)
        (c.processIMU
          { t := a.1, dt := dt, linear_acceleration := a.2, angular_velocity := g.2 } s)
    | _, _, _ => none

/-- The block `if (USE_IMU) { ... }` of lines 439-529. The wait
`while (latest_encoder_time < curTime)` has no exit of its own: when its condition holds the
call does not return (`none`). -/
def processMeasurements.imuPart (c : DispatchCallees) (s : Estimator)
    (accVector gyrVector : List (Time × Vector3d)) : Option Estimator :=
  if s.USE_IMU then
    let s := if !s.initFirstPoseFlag then c.initFirstIMUPose accVector s else s
    if s.ENCODER_ENABLE then
      if s.latest_encoder_time < s.curTime then none
      else
        match getEncoderInterval s.prevTime s.curTime s.encBuf [] with
        | none => none
        | some r => c.encoderLoop accVector gyrVector r.2 { s with encBuf := r.1 }
    else
      processMeasurements.imuStateLoop c accVector gyrVector accVector.length 0 s
  else some s

/-- The loop `for (auto gnssMeas: gnssVector) processGNSS(gnssMeas.second);` (lines 534-535). -/
def processMeasurements.gnssLoop (h : GnssHelpers) :
    Estimator → List (Time × List Obs) → Option Estimator
  | s, [] => some s
  | s, gnssMeas :: rest =>
    match processGNSS h s gnssMeas.2 with
    | none => none
    | some s => processMeasurements.gnssLoop h s rest

/-- The block `if (GNSS_ENABLE) { ... }` of lines 531-536. -/
def processMeasurements.gnssPart (h : GnssHelpers) (s : Estimator) : Option Estimator :=
  if s.GNSS_ENABLE then
    match getGNSSInterval s.prevTime s.curTime s.gnssBuf [] with
    | none => none
    | some r => processMeasurements.gnssLoop h { s with gnssBuf := r.1 } r.2
  else some s

/-- Embedding of `Estimator::processMeasurements` (lines 406-564) as one call made by one
thread: the state when it returns and the frames `processImage` was called on, or `none` when
the call has no defined result or does not return: an extraction reads an empty queue or
out of range, a wait (lines 418-428 with `MULTIPLE_THREAD`, lines 447-455) is entered that
only another thread can end, or the loop `while (1)` is not left (`MULTIPLE_THREAD`). -/
def processMeasurements (c : DispatchCallees) (h : GnssHelpers) (s : Estimator) :
    Option (Estimator × List (Time × Nat)) :=
  match s.featureBuf.head? with
  | none => if !s.MULTIPLE_THREAD then some (s, []) else none
  | some feature =>
    let s := { s with curTime := feature.1 + s.td }
    if s.USE_IMU ∧ s.latest_imu_time < s.curTime then
      if !s.MULTIPLE_THREAD then some (s, []) else none
    else
      let extraction : Option (IMUExtraction Vector3d Vector3d) :=
        if s.USE_IMU then getIMUInterval s.prevTime s.curTime s.accBuf s.gyrBuf [] []
        else some { accBuf := s.accBuf, gyrBuf := s.gyrBuf, accVector := [], gyrVector := [] }
      match extraction with
      | none => none
      | some r =>
        let s := { s with accBuf := r.accBuf, gyrBuf := r.gyrBuf, featureBuf := s.featureBuf.tail }
        match processMeasurements.imuPart c s r.accVector r.gyrVector with
        | none => none
        | some s =>
          match processMeasurements.gnssPart h s with
          | none => none
          | some s =>
            let s := c.processImage feature.2 feature.1 s
            let s := { s with prevTime := s.curTime }
            if !s.MULTIPLE_THREAD then some (s, [feature]) else none

/-- Embedding of `Estimator::inputFeature` (lines 235-243); `featureFrame` is the handle of the
feature map. -/
def inputFeature (c : DispatchCallees) (h : GnssHelpers) (t : Time) (featureFrame : Nat)
    (s : Estimator) : Option (Estimator × List (Time × Nat)) :=
  let s := { s with featureBuf := TimePQ.push (t, featureFrame) s.featureBuf }
  if !s.MULTIPLE_THREAD then processMeasurements c h s else some (s, [])

/-- Embedding of `Estimator::inputImage` (lines 178-215); `featureFrame` is the handle of the
map that `featureTracker.trackImage` returned for the image at `t`. The counter
`inputImageCnt` is an `int`. -/
def inputImage (c : DispatchCallees) (h : GnssHelpers) (t : Time) (featureFrame : Nat)
    (s : Estimator) : Option (Estimator × List (Time × Nat)) :=
  let s := { s with
    inputImageCnt := s.inputImageCnt + 1
    featureTracker := s.featureTracker ++ [FeatureTrackerCall.trackImage t] }
  if s.MULTIPLE_THREAD then
    if s.inputImageCnt % 2 = 0 then
      some ({ s with featureBuf := TimePQ.push (t, featureFrame) s.featureBuf }, [])
    else some (s, [])
  else
    processMeasurements c h { s with featureBuf := TimePQ.push (t, featureFrame) s.featureBuf }

/-- The members the callees of the dispatcher leave as they are: the feature queue, the
clock `curTime` of the pass and the threading flag. -/
def DispatcherFrame (s s2 : Estimator) : Prop :=
  s2.featureBuf = s.featureBuf ∧ s2.curTime = s.curTime ∧
  s2.MULTIPLE_THREAD = s.MULTIPLE_THREAD

/-- The callees of the dispatcher write neither `featureBuf` nor `curTime` nor
`MULTIPLE_THREAD`, as `initFirstIMUPose`, `processIMU`, `processIMUEncoder` and, the
restart after a detected failure aside, `processImage` do not. -/
structure DispatchCallees.KeepsDispatcher (c : DispatchCallees) : Prop where
  initFirstIMUPose : ∀ v s, DispatcherFrame s (c.initFirstIMUPose v s)
  processIMU : ∀ call s, DispatcherFrame s (c.processIMU call s)
  encoderLoop : ∀ a g e s s2, c.encoderLoop a g e s = some s2 → DispatcherFrame s s2
  processImage : ∀ frame t s, DispatcherFrame s (c.processImage frame t s)

/-! ## Lock and unlock events -/

/-- The three mutexes of the estimator (`estimator.h`, lines 141-143). -/
inductive Mutex where
  | mProcess
  | mBuf
  | mPropagate
deriving DecidableEq, Repr

/-- One event of a call chain: `m.lock()` or `m.unlock()`; a `std::lock_guard` locks where it
is declared and unlocks at the end of its function. -/
inductive LockEvent where
  | lock (m : Mutex)
  | unlock (m : Mutex)
deriving DecidableEq, Repr

/-- The mutexes held after an event, most recent first. -/
def LockEvent.step (held : List Mutex) : LockEvent → List Mutex
  | LockEvent.lock m => m :: held
  | LockEvent.unlock m => held.erase m

/-- The mutexes held after a sequence of events. -/
def heldAfter : List Mutex → List LockEvent → List Mutex
  | held, [] => held
  | held, e :: rest => heldAfter (LockEvent.step held e) rest

/-- Every event of the sequence is allowed by the rule `allows` in the set of mutexes held
when it happens. -/
def respects (allows : List Mutex → LockEvent → Bool) : List Mutex → List LockEvent → Bool
  | _, [] => true
  | held, e :: rest => allows held e && respects allows (LockEvent.step held e) rest

/-- The events of `updateLatestStates` (lines 2170, 2179, 2181, 2188). -/
def updateLatestStates.locks : List LockEvent :=
  [LockEvent.lock Mutex.mPropagate, LockEvent.lock Mutex.mBuf, LockEvent.unlock Mutex.mBuf,
    LockEvent.unlock Mutex.mPropagate]

/-- The events of `clearState` (lines 31 and 110). -/
def clearState.locks : List LockEvent :=
  [LockEvent.lock Mutex.mProcess, LockEvent.unlock Mutex.mProcess]

/-- The events of `setParameter` (lines 115 and 137). -/
def setParameter.locks : List LockEvent :=
  [LockEvent.lock Mutex.mProcess, LockEvent.unlock Mutex.mProcess]

/-- The events of `changeSensorType` (lines 143, 170, 173-174): its own section, then the
restart, after the release. -/
def changeSensorType.locks (use_imu use_stereo : Bool) (s : Estimator) : List LockEvent :=
  [LockEvent.lock Mutex.mProcess, LockEvent.unlock Mutex.mProcess] ++
    (if (changeSensorType.flags use_imu use_stereo s).2 then
      clearState.locks ++ setParameter.locks
    else [])

/-- The events of `inputIMU` (lines 219-232) in state `s`. -/
def inputIMU.locks (s : Estimator) : List LockEvent :=
  [LockEvent.lock Mutex.mBuf, LockEvent.unlock Mutex.mBuf] ++
    (if s.solver_flag = SolverFlag.NON_LINEAR then
      [LockEvent.lock Mutex.mPropagate, LockEvent.unlock Mutex.mPropagate]
    else [])

/-- The events of `processImage` (lines 633-809) entered in state `s`: in the `INITIAL`
branch `updateLatestStates` is called when the window is full and the initialization
finishes (`result` is the value of the local of line 684); in the other branch either
`failureDetection`, called in the state `solved` that the optimization left, triggers
`clearState` and `setParameter`, or `updateLatestStates` is called. -/
def processImage.locks (W : Nat) (s solved : Estimator) (result : Bool) : List LockEvent :=
  if s.solver_flag = SolverFlag.INITIAL then
    (if !s.STEREO && s.USE_IMU then
      (if s.frame_count = W then (if result then updateLatestStates.locks else []) else [])
    else []) ++
    (if s.STEREO && s.USE_IMU then
      (if s.frame_count = W then updateLatestStates.locks else [])
    else []) ++
    (if s.STEREO && !s.USE_IMU then
      (if s.frame_count = W then updateLatestStates.locks else [])
    else [])
  else if failureDetection W solved then clearState.locks ++ setParameter.locks
  else updateLatestStates.locks

/-- The states and the branch value that fix the events of one pass of the loop of
`processMeasurements`: the state at the top of the pass, the state in which `processImage` is
entered, the state in which it calls `failureDetection`, and the value of `result`. -/
structure DispatchPass where
  top : Estimator
  image : Estimator
  solved : Estimator
  result : Bool

/-- The events of one pass of the loop of `processMeasurements` (lines 410-561): none when
the feature queue is empty or the IMU is late; otherwise the extraction section (lines
430-435), the guards of `getEncoderInterval` (line 256) and `getGNSSInterval` (line 287), and
`processImage` inside the section of `mProcess` (lines 539-555). -/
def processMeasurements.passLocks (W : Nat) (p : DispatchPass) : List LockEvent :=
  match p.top.featureBuf.head? with
  | none => []
  | some feature =>
    if p.top.USE_IMU ∧ p.top.latest_imu_time < feature.1 + p.top.td then []
    else
      [LockEvent.lock Mutex.mBuf, LockEvent.unlock Mutex.mBuf] ++
      (if p.top.USE_IMU && p.top.ENCODER_ENABLE then
        [LockEvent.lock Mutex.mBuf, LockEvent.unlock Mutex.mBuf]
      else []) ++
      (if p.top.GNSS_ENABLE then [LockEvent.lock Mutex.mBuf, LockEvent.unlock Mutex.mBuf]
      else []) ++
      [LockEvent.lock Mutex.mProcess] ++ processImage.locks W p.image p.solved p.result ++
      [LockEvent.unlock Mutex.mProcess]

/-- The events of a call of `processMeasurements` that makes the passes `passes`. -/
def processMeasurements.locks (W : Nat) : List DispatchPass → List LockEvent
  | [] => []
  | p :: rest => processMeasurements.passLocks W p ++ processMeasurements.locks W rest

/-- The discipline the specification states: `mBuf` is not acquired while `mProcess` is held,
and `mPropagate` is not held together with `mBuf` or `mProcess`. -/
def specDiscipline (held : List Mutex) : LockEvent → Bool
  | LockEvent.lock Mutex.mBuf =>
    !held.contains Mutex.mProcess && !held.contains Mutex.mPropagate
  | LockEvent.lock Mutex.mProcess => !held.contains Mutex.mPropagate
  | LockEvent.lock Mutex.mPropagate =>
    !held.contains Mutex.mBuf && !held.contains Mutex.mProcess
  | LockEvent.unlock _ => true

/-- The place of a mutex in the order `mProcess`, `mPropagate`, `mBuf`. -/
def Mutex.rank : Mutex → Nat
  | Mutex.mProcess => 0
  | Mutex.mPropagate => 1
  | Mutex.mBuf => 2

/-- The discipline of nested acquisition in the order `mProcess`, `mPropagate`, `mBuf`: a
mutex is acquired only while every mutex held comes before it, and the mutex released is the
one acquired last. -/
def orderDiscipline (held : List Mutex) : LockEvent → Bool
  | LockEvent.lock m => held.all (fun x => decide (x.rank < m.rank))
  | LockEvent.unlock m => decide (held.head? = some m)

/-- A sequence of events of one thread, from no mutex held, follows `orderDiscipline` and
ends with no mutex held. -/
def LockOrdered (trace : List LockEvent) : Prop :=
  respects orderDiscipline [] trace = true ∧ heldAfter [] trace = []

/-! ## The image frames erased by the `MARGIN_OLD` slide -/

/-- The entries that `all_image_frame.erase(all_image_frame.begin(), it_0)` removes (line
1944), as they are when removed: those before the entry `it_0` of `t_0`. No statement of
`slideWindow` deletes their `pre_integration`. -/
def slideWindow.erasedImageFrames (t_0 : Time) (m : List (Time × ImageFrame)) :
    List (Time × ImageFrame) :=
  m.takeWhile (fun e => decide (e.1 ≠ t_0))

/-! ## `inputGNSS` and `inputEphem` -/

/-- Embedding of `Estimator::inputGNSS` (lines 322-327). -/
def inputGNSS (t : Time) (gnss_meas : List Obs) (s : Estimator) : Estimator :=
  { s with latest_gnss_time := t, gnssBuf := TimePQ.push (t, gnss_meas) s.gnssBuf }

/-- Stands for `std::map<double, size_t>::emplace(toe, idx)` on the map as the list of its
entries in key order: a key already present keeps its entry. -/
def mapEmplace (toe : ℚ) (idx : Nat) : List (ℚ × Nat) → List (ℚ × Nat)
  | [] => [(toe, idx)]
  | e :: m =>
    if toe < e.1 then (toe, idx) :: e :: m
    else if toe = e.1 then e :: m
    else e :: mapEmplace toe idx m

/-- Embedding of `Estimator::inputEphem` (lines 297-306): `ephem_ptr` is the handle, `sat` the
value of `ephem_ptr->sat` and `toe` that of `time2sec(ephem_ptr->toe)`. -/
def inputEphem (ephem_ptr sat : Nat) (toe : ℚ) (s : Estimator) : Estimator :=
  if (s.sat2time_index sat).isNone ||
      !(((s.sat2time_index sat).getD []).any (fun e => decide (e.1 = toe))) then
    let ephems := (s.sat2ephem sat).getD [] ++ [ephem_ptr]
    let s := { s with sat2ephem := Function.update s.sat2ephem sat (some ephems) }
    { s with
      sat2time_index := Function.update s.sat2time_index sat
        (some (mapEmplace toe (ephems.length - 1) ((s.sat2time_index sat).getD []))) }
  else s

/-- The two maps agree, `toeOf` giving the reference time of the ephemeris behind a handle: a
satellite is a key of both or of none, every entry `(toe, idx)` of its time index points at a
stored ephemeris with that reference time, and every stored ephemeris has its entry. -/
def EphemIndexed (toeOf : Nat → ℚ) (s : Estimator) : Prop :=
  ∀ sat,
    (s.sat2ephem sat = none ∧ s.sat2time_index sat = none) ∨
    (∃ ephems time2index, s.sat2ephem sat = some ephems ∧
      s.sat2time_index sat = some time2index ∧
      (∀ e ∈ time2index, ∃ p, ephems.get? e.2 = some p ∧ toeOf p = e.1) ∧
      (∀ i p, ephems.get? i = some p → (toeOf p, i) ∈ time2index))

/-! ## `optimization`: the extrinsic blocks -/

/-- The test of line 1422,
`(ESTIMATE_EXTRINSIC && frame_count == WINDOW_SIZE && Vs[0].norm() > 0.2) || openExEstimation`;
the literal `0.2` is the double `literal_0_2`, the norm is exact. -/
def optimization.estimatesExtrinsic (W : Nat) (s : Estimator) : Prop :=
  (s.ESTIMATE_EXTRINSIC ≠ 0 ∧ s.frame_count = W ∧ Vector3d.normGt (s.Vs 0) literal_0_2 = true) ∨
    s.openExEstimation = true

instance (W : Nat) (s : Estimator) : Decidable (optimization.estimatesExtrinsic W s) := by
  unfold optimization.estimatesExtrinsic
  infer_instance

/-- One pass of the loop over the cameras (lines 1418-1432) for camera `i`: the estimator and
the blocks passed to `SetParameterBlockConstant` so far. -/
def optimization.extrinsicStep (W : Nat) (acc : Estimator × List ParamBlock) (i : Nat) :
    Estimator × List ParamBlock :=
  if optimization.estimatesExtrinsic W acc.1 then
    ({ acc.1 with openExEstimation := true }, acc.2)
  else (acc.1, acc.2 ++ [ParamBlock.Ex_Pose i])

/-- The loop `for (int i = 0; i < NUM_OF_CAM; i++)` of `optimization` (lines 1418-1432): the
estimator it leaves and the extrinsic blocks it holds constant. -/
def optimization.extrinsicLoop (W : Nat) (s : Estimator) : Estimator × List ParamBlock :=
  (List.range s.NUM_OF_CAM).foldl (optimization.extrinsicStep W) (s, [])

/-! ## `optimization`: the IMU factors and the marginalization -/

/-- Modelled from the spec: one landmark of `f_manager.feature` as `optimization` reads it:
the frame of its first observation and, for each frame that observes it, whether the
observation is stereo (`feature_manager.h` is not among the sources). -/
structure FeaturePerId where
  start_frame : Nat
  feature_per_frame : List Bool
deriving DecidableEq, Repr

/-- What the marginalization reads from outside the estimator: the landmarks
`f_manager.feature`, the index `sys2idx.at(satsys(sat, NULL))` of the observation behind a
handle (`none` when `at` throws), and the value of `valid` after
`marginalization_info->marginalize()`. -/
structure MarginInputs where
  feature : List FeaturePerId
  sys_idx : Nat → Option Nat
  valid : Bool

/-- The residual block of the IMU, or IMU and encoder, factor between the frames `i` and
`i + 1` (lines 1485-1492 and 1652-1667). -/
def optimization.imuFactor (s : Estimator) (i : Nat) (drop_set : List Nat) :
    ResidualBlockInfo :=
  { cost_function := if s.ENCODER_ENABLE then FactorKind.imuEncoder else FactorKind.imu
    parameter_blocks := [ParamBlock.Pose i, ParamBlock.SpeedBias i, ParamBlock.Pose (i + 1),
      ParamBlock.SpeedBias (i + 1)]
    drop_set := drop_set }

/-- The loop of lines 1478-1493 from `i` on, with `n` passes left: the IMU factors added to
the problem; `none` when `pre_integrations[j]` is null. -/
def optimization.problemImuLoop (s : Estimator) :
    Nat → Nat → Option (List ResidualBlockInfo)
  | 0, _ => some []
  | n + 1, i =>
    match s.pre_integrations (i + 1) with
    | none => none
    | some p =>
      match optimization.problemImuLoop s n (i + 1) with
      | none => none
      | some rest =>
        if IntegrationBase.sum_dt p > 10 then some rest
        else some (optimization.imuFactor s i [] :: rest)

/-- The IMU factors that `optimization` adds to the problem it solves (lines 1476-1494). -/
def optimization.problemImuFactors (s : Estimator) : Option (List ResidualBlockInfo) :=
  if s.USE_IMU then optimization.problemImuLoop s s.frame_count 0 else some []

/-- The IMU factor handed to the marginalization in the `MARGIN_OLD` branch (lines
1648-1669). -/
def optimization.marginImuOld (s : Estimator) : Option (List ResidualBlockInfo) :=
  if s.USE_IMU then
    match s.pre_integrations 1 with
    | none => none
    | some p =>
      if IntegrationBase.sum_dt p < 10 then some [optimization.imuFactor s 0 [0, 1]]
      else some []
  else some []

/-- The drop set of the prior in the `MARGIN_OLD` branch (lines 1633-1639): the indices of
`para_Pose[0]` and `para_SpeedBias[0]` in `last_marginalization_parameter_blocks`. -/
def optimization.dropSetOld (blocks : List ParamBlock) : List Nat :=
  (List.range blocks.length).filter (fun i =>
    decide (blocks.get? i = some (ParamBlock.Pose 0) ∨
      blocks.get? i = some (ParamBlock.SpeedBias 0)))

/-- The prior handed to the marginalization in the `MARGIN_OLD` branch (lines 1631-1646). -/
def optimization.priorOld (s : Estimator) : List ResidualBlockInfo :=
  match s.last_marginalization_info with
  | none => []
  | some info =>
    if info.valid then
      [{ cost_function := FactorKind.marginalization
         parameter_blocks := s.last_marginalization_parameter_blocks
         drop_set := optimization.dropSetOld s.last_marginalization_parameter_blocks }]
    else []

/-- The pseudorange factors of frame 0 handed to the marginalization (lines 1673-1691), for the
observations from `j` on: `none` when `sys2idx.at` throws or `gnss_ephem_buf[0]` is shorter
than `gnss_meas_buf[0]`. -/
def optimization.marginGnssObs (q : MarginInputs) :
    List Nat → List Nat → Option (List ResidualBlockInfo)
  | [], _ => some []
  | _ :: _, [] => none
  | obs :: meas, _ :: ephem =>
    match q.sys_idx obs, optimization.marginGnssObs q meas ephem with
    | some sys_idx, some rest =>
      some ({ cost_function := FactorKind.gnssPsrDopp
              parameter_blocks := [ParamBlock.Pose 0, ParamBlock.SpeedBias 0, ParamBlock.Pose 1,
                ParamBlock.SpeedBias 1, ParamBlock.rcv_dt sys_idx, ParamBlock.rcv_ddt 0,
                ParamBlock.yaw_enu_local, ParamBlock.anc_ecef]
              drop_set := [0, 1, 4, 5] } :: rest)
    | _, _ => none

/-- The GNSS factors handed to the marginalization in the `MARGIN_OLD` branch (lines
1671-1708). -/
def optimization.marginGnssOld (q : MarginInputs) (s : Estimator) :
    Option (List ResidualBlockInfo) :=
  if s.gnss_ready then
    match optimization.marginGnssObs q (s.gnss_meas_buf 0) (s.gnss_ephem_buf 0) with
    | none => none
    | some obs =>
      some (obs ++
        (List.range 4).map (fun k =>
          { cost_function := FactorKind.dtDdt
            parameter_blocks := [ParamBlock.rcv_dt k, ParamBlock.rcv_dt (4 + k),
              ParamBlock.rcv_ddt 0, ParamBlock.rcv_ddt 1]
            drop_set := [0, 2] }) ++
        [{ cost_function := FactorKind.ddtSmooth
           parameter_blocks := [ParamBlock.rcv_ddt 0, ParamBlock.rcv_ddt 1]
           drop_set := [0] }])
  else some []

/-- The projection factors of one landmark anchored at frame `imu_i` handed to the
marginalization (lines 1725-1758), for its observations from frame `imu_j` on. -/
def optimization.marginFeatureFrames (STEREO : Bool) (imu_i feature_index : Nat) :
    Nat → List Bool → List ResidualBlockInfo
  | _, [] => []
  | imu_j, is_stereo :: rest =>
    (if imu_i ≠ imu_j then
      [{ cost_function := FactorKind.projectionTwoFrameOneCam
         parameter_blocks := [ParamBlock.Pose imu_i, ParamBlock.Pose imu_j, ParamBlock.Ex_Pose 0,
           ParamBlock.Feature feature_index, ParamBlock.Td]
         drop_set := [0, 3] }]
    else []) ++
    (if STEREO && is_stereo then
      (if imu_i ≠ imu_j then
        [{ cost_function := FactorKind.projectionTwoFrameTwoCam
           parameter_blocks := [ParamBlock.Pose imu_i, ParamBlock.Pose imu_j,
             ParamBlock.Ex_Pose 0, ParamBlock.Ex_Pose 1, ParamBlock.Feature feature_index,
             ParamBlock.Td]
           drop_set := [0, 4] }]
      else
        [{ cost_function := FactorKind.projectionOneFrameTwoCam
           parameter_blocks := [ParamBlock.Ex_Pose 0, ParamBlock.Ex_Pose 1,
             ParamBlock.Feature feature_index, ParamBlock.Td]
           drop_set := [2] }])
    else []) ++
    optimization.marginFeatureFrames STEREO imu_i feature_index (imu_j + 1) rest

/-- The loop over the landmarks of the `MARGIN_OLD` branch (lines 1711-1761); `used` is the
number of landmarks with `used_num >= 4` met so far, the value of `feature_index + 1`. -/
def optimization.marginFeatureOld (STEREO : Bool) :
    Nat → List FeaturePerId → List ResidualBlockInfo
  | _, [] => []
  | used, it_per_id :: rest =>
    if it_per_id.feature_per_frame.length < 4 then
      optimization.marginFeatureOld STEREO used rest
    else if it_per_id.start_frame ≠ 0 then
      optimization.marginFeatureOld STEREO (used + 1) rest
    else
      optimization.marginFeatureFrames STEREO it_per_id.start_frame used it_per_id.start_frame
        it_per_id.feature_per_frame ++
      optimization.marginFeatureOld STEREO (used + 1) rest

/-- The assignments to `addr_shift` for the window slot `i`, sent to slot `j` (lines 1775-1781,
1842-1856); the table is a function from a block to its entry, `none` without entry. -/
def optimization.addrShiftSlot (USE_IMU : Bool) (addr_shift : ParamBlock → Option ParamBlock)
    (i j : Nat) : ParamBlock → Option ParamBlock :=
  let t := Function.update addr_shift (ParamBlock.Pose i) (some (ParamBlock.Pose j))
  let t := if USE_IMU then
      Function.update t (ParamBlock.SpeedBias i) (some (ParamBlock.SpeedBias j))
    else t
  let t := (List.range 4).foldl (fun t k =>
    Function.update t (ParamBlock.rcv_dt (i * 4 + k)) (some (ParamBlock.rcv_dt (j * 4 + k)))) t
  Function.update t (ParamBlock.rcv_ddt i) (some (ParamBlock.rcv_ddt j))

/-- The assignments to `addr_shift` after the loop over the slots (lines 1783-1788,
1859-1864). -/
def optimization.addrShiftTail (s : Estimator) (addr_shift : ParamBlock → Option ParamBlock) :
    ParamBlock → Option ParamBlock :=
  let t := (List.range s.NUM_OF_CAM).foldl (fun t i =>
    Function.update t (ParamBlock.Ex_Pose i) (some (ParamBlock.Ex_Pose i))) addr_shift
  let t := Function.update t ParamBlock.Td (some ParamBlock.Td)
  let t := Function.update t ParamBlock.yaw_enu_local (some ParamBlock.yaw_enu_local)
  Function.update t ParamBlock.anc_ecef (some ParamBlock.anc_ecef)

/-- The table `addr_shift` built in the `MARGIN_OLD` branch (lines 1773-1788); pass `n` of the
loop is the one for `i = n + 1`. -/
def optimization.addrShiftOld (W : Nat) (s : Estimator) : ParamBlock → Option ParamBlock :=
  optimization.addrShiftTail s
    ((List.range W).foldl (fun t n => optimization.addrShiftSlot s.USE_IMU t (n + 1) n)
      (fun _ => none))

/-- The table `addr_shift` built in the `MARGIN_SECOND_NEW` branch (lines 1838-1864), for
`WINDOW_SIZE = W >= 1`. -/
def optimization.addrShiftSecondNew (W : Nat) (s : Estimator) :
    ParamBlock → Option ParamBlock :=
  optimization.addrShiftTail s
    ((List.range (W + 1)).foldl (fun t i =>
      if i = W - 1 then t
      else if i = W then optimization.addrShiftSlot s.USE_IMU t i (i - 1)
      else optimization.addrShiftSlot s.USE_IMU t i i)
      (fun _ => none))

/-- Modelled from the spec: `MarginalizationInfo::getParameterBlocks(addr_shift)` returns the
"parameter-block addresses kept", the blocks of the residual blocks given that no drop set
names, "re-parameterized via the address-shift table"; a block without entry gets the null
pointer that `addr_shift[...]` inserts. The order of the result, that of a hash table, is not
modelled. -/
def MarginalizationInfo.getParameterBlocks (factors : List ResidualBlockInfo)
    (addr_shift : ParamBlock → Option ParamBlock) : List ParamBlock :=
  let dropped := factors.flatMap (fun f => f.drop_set.filterMap (fun i => f.parameter_blocks.get? i))
  let kept := (factors.flatMap (fun f => f.parameter_blocks)).dedup.filter
    (fun b => decide (b ∉ dropped))
  kept.map (fun b => (addr_shift b).getD ParamBlock.null)

/-- The loop of lines 1809-1814 from index `i` on: the drop set, or `none` when the assertion
`last_marginalization_parameter_blocks[i] != para_SpeedBias[WINDOW_SIZE - 1]` fails. -/
def optimization.dropSetSecondNew (W : Nat) : Nat → List ParamBlock → Option (List Nat)
  | _, [] => some []
  | i, b :: rest =>
    if b = ParamBlock.SpeedBias (W - 1) then none
    else
      match optimization.dropSetSecondNew W (i + 1) rest with
      | none => none
      | some drop_set =>
        if b = ParamBlock.Pose (W - 1) then some (i :: drop_set) else some drop_set

/-- The indices of `para_Pose[WINDOW_SIZE - 1]` in the blocks of the prior. -/
def optimization.poseIndices (W : Nat) : Nat → List ParamBlock → List Nat
  | _, [] => []
  | i, b :: rest =>
    if b = ParamBlock.Pose (W - 1) then i :: optimization.poseIndices W (i + 1) rest
    else optimization.poseIndices W (i + 1) rest

/-- The prior handed to the marginalization in the `MARGIN_SECOND_NEW` branch (lines
1806-1822); `none` when the assertion fails. -/
def optimization.priorSecondNew (W : Nat) (s : Estimator) : Option (List ResidualBlockInfo) :=
  match s.last_marginalization_info with
  | none => some []
  | some info =>
    if info.valid then
      match optimization.dropSetSecondNew W 0 s.last_marginalization_parameter_blocks with
      | none => none
      | some drop_set =>
        some [{ cost_function := FactorKind.marginalization
                parameter_blocks := s.last_marginalization_parameter_blocks
                drop_set := drop_set }]
    else some []

/-- The marginalization of `optimization` (lines 1621-1873, after `double2vector`), with
`WINDOW_SIZE = W`: the estimator with the new prior, or `none` when a null pre-integration is
read, `sys2idx.at` throws, the assertion of line 1811 fails, or `W = 0` (the slots 1 and
`WINDOW_SIZE - 1` read by the branches do not exist). -/
def optimization.marginalize (g : Geometry) (fq : FeatureQueries) (q : MarginInputs) (W : Nat)
    (s : Estimator) : Option Estimator :=
  if s.frame_count < W then some s
  else if W = 0 then none
  else
    match s.marginalization_flag with
    | MarginalizationFlag.MARGIN_OLD =>
      let s := vector2double g fq W s
      match optimization.marginImuOld s, optimization.marginGnssOld q s with
      | some imu, some gnss =>
        let factors := optimization.priorOld s ++ imu ++ gnss ++
          optimization.marginFeatureOld s.STEREO 0 q.feature
        some { s with
          last_marginalization_info := some { factors := factors, valid := q.valid }
          last_marginalization_parameter_blocks :=
            MarginalizationInfo.getParameterBlocks factors (optimization.addrShiftOld W s) }
      | _, _ => none
    | MarginalizationFlag.MARGIN_SECOND_NEW =>
      if s.last_marginalization_info.isSome ∧
          s.last_marginalization_parameter_blocks.count (ParamBlock.Pose (W - 1)) ≠ 0 then
        let s := vector2double g fq W s
        match optimization.priorSecondNew W s with
        | none => none
        | some factors =>
          some { s with
            last_marginalization_info := some { factors := factors, valid := q.valid }
            last_marginalization_parameter_blocks :=
              MarginalizationInfo.getParameterBlocks factors
                (optimization.addrShiftSecondNew W s) }
      else some s

/-- The value of `addr_shift` after the loop over the slots of the `MARGIN_OLD` branch, read off
per block. -/
def optimization.addrShiftSlots (USE_IMU : Bool) (W : Nat) : ParamBlock → Option ParamBlock
  | ParamBlock.Pose i => if 1 ≤ i ∧ i ≤ W then some (ParamBlock.Pose (i - 1)) else none
  | ParamBlock.SpeedBias i =>
    if USE_IMU = true ∧ 1 ≤ i ∧ i ≤ W then some (ParamBlock.SpeedBias (i - 1)) else none
  | ParamBlock.rcv_dt n => if 4 ≤ n ∧ n < 4 * W + 4 then some (ParamBlock.rcv_dt (n - 4)) else none
  | ParamBlock.rcv_ddt i => if 1 ≤ i ∧ i ≤ W then some (ParamBlock.rcv_ddt (i - 1)) else none
  | _ => none

/-- The blocks that the assignments after the loop over the slots send to themselves. -/
def optimization.addrShiftFixed (NUM_OF_CAM : Nat) : ParamBlock → Bool
  | ParamBlock.Ex_Pose i => decide (i < NUM_OF_CAM)
  | ParamBlock.Td => true
  | ParamBlock.yaw_enu_local => true
  | ParamBlock.anc_ecef => true
  | _ => false

/-- Whether a block is one of `para_SpeedBias`. -/
def ParamBlock.isSpeedBias : ParamBlock → Bool
  | ParamBlock.SpeedBias _ => true
  | _ => false

/-- The states of the prior that sequences of marginalizations reach: no prior at the start (the
constructor and `clearState`), code that leaves the prior alone in between, and the two
branches of `optimization.marginalize`. -/
inductive MarginReachable (g : Geometry) (fq : FeatureQueries) (W : Nat) : Estimator → Prop where
  | start (s : Estimator) (hinfo : s.last_marginalization_info = none)
      (hblocks : s.last_marginalization_parameter_blocks = []) : MarginReachable g fq W s
  | other (s t : Estimator) (hs : MarginReachable g fq W s)
      (hinfo : t.last_marginalization_info = s.last_marginalization_info)
      (hblocks : t.last_marginalization_parameter_blocks =
        s.last_marginalization_parameter_blocks) : MarginReachable g fq W t
  | marginalize (q : MarginInputs) (s t : Estimator) (hs : MarginReachable g fq W s)
      (hrun : optimization.marginalize g fq q W s = some t) : MarginReachable g fq W t

/-- A table that sends a speed and bias block only to a speed and bias block of the same or of
the previous slot, and nothing else to one. -/
def optimization.ShiftsSpeedBias (t : ParamBlock → Option ParamBlock) : Prop :=
  ∀ b e, t b = some e → e.isSpeedBias = true →
    ∃ i, b = ParamBlock.SpeedBias i ∧ (e = ParamBlock.SpeedBias i ∨ e = ParamBlock.SpeedBias (i - 1))

/-- Every speed and bias block among `blocks` is `para_SpeedBias[0]`. -/
def optimization.SpeedBiasAtZero (blocks : List ParamBlock) : Prop :=
  ∀ b ∈ blocks, b.isSpeedBias = true → b = ParamBlock.SpeedBias 0

/-- The ways a pass of the encoder loop of the dispatcher (lines 459-516) can go wrong: an
element past the end of a vector is read, a `ROS_ASSERT` fails, or a local that was never
assigned is read. -/
inductive EncoderFault where
  | outOfRange
  | assertion
  | uninitialized
deriving DecidableEq, Repr

/-- The arguments of one call `processIMUEncoder(dt, linear_acceleration, angular_velocity,
encoder_velocity)`. -/
structure ProcessIMUEncoderCall where
  dt : ℚ
  linear_acceleration : Vector3d
  angular_velocity : Vector3d
  encoder_velocity : Vector6d
deriving DecidableEq, Repr

/-- The weighted sum `w1 * a + w2 * b` of two vectors. -/
def Vector3d.blend (w1 w2 : ℚ) (a b : Vector3d) : Vector3d :=
  (w1 * a.1 + w2 * b.1, w1 * a.2.1 + w2 * b.2.1, w1 * a.2.2 + w2 * b.2.2)

/-- The weighted sum `w1 * a + w2 * b` of two encoder velocities. -/
def Vector6d.blend (w1 w2 : ℚ) (a b : Vector6d) : Vector6d :=
  (Vector3d.blend w1 w2 a.1 b.1, Vector3d.blend w1 w2 a.2 b.2)

/-- The locals `t0, vel0` and `t1, vel1` of a pass of the encoder loop; a velocity is `none`
until it is assigned. -/
structure EncoderBracket where
  t0 : ℚ
  vel0 : Option Vector6d
  t1 : ℚ
  vel1 : Option Vector6d
deriving DecidableEq, Repr

/-- The loop `for (auto &enc_vel : encVector)` of lines 471-484: the last encoder sample at or
before `t` goes to `t0, vel0`, the first one after `t` to `t1, vel1`. -/
def processMeasurements.encoderScan (t : Time) :
    List (Time × Vector6d) → EncoderBracket → EncoderBracket
  | [], b => b
  | enc_vel :: rest, b =>
    if enc_vel.1 ≤ t then
      processMeasurements.encoderScan t rest { b with t0 := enc_vel.1, vel0 := some enc_vel.2 }
    else { b with t1 := enc_vel.1, vel1 := some enc_vel.2 }

/-- The value of `encoder_velocity` after lines 462-493 of a pass for the sample time `t`. -/
def processMeasurements.encoderVelocity (Vs_frame_count : Vector3d) (t : Time)
    (encVector : List (Time × Vector6d)) : Except EncoderFault Vector6d :=
  let encoder_velocity : Vector6d :=
    match encVector with
    | e :: _ => e.2
    | [] => (Vs_frame_count, Vs_frame_count)
  let b := processMeasurements.encoderScan t encVector
    { t0 := 0, vel0 := none, t1 := 0, vel1 := none }
  if b.t0 > 0 ∧ b.t1 > 0 then
    let dt0 := t - b.t0
    let dt1 := b.t1 - t
    if ¬ dt0 ≥ 0 then Except.error EncoderFault.assertion
    else if ¬ dt1 ≥ 0 then Except.error EncoderFault.assertion
    else if ¬ dt0 + dt1 > 0 then Except.error EncoderFault.assertion
    else
      match b.vel0, b.vel1 with
      | some vel0, some vel1 =>
        Except.ok (Vector6d.blend (dt1 / (dt0 + dt1)) (dt0 / (dt0 + dt1)) vel0 vel1)
      | _, _ => Except.error EncoderFault.uninitialized
  else Except.ok encoder_velocity

/-- Pass `i` of the encoder loop (lines 461-515): the call of `processIMUEncoder` it makes and
the value it leaves in `last_velocity`, or the fault that ends it. The index `i - 1` is
computed in `size_t`: in pass 0 it wraps around and is past the end of every vector. -/
def processMeasurements.encoderPass (prevTime curTime : Time) (Vs_frame_count : Vector3d)
    (accVector gyrVector : List (Time × Vector3d)) (encVector : List (Time × Vector6d))
    (i : Nat) (last_velocity : Option Vector6d) :
    Except EncoderFault (ProcessIMUEncoderCall × Vector6d) :=
  match accVector[i]? with
  | none => Except.error EncoderFault.outOfRange
  | some a =>
    let t := a.1
    match processMeasurements.encoderVelocity Vs_frame_count t encVector with
    | Except.error e => Except.error e
    | Except.ok encoder_velocity =>
      match processMeasurements.imuDt prevTime curTime accVector i with
      | none => Except.error EncoderFault.outOfRange
      | some dt =>
        if ¬ dt ≥ 0 then Except.error EncoderFault.assertion
        else if t ≤ curTime then
          match gyrVector[i]? with
          | none => Except.error EncoderFault.outOfRange
          | some g =>
            Except.ok ({ dt := dt, linear_acceleration := a.2, angular_velocity := g.2,
                         encoder_velocity := encoder_velocity }, encoder_velocity)
        else
          let dt1 := dt
          let dt2 := t - curTime
          if ¬ dt1 ≥ 0 then Except.error EncoderFault.assertion
          else if ¬ dt2 ≥ 0 then Except.error EncoderFault.assertion
          else if ¬ dt1 + dt2 > 0 then Except.error EncoderFault.assertion
          else if i = 0 then Except.error EncoderFault.outOfRange
          else
            match accVector[i - 1]?, gyrVector[i - 1]?, gyrVector[i]? with
            | some a1, some g1, some g =>
              match last_velocity with
              | none => Except.error EncoderFault.uninitialized
              | some last =>
                let w1 := dt2 / (dt1 + dt2)
                let w2 := dt1 / (dt1 + dt2)
                Except.ok ({ dt := dt, linear_acceleration := Vector3d.blend w1 w2 a1.2 a.2,
                             angular_velocity := Vector3d.blend w1 w2 g1.2 g.2,
                             encoder_velocity := Vector6d.blend w1 w2 last encoder_velocity },
                  encoder_velocity)
            | _, _, _ => Except.error EncoderFault.outOfRange

/-- The encoder loop of the dispatcher (lines 458-516) from pass `i` on, with `remaining`
passes to go, as a change of state; `processIMUEncoder` is a parameter. Each pass reads
`prevTime`, `curTime` and `Vs[frame_count]` from the state the calls before it left. -/
def processMeasurements.encoderLoop
    (processIMUEncoder : ProcessIMUEncoderCall → Estimator → Estimator)
    (accVector gyrVector : List (Time × Vector3d)) (encVector : List (Time × Vector6d)) :
    Nat → Nat → Option Vector6d → Estimator → Except EncoderFault Estimator
  | 0, _, _, s => Except.ok s
  | remaining + 1, i, last_velocity, s =>
    match processMeasurements.encoderPass s.prevTime s.curTime (s.Vs s.frame_count) accVector
        gyrVector encVector i last_velocity with
    | Except.error e => Except.error e
    | Except.ok r =>
      processMeasurements.encoderLoop processIMUEncoder accVector gyrVector encVector remaining
        (i + 1) (some r.2) (processIMUEncoder r.1 s)

/-- The encoder loop as the dispatcher runs it: `accVector.size()` passes from pass 0, with
`last_velocity` not yet assigned. -/
def processMeasurements.encoderCalls
    (processIMUEncoder : ProcessIMUEncoderCall → Estimator → Estimator)
    (accVector gyrVector : List (Time × Vector3d)) (encVector : List (Time × Vector6d))
    (s : Estimator) : Except EncoderFault Estimator :=
  processMeasurements.encoderLoop processIMUEncoder accVector gyrVector encVector
    accVector.length 0 none s

/-- What the encoder loop needs of the vectors of `getIMUInterval(prevTime, curTime, ...)`: as
many gyroscope as accelerometer samples, the first sample not before `prevTime`, the samples
in time order, all but the last before `curTime`, and at least two samples. -/
structure processMeasurements.EncoderInput (prevTime curTime : Time)
    (accVector gyrVector : List (Time × Vector3d)) : Prop where
  gyr : gyrVector.length = accVector.length
  first : ∀ a, accVector[0]? = some a → prevTime ≤ a.1
  ordered : ∀ i a b, accVector[i]? = some a → accVector[i + 1]? = some b → a.1 ≤ b.1
  inside : ∀ i a, accVector[i]? = some a → i + 1 < accVector.length → a.1 < curTime
  two : 2 ≤ accVector.length

/-- The largest coefficient of a matrix given by its coefficients (`maxCoeff` of Eigen); the
matrices of `Evaluate` have fixed, non-zero sizes. -/
def maxCoeff (m : List ℚ) : ℚ := m.foldl max (m.headD 0)

/-- The smallest coefficient of a matrix given by its coefficients (`minCoeff` of Eigen). -/
def minCoeff (m : List ℚ) : ℚ := m.foldl min (m.headD 0)

/-- What one call of `IMUEncoderFactor::Evaluate` works on. The arithmetic is done by Eigen,
`Utility` and `IntegrationBase`, none of them among the sources, so the matrices it yields are
parameters, each by its coefficients: the weighted residual, `pre_integration->jacobian_enc`,
and the four weighted Jacobians. `jacobians` is `none` for the null pointer and otherwise
tells which of `jacobians[0..3]` are not null. -/
structure EvaluateInputs where
  residual : List ℚ
  jacobian_enc : List ℚ
  jacobian_pose_i : List ℚ
  jacobian_speedbias_i : List ℚ
  jacobian_pose_j : List ℚ
  jacobian_speedbias_j : List ℚ
  jacobians : Option (Bool × Bool × Bool × Bool)

/-- The two warnings of `Evaluate`: "numerical unstable in preintegration" (line 87) and
"numerical unstable in jacobians" (line 119). -/
inductive EvaluateWarning where
  | preintegration
  | jacobians
deriving DecidableEq, Repr

/-- The output arrays of `Evaluate`, `none` where nothing was written. -/
structure EvaluateOutput where
  residuals : Option (List ℚ) := none
  jacobian_pose_i : Option (List ℚ) := none
  jacobian_speedbias_i : Option (List ℚ) := none
  jacobian_pose_j : Option (List ℚ) := none
  jacobian_speedbias_j : Option (List ℚ) := none
deriving DecidableEq, Repr

/-- How a call of `Evaluate` ends: it returns a value, or `ROS_BREAK()` stops the process
(`ros/assert.h`, in a build with the ROS assertions enabled: a fatal log and a break; a build
that defines `NDEBUG` compiles the macro to nothing and is not what is embedded here). Both
carry what was written and logged until then. -/
inductive EvaluateOutcome where
  | returned (value : Bool) (out : EvaluateOutput) (log : List EvaluateWarning)
  | aborted (out : EvaluateOutput) (log : List EvaluateWarning)
deriving DecidableEq, Repr

/-- The test `m.maxCoeff() > 1e8 || m.minCoeff() < -1e8` of lines 85 and 117. -/
def IMUEncoderFactor.unstable (m : List ℚ) : Bool :=
  decide (maxCoeff m > 100000000 ∨ minCoeff m < -100000000)

/-- Embedding of the control flow of `IMUEncoderFactor::Evaluate` (lines 19-200). -/
def IMUEncoderFactor.Evaluate (x : EvaluateInputs) : EvaluateOutcome :=
  let out : EvaluateOutput := { residuals := some x.residual }
  match x.jacobians with
  | none => EvaluateOutcome.returned true out []
  | some (pose_i, speedbias_i, pose_j, speedbias_j) =>
    let log : List EvaluateWarning :=
      if IMUEncoderFactor.unstable x.jacobian_enc then [EvaluateWarning.preintegration] else []
    let out : EvaluateOutput :=
      if pose_i then { out with jacobian_pose_i := some x.jacobian_pose_i } else out
    if pose_i && IMUEncoderFactor.unstable x.jacobian_pose_i then
      EvaluateOutcome.aborted out (log ++ [EvaluateWarning.jacobians])
    else
      let out : EvaluateOutput :=
        if speedbias_i then { out with jacobian_speedbias_i := some x.jacobian_speedbias_i }
        else out
      let out : EvaluateOutput :=
        if pose_j then { out with jacobian_pose_j := some x.jacobian_pose_j } else out
      let out : EvaluateOutput :=
        if speedbias_j then { out with jacobian_speedbias_j := some x.jacobian_speedbias_j }
        else out
      EvaluateOutcome.returned true out log

/-- The state `t` has the `frame_count` and the `solver_flag` of `s`. -/
def Estimator.SameCount (s t : Estimator) : Prop :=
  t.frame_count = s.frame_count ∧ t.solver_flag = s.solver_flag

/-- The functions `processImage` calls that are not embedded here, each as the change of state
it makes: `f_manager.addFeatureCheckParallax` on a frame handle (with its result),
`initial_ex_rotation.CalibrationExRotation` (the rotation it wrote, or `none` for `false`),
`initialStructure` (with its result), `optimization`, `updateLatestStates`,
`f_manager.initFramePoseByPnP`, `f_manager.triangulate`, the gyroscope-bias block of lines
711-722 (`none` when it calls `repropagate` through a null pointer), `updateGNSSStatistics`,
the outlier block of lines 773-780 and `f_manager.removeFailures`. -/
structure ProcessImageCallees where
  addFeatureCheckParallax : Nat → Estimator → Bool × Estimator
  CalibrationExRotation : Estimator → IntegrationBase → Option Matrix3d
  initialStructure : Estimator → Bool × Estimator
  optimization : Estimator → Option Estimator
  updateLatestStates : Estimator → Estimator
  initFramePoseByPnP : Estimator → Estimator
  triangulate : Estimator → Estimator
  solveGyroscopeBias : Estimator → Option Estimator
  updateGNSSStatistics : Estimator → Estimator
  rejectOutliers : Estimator → Estimator
  removeFailures : Estimator → Estimator

/-- What the invariant of the window count needs of the callees: none of them writes
`frame_count` or `solver_flag`. In `estimator.cpp` the two members are written at lines 79-80
(`clearState`) and 696, 727, 744, 752 (`processImage`) only, and their address is never
taken. -/
structure ProcessImageCallees.KeepsCount (c : ProcessImageCallees) : Prop where
  addFeatureCheckParallax : ∀ image s, Estimator.SameCount s (c.addFeatureCheckParallax image s).2
  initialStructure : ∀ s, Estimator.SameCount s (c.initialStructure s).2
  optimization : ∀ s t, c.optimization s = some t → Estimator.SameCount s t
  updateLatestStates : ∀ s, Estimator.SameCount s (c.updateLatestStates s)
  initFramePoseByPnP : ∀ s, Estimator.SameCount s (c.initFramePoseByPnP s)
  triangulate : ∀ s, Estimator.SameCount s (c.triangulate s)
  solveGyroscopeBias : ∀ s t, c.solveGyroscopeBias s = some t → Estimator.SameCount s t
  updateGNSSStatistics : ∀ s, Estimator.SameCount s (c.updateGNSSStatistics s)
  rejectOutliers : ∀ s, Estimator.SameCount s (c.rejectOutliers s)
  removeFailures : ∀ s, Estimator.SameCount s (c.removeFailures s)

/-- Stands for `all_image_frame.insert(make_pair(header, imageframe))` on the map as the list
of its entries in key order: a key already present keeps its entry. -/
def processImage.insertFrame (header : Time) (imageframe : ImageFrame) :
    List (Time × ImageFrame) → List (Time × ImageFrame)
  | [] => [(header, imageframe)]
  | e :: m =>
    if header < e.1 then (header, imageframe) :: e :: m
    else if header = e.1 then e :: m
    else e :: processImage.insertFrame header imageframe m

/-- Lines 637-660 of `processImage`: the marginalization flag, the header of the newest slot,
the image frame with the temporary pre-integration, and a new temporary pre-integration. -/
def processImage.addFrame (c : ProcessImageCallees) (image : Nat) (header : Time)
    (s : Estimator) : Estimator :=
  let r := c.addFeatureCheckParallax image s
  let s := { r.2 with
    marginalization_flag :=
      if r.1 then MarginalizationFlag.MARGIN_OLD else MarginalizationFlag.MARGIN_SECOND_NEW }
  let s := { s with Headers := Function.update s.Headers s.frame_count header }
  let imageframe : ImageFrame :=
    { pre_integration :=
        match s.tmp_pre_integration with
        | none => Ptr.null
        | some p => Ptr.live p }
  let s := { s with all_image_frame := processImage.insertFrame header imageframe s.all_image_frame }
  { s with
    tmp_pre_integration :=
      some (IntegrationBase.create s.acc_0 s.gyr_0 (s.Bas s.frame_count) (s.Bgs s.frame_count)
        (if s.ENCODER_ENABLE then some s.enc_v_0 else none)) }

/-- Lines 662-678 of `processImage`: the calibration of the extrinsic rotation; `none` when
`pre_integrations[frame_count]` is null. -/
def processImage.calibrate (c : ProcessImageCallees) (s : Estimator) : Option Estimator :=
  if s.ESTIMATE_EXTRINSIC = 2 then
    if s.frame_count ≠ 0 then
      match s.pre_integrations s.frame_count with
      | none => none
      | some p =>
        match c.CalibrationExRotation s p with
        | some calib_ric =>
          some { s with
            ric := Function.update s.ric 0 calib_ric
            RIC := Function.update s.RIC 0 calib_ric
            ESTIMATE_EXTRINSIC := 1 }
        | none => some s
    else some s
  else some s

/-- The end of an initialization (lines 694-697, 725-728, 742-745): `optimization`,
`updateLatestStates`, `solver_flag = NON_LINEAR`, `slideWindow`. -/
def processImage.finishInitialization (c : ProcessImageCallees) (W : Nat) (s : Estimator) :
    Option Estimator :=
  match c.optimization s with
  | none => none
  | some s => slideWindow W { c.updateLatestStates s with solver_flag := SolverFlag.NON_LINEAR }

/-- The block "monocular + IMU initilization" (lines 682-702). The literal `0.1` is the double
`literal_0_1`. -/
def processImage.monoImu (c : ProcessImageCallees) (W : Nat) (header : Time) (s : Estimator) :
    Option Estimator :=
  if !s.STEREO && s.USE_IMU then
    if s.frame_count = W then
      let r : Bool × Estimator :=
        if s.ESTIMATE_EXTRINSIC ≠ 2 ∧ header - s.initial_timestamp > literal_0_1 then
          let r := c.initialStructure s
          (r.1, { r.2 with initial_timestamp := header })
        else (false, s)
      if r.1 then processImage.finishInitialization c W r.2 else slideWindow W r.2
    else some s
  else some s

/-- The block "stereo + IMU initilization" (lines 705-730). -/
def processImage.stereoImu (c : ProcessImageCallees) (W : Nat) (s : Estimator) :
    Option Estimator :=
  if s.STEREO && s.USE_IMU then
    let s := c.triangulate (c.initFramePoseByPnP s)
    if s.frame_count = W then
      match c.solveGyroscopeBias s with
      | none => none
      | some s => processImage.finishInitialization c W s
    else some s
  else some s

/-- The block "stereo only initilization" (lines 733-747). -/
def processImage.stereoOnly (c : ProcessImageCallees) (W : Nat) (s : Estimator) :
    Option Estimator :=
  if s.STEREO && !s.USE_IMU then
    let s := c.triangulate (c.initFramePoseByPnP s)
    match c.optimization s with
    | none => none
    | some s =>
      if s.frame_count = W then processImage.finishInitialization c W s else some s
  else some s

/-- The block `if(frame_count < WINDOW_SIZE)` of lines 750-759: the window grows by one slot,
seeded from the slot before it. -/
def processImage.grow (W : Nat) (s : Estimator) : Estimator :=
  if s.frame_count < W then
    let s := { s with frame_count := s.frame_count + 1 }
    let prev_frame := s.frame_count - 1
    { s with
      Ps := Function.update s.Ps s.frame_count (s.Ps prev_frame)
      Vs := Function.update s.Vs s.frame_count (s.Vs prev_frame)
      Rs := Function.update s.Rs s.frame_count (s.Rs prev_frame)
      Bas := Function.update s.Bas s.frame_count (s.Bas prev_frame)
      Bgs := Function.update s.Bgs s.frame_count (s.Bgs prev_frame) }
  else s

/-- The branch `solver_flag == INITIAL` of `processImage` (lines 680-761). -/
def processImage.initial (c : ProcessImageCallees) (W : Nat) (header : Time) (s : Estimator) :
    Option Estimator :=
  match processImage.monoImu c W header s with
  | none => none
  | some s =>
    match processImage.stereoImu c W s with
    | none => none
    | some s =>
      match processImage.stereoOnly c W s with
      | none => none
      | some s => some (processImage.grow W s)

/-- The statement `gnss_ready = GNSSVIAlign();` of line 771. -/
def processImage.align (g : Geometry) (ini : GnssInitializer) (W : Nat) (s : Estimator) :
    Estimator :=
  { (GNSSVIAlign g ini W s).2 with gnss_ready := (GNSSVIAlign g ini W s).1 }

/-- The block `if (GNSS_ENABLE)` of lines 768-774. -/
def processImage.gnss (c : ProcessImageCallees) (g : Geometry) (ini : GnssInitializer)
    (W : Nat) (s : Estimator) : Estimator :=
  if s.GNSS_ENABLE then
    let s := if !s.gnss_ready then processImage.align g ini W s else s
    if s.gnss_ready then c.updateGNSSStatistics s else s
  else s

/-- Lines 764-767 of `processImage`: the pose of the new frame, the triangulation and the
optimization. -/
def processImage.solve (c : ProcessImageCallees) (s : Estimator) : Option Estimator :=
  let s := if !s.USE_IMU then c.initFramePoseByPnP s else s
  c.optimization (c.triangulate s)

/-- Lines 794-806 of `processImage`: the slide of the window and the outputs. The members
`key_poses`, `last_R` and `last_P` are outputs that no embedded function reads. -/
def processImage.finishFrame (c : ProcessImageCallees) (W : Nat) (s : Estimator) :
    Option Estimator :=
  match slideWindow W s with
  | none => none
  | some s =>
    let s := c.removeFailures s
    some (c.updateLatestStates { s with last_R0 := s.Rs 0, last_P0 := s.Ps 0 })

/-- The branch `solver_flag != INITIAL` of `processImage` (lines 762-808). -/
def processImage.nonLinear (c : ProcessImageCallees) (g : Geometry) (ini : GnssInitializer)
    (W : Nat) (s : Estimator) : Option Estimator :=
  match processImage.solve c s with
  | none => none
  | some s =>
    let s := c.rejectOutliers (processImage.gnss c g ini W s)
    if failureDetection W s then
      some (setParameter (clearState W { s with failure_occur := true }))
    else processImage.finishFrame c W s

/-- Embedding of `Estimator::processImage` (lines 633-809) with `WINDOW_SIZE = W`, on the
handle `image` of a feature frame and its time `header`: the state it leaves, or `none` when
a callee has no defined result. -/
def processImage (c : ProcessImageCallees) (g : Geometry) (ini : GnssInitializer) (W : Nat)
    (image : Nat) (header : Time) (s : Estimator) : Option Estimator :=
  match processImage.calibrate c (processImage.addFrame c image header s) with
  | none => none
  | some s =>
    if s.solver_flag = SolverFlag.INITIAL then processImage.initial c W header s
    else processImage.nonLinear c g ini W s

/-- The states an estimator reaches from its constructor (lines 13-18: `initThreadFlag = false;
clearState();` on members not yet initialized) by calls of `processImage` that return,
`clearState` and `changeSensorType`. -/
inductive WindowReachable (c : ProcessImageCallees) (g : Geometry) (ini : GnssInitializer)
    (W : Nat) : Estimator → Prop where
  | constructed (s : Estimator) :
      WindowReachable c g ini W (clearState W { s with initThreadFlag := false })
  | processImage (image : Nat) (header : Time) (s t : Estimator)
      (hs : WindowReachable c g ini W s) (hrun : processImage c g ini W image header s = some t) :
      WindowReachable c g ini W t
  | clearState (s : Estimator) (hs : WindowReachable c g ini W s) :
      WindowReachable c g ini W (clearState W s)
  | changeSensorType (use_imu use_stereo : Bool) (s : Estimator)
      (hs : WindowReachable c g ini W s) :
      WindowReachable c g ini W (changeSensorType W use_imu use_stereo s)

/-- The invariant of the window count: `frame_count <= WINDOW_SIZE`, with equality once the
solver is `NON_LINEAR`. -/
def Estimator.WindowCount (W : Nat) (s : Estimator) : Prop :=
  s.frame_count ≤ W ∧ (s.solver_flag = SolverFlag.NON_LINEAR → s.frame_count = W)

/-- A block of the `INITIAL` branch keeps `frame_count`, and keeps `solver_flag` or sets it to
`NON_LINEAR` on a full window. -/
def processImage.BlockStep (W : Nat) (s t : Estimator) : Prop :=
  t.frame_count = s.frame_count ∧
    (t.solver_flag = s.solver_flag ∨
      (t.solver_flag = SolverFlag.NON_LINEAR ∧ s.frame_count = W))

/-! ## Example data -/

/-- An accelerometer queue with samples at 0, 1, 2, 3 (payloads are tags). -/
def exampleAccBuf : TimePQ Nat := [(0, 10), (1, 11), (2, 12), (3, 13)]

/-- The gyroscope queue that goes with `exampleAccBuf`. -/
def exampleGyrBuf : TimePQ Nat := [(0, 20), (1, 21), (2, 22), (3, 23)]

/-- An encoder queue with one sample before and one after the interval (1, 3). -/
def exampleEncBuf : TimePQ Nat := [(0, 30), (5, 31)]

/-- A GNSS queue with one batch exactly at time 1 and one at time 5. -/
def exampleGnssBuf : TimePQ Nat := [(1, 40), (5, 41)]

/-- A window of `W = 2` with IMU and encoder enabled, full (`frame_count = 2`), flagged
`MARGIN_SECOND_NEW`, whose slot 2 holds one raw sample in each of its four buffers. -/
def exampleWindow : Estimator :=
  { USE_IMU := true
    ENCODER_ENABLE := true
    solver_flag := SolverFlag.NON_LINEAR
    marginalization_flag := MarginalizationFlag.MARGIN_SECOND_NEW
    frame_count := 2
    Headers := fun i => (i : ℚ)
    Ps := fun i => ((i : ℚ), 0, 0)
    Vs := fun i => (0, (i : ℚ), 0)
    Rs := fun i => (((i : ℚ), 0, 0), (0, 1, 0), (0, 0, 1))
    Bas := fun i => (0, 0, (i : ℚ))
    Bgs := fun i => ((i : ℚ), (i : ℚ), 0)
    pre_integrations := fun i =>
      some (IntegrationBase.create (0, 0, 0) (0, 0, 0) (0, 0, (i : ℚ)) ((i : ℚ), (i : ℚ), 0)
        (some ((0, 0, 0), (0, 0, 0))))
    acc_0 := (0, 0, 9)
    gyr_0 := (0, 0, 0)
    enc_v_0 := ((0, 0, 1), (0, 0, 1))
    dt_buf := fun i => if i = 2 then [1] else []
    linear_acceleration_buf := fun i => if i = 2 then [(0, 0, 9)] else []
    angular_velocity_buf := fun i => if i = 2 then [(0, 0, 0)] else []
    encoder_velocity_buf := fun i => if i = 2 then [((0, 0, 1), (0, 0, 1))] else []
    gnss_meas_buf := fun i => [i]
    gnss_ephem_buf := fun i => [i + 100]
    para_rcv_dt := fun i => (i : ℚ)
    para_rcv_ddt := fun i => (i : ℚ)
    all_image_frame := [(0, { pre_integration := Ptr.null }),
      (1, { pre_integration := Ptr.null }), (2, { pre_integration := Ptr.null })]
    back_R0 := ((1, 0, 0), (0, 1, 0), (0, 0, 1))
    back_P0 := (0, 0, 0)
    ric := fun _ => ((1, 0, 0), (0, 1, 0), (0, 0, 1))
    tic := fun _ => (0, 0, 0)
    sum_of_back := 0
    sum_of_front := 0
    f_manager := []
    gnss_ready := true
    yaw_enu_local := 0
    para_yaw_enu_local := -M_PI }

/-- The window `exampleWindow` flagged `MARGIN_OLD`. -/
def exampleWindowOld : Estimator :=
  { exampleWindow with marginalization_flag := MarginalizationFlag.MARGIN_OLD }

/-- The window `exampleWindow` with an accelerometer bias of norm 3 in every slot. -/
def exampleWindowBigBias : Estimator :=
  { exampleWindow with Bas := fun _ => (3, 0, 0) }

/-- An accelerometer queue whose first sample after time 12 is at time 20. -/
def exampleSparseAccBuf : TimePQ Nat := [(10, 50), (20, 51), (30, 52)]

/-- The gyroscope queue that goes with `exampleSparseAccBuf`. -/
def exampleSparseGyrBuf : TimePQ Nat := [(10, 60), (20, 61), (30, 62)]

/-- An encoder queue whose samples are all at or after time 3. -/
def exampleLateEncBuf : TimePQ Nat := [(5, 31), (7, 32)]

/-- A stand-in for the geometry helpers that is exact on the identity rotation, the only
rotation of the example states below: the identity has yaw, pitch and roll 0, the quaternion
`(1, 0, 0, 0)`, and is the rotation of zero angles. -/
def exampleGeometry : Geometry :=
  { R2ypr := fun _ => (0, 0, 0)
    ypr2R := fun _ => Matrix3d.identity
    toRotationMatrix := fun _ => Matrix3d.identity
    normalized := fun q => q
    fromRotationMatrix := fun _ => { w := 1, x := 0, y := 0, z := 0 }
    ecef2rotation := fun _ => Matrix3d.identity }

/-- A feature manager without features. -/
def exampleQueries : FeatureQueries :=
  { getFeatureCount := fun _ => 0
    getDepthVector := fun _ _ => 0
    getCorresponding := fun _ _ _ => [] }

/-- The window `exampleWindow` with identity rotations, after a solve that left, in every pose
block `i`, the position `(i, 0, 0)` of `Ps[i]` and the identity quaternion. -/
def exampleSolved : Estimator :=
  { exampleWindow with
    Rs := fun _ => Matrix3d.identity
    ric := fun _ => Matrix3d.identity
    para_Pose := fun i k => if k = 0 then (i : ℚ) else if k = 6 then 1 else 0
    para_Ex_Pose := fun _ k => if k = 6 then 1 else 0
    para_SpeedBias := fun i k => (i : ℚ) + (k : ℚ)
    para_Td := 1 / 100
    para_yaw_enu_local := 1
    para_anc_ecef := fun k => (k : ℚ) }

/-- The state `exampleSolved` after a solve that moved every position by one along `x`: the
pose block `i` holds the position `(i + 1, 0, 0)`, while `Ps[0]` is `(0, 0, 0)`. -/
def exampleSolvedMoved : Estimator :=
  { exampleSolved with
    para_Pose := fun i k => if k = 0 then (i : ℚ) + 1 else if k = 6 then 1 else 0 }

/-- The state `exampleSolved` with `gnss_ready` unset. -/
def exampleSolvedNoGnss : Estimator := { exampleSolved with gnss_ready := false }

/-- The state `exampleSolved` with the IMU disabled. -/
def exampleSolvedNoImu : Estimator := { exampleSolved with USE_IMU := false }

/-- Helpers for the examples of `relativePose`: the 1-norm, which is the Euclidean norm on the
vectors along an axis used there, and a solver that always succeeds. -/
def exampleRelative : RelativeHelpers :=
  { norm2 := fun x y => |x| + |y|
    solveRelativeRT := fun _ => some (Matrix3d.identity, Vector3d.zero) }

/-- Feature-manager queries under which every frame has `n` correspondences with every other
frame, each with the points `(1, 0, 1)` and `(0, 0, 1)`: parallax 1. -/
def exampleCorresponding (n : Nat) : FeatureQueries :=
  { getFeatureCount := fun _ => 0
    getDepthVector := fun _ _ => 0
    getCorresponding := fun _ _ _ => List.replicate n ((1, 0, 1), (0, 0, 1)) }

/-- Gating values for the examples of `processGNSS`: every system accepted, L1 at index 0, two
epochs of tracking required. -/
def exampleGnss : GnssHelpers :=
  { validSys := fun _ => true
    L1_freq := fun _ => 0
    elevation := fun _ _ _ => 1
    EPH_VALID_SECONDS := 7200
    GNSS_PSR_STD_THRES := 2
    GNSS_DOPP_STD_THRES := 2
    GNSS_TRACK_NUM_THRES := 2
    GNSS_ELEVATION_THRES := 30 }

/-- An estimator before alignment that holds one ephemeris, with reference time 0, for each
of the satellites 7 and 8, and no tracking counter. -/
def exampleTracking : Estimator :=
  { exampleWindow with
    frame_count := 0
    gnss_ready := false
    sat2ephem := fun sat => if sat = 7 then some [100] else if sat = 8 then some [200] else none
    sat2time_index := fun sat => if sat = 7 ∨ sat = 8 then some [(0, 0)] else none
    sat_track_status := fun _ => none }

/-- An observation `ptr` of satellite `sat` at time `ptr` whose standard deviations, 1 and 1,
are below the thresholds of `exampleGnss`. -/
def exampleObs (ptr sat : Nat) : Obs :=
  { ptr := ptr, sat := sat, time := ptr, freqs_empty := false, psr_std := [1], dopp_std := [1] }

/-- A window after visual-inertial initialization and before alignment, with ten observations
in every slot and the velocity `(1/5, 0, 0)` in every frame: horizontal speed 0.2. -/
def exampleSlow : Estimator :=
  { exampleWindow with
    gnss_ready := false
    gnss_meas_buf := fun _ => List.range 10
    gnss_ephem_buf := fun _ => List.range 10
    Vs := fun _ => (1 / 5, 0, 0) }

/-- Callees of the dispatcher that change nothing. -/
def exampleCallees : DispatchCallees :=
  { initFirstIMUPose := fun _ s => s
    processIMU := fun _ s => s
    encoderLoop := fun _ _ _ s => some s
    processImage := fun _ _ s => s }

/-- An estimator in single-thread mode with IMU, without encoder and GNSS, with an empty
feature queue, IMU samples at 0, 1, 2 and 3, `prevTime = 0` and `td = 0`. -/
def exampleDispatch : Estimator :=
  { exampleWindow with
    ENCODER_ENABLE := false
    initFirstPoseFlag := true
    accBuf := [(0, (0, 0, 0)), (1, (0, 0, 0)), (2, (0, 0, 0)), (3, (0, 0, 0))]
    gyrBuf := [(0, (0, 0, 0)), (1, (0, 0, 0)), (2, (0, 0, 0)), (3, (0, 0, 0))]
    latest_imu_time := 3
    prevTime := 0
    td := 0 }

/-- The state `exampleDispatch` when the IMU has only reached time 1. -/
def exampleDispatchLate : Estimator :=
  { exampleDispatch with
    accBuf := [(0, (0, 0, 0)), (1, (0, 0, 0))]
    gyrBuf := [(0, (0, 0, 0)), (1, (0, 0, 0))]
    latest_imu_time := 1 }

/-- The state `exampleDispatch` with the frame `(2, 77)` waiting in the feature queue. -/
def exampleDispatchQueued : Estimator :=
  { exampleDispatch with featureBuf := [(2, 77)] }

/-- A pass of the dispatcher on the initialized window `exampleDispatch` with one frame
queued at time 2. -/
def examplePass : DispatchPass :=
  { top := { exampleDispatch with featureBuf := [(2, 77)] }
    image := { exampleDispatch with curTime := 2 }
    solved := { exampleDispatch with curTime := 2 }
    result := false }

/-- The window `exampleWindowOld` with headers 1, 2, 3 and image frames at 0, 1, 2, 3, each
owning a live temporary pre-integration: the frame at 0 is older than the window. -/
def exampleFrames : Estimator :=
  { exampleWindowOld with
    Headers := fun i => (i : ℚ) + 1
    all_image_frame :=
      [(0, { pre_integration :=
          Ptr.live (IntegrationBase.create (0, 0, 0) (0, 0, 0) (0, 0, 0) (0, 0, 0) none) }),
        (1, { pre_integration :=
          Ptr.live (IntegrationBase.create (0, 0, 1) (0, 0, 0) (0, 0, 0) (0, 0, 0) none) }),
        (2, { pre_integration :=
          Ptr.live (IntegrationBase.create (0, 0, 2) (0, 0, 0) (0, 0, 0) (0, 0, 0) none) }),
        (3, { pre_integration :=
          Ptr.live (IntegrationBase.create (0, 0, 3) (0, 0, 0) (0, 0, 0) (0, 0, 0) none) })] }

/-- An estimator without IMU and with GNSS enabled, an empty GNSS queue, `prevTime = 0`,
`td = 0` and one frame queued at time 2. -/
def exampleGnssDispatch : Estimator :=
  { exampleDispatch with
    USE_IMU := false
    GNSS_ENABLE := true
    featureBuf := [(2, 77)] }

/-- The reference time of the ephemeris behind a handle, in the examples: handle `100 + k` has
reference time `k`. -/
def exampleToe (p : Nat) : ℚ := (p : ℚ) - 100

/-- The estimator `exampleTracking` with no ephemeris, and then with three ephemerides of
satellite 7 with reference times 0, 50 and 20, received in this order. -/
def exampleEphems : Estimator :=
  inputEphem 120 7 20 (inputEphem 150 7 50 (inputEphem 100 7 0
    { exampleTracking with sat2ephem := fun _ => none, sat2time_index := fun _ => none }))

/-- A window of `W = 2` still filling (`frame_count = 1`), with extrinsic estimation configured
and a velocity of norm 1 in frame 0. -/
def exampleFilling : Estimator :=
  { exampleWindow with
    frame_count := 1
    solver_flag := SolverFlag.INITIAL
    ESTIMATE_EXTRINSIC := 1
    Vs := fun _ => (1, 0, 0) }

/-- A full window at rest in which the extrinsic estimation was opened by an earlier call. -/
def exampleOpened : Estimator :=
  { exampleWindow with
    ESTIMATE_EXTRINSIC := 1
    openExEstimation := true
    Vs := fun _ => (0, 0, 0) }

/-- The window `exampleOpened` before any call opened the extrinsic estimation. -/
def exampleClosed : Estimator := { exampleOpened with openExEstimation := false }

/-- The window `exampleWindowOld` whose pre-integration of slot 1 holds two samples of five
seconds each, so that its `sum_dt` is exactly 10. -/
def exampleTenSeconds : Estimator :=
  { exampleWindowOld with
    pre_integrations := fun i =>
      if i = 1 then
        some (IntegrationBase.push_back
          (IntegrationBase.push_back
            (IntegrationBase.create (0, 0, 0) (0, 0, 0) (0, 0, 1) (1, 1, 0)
              (some ((0, 0, 0), (0, 0, 0))))
            5 (0, 0, 9) (0, 0, 0) (some ((0, 0, 1), (0, 0, 1))))
          5 (0, 0, 9) (0, 0, 0) (some ((0, 0, 1), (0, 0, 1))))
      else exampleWindowOld.pre_integrations i }

/-- Landmarks and GNSS indices for the example windows: one landmark first seen in frame 0 and
observed by four frames, every observation of system 0, and a valid marginalization. -/
def exampleMargin : MarginInputs :=
  { feature := [{ start_frame := 0, feature_per_frame := [false, false, false, false] }]
    sys_idx := fun _ => some 0
    valid := true }

/-- The window `exampleWindowOld` after the marginalization of its oldest frame. -/
def exampleMarginalized : Estimator :=
  (optimization.marginalize exampleGeometry exampleQueries exampleMargin 2 exampleWindowOld).getD
    exampleWindowOld

/-- The window `exampleMarginalized` flagged `MARGIN_SECOND_NEW` for the next frame. -/
def exampleMarginalizedSecond : Estimator :=
  { exampleMarginalized with marginalization_flag := MarginalizationFlag.MARGIN_SECOND_NEW }

/-- An accelerometer queue with vector payloads whose first sample after time 12 is at time
20, as `exampleSparseAccBuf`. -/
def exampleSparseAcc : TimePQ Vector3d := [(10, (0, 0, 9)), (20, (0, 0, 9)), (30, (0, 0, 9))]

/-- The gyroscope queue that goes with `exampleSparseAcc`. -/
def exampleSparseGyr : TimePQ Vector3d := [(10, (0, 0, 0)), (20, (0, 0, 0)), (30, (0, 0, 0))]

/-- A dispatcher state with `prevTime = 12` and `curTime = 15`. -/
def exampleEncoderPass : Estimator := { exampleWindow with prevTime := 12, curTime := 15 }

/-- A call of `Evaluate` that asks for all four Jacobians, with a weighted Jacobian of the pose
of frame `i` that holds the coefficient `10^9`. -/
def exampleEvaluate : EvaluateInputs :=
  { residual := [0]
    jacobian_enc := [1, 0]
    jacobian_pose_i := [1, 1000000000, 0]
    jacobian_speedbias_i := [1]
    jacobian_pose_j := [1]
    jacobian_speedbias_j := [1]
    jacobians := some (true, true, true, true) }

/-- The call `exampleEvaluate` with the large coefficient in `jacobian_enc` instead. -/
def exampleEvaluateEnc : EvaluateInputs :=
  { exampleEvaluate with jacobian_enc := [1, 1000000000], jacobian_pose_i := [1, 0] }

/-- Callees of `processImage` that leave the state as it is: every frame is a non-keyframe, no
calibration, `initialStructure` succeeds and `optimization` returns. -/
def exampleImageCallees : ProcessImageCallees :=
  { addFeatureCheckParallax := fun _ s => (false, s)
    CalibrationExRotation := fun _ _ => none
    initialStructure := fun s => (true, s)
    optimization := fun s => some s
    updateLatestStates := fun s => s
    initFramePoseByPnP := fun s => s
    triangulate := fun s => s
    solveGyroscopeBias := fun s => some s
    updateGNSSStatistics := fun s => s
    rejectOutliers := fun s => s
    removeFailures := fun s => s }

/-- A GNSS initializer whose coarse localization fails. -/
def exampleInitializer : GnssInitializer :=
  { coarse_localization := fun _ _ _ => none
    yaw_alignment := fun _ _ _ _ _ => none
    anchor_refinement := fun _ _ _ _ _ _ _ => none }

/-- A stereo estimator without IMU as its constructor leaves it, for a window of `W = 1`. -/
def exampleConstructed : Estimator :=
  clearState 1
    { exampleWindow with STEREO := true, USE_IMU := false, initThreadFlag := false }

/-- The estimator `exampleConstructed` after the frame 7 at time 1. -/
def exampleFirstFrame : Estimator :=
  (processImage exampleImageCallees exampleGeometry exampleInitializer 1 7 1
    exampleConstructed).getD exampleConstructed

/-- The estimator `exampleFirstFrame` after the frame 8 at time 2. -/
def exampleSecondFrame : Estimator :=
  (processImage exampleImageCallees exampleGeometry exampleInitializer 1 8 2
    exampleFirstFrame).getD exampleFirstFrame

/-- A window of `W = 1` after visual-inertial initialization and before alignment, with ten
observations in both slots and the velocity `(0.3, 0, 0)`, the double, in both frames. -/
def exampleBoundarySpeed : Estimator :=
  { exampleWindow with
    gnss_ready := false
    gnss_meas_buf := fun _ => List.range 10
    gnss_ephem_buf := fun _ => List.range 10
    Vs := fun _ => (literal_0_3, 0, 0) }

/-- A GNSS initializer whose three steps succeed: position and clock values 1, yaw 0, clock
drift 0. -/
def exampleAligning : GnssInitializer :=
  { coarse_localization := fun _ _ _ => some (fun _ => 1)
    yaw_alignment := fun _ _ _ _ _ => some (0, 0)
    anchor_refinement := fun _ _ _ _ _ _ _ => some (fun _ => 1) }

/-! ## Sorted-list facts used by the extraction theorems -/

theorem TimePQ.mem_push {α : Type} (x y : Time × α) (q : TimePQ α) :
    y ∈ TimePQ.push x q ↔ y = x ∨ y ∈ q := by
  induction q with
  | nil => simp [TimePQ.push]
  | cons z zs ih =>
    unfold TimePQ.push
    split
    · simp
    · simp only [List.mem_cons, ih]
      tauto

theorem TimePQ.push_ascending {α : Type} (x : Time × α) (q : TimePQ α)
    (h : TimePQ.Ascending q) : TimePQ.Ascending (TimePQ.push x q) := by
  induction q with
  | nil => simp [TimePQ.push, TimePQ.Ascending]
  | cons z zs ih =>
    unfold TimePQ.Ascending at h ih ⊢
    rw [List.pairwise_cons] at h
    unfold TimePQ.push
    split
    · rename_i hlt
      refine List.pairwise_cons.2 ⟨?_, List.pairwise_cons.2 h⟩
      intro b hb
      rcases List.mem_cons.1 hb with rfl | hb
      · exact le_of_lt hlt
      · exact le_trans (le_of_lt hlt) (h.1 b hb)
    · rename_i hlt
      refine List.pairwise_cons.2 ⟨?_, ih h.2⟩
      intro b hb
      rcases (TimePQ.mem_push x b zs).1 hb with rfl | hb
      · exact not_lt.1 hlt
      · exact h.1 b hb

theorem TimePQ.push_keys {α β : Type} (t : Time) (a : α) (b : β) (p : TimePQ α) (q : TimePQ β)
    (h : q.map Prod.fst = p.map Prod.fst) :
    (TimePQ.push (t, b) q).map Prod.fst = (TimePQ.push (t, a) p).map Prod.fst := by
  induction p generalizing q with
  | nil =>
    cases q with
    | nil => simp [TimePQ.push]
    | cons y ys => simp at h
  | cons z zs ih =>
    cases q with
    | nil => simp at h
    | cons y ys =>
      simp only [List.map_cons, List.cons.injEq] at h
      unfold TimePQ.push
      rw [h.1]
      split
      · simp [h.1, h.2]
      · simp [h.1, ih ys h.2]

/-- On a list along which `p` can only switch from true to false, `takeWhile p` is
`filter p`. -/
theorem takeWhile_eq_filter_of_pairwise {γ : Type} (p : γ → Bool) (l : List γ)
    (h : l.Pairwise (fun a b => p b = true → p a = true)) : l.takeWhile p = l.filter p := by
  induction l with
  | nil => rfl
  | cons x xs ih =>
    rw [List.pairwise_cons] at h
    cases hx : p x with
    | true => simp [List.takeWhile, List.filter, hx, ih h.2]
    | false =>
      have hall : ∀ b ∈ xs, p b = false := by
        intro b hb
        cases hpb : p b with
        | false => rfl
        | true => rw [h.1 b hb hpb] at hx; cases hx
      have : xs.filter p = [] := List.filter_eq_nil_iff.2 (fun b hb => by simp [hall b hb])
      simp [List.takeWhile, List.filter, hx, this]

/-- On a list along which `p` can only switch from true to false, `dropWhile p` is
`filter (not p)`. -/
theorem dropWhile_eq_filter_of_pairwise {γ : Type} (p : γ → Bool) (l : List γ)
    (h : l.Pairwise (fun a b => p b = true → p a = true)) :
    l.dropWhile p = l.filter (fun x => !p x) := by
  induction l with
  | nil => rfl
  | cons x xs ih =>
    rw [List.pairwise_cons] at h
    cases hx : p x with
    | true => simp [List.dropWhile, List.filter, hx, ih h.2]
    | false =>
      have hall : ∀ b ∈ xs, (!p b) = true := by
        intro b hb
        cases hpb : p b with
        | false => rfl
        | true => rw [h.1 b hb hpb] at hx; cases hx
      have : xs.filter (fun x => !p x) = xs := List.filter_eq_self.2 hall
      simp [List.dropWhile, List.filter, hx, this]

theorem ascending_le_closed {α : Type} (q : TimePQ α) (h : TimePQ.Ascending q) (t : Time) :
    q.Pairwise (fun a b => decide (b.1 ≤ t) = true → decide (a.1 ≤ t) = true) := by
  refine List.Pairwise.imp ?_ h
  intro a b hab hb
  simp only [decide_eq_true_eq] at hb ⊢
  exact le_trans hab hb

theorem ascending_lt_closed {α : Type} (q : TimePQ α) (h : TimePQ.Ascending q) (t : Time) :
    q.Pairwise (fun a b => decide (b.1 < t) = true → decide (a.1 < t) = true) := by
  refine List.Pairwise.imp ?_ h
  intro a b hab hb
  simp only [decide_eq_true_eq] at hb ⊢
  exact lt_of_le_of_lt hab hb

/-- The ascending order of a queue depends on its timestamps only. -/
theorem ascending_of_keys {α β : Type} (p : TimePQ α) (q : TimePQ β)
    (h : q.map Prod.fst = p.map Prod.fst) (hp : TimePQ.Ascending p) : TimePQ.Ascending q := by
  unfold TimePQ.Ascending at hp ⊢
  have h1 : (p.map Prod.fst).Pairwise (fun a b => a ≤ b) := List.pairwise_map.2 hp
  rw [← h] at h1
  exact List.pairwise_map.1 h1

/-! ## The loops in closed form -/

theorem popWhileLE_eq {α : Type} (t0 : Time) (q : TimePQ α) (h : ∃ s ∈ q, t0 < s.1) :
    popWhileLE t0 q = some (q.dropWhile (fun s => decide (s.1 ≤ t0))) := by
  induction q with
  | nil => simp at h
  | cons x xs ih =>
    unfold popWhileLE
    by_cases hx : x.1 ≤ t0
    · have h' : ∃ s ∈ xs, t0 < s.1 := by
        obtain ⟨s, hs, hlt⟩ := h
        rcases List.mem_cons.1 hs with rfl | hs
        · exact absurd hx (not_le.2 hlt)
        · exact ⟨s, hs, hlt⟩
      simp [hx, ih h', List.dropWhile]
    · simp [hx, List.dropWhile]

theorem drainWhileLT_eq {α : Type} (t1 : Time) (q : TimePQ α) (v : List (Time × α))
    (h : ∃ s ∈ q, t1 ≤ s.1) :
    drainWhileLT t1 q v = some (q.dropWhile (fun s => decide (s.1 < t1)),
      v ++ q.takeWhile (fun s => decide (s.1 < t1))) := by
  induction q generalizing v with
  | nil => simp at h
  | cons x xs ih =>
    unfold drainWhileLT
    by_cases hx : x.1 < t1
    · have h' : ∃ s ∈ xs, t1 ≤ s.1 := by
        obtain ⟨s, hs, hle⟩ := h
        rcases List.mem_cons.1 hs with rfl | hs
        · exact absurd hx (not_lt.2 hle)
        · exact ⟨s, hs, hle⟩
      simp [hx, ih _ h', List.dropWhile, List.takeWhile]
    · simp [hx, List.dropWhile, List.takeWhile]

theorem getIMUInterval.discard_eq {α β : Type} (t0 : Time) (accBuf : TimePQ α)
    (gyrBuf : TimePQ β) (hk : gyrBuf.map Prod.fst = accBuf.map Prod.fst)
    (h : ∃ s ∈ accBuf, t0 < s.1) :
    getIMUInterval.discard t0 accBuf gyrBuf =
      some (accBuf.dropWhile (fun s => decide (s.1 ≤ t0)),
            gyrBuf.dropWhile (fun s => decide (s.1 ≤ t0))) := by
  induction accBuf generalizing gyrBuf with
  | nil => simp at h
  | cons x xs ih =>
    cases gyrBuf with
    | nil => simp at hk
    | cons y ys =>
      simp only [List.map_cons, List.cons.injEq] at hk
      unfold getIMUInterval.discard
      by_cases hx : x.1 ≤ t0
      · have h' : ∃ s ∈ xs, t0 < s.1 := by
          obtain ⟨s, hs, hlt⟩ := h
          rcases List.mem_cons.1 hs with rfl | hs
          · exact absurd hx (not_le.2 hlt)
          · exact ⟨s, hs, hlt⟩
        simp [hx, hk.1, ih ys hk.2 h', List.dropWhile]
      · simp [hx, hk.1, List.dropWhile]

theorem getIMUInterval.drain_eq {α β : Type} (t1 : Time) (accBuf : TimePQ α)
    (gyrBuf : TimePQ β) (accVector : List (Time × α)) (gyrVector : List (Time × β))
    (hk : gyrBuf.map Prod.fst = accBuf.map Prod.fst) (h : ∃ s ∈ accBuf, t1 ≤ s.1) :
    getIMUInterval.drain t1 accBuf gyrBuf accVector gyrVector =
      some (accBuf.dropWhile (fun s => decide (s.1 < t1)),
            gyrBuf.dropWhile (fun s => decide (s.1 < t1)),
            accVector ++ accBuf.takeWhile (fun s => decide (s.1 < t1)),
            gyrVector ++ gyrBuf.takeWhile (fun s => decide (s.1 < t1))) := by
  induction accBuf generalizing gyrBuf accVector gyrVector with
  | nil => simp at h
  | cons x xs ih =>
    cases gyrBuf with
    | nil => simp at hk
    | cons y ys =>
      simp only [List.map_cons, List.cons.injEq] at hk
      unfold getIMUInterval.drain
      by_cases hx : x.1 < t1
      · have h' : ∃ s ∈ xs, t1 ≤ s.1 := by
          obtain ⟨s, hs, hle⟩ := h
          rcases List.mem_cons.1 hs with rfl | hs
          · exact absurd hx (not_lt.2 hle)
          · exact ⟨s, hs, hle⟩
        simp [hx, hk.1, ih ys _ _ hk.2 h', List.dropWhile, List.takeWhile]
      · simp [hx, hk.1, List.dropWhile, List.takeWhile]

theorem window_take {α : Type} (t0 t1 : Time) (q : TimePQ α) (h : TimePQ.Ascending q) :
    (q.dropWhile (fun s => decide (s.1 ≤ t0))).takeWhile (fun s => decide (s.1 < t1)) =
      q.filter (fun s => decide (t0 < s.1 ∧ s.1 < t1)) := by
  rw [dropWhile_eq_filter_of_pairwise _ q (ascending_le_closed q h t0)]
  rw [takeWhile_eq_filter_of_pairwise _ _
    (List.Pairwise.filter _ (ascending_lt_closed q h t1)), List.filter_filter]
  apply List.filter_congr
  intro x _
  by_cases h1 : x.1 < t1 <;> by_cases h2 : x.1 ≤ t0 <;> simp [h1, h2, not_lt.2, not_le.1]

theorem window_drop {α : Type} (t0 t1 : Time) (h01 : t0 < t1) (q : TimePQ α)
    (h : TimePQ.Ascending q) :
    (q.dropWhile (fun s => decide (s.1 ≤ t0))).dropWhile (fun s => decide (s.1 < t1)) =
      q.filter (fun s => decide (t1 ≤ s.1)) := by
  rw [dropWhile_eq_filter_of_pairwise _ q (ascending_le_closed q h t0)]
  rw [dropWhile_eq_filter_of_pairwise _ _
    (List.Pairwise.filter _ (ascending_lt_closed q h t1)), List.filter_filter]
  apply List.filter_congr
  intro x _
  by_cases h1 : x.1 < t1
  · simp [h1, not_le.2 h1]
  · have h2 : ¬ x.1 ≤ t0 := fun h2 => h1 (lt_of_le_of_lt h2 h01)
    simp [h1, h2, not_lt.1 h1]

theorem filter_keys {α β : Type} (f : Time → Bool) (p : TimePQ α) (q : TimePQ β)
    (h : q.map Prod.fst = p.map Prod.fst) :
    (q.filter (fun s => f s.1)).map Prod.fst = (p.filter (fun s => f s.1)).map Prod.fst := by
  induction p generalizing q with
  | nil =>
    cases q with
    | nil => rfl
    | cons y ys => simp at h
  | cons z zs ih =>
    cases q with
    | nil => simp at h
    | cons y ys =>
      simp only [List.map_cons, List.cons.injEq] at h
      simp only [List.filter_cons, h.1]
      split
      · simp [h.1, ih ys h.2]
      · exact ih ys h.2

theorem head_keys {α β : Type} (p : TimePQ α) (q : TimePQ β)
    (h : q.map Prod.fst = p.map Prod.fst) (a : Time × α) (ha : p.head? = some a) :
    ∃ g, q.head? = some g ∧ g.1 = a.1 := by
  cases p with
  | nil => simp at ha
  | cons z zs =>
    cases q with
    | nil => simp at h
    | cons y ys =>
      simp only [List.map_cons, List.cons.injEq] at h
      simp only [List.head?_cons, Option.some.injEq] at ha
      exact ⟨y, rfl, by rw [h.1, ha]⟩

theorem filter_head_of_exists {γ : Type} (p : γ → Bool) (l : List γ) (h : ∃ s ∈ l, p s = true) :
    ∃ a, (l.filter p).head? = some a := by
  obtain ⟨s, hs, hp⟩ := h
  have hm : s ∈ l.filter p := List.mem_filter.2 ⟨hs, hp⟩
  cases hf : l.filter p with
  | nil => rw [hf] at hm; cases hm
  | cons a as => exact ⟨a, rfl⟩

/-- The head of an ascending queue is an element of least timestamp. -/
theorem ascending_head_le {α : Type} (q : TimePQ α) (h : TimePQ.Ascending q) (a : Time × α)
    (ha : q.head? = some a) : a ∈ q ∧ ∀ s ∈ q, a.1 ≤ s.1 := by
  cases q with
  | nil => simp at ha
  | cons z zs =>
    simp only [List.head?_cons, Option.some.injEq] at ha
    subst ha
    unfold TimePQ.Ascending at h
    rw [List.pairwise_cons] at h
    refine ⟨List.mem_cons_self _ _, ?_⟩
    intro s hs
    rcases List.mem_cons.1 hs with rfl | hs
    · exact le_refl _
    · exact h.1 s hs

theorem ascending_filter {α : Type} (p : Time × α → Bool) (q : TimePQ α)
    (h : TimePQ.Ascending q) : TimePQ.Ascending (q.filter p) :=
  List.Pairwise.filter _ h

theorem ascending_append_singleton {α : Type} (q : TimePQ α) (a : Time × α)
    (h : TimePQ.Ascending q) (ha : ∀ s ∈ q, s.1 ≤ a.1) : TimePQ.Ascending (q ++ [a]) := by
  unfold TimePQ.Ascending at h ⊢
  rw [List.pairwise_append]
  refine ⟨h, List.pairwise_singleton _ _, ?_⟩
  intro x hx y hy
  rw [List.mem_singleton] at hy
  subst hy
  exact ha x hx

/-- The queues `inputIMU` builds keep the shape the extraction relies on: the accelerometer
queue ascending, the gyroscope queue with the same timestamps. -/
theorem inputIMU_invariant (t : Time) (linearAcceleration angularVelocity : Vector3d)
    (bufs : TimePQ Vector3d × TimePQ Vector3d) (hasc : TimePQ.Ascending bufs.1)
    (hsync : bufs.2.map Prod.fst = bufs.1.map Prod.fst) :
    TimePQ.Ascending (inputIMU t linearAcceleration angularVelocity bufs).1 ∧
    (inputIMU t linearAcceleration angularVelocity bufs).2.map Prod.fst =
      (inputIMU t linearAcceleration angularVelocity bufs).1.map Prod.fst :=
  ⟨TimePQ.push_ascending _ _ hasc, TimePQ.push_keys t linearAcceleration angularVelocity _ _ hsync⟩

/-! ## Interval extraction: the contracts -/

/-- C1. `getIMUInterval(t0, t1)` with `t0 < t1` on a pair of IMU queues (ascending, the gyroscope
queue carrying the timestamps of the accelerometer queue, as `inputIMU` builds them) that holds
a sample with `ts >= t1`, called on empty output vectors: it returns; the accelerometer output
is the buffered samples with `t0 < ts < t1`, in queue order, followed by the boundary sample
`a`, the first buffered sample with `ts >= t1` (an element of least timestamp among those); it
is non-empty and ascending; the queues afterwards hold exactly the samples with `ts >= t1`, the
boundary sample still at the top; the gyroscope output is built the same way and has the
length of the accelerometer output. -/
theorem getIMUInterval_contract {α β : Type} (t0 t1 : Time) (accBuf : TimePQ α)
    (gyrBuf : TimePQ β) (hasc : TimePQ.Ascending accBuf)
    (hsync : gyrBuf.map Prod.fst = accBuf.map Prod.fst) (h01 : t0 < t1)
    (hb : ∃ s ∈ accBuf, t1 ≤ s.1) :
    ∃ r a g, getIMUInterval t0 t1 accBuf gyrBuf [] [] = some r ∧
      r.accVector = accBuf.filter (fun s => decide (t0 < s.1 ∧ s.1 < t1)) ++ [a] ∧
      r.gyrVector = gyrBuf.filter (fun s => decide (t0 < s.1 ∧ s.1 < t1)) ++ [g] ∧
      (accBuf.filter (fun s => decide (t1 ≤ s.1))).head? = some a ∧
      (gyrBuf.filter (fun s => decide (t1 ≤ s.1))).head? = some g ∧
      a ∈ accBuf ∧ t1 ≤ a.1 ∧ (∀ s ∈ accBuf, t1 ≤ s.1 → a.1 ≤ s.1) ∧ g.1 = a.1 ∧
      r.accVector ≠ [] ∧ TimePQ.Ascending r.accVector ∧
      r.accBuf = accBuf.filter (fun s => decide (t1 ≤ s.1)) ∧
      r.gyrBuf = gyrBuf.filter (fun s => decide (t1 ≤ s.1)) ∧
      r.accBuf.head? = some a ∧
      r.accVector.length = r.gyrVector.length := by
  have hgasc : TimePQ.Ascending gyrBuf := ascending_of_keys accBuf gyrBuf hsync hasc
  have hb0 : ∃ s ∈ accBuf, t0 < s.1 := by
    obtain ⟨s, hs, hle⟩ := hb
    exact ⟨s, hs, lt_of_lt_of_le h01 hle⟩
  have hdw : ∀ {γ : Type} (q : TimePQ γ), TimePQ.Ascending q →
      q.dropWhile (fun s => decide (s.1 ≤ t0)) = q.filter (fun s => !decide (s.1 ≤ t0)) :=
    fun q hq => dropWhile_eq_filter_of_pairwise _ q (ascending_le_closed q hq t0)
  have hk1 : (gyrBuf.dropWhile (fun s => decide (s.1 ≤ t0))).map Prod.fst =
      (accBuf.dropWhile (fun s => decide (s.1 ≤ t0))).map Prod.fst := by
    rw [hdw accBuf hasc, hdw gyrBuf hgasc]
    exact filter_keys (fun t => !decide (t ≤ t0)) accBuf gyrBuf hsync
  have hb1 : ∃ s ∈ accBuf.dropWhile (fun s => decide (s.1 ≤ t0)), t1 ≤ s.1 := by
    obtain ⟨s, hs, hle⟩ := hb
    refine ⟨s, ?_, hle⟩
    rw [hdw accBuf hasc]
    exact List.mem_filter.2 ⟨hs, by simpa using lt_of_lt_of_le h01 hle⟩
  obtain ⟨a, ha⟩ := filter_head_of_exists (fun s => decide (t1 ≤ s.1)) accBuf
    (by obtain ⟨s, hs, hle⟩ := hb; exact ⟨s, hs, by simpa using hle⟩)
  have hkf := filter_keys (fun t => decide (t1 ≤ t)) accBuf gyrBuf hsync
  obtain ⟨g, hg, hga⟩ := head_keys _ _ hkf a ha
  have hmem := ascending_head_le _ (ascending_filter _ accBuf hasc) a ha
  have hamem : a ∈ accBuf ∧ t1 ≤ a.1 := by
    have := List.mem_filter.1 hmem.1
    exact ⟨this.1, by simpa using this.2⟩
  have hvec : getIMUInterval t0 t1 accBuf gyrBuf [] [] =
      some { accBuf := accBuf.filter (fun s => decide (t1 ≤ s.1)),
             gyrBuf := gyrBuf.filter (fun s => decide (t1 ≤ s.1)),
             accVector := accBuf.filter (fun s => decide (t0 < s.1 ∧ s.1 < t1)) ++ [a],
             gyrVector := gyrBuf.filter (fun s => decide (t0 < s.1 ∧ s.1 < t1)) ++ [g] } := by
    unfold getIMUInterval
    rw [getIMUInterval.discard_eq t0 accBuf gyrBuf hsync hb0]
    simp only
    rw [getIMUInterval.drain_eq t1 _ _ [] [] hk1 hb1]
    simp only [List.nil_append]
    rw [window_take t0 t1 accBuf hasc, window_take t0 t1 gyrBuf hgasc,
      window_drop t0 t1 h01 accBuf hasc, window_drop t0 t1 h01 gyrBuf hgasc, ha, hg]
  refine ⟨_, a, g, hvec, rfl, rfl, ha, hg, hamem.1, hamem.2, ?_, hga, ?_, ?_, rfl, rfl, ha, ?_⟩
  · intro s hs hle
    exact hmem.2 s (List.mem_filter.2 ⟨hs, by simpa using hle⟩)
  · simp
  · apply ascending_append_singleton _ _ (ascending_filter _ accBuf hasc)
    intro s hs
    have := (List.mem_filter.1 hs).2
    simp only [decide_eq_true_eq] at this
    exact le_trans (le_of_lt this.2) hamem.2
  · have h1 := congrArg List.length
      (filter_keys (fun t => decide (t0 < t ∧ t < t1)) accBuf gyrBuf hsync)
    simp only [List.length_map] at h1
    show (_ ++ [a]).length = (_ ++ [g]).length
    rw [List.length_append, List.length_append, h1]
    rfl

/-- Witness of C1: four IMU samples at 0, 1, 2, 3 and the interval (0, 2). -/
theorem getIMUInterval_contract_witness :
    ∃ (r : IMUExtraction Nat Nat) (a g : Time × Nat),
      getIMUInterval 0 2 exampleAccBuf exampleGyrBuf [] [] = some r ∧
      r.accVector = exampleAccBuf.filter (fun s => decide (0 < s.1 ∧ s.1 < 2)) ++ [a] ∧
      r.gyrVector = exampleGyrBuf.filter (fun s => decide (0 < s.1 ∧ s.1 < 2)) ++ [g] ∧
      (exampleAccBuf.filter (fun s => decide (2 ≤ s.1))).head? = some a ∧
      (exampleGyrBuf.filter (fun s => decide (2 ≤ s.1))).head? = some g ∧
      a ∈ exampleAccBuf ∧ 2 ≤ a.1 ∧ (∀ s ∈ exampleAccBuf, 2 ≤ s.1 → a.1 ≤ s.1) ∧ g.1 = a.1 ∧
      r.accVector ≠ [] ∧ TimePQ.Ascending r.accVector ∧
      r.accBuf = exampleAccBuf.filter (fun s => decide (2 ≤ s.1)) ∧
      r.gyrBuf = exampleGyrBuf.filter (fun s => decide (2 ≤ s.1)) ∧
      r.accBuf.head? = some a ∧
      r.accVector.length = r.gyrVector.length :=
  getIMUInterval_contract 0 2 exampleAccBuf exampleGyrBuf
    (by unfold TimePQ.Ascending exampleAccBuf; decide) (by decide) (by decide)
    ⟨(2, 12), by decide, by decide⟩

/-- The whole of `getEncoderInterval` in closed form, on an ascending queue that holds a sample
with `ts >= t1` and a sample with `ts < t1`: the output is every buffered sample with
`ts < t1` followed by the first sample `b` with `ts >= t1`; the queue keeps the samples with
`ts >= t1` and gets back `e`, the last drained sample. -/
theorem getEncoderInterval_eq {α : Type} (t0 t1 : Time) (encBuf : TimePQ α)
    (hasc : TimePQ.Ascending encBuf) (hb : ∃ s ∈ encBuf, t1 ≤ s.1)
    (hl : ∃ s ∈ encBuf, s.1 < t1) :
    ∃ b e, (encBuf.filter (fun s => decide (t1 ≤ s.1))).head? = some b ∧
      (encBuf.filter (fun s => decide (s.1 < t1))).getLast? = some e ∧
      getEncoderInterval t0 t1 encBuf [] =
        some (TimePQ.push e (encBuf.filter (fun s => decide (t1 ≤ s.1))),
              encBuf.filter (fun s => decide (s.1 < t1)) ++ [b]) := by
  obtain ⟨b, hbh⟩ := filter_head_of_exists (fun s => decide (t1 ≤ s.1)) encBuf
    (by obtain ⟨s, hs, hle⟩ := hb; exact ⟨s, hs, by simpa using hle⟩)
  have hne : encBuf.filter (fun s => decide (s.1 < t1)) ≠ [] := by
    obtain ⟨s, hs, hlt⟩ := hl
    intro hnil
    have : s ∈ encBuf.filter (fun s => decide (s.1 < t1)) :=
      List.mem_filter.2 ⟨hs, by simpa using hlt⟩
    rw [hnil] at this
    cases this
  have hpos : 0 < (encBuf.filter (fun s => decide (s.1 < t1))).length := List.length_pos.2 hne
  have hlast : (encBuf.filter (fun s => decide (s.1 < t1))).getLast? =
      some ((encBuf.filter (fun s => decide (s.1 < t1))).getLast hne) :=
    List.getLast?_eq_getLast _ hne
  refine ⟨b, _, hbh, hlast, ?_⟩
  have hdrop : encBuf.dropWhile (fun s => decide (s.1 < t1)) =
      encBuf.filter (fun s => decide (t1 ≤ s.1)) := by
    rw [dropWhile_eq_filter_of_pairwise _ encBuf (ascending_lt_closed encBuf hasc t1)]
    apply List.filter_congr
    intro x _
    by_cases hx : x.1 < t1
    · simp [hx, not_le.2 hx]
    · simp [hx, not_lt.1 hx]
  have htake : encBuf.takeWhile (fun s => decide (s.1 < t1)) =
      encBuf.filter (fun s => decide (s.1 < t1)) :=
    takeWhile_eq_filter_of_pairwise _ encBuf (ascending_lt_closed encBuf hasc t1)
  have hidx : (encBuf.filter (fun s => decide (s.1 < t1)) ++ [b])[
      (encBuf.filter (fun s => decide (s.1 < t1)) ++ [b]).length - 2]? =
      some ((encBuf.filter (fun s => decide (s.1 < t1))).getLast hne) := by
    have h2 : (encBuf.filter (fun s => decide (s.1 < t1)) ++ [b]).length - 2 =
        (encBuf.filter (fun s => decide (s.1 < t1))).length - 1 := by
      simp only [List.length_append, List.length_singleton]
      omega
    rw [h2, List.getElem?_append_left (by omega), ← List.getLast?_eq_getElem?, hlast]
  have hlen : 2 ≤ (encBuf.filter (fun s => decide (s.1 < t1)) ++ [b]).length := by
    simp only [List.length_append, List.length_singleton]
    omega
  unfold getEncoderInterval
  rw [drainWhileLT_eq t1 encBuf [] hb]
  simp only [List.nil_append]
  rw [hdrop, htake, hbh]
  simp only [hlen, if_true, hidx]

/-- C2 (as the code has it). `getEncoderInterval(t0, t1)` does not read `t0` and discards
nothing: on an ascending encoder queue holding a sample with `ts >= t1` and a sample with
`ts < t1` it returns, its output is every buffered sample with `ts < t1` (those with
`ts <= t0` included) followed by the boundary sample `b`, the first with `ts >= t1`; so every
output element other than the final one satisfies `ts < t1`, and every buffered sample with
`ts <= t0 < t1` is in the output. -/
theorem getEncoderInterval_output {α : Type} (t0 t1 : Time) (encBuf : TimePQ α)
    (hasc : TimePQ.Ascending encBuf) (hb : ∃ s ∈ encBuf, t1 ≤ s.1)
    (hl : ∃ s ∈ encBuf, s.1 < t1) :
    ∃ q out b, getEncoderInterval t0 t1 encBuf [] = some (q, out) ∧
      out = encBuf.filter (fun s => decide (s.1 < t1)) ++ [b] ∧
      (encBuf.filter (fun s => decide (t1 ≤ s.1))).head? = some b ∧ t1 ≤ b.1 ∧
      (∀ s ∈ out.dropLast, s.1 < t1) ∧
      (t0 < t1 → ∀ s ∈ encBuf, s.1 ≤ t0 → s ∈ out.dropLast) := by
  obtain ⟨b, e, hbh, _, heq⟩ := getEncoderInterval_eq t0 t1 encBuf hasc hb hl
  have hbm := (ascending_head_le _ (ascending_filter _ encBuf hasc) b hbh).1
  refine ⟨_, _, b, heq, rfl, hbh, by simpa using (List.mem_filter.1 hbm).2, ?_, ?_⟩
  · intro s hs
    rw [List.dropLast_concat] at hs
    simpa using (List.mem_filter.1 hs).2
  · intro h01 s hs hle
    rw [List.dropLast_concat]
    exact List.mem_filter.2 ⟨hs, by simpa using lt_of_le_of_lt hle h01⟩

/-- Witness of C2 (as the code has it): samples at 0 and 5, interval (1, 3). -/
theorem getEncoderInterval_output_witness :
    ∃ (q out : TimePQ Nat) (b : Time × Nat),
      getEncoderInterval 1 3 exampleEncBuf [] = some (q, out) ∧
      out = exampleEncBuf.filter (fun s => decide (s.1 < 3)) ++ [b] ∧
      (exampleEncBuf.filter (fun s => decide (3 ≤ s.1))).head? = some b ∧ 3 ≤ b.1 ∧
      (∀ s ∈ out.dropLast, s.1 < 3) ∧
      ((1 : Time) < 3 → ∀ s ∈ exampleEncBuf, s.1 ≤ 1 → s ∈ out.dropLast) :=
  getEncoderInterval_output 1 3 exampleEncBuf
    (by unfold TimePQ.Ascending exampleEncBuf; decide)
    ⟨(5, 31), by decide, by decide⟩ ⟨(0, 30), by decide, by decide⟩

/-- C2, counterexample. On the ascending queue with samples at 0 and 5 (which holds a sample
with `ts >= t1`), `getEncoderInterval(1, 3)` outputs the sample at 0 although `0 <= t0`:
not every output element other than the boundary sample satisfies `t0 < ts < t1`. -/
theorem getEncoderInterval_outputs_before_t0 :
    TimePQ.Ascending exampleEncBuf ∧ (∃ s ∈ exampleEncBuf, (3 : Time) ≤ s.1) ∧
    getEncoderInterval 1 3 exampleEncBuf [] = some ([(0, 30), (5, 31)], [(0, 30), (5, 31)]) ∧
    ¬ (∀ s ∈ ([(0, 30), (5, 31)] : TimePQ Nat).dropLast, (1 : Time) < s.1 ∧ s.1 < 3) := by
  refine ⟨by unfold TimePQ.Ascending exampleEncBuf; decide, ⟨(5, 31), by decide, by decide⟩,
    by decide, by decide⟩

/-- What one call does. `getGNSSInterval(t0, t1)` with `t0 < t1` on an ascending GNSS queue
holding a batch with `ts >= t1`, called on an empty output vector: it returns; the batches
with `ts <= t0` are dropped (a batch exactly at `t0` too); the output is exactly the buffered
batches with `t0 < ts < t1`, in ascending order; no batch with `ts >= t1` is output; and the
queue afterwards holds exactly the batches with `ts >= t1`. -/
theorem getGNSSInterval_contract {α : Type} (t0 t1 : Time) (gnssBuf : TimePQ α)
    (hasc : TimePQ.Ascending gnssBuf) (h01 : t0 < t1) (hb : ∃ s ∈ gnssBuf, t1 ≤ s.1) :
    ∃ q out, getGNSSInterval t0 t1 gnssBuf [] = some (q, out) ∧
      out = gnssBuf.filter (fun s => decide (t0 < s.1 ∧ s.1 < t1)) ∧
      TimePQ.Ascending out ∧
      (∀ s ∈ out, ¬ t1 ≤ s.1) ∧ (∀ s ∈ out, ¬ s.1 ≤ t0) ∧
      q = gnssBuf.filter (fun s => decide (t1 ≤ s.1)) := by
  have hb0 : ∃ s ∈ gnssBuf, t0 < s.1 := by
    obtain ⟨s, hs, hle⟩ := hb
    exact ⟨s, hs, lt_of_lt_of_le h01 hle⟩
  have hb1 : ∃ s ∈ gnssBuf.dropWhile (fun s => decide (s.1 ≤ t0)), t1 ≤ s.1 := by
    obtain ⟨s, hs, hle⟩ := hb
    refine ⟨s, ?_, hle⟩
    rw [dropWhile_eq_filter_of_pairwise _ gnssBuf (ascending_le_closed gnssBuf hasc t0)]
    exact List.mem_filter.2 ⟨hs, by simpa using lt_of_lt_of_le h01 hle⟩
  refine ⟨_, _, ?_, rfl, ascending_filter _ gnssBuf hasc, ?_, ?_, rfl⟩
  · unfold getGNSSInterval
    rw [popWhileLE_eq t0 gnssBuf hb0]
    simp only
    rw [drainWhileLT_eq t1 _ [] hb1, window_take t0 t1 gnssBuf hasc,
      window_drop t0 t1 h01 gnssBuf hasc, List.nil_append]
  · intro s hs
    have := (List.mem_filter.1 hs).2
    simp only [decide_eq_true_eq] at this
    exact not_le.2 this.2
  · intro s hs
    have := (List.mem_filter.1 hs).2
    simp only [decide_eq_true_eq] at this
    exact not_le.2 this.1

/-- One call on the batches at 1 and 5 with the interval (0, 3). -/
theorem getGNSSInterval_contract_witness :
    ∃ (q out : TimePQ Nat), getGNSSInterval 0 3 exampleGnssBuf [] = some (q, out) ∧
      out = exampleGnssBuf.filter (fun s => decide (0 < s.1 ∧ s.1 < 3)) ∧
      TimePQ.Ascending out ∧
      (∀ s ∈ out, ¬ 3 ≤ s.1) ∧ (∀ s ∈ out, ¬ s.1 ≤ 0) ∧
      q = exampleGnssBuf.filter (fun s => decide (3 ≤ s.1)) :=
  getGNSSInterval_contract 0 3 exampleGnssBuf
    (by unfold TimePQ.Ascending exampleGnssBuf; decide) (by decide)
    ⟨(5, 41), by decide, by decide⟩

/-- With batches at 1 and 5, `getGNSSInterval(1, 3)` drops the batch at `ts = t0 = 1`, which is
not strictly before `t0`: the output is empty, while the batches with `t0 <= ts < t1` are the
batch at 1. -/
theorem getGNSSInterval_drops_batch_at_t0 :
    TimePQ.Ascending exampleGnssBuf ∧ (∃ s ∈ exampleGnssBuf, (3 : Time) ≤ s.1) ∧
    getGNSSInterval 1 3 exampleGnssBuf [] = some ([(5, 41)], []) ∧
    exampleGnssBuf.filter (fun s => decide (1 ≤ s.1 ∧ s.1 < 3)) = [(1, 40)] ∧
    ¬ (∀ q out, getGNSSInterval 1 3 exampleGnssBuf [] = some (q, out) →
        out = exampleGnssBuf.filter (fun s => decide (1 ≤ s.1 ∧ s.1 < 3))) := by
  refine ⟨by unfold TimePQ.Ascending exampleGnssBuf; decide, ⟨(5, 41), by decide, by decide⟩,
    by decide, by decide, ?_⟩
  intro h
  have h1 := h [(5, 41)] [] (by decide)
  revert h1
  decide

/-- On an ascending queue, the elements of an earlier class followed by those of a later class
are the elements of either class, in queue order. -/
theorem ascending_filter_append {α : Type} (p r : Time × α → Bool) (q : TimePQ α)
    (h : TimePQ.Ascending q)
    (hpr : ∀ a b, r a = true → p b = true → ¬ a.1 ≤ b.1) :
    q.filter p ++ q.filter r = q.filter (fun s => p s || r s) := by
  induction q with
  | nil => rfl
  | cons x l ih =>
    have hx := List.pairwise_cons.1 h
    have ih2 := ih hx.2
    cases hp : p x <;> cases hr : r x
    · simp only [List.filter_cons, hp, hr, Bool.or_self, Bool.false_eq_true, if_false]
      exact ih2
    · have hnil : l.filter p = [] := by
        rw [List.filter_eq_nil_iff]
        intro b hb hpb
        exact hpr x b hr hpb (hx.1 b hb)
      simp only [List.filter_cons, hp, hr, Bool.or_true, Bool.false_eq_true, if_false, if_true]
      rw [← ih2, hnil]
      rfl
    · simp only [List.filter_cons, hp, hr, Bool.or_false, Bool.false_eq_true, if_false, if_true,
        List.cons_append]
      rw [ih2]
    · exact absurd le_rfl (hpr x x hr hp)

/-- C3, in the chained calls of the dispatcher: a batch stamped at a frame time is lost.
`processMeasurements` calls `getGNSSInterval(prevTime, curTime, ...)` (line 533) and then sets
`prevTime = curTime` (line 541), so the calls of two successive frames are
`getGNSSInterval(t0, t1)` and `getGNSSInterval(t1, t2)`. For `t0 < t1 < t2`, an ascending GNSS
queue holding a batch with `ts >= t2`, and empty output vectors: both calls return; the first
drops every batch stamped `t0` without output; it leaves every batch stamped `t1` in the
queue and outputs none of them (its drain loop stops at `ts < t1`); the second pops them
(`ts <= t0` with `t0 = t1`) and outputs none of them, and they are not in the queue it
leaves. Together the two calls output exactly the batches with `t0 < ts < t2` and `ts != t1`:
a batch stamped at the frame time is never handed over. -/
theorem getGNSSInterval_loses_batch_at_frame_time {α : Type} (t0 t1 t2 : Time)
    (gnssBuf : TimePQ α) (hasc : TimePQ.Ascending gnssBuf) (h01 : t0 < t1) (h12 : t1 < t2)
    (hb : ∃ s ∈ gnssBuf, t2 ≤ s.1) :
    ∃ q1 out1 q2 out2, getGNSSInterval t0 t1 gnssBuf [] = some (q1, out1) ∧
      getGNSSInterval t1 t2 q1 [] = some (q2, out2) ∧
      (∀ s ∈ gnssBuf, s.1 = t0 → s ∉ out1 ∧ s ∉ q1) ∧
      (∀ s ∈ gnssBuf, s.1 = t1 → s ∈ q1 ∧ s ∉ out1 ∧ s ∉ out2 ∧ s ∉ q2) ∧
      out1 ++ out2 = gnssBuf.filter (fun s => decide (t0 < s.1 ∧ s.1 < t2 ∧ s.1 ≠ t1)) ∧
      q2 = gnssBuf.filter (fun s => decide (t2 ≤ s.1)) := by
  have hb1 : ∃ s ∈ gnssBuf, t1 ≤ s.1 := by
    obtain ⟨s, hs, hle⟩ := hb
    exact ⟨s, hs, le_trans h12.le hle⟩
  obtain ⟨q1, out1, hrun1, hout1, -, -, -, hq1⟩ :=
    getGNSSInterval_contract t0 t1 gnssBuf hasc h01 hb1
  have hasc1 : TimePQ.Ascending q1 := by
    rw [hq1]
    exact ascending_filter _ gnssBuf hasc
  have hb2 : ∃ s ∈ q1, t2 ≤ s.1 := by
    obtain ⟨s, hs, hle⟩ := hb
    refine ⟨s, ?_, hle⟩
    rw [hq1]
    exact List.mem_filter.2 ⟨hs, by simpa using le_trans h12.le hle⟩
  obtain ⟨q2, out2, hrun2, hout2, -, -, -, hq2⟩ :=
    getGNSSInterval_contract t1 t2 q1 hasc1 h12 hb2
  refine ⟨q1, out1, q2, out2, hrun1, hrun2, ?_, ?_, ?_, ?_⟩
  · intro s _ hts
    constructor
    · rw [hout1]
      intro hmem
      have := (List.mem_filter.1 hmem).2
      simp [hts] at this
    · rw [hq1]
      intro hmem
      have := (List.mem_filter.1 hmem).2
      simp only [decide_eq_true_eq] at this
      rw [hts] at this
      exact absurd h01 (not_lt.2 this)
  · intro s hs hts
    refine ⟨?_, ?_, ?_, ?_⟩
    · rw [hq1]
      exact List.mem_filter.2 ⟨hs, by simp [hts]⟩
    · rw [hout1]
      intro hmem
      have := (List.mem_filter.1 hmem).2
      simp [hts] at this
    · rw [hout2]
      intro hmem
      have := (List.mem_filter.1 hmem).2
      simp [hts] at this
    · rw [hq2]
      intro hmem
      have := (List.mem_filter.1 hmem).2
      simp only [decide_eq_true_eq] at this
      rw [hts] at this
      exact absurd h12 (not_lt.2 this)
  · have hout2b : out2 = gnssBuf.filter (fun s => decide (t1 < s.1 ∧ s.1 < t2)) := by
      rw [hout2, hq1, List.filter_filter]
      apply List.filter_congr
      intro s _
      by_cases h : t1 < s.1
      · simp [h, h.le]
      · simp [h]
    rw [hout1, hout2b, ascending_filter_append _ _ gnssBuf hasc]
    · apply List.filter_congr
      intro s _
      rcases lt_trichotomy s.1 t1 with h | h | h
      · simp [h, h.ne, not_lt.2 h.le, lt_trans h h12]
      · simp [h, h01, h12]
      · simp [h, h.ne.symm, not_lt.2 h.le, lt_trans h01 h]
    · intro a b ha hb hab
      simp only [decide_eq_true_eq] at ha hb
      exact absurd (lt_of_lt_of_le ha.1 hab) (not_lt.2 hb.2.le)
  · rw [hq2, hq1, List.filter_filter]
    apply List.filter_congr
    intro s _
    by_cases h : t2 ≤ s.1
    · simp [h, le_trans h12.le h]
    · simp [h]

/-- Witness of C3: batches at 1 and 5, frames at 1 and 3. The call `getGNSSInterval(0, 1)`
outputs nothing and leaves both batches; the call `getGNSSInterval(1, 3)` outputs nothing and
leaves the batch at 5: the batch stamped 1 is gone and was never output. -/
theorem getGNSSInterval_loses_batch_at_frame_time_witness :
    getGNSSInterval 0 1 exampleGnssBuf [] = some ([(1, 40), (5, 41)], []) ∧
    getGNSSInterval 1 3 [(1, 40), (5, 41)] [] = some ([(5, 41)], []) ∧
    ∃ (q1 out1 q2 out2 : TimePQ Nat), getGNSSInterval 0 1 exampleGnssBuf [] = some (q1, out1) ∧
      getGNSSInterval 1 3 q1 [] = some (q2, out2) ∧
      (∀ s ∈ exampleGnssBuf, s.1 = 0 → s ∉ out1 ∧ s ∉ q1) ∧
      (∀ s ∈ exampleGnssBuf, s.1 = 1 → s ∈ q1 ∧ s ∉ out1 ∧ s ∉ out2 ∧ s ∉ q2) ∧
      out1 ++ out2 =
        exampleGnssBuf.filter (fun s => decide (0 < s.1 ∧ s.1 < 3 ∧ s.1 ≠ 1)) ∧
      q2 = exampleGnssBuf.filter (fun s => decide (3 ≤ s.1)) :=
  ⟨by decide, by decide,
    getGNSSInterval_loses_batch_at_frame_time 0 1 3 exampleGnssBuf
      (by unfold TimePQ.Ascending exampleGnssBuf; decide) (by decide) (by decide)
      ⟨(5, 41), by decide, by decide⟩⟩


/-! ## `failureDetection` -/

/-- The function `failureDetection` returns false in every state: its first statement is
`return false;`. -/
theorem failureDetection_eq_false (W : Nat) (s : Estimator) : failureDetection W s = false :=
  rfl

/-- C4, counterexample. In the window `exampleWindowBigBias` the accelerometer bias of slot
`W = 2` is `(3, 0, 0)`, of norm 3 > 2.5: the bias tests of the function answer true, and
`failureDetection` returns false. -/
theorem failureDetection_big_bias_false :
    Vector3d.squaredNorm (exampleWindowBigBias.Bas 2) = 3 * 3 ∧
    Vector3d.normGt (exampleWindowBigBias.Bas 2) (5 / 2) = true ∧
    failureDetection.biasChecks 2 exampleWindowBigBias = true ∧
    failureDetection 2 exampleWindowBigBias = false := by
  have h1 : Vector3d.squaredNorm (exampleWindowBigBias.Bas 2) = 3 * 3 := by
    simp [Vector3d.squaredNorm, exampleWindowBigBias]
  have h2 : Vector3d.normGt (exampleWindowBigBias.Bas 2) (5 / 2) = true := by
    unfold Vector3d.normGt
    rw [h1]
    norm_num
  refine ⟨h1, h2, ?_, rfl⟩
  unfold failureDetection.biasChecks
  rw [h2]
  rfl

/-- C4, amended. For every window size and every estimator state `failureDetection` returns
false, whatever the biases: its first statement is `return false;` (line 1350). The bias tests
beneath it, which are never reached, answer true exactly when the norm of `Bas[WINDOW_SIZE]`
exceeds 2.5 or the norm of `Bgs[WINDOW_SIZE]` exceeds 1.0. -/
theorem failureDetection_never_fails (W : Nat) (s : Estimator) :
    failureDetection W s = false ∧
    (failureDetection.biasChecks W s = true ↔
      Vector3d.normGt (s.Bas W) (5 / 2) = true ∨ Vector3d.normGt (s.Bgs W) 1 = true) := by
  refine ⟨rfl, ?_⟩
  unfold failureDetection.biasChecks
  cases Vector3d.normGt (s.Bas W) (5 / 2) <;> cases Vector3d.normGt (s.Bgs W) 1 <;> simp

/-! ## The yaw wrap -/

theorem M_PI_pos : 0 < M_PI := by
  unfold M_PI
  norm_num

/-- The exponent of the binade of a positive rational. -/
theorem roundDouble.log_eq (x : ℚ) (e : ℤ) (h1 : (2 : ℚ) ^ e ≤ x) (h2 : x < (2 : ℚ) ^ (e + 1)) :
    Int.log 2 x = e := by
  have hx : 0 < x := lt_of_lt_of_le (by positivity) h1
  apply le_antisymm
  · have := (Int.lt_zpow_iff_log_lt (b := 2) (by norm_num) hx).1 (by exact_mod_cast h2)
    omega
  · exact (Int.zpow_le_iff_le_log (b := 2) (by norm_num) hx).1 (by exact_mod_cast h1)

/-- The literals of the source are what rounding makes of the decimals. -/
theorem roundDouble_literals :
    roundDouble (3 / 10) = literal_0_3 ∧ roundDouble (1 / 5) = literal_0_2 ∧
    roundDouble (1 / 10) = literal_0_1 := by
  have l3 : Int.log 2 |(3 / 10 : ℚ)| = -2 := by
    rw [abs_of_pos (by norm_num)]
    exact roundDouble.log_eq _ (-2) (by norm_num) (by norm_num)
  have l2 : Int.log 2 |(1 / 5 : ℚ)| = -3 := by
    rw [abs_of_pos (by norm_num)]
    exact roundDouble.log_eq _ (-3) (by norm_num) (by norm_num)
  have l1 : Int.log 2 |(1 / 10 : ℚ)| = -4 := by
    rw [abs_of_pos (by norm_num)]
    exact roundDouble.log_eq _ (-4) (by norm_num) (by norm_num)
  have f3 : ⌊(3 / 10 : ℚ) / 2 ^ ((-2 : ℤ) - 52)⌋ = 5404319552844595 := by
    rw [Int.floor_eq_iff]
    norm_num
  have f2 : ⌊(1 / 5 : ℚ) / 2 ^ ((-3 : ℤ) - 52)⌋ = 7205759403792793 := by
    rw [Int.floor_eq_iff]
    norm_num
  have f1 : ⌊(1 / 10 : ℚ) / 2 ^ ((-4 : ℤ) - 52)⌋ = 7205759403792793 := by
    rw [Int.floor_eq_iff]
    norm_num
  refine ⟨?_, ?_, ?_⟩
  · unfold roundDouble
    rw [if_neg (by norm_num)]
    simp only [l3, f3]
    norm_num [literal_0_3]
  · unfold roundDouble
    rw [if_neg (by norm_num)]
    simp only [l2, f2]
    norm_num [literal_0_2]
  · unfold roundDouble
    rw [if_neg (by norm_num)]
    simp only [l1, f1]
    norm_num [literal_0_1]

/-- Rounding never goes above the next multiple of the spacing. -/
theorem roundDouble_le_ceil (x : ℚ) (hx : x ≠ 0) :
    roundDouble x ≤ ⌈x / 2 ^ (Int.log 2 |x| - 52)⌉ * 2 ^ (Int.log 2 |x| - 52) := by
  have hulp : (0 : ℚ) < 2 ^ (Int.log 2 |x| - 52) := by positivity
  unfold roundDouble
  rw [if_neg hx]
  simp only
  generalize x / 2 ^ (Int.log 2 |x| - 52) = q
  have hfc : (⌊q⌋ : ℚ) ≤ ⌈q⌉ := by exact_mod_cast Int.floor_le_ceil q
  have hstep : 0 < q - ⌊q⌋ → ((⌊q⌋ : ℚ) + 1) ≤ ⌈q⌉ := by
    intro h
    have h1 : ⌊q⌋ < ⌈q⌉ := by
      rw [Int.lt_ceil]
      linarith
    exact_mod_cast h1
  split_ifs with h1 h2 h3
  · exact mul_le_mul_of_nonneg_right hfc hulp.le
  · exact mul_le_mul_of_nonneg_right (hstep (by linarith)) hulp.le
  · exact mul_le_mul_of_nonneg_right hfc hulp.le
  · exact mul_le_mul_of_nonneg_right (hstep (by linarith)) hulp.le

/-- Rounding a value that is at most `M_PI` gives at most `M_PI`, which is a double. -/
theorem roundDouble_le_M_PI (x : ℚ) (h : x ≤ M_PI) : roundDouble x ≤ M_PI := by
  have hpi : (0 : ℚ) < M_PI := M_PI_pos
  by_cases hx : x = 0
  · simp [roundDouble, hx, hpi.le]
  refine le_trans (roundDouble_le_ceil x hx) ?_
  have hulp : (0 : ℚ) < 2 ^ (Int.log 2 |x| - 52) := by positivity
  rcases lt_or_gt_of_ne hx with hneg | hpos
  · have hq : x / 2 ^ (Int.log 2 |x| - 52) ≤ 0 := (div_neg_of_neg_of_pos hneg hulp).le
    have hc : ⌈x / 2 ^ (Int.log 2 |x| - 52)⌉ ≤ 0 := Int.ceil_le.mpr (by simpa using hq)
    have hc2 : (⌈x / 2 ^ (Int.log 2 |x| - 52)⌉ : ℚ) ≤ 0 := by exact_mod_cast hc
    exact le_trans (mul_nonpos_of_nonpos_of_nonneg hc2 hulp.le) hpi.le
  · have habs : |x| = x := abs_of_pos hpos
    rw [habs]
    have hlog : Int.log 2 x < 2 :=
      (Int.lt_zpow_iff_log_lt (b := 2) (by norm_num) hpos).1 (by
        have : x < 4 := lt_of_le_of_lt h (by norm_num [M_PI])
        norm_num
        exact this)
    obtain ⟨n, hn⟩ : ∃ n : ℕ, (4 : ℤ) - Int.log 2 x = n := ⟨(4 - Int.log 2 x).toNat, by omega⟩
    have hexp : Int.log 2 x - 52 = -(48 + (n : ℤ)) := by omega
    have hK : M_PI = ((884279719003555 * 2 ^ n : ℤ) : ℚ) * 2 ^ (Int.log 2 x - 52) := by
      rw [hexp, zpow_neg, zpow_add₀ (by norm_num)]
      push_cast
      rw [zpow_natCast]
      have h2 : (2 : ℚ) ^ n ≠ 0 := by positivity
      field_simp
      norm_num [M_PI]
      ring
    have hq : x / 2 ^ (Int.log 2 x - 52) ≤ ((884279719003555 * 2 ^ n : ℤ) : ℚ) := by
      rw [habs] at hulp
      rw [div_le_iff₀ hulp, ← hK]
      exact h
    have hc : ⌈x / 2 ^ (Int.log 2 x - 52)⌉ ≤ 884279719003555 * 2 ^ n := Int.ceil_le.mpr hq
    calc (⌈x / 2 ^ (Int.log 2 x - 52)⌉ : ℚ) * 2 ^ (Int.log 2 x - 52)
        ≤ ((884279719003555 * 2 ^ n : ℤ) : ℚ) * 2 ^ (Int.log 2 x - 52) := by
          apply mul_le_mul_of_nonneg_right _ (by positivity)
          exact_mod_cast hc
      _ = M_PI := hK.symm

/-- The constant `M_PI` is below π. -/
theorem M_PI_lt_pi : ((M_PI : ℚ) : ℝ) < Real.pi := by
  have := Real.pi_gt_d20
  unfold M_PI
  push_cast
  linarith

theorem optimization.wrapHigh_le (fuel : Nat) (x y : ℚ)
    (h : optimization.wrapHigh fuel x = some y) : y ≤ M_PI := by
  induction fuel generalizing x with
  | zero => simp [optimization.wrapHigh] at h
  | succ n ih =>
    rw [optimization.wrapHigh] at h
    split_ifs at h with hx
    · exact ih _ h
    · obtain rfl := Option.some.inj h
      exact not_lt.mp hx

theorem optimization.wrapLow_range (fuel : Nat) (x y : ℚ) (hx : x ≤ M_PI)
    (h : optimization.wrapLow fuel x = some y) : -M_PI ≤ y ∧ y ≤ M_PI := by
  induction fuel generalizing x with
  | zero => simp [optimization.wrapLow] at h
  | succ n ih =>
    rw [optimization.wrapLow] at h
    split_ifs at h with hlow
    · exact ih _ (roundDouble_le_M_PI _ (by linarith)) h
    · obtain rfl := Option.some.inj h
      exact ⟨not_lt.mp hlow, hx⟩

/-- Whenever the two wrapping loops end, they leave a value in `[-M_PI, M_PI]`, which lies
inside `(-π, π]`; with `gnss_ready`, `double2vector` unpacks that value into
`yaw_enu_local`. -/
theorem optimization.wrapYaw_range (fuel : Nat) (s t : Estimator)
    (h : optimization.wrapYaw fuel s = some t) :
    -M_PI ≤ t.para_yaw_enu_local ∧ t.para_yaw_enu_local ≤ M_PI ∧
    -Real.pi < ((t.para_yaw_enu_local : ℚ) : ℝ) ∧
    ((t.para_yaw_enu_local : ℚ) : ℝ) ≤ Real.pi ∧
    (t.gnss_ready = true →
      (double2vector.unpackYaw t).yaw_enu_local = t.para_yaw_enu_local) := by
  unfold optimization.wrapYaw at h
  cases h1 : optimization.wrapHigh fuel s.para_yaw_enu_local with
  | none => simp [h1] at h
  | some y1 =>
    simp only [h1] at h
    cases h2 : optimization.wrapLow fuel y1 with
    | none => simp [h2] at h
    | some y2 =>
      simp only [h2, Option.some.injEq] at h
      subst h
      have hr := optimization.wrapLow_range fuel y1 y2
        (optimization.wrapHigh_le fuel _ y1 h1) h2
      have hlo : (((-M_PI : ℚ)) : ℝ) ≤ ((y2 : ℚ) : ℝ) := by exact_mod_cast hr.1
      have hhi : ((y2 : ℚ) : ℝ) ≤ ((M_PI : ℚ) : ℝ) := by exact_mod_cast hr.2
      have hpi := M_PI_lt_pi
      refine ⟨hr.1, hr.2, ?_, ?_, ?_⟩
      · push_cast at hlo
        simp only
        linarith
      · simp only
        linarith
      · intro hg
        unfold double2vector.unpackYaw
        simp only at hg
        simp [hg]

theorem roundDouble_big :
    roundDouble (2 ^ 57) = 2 ^ 57 ∧ roundDouble (2 ^ 57 - 2 * M_PI) = 2 ^ 57 ∧
    roundDouble (-(2 ^ 57) + 2 * M_PI) = -(2 ^ 57) := by
  have hlog0 : Int.log 2 |(2 : ℚ) ^ 57| = 57 := by
    rw [abs_of_pos (by norm_num)]
    exact roundDouble.log_eq _ 57 (by norm_num) (by norm_num)
  have hlog : Int.log 2 |(2 : ℚ) ^ 57 - 2 * M_PI| = 56 := by
    rw [abs_of_pos (by norm_num [M_PI])]
    exact roundDouble.log_eq _ 56 (by norm_num [M_PI]) (by norm_num [M_PI])
  have hlogn : Int.log 2 |-((2 : ℚ) ^ 57) + 2 * M_PI| = 56 := by
    rw [abs_of_neg (by norm_num [M_PI])]
    exact roundDouble.log_eq _ 56 (by norm_num [M_PI]) (by norm_num [M_PI])
  have hfloor0 : ⌊((2 : ℚ) ^ 57) / 2 ^ ((57 : ℤ) - 52)⌋ = 2 ^ 52 := by
    rw [Int.floor_eq_iff]
    norm_num
  have hfloor : ⌊((2 : ℚ) ^ 57 - 2 * M_PI) / 2 ^ ((56 : ℤ) - 52)⌋ = 2 ^ 53 - 1 := by
    rw [Int.floor_eq_iff]
    norm_num [M_PI]
  have hfloorn : ⌊(-((2 : ℚ) ^ 57) + 2 * M_PI) / 2 ^ ((56 : ℤ) - 52)⌋ = -(2 ^ 53) := by
    rw [Int.floor_eq_iff]
    norm_num [M_PI]
  refine ⟨?_, ?_, ?_⟩
  · unfold roundDouble
    rw [if_neg (by norm_num)]
    simp only [hlog0, hfloor0]
    norm_num
  · unfold roundDouble
    rw [if_neg (by norm_num [M_PI])]
    simp only [hlog, hfloor]
    norm_num [M_PI]
  · unfold roundDouble
    rw [if_neg (by norm_num [M_PI])]
    simp only [hlogn, hfloorn]
    norm_num [M_PI]

/-- From `2^57` the first loop never ends: the subtraction gives `2^57` back. -/
theorem optimization.wrapHigh_stuck (fuel : Nat) : optimization.wrapHigh fuel (2 ^ 57) = none := by
  induction fuel with
  | zero => rfl
  | succ n ih =>
    rw [optimization.wrapHigh, if_pos (by norm_num [M_PI]), roundDouble_big.2.1]
    exact ih

/-- From `-2^57` the second loop never ends: the addition gives `-2^57` back. -/
theorem optimization.wrapLow_stuck (fuel : Nat) :
    optimization.wrapLow fuel (-(2 ^ 57)) = none := by
  induction fuel with
  | zero => rfl
  | succ n ih =>
    rw [optimization.wrapLow, if_pos (by norm_num [M_PI]), roundDouble_big.2.2]
    exact ih

/-- Inside `[-M_PI, M_PI]` neither loop runs its body. -/
theorem optimization.wrapYaw_inside (fuel : Nat) (s : Estimator)
    (h1 : -M_PI ≤ s.para_yaw_enu_local) (h2 : s.para_yaw_enu_local ≤ M_PI) :
    optimization.wrapYaw (fuel + 1) s = some s := by
  unfold optimization.wrapYaw
  rw [optimization.wrapHigh, if_neg (not_lt.mpr h2)]
  simp only
  rw [optimization.wrapLow, if_neg (not_lt.mpr h1)]

/-- An ordinary value: from 4 the first loop subtracts `2.0*M_PI` once, exactly, and both loops
end. -/
theorem optimization.wrapYaw_four :
    roundDouble (4 - 2 * M_PI) = 4 - 2 * M_PI ∧
    optimization.wrapYaw 2 { exampleWindow with para_yaw_enu_local := 4 } =
      some { exampleWindow with para_yaw_enu_local := 4 - 2 * M_PI } := by
  have hlog : Int.log 2 |(4 : ℚ) - 2 * M_PI| = 1 := by
    rw [abs_of_neg (by norm_num [M_PI])]
    exact roundDouble.log_eq _ 1 (by norm_num [M_PI]) (by norm_num [M_PI])
  have hfloor : ⌊((4 : ℚ) - 2 * M_PI) / 2 ^ ((1 : ℤ) - 52)⌋ = -5141276249315888 := by
    rw [Int.floor_eq_iff]
    norm_num [M_PI]
  have hround : roundDouble (4 - 2 * M_PI) = 4 - 2 * M_PI := by
    unfold roundDouble
    rw [if_neg (by norm_num [M_PI])]
    simp only [hlog, hfloor]
    norm_num [M_PI]
  refine ⟨hround, ?_⟩
  unfold optimization.wrapYaw
  simp only
  rw [optimization.wrapHigh, if_pos (by norm_num [M_PI]), hround, optimization.wrapHigh,
    if_neg (by norm_num [M_PI])]
  simp only
  rw [optimization.wrapLow, if_neg (by norm_num [M_PI])]

/-- C5, at the failing inputs. The values `2^57` and `-2^57` are doubles. With `2^57` in
`para_yaw_enu_local` the first wrapping loop of `optimization` never ends, whatever the bound
on its tests: `yaw - 2.0*M_PI` rounds to `yaw`. With `-2^57` the first loop ends at once and
the second never does. -/
theorem yaw_wrap_never_ends :
    roundDouble (2 ^ 57) = 2 ^ 57 ∧ roundDouble (2 ^ 57 - 2 * M_PI) = 2 ^ 57 ∧
    roundDouble (-(2 ^ 57) + 2 * M_PI) = -(2 ^ 57) ∧
    (∀ fuel, optimization.wrapYaw fuel { exampleWindow with para_yaw_enu_local := 2 ^ 57 } =
      none) ∧
    (∀ fuel, optimization.wrapHigh (fuel + 1) (-(2 ^ 57)) = some (-(2 ^ 57))) ∧
    (∀ fuel, optimization.wrapYaw fuel { exampleWindow with para_yaw_enu_local := -(2 ^ 57) } =
      none) := by
  have hhigh : ∀ fuel, optimization.wrapHigh (fuel + 1) (-(2 ^ 57)) = some (-(2 ^ 57)) := by
    intro fuel
    rw [optimization.wrapHigh, if_neg (by norm_num [M_PI])]
  refine ⟨roundDouble_big.1, roundDouble_big.2.1, roundDouble_big.2.2, ?_, hhigh, ?_⟩
  · intro fuel
    unfold optimization.wrapYaw
    simp only
    rw [optimization.wrapHigh_stuck]
  · intro fuel
    cases fuel with
    | zero => rfl
    | succ n =>
      unfold optimization.wrapYaw
      simp only
      rw [hhigh n]
      simp only
      rw [optimization.wrapLow_stuck]

/-! ## The IMU loop of the dispatcher -/

/-- The loop from pass `i >= 1` on: the `dt` values of the remaining passes sum to
`curTime` minus the timestamp of sample `i - 1`. -/
theorem processMeasurements.imuLoop_tail_sum {α β : Type} (prevTime curTime : Time)
    (accVector : List (Time × α)) (gyrVector : List (Time × β))
    (hg : accVector.length ≤ gyrVector.length) (remaining i : Nat) (hi : 1 ≤ i)
    (hr : 1 ≤ remaining) (hn : i + remaining = accVector.length) :
    ∃ calls, processMeasurements.imuLoop prevTime curTime accVector gyrVector remaining i =
        some calls ∧
      (calls.map (fun c => c.dt)).sum = curTime - (accVector.map Prod.fst).getD (i - 1) 0 := by
  induction remaining generalizing i with
  | zero => omega
  | succ r ih =>
    have hi0 : i ≠ 0 := by omega
    have hia : i < accVector.length := by omega
    have hia' : i - 1 < accVector.length := by omega
    have hig : i < gyrVector.length := by omega
    have hprev : (accVector.map Prod.fst).getD (i - 1) 0 = accVector[i - 1].1 := by
      rw [List.getD_eq_getElem _ _ (by simpa using hia'), List.getElem_map]
    unfold processMeasurements.imuLoop processMeasurements.imuDt
    rw [if_neg hi0, List.getElem?_eq_getElem hia, List.getElem?_eq_getElem hia',
      List.getElem?_eq_getElem hig]
    by_cases hr0 : r = 0
    · subst hr0
      have hlast : i = accVector.length - 1 := by omega
      rw [if_pos hlast]
      refine ⟨_, rfl, ?_⟩
      simp only [processMeasurements.imuLoop, List.map_cons, List.map_nil, List.sum_cons,
        List.sum_nil, add_zero, hprev]
    · have hlast : i ≠ accVector.length - 1 := by omega
      rw [if_neg hlast]
      obtain ⟨calls, hc, hsum⟩ := ih (i + 1) (by omega) (by omega) (by omega)
      have hcur : (accVector.map Prod.fst).getD (i + 1 - 1) 0 = accVector[i].1 := by
        rw [List.getD_eq_getElem _ _ (by simpa using hia), List.getElem_map]
        rfl
      simp only [hc]
      refine ⟨_, rfl, ?_⟩
      simp only [List.map_cons, List.sum_cons, hsum, hcur, hprev]
      ring

/-- With two samples or more in `accVector`, the `dt` values handed to `processIMU` sum to
`curTime - prevTime`. -/
theorem processMeasurements.imuCalls_dt_sum {α β : Type} (prevTime curTime : Time)
    (accVector : List (Time × α)) (gyrVector : List (Time × β))
    (hg : accVector.length ≤ gyrVector.length) (h2 : 2 ≤ accVector.length) :
    ∃ calls, processMeasurements.imuCalls prevTime curTime accVector gyrVector = some calls ∧
      calls.length = accVector.length ∧
      (calls.map (fun c => c.dt)).sum = curTime - prevTime := by
  obtain ⟨calls, hc, hsum⟩ := processMeasurements.imuLoop_tail_sum prevTime curTime accVector
    gyrVector hg (accVector.length - 1) 1 (le_refl 1) (by omega) (by omega)
  have h0a : 0 < accVector.length := by omega
  have h0g : 0 < gyrVector.length := by omega
  have hlen : ∀ (r i : Nat) (cs : List (ProcessIMUCall α β)),
      processMeasurements.imuLoop prevTime curTime accVector gyrVector r i = some cs →
      cs.length = r := by
    intro r
    induction r with
    | zero =>
      intro i cs h
      simp only [processMeasurements.imuLoop, Option.some.injEq] at h
      rw [← h]
      rfl
    | succ r ih =>
      intro i cs h
      unfold processMeasurements.imuLoop at h
      split at h
      · split at h
        · rename_i cs' hcs'
          simp only [Option.some.injEq] at h
          rw [← h, List.length_cons, ih _ _ hcs']
        · cases h
      · cases h
  have hfirst : (accVector.map Prod.fst).getD (1 - 1) 0 = accVector[0].1 := by
    rw [List.getD_eq_getElem _ _ (by simpa using h0a), List.getElem_map]
  have hunf : processMeasurements.imuCalls prevTime curTime accVector gyrVector =
      some ({ t := accVector[0].1, dt := accVector[0].1 - prevTime,
              linear_acceleration := accVector[0].2,
              angular_velocity := gyrVector[0].2 } :: calls) := by
    unfold processMeasurements.imuCalls
    obtain ⟨n, hn⟩ : ∃ n, accVector.length = n + 1 := ⟨accVector.length - 1, by omega⟩
    rw [hn] at hc ⊢
    simp only [Nat.add_sub_cancel] at hc
    unfold processMeasurements.imuLoop processMeasurements.imuDt
    rw [if_pos rfl, List.getElem?_eq_getElem h0a, List.getElem?_eq_getElem h0g]
    simp only [Nat.zero_add, hc]
  refine ⟨_, hunf, ?_, ?_⟩
  · rw [List.length_cons, hlen _ _ _ hc]
    omega
  · simp only [List.map_cons, List.sum_cons, hsum, hfirst]
    ring

/-- C9, at the failing input. IMU samples at 10, 20 and 30, the previous frame at
`prevTime = 12`, the new frame at `curTime = 15`: `getIMUInterval(12, 15)` returns the single
boundary sample at 20 (`n = 1`), the loop calls `processIMU` once, with
`dt = 20 - 12 = 8`, and the `dt` values handed to `processIMU` sum to 8, not to
`curTime - prevTime = 3`. -/
theorem imuStep_single_sample_dt :
    TimePQ.Ascending exampleSparseAccBuf ∧
    (∃ r, getIMUInterval 12 15 exampleSparseAccBuf exampleSparseGyrBuf [] [] = some r ∧
      r.accVector = [(20, 51)] ∧ r.accVector.length = 1) ∧
    processMeasurements.imuStep 12 15 exampleSparseAccBuf exampleSparseGyrBuf =
      some [{ t := 20, dt := 8, linear_acceleration := 51, angular_velocity := 61 }] ∧
    (([{ t := 20, dt := 8, linear_acceleration := 51, angular_velocity := 61 }] :
      List (ProcessIMUCall Nat Nat)).map (fun c => c.dt)).sum = 8 ∧
    (8 : ℚ) ≠ 15 - 12 := by
  have h : getIMUInterval 12 15 exampleSparseAccBuf exampleSparseGyrBuf [] [] =
    some { accBuf := [(20, 51), (30, 52)], gyrBuf := [(20, 61), (30, 62)],
           accVector := [(20, 51)], gyrVector := [(20, 61)] } := by decide
  refine ⟨by unfold TimePQ.Ascending exampleSparseAccBuf; decide, ⟨_, h, rfl, rfl⟩, ?_, ?_, ?_⟩
  · simp only [processMeasurements.imuStep, h]
    simp [processMeasurements.imuCalls, processMeasurements.imuLoop, processMeasurements.imuDt]
    norm_num
  · simp
  · norm_num

/-! ## `slideWindow`: the loops in closed form -/

theorem rotatedSlots_zero {α : Type} (a : Nat → α) : rotatedSlots a 0 = a := by
  funext j
  unfold rotatedSlots
  by_cases h : j = 0
  · simp [h]
  · simp [h]

theorem shiftedSlots_zero {α : Type} (a : Nat → α) : shiftedSlots a 0 = a := by
  funext j
  simp [shiftedSlots]

theorem shiftedClock_zero (p : Nat → ℚ) : shiftedClock p 0 = p := by
  funext j
  simp [shiftedClock]

theorem swapSlots_rotatedSlots {α : Type} (a : Nat → α) (k : Nat) :
    swapSlots (rotatedSlots a k) k (k + 1) = rotatedSlots a (k + 1) := by
  funext j
  unfold swapSlots rotatedSlots
  simp only [Function.update_apply]
  by_cases h1 : j = k + 1
  · subst h1
    simp
  · by_cases h2 : j = k
    · subst h2
      simp
    · by_cases h3 : j < k
      · have h4 : j < k + 1 := by omega
        simp [h1, h2, h3, h4]
      · have h4 : ¬ j < k + 1 := by omega
        simp [h1, h2, h3, h4]

theorem update_shiftedSlots {α : Type} (a : Nat → α) (k : Nat) :
    Function.update (shiftedSlots a k) k (shiftedSlots a k (k + 1)) = shiftedSlots a (k + 1) := by
  funext j
  unfold shiftedSlots
  simp only [Function.update_apply]
  by_cases h2 : j = k
  · subst h2
    simp
  · by_cases h3 : j < k
    · have h4 : j < k + 1 := by omega
      simp [h2, h3, h4]
    · have h4 : ¬ j < k + 1 := by omega
      simp [h2, h3, h4]

theorem copyClockBlock_apply (p : Nat → ℚ) (i j n : Nat) (hij : i < j) :
    copyClockBlock p i j n = if i * 4 ≤ n ∧ n < i * 4 + 4 then p (n + (j - i) * 4) else p n := by
  unfold copyClockBlock
  have hr : List.range 4 = [0, 1, 2, 3] := by decide
  rw [hr]
  simp only [List.foldl_cons, List.foldl_nil, Function.update_apply]
  have e0 : (j - i) * 4 = j * 4 - i * 4 := Nat.sub_mul j i 4
  split_ifs <;> first | rfl | (exfalso; omega) | (congr 1; omega)

theorem copyClockBlock_shiftedClock (p : Nat → ℚ) (k : Nat) :
    copyClockBlock (shiftedClock p k) k (k + 1) = shiftedClock p (k + 1) := by
  funext n
  rw [copyClockBlock_apply _ _ _ _ (Nat.lt_succ_self k)]
  unfold shiftedClock
  have h3 : (k + 1 - k) * 4 = 4 := by omega
  rw [h3]
  split_ifs <;> first | rfl | (exfalso; omega)

theorem slideWindow.shifted_zero (s : Estimator) : slideWindow.shifted s 0 = s := by
  unfold slideWindow.shifted
  simp only [rotatedSlots_zero, shiftedSlots_zero, shiftedClock_zero]

theorem slideWindow.shiftSlot_shifted (s : Estimator) (k : Nat) (himu : s.USE_IMU = true) :
    slideWindow.shiftSlot (slideWindow.shifted s k) k = slideWindow.shifted s (k + 1) := by
  unfold slideWindow.shiftSlot slideWindow.shifted
  simp only [himu, if_true, swapSlots_rotatedSlots, update_shiftedSlots,
    copyClockBlock_shiftedClock]

/-- The loop of the `MARGIN_OLD` branch, with IMU, in closed form. -/
theorem slideWindow.shiftLoop_eq (s : Estimator) (k : Nat) (himu : s.USE_IMU = true) :
    (List.range k).foldl slideWindow.shiftSlot s = slideWindow.shifted s k := by
  induction k with
  | zero => simp [slideWindow.shifted_zero]
  | succ k ih =>
    rw [List.range_succ, List.foldl_append, ih]
    simp only [List.foldl_cons, List.foldl_nil]
    exact slideWindow.shiftSlot_shifted s k himu

theorem slideWindow.shiftSlot_Headers (s : Estimator) (i : Nat) :
    (slideWindow.shiftSlot s i).Headers = Function.update s.Headers i (s.Headers (i + 1)) := by
  unfold slideWindow.shiftSlot
  by_cases h : s.USE_IMU = true <;> simp [h]

/-- The headers after the loop of the `MARGIN_OLD` branch, with or without IMU. -/
theorem slideWindow.shiftLoop_Headers (s : Estimator) (k : Nat) :
    ((List.range k).foldl slideWindow.shiftSlot s).Headers = shiftedSlots s.Headers k := by
  induction k with
  | zero => simp [shiftedSlots_zero]
  | succ k ih =>
    rw [List.range_succ, List.foldl_append]
    simp only [List.foldl_cons, List.foldl_nil]
    rw [slideWindow.shiftSlot_Headers, ih, update_shiftedSlots]

/-! ## `slideWindow`, branch `MARGIN_OLD` -/

theorem slideWindow.eraseImageFrames_defined (t_0 : Time) (m : List (Time × ImageFrame))
    (h : ∃ e, m.find? (fun e => decide (e.1 = t_0)) = some e ∧
      e.2.pre_integration ≠ Ptr.deleted) :
    ∃ m', slideWindow.eraseImageFrames t_0 m = some m' := by
  induction m with
  | nil =>
    obtain ⟨e, he, _⟩ := h
    simp at he
  | cons x xs ih =>
    unfold slideWindow.eraseImageFrames
    by_cases hx : x.1 = t_0
    · obtain ⟨e, he, hlive⟩ := h
      simp only [List.find?_cons, hx, decide_True, Option.some.injEq] at he
      subst he
      rw [if_pos hx]
      cases hp : x.2.pre_integration with
      | null => exact ⟨_, rfl⟩
      | live a => exact ⟨_, rfl⟩
      | deleted => exact absurd hp hlive
    · rw [if_neg hx]
      apply ih
      obtain ⟨e, he, hlive⟩ := h
      refine ⟨e, ?_, hlive⟩
      simpa [List.find?_cons, hx] using he

/-- The function `slideWindowOld` touches only `sum_of_back` and the feature manager. -/
theorem slideWindowOld_frame (s : Estimator) :
    (slideWindowOld s).Headers = s.Headers ∧ (slideWindowOld s).Ps = s.Ps ∧
    (slideWindowOld s).Rs = s.Rs ∧ (slideWindowOld s).Vs = s.Vs ∧
    (slideWindowOld s).Bas = s.Bas ∧ (slideWindowOld s).Bgs = s.Bgs ∧
    (slideWindowOld s).pre_integrations = s.pre_integrations ∧
    (slideWindowOld s).dt_buf = s.dt_buf ∧
    (slideWindowOld s).linear_acceleration_buf = s.linear_acceleration_buf ∧
    (slideWindowOld s).angular_velocity_buf = s.angular_velocity_buf ∧
    (slideWindowOld s).encoder_velocity_buf = s.encoder_velocity_buf ∧
    (slideWindowOld s).gnss_meas_buf = s.gnss_meas_buf ∧
    (slideWindowOld s).gnss_ephem_buf = s.gnss_ephem_buf ∧
    (slideWindowOld s).para_rcv_dt = s.para_rcv_dt ∧
    (slideWindowOld s).para_rcv_ddt = s.para_rcv_ddt := by
  unfold slideWindowOld
  by_cases h : s.solver_flag = SolverFlag.NON_LINEAR <;> simp [h]

/-- The state the `MARGIN_OLD` branch leaves, with IMU, from the state `s` at the loop entry
and the image-frame map `m` after the erasure. -/
theorem slideWindow.afterShift_loop_eq (W : Nat) (t_0 : Time) (s : Estimator)
    (m : List (Time × ImageFrame)) (himu : s.USE_IMU = true)
    (hm : slideWindow.eraseImageFrames t_0 s.all_image_frame = some m) :
    slideWindow.afterShift W t_0 ((List.range W).foldl slideWindow.shiftSlot s) =
      some (slideWindowOld (slideWindow.shiftedReseeded W s m)) := by
  rw [slideWindow.shiftLoop_eq s W himu]
  unfold slideWindow.afterShift slideWindow.shiftedReseeded
  simp only [slideWindow.shifted, himu, if_true, hm, slideWindow.reseedLast,
    slideWindow.freshPreIntegration]

theorem slideWindow.shiftedReseeded_slot (W : Nat) (s : Estimator)
    (m : List (Time × ImageFrame)) (i : Nat) (hi : i < W) :
    (slideWindow.shiftedReseeded W s m).Headers i = s.Headers (i + 1) ∧
    (slideWindow.shiftedReseeded W s m).Ps i = s.Ps (i + 1) ∧
    (slideWindow.shiftedReseeded W s m).Rs i = s.Rs (i + 1) ∧
    (slideWindow.shiftedReseeded W s m).Vs i = s.Vs (i + 1) ∧
    (slideWindow.shiftedReseeded W s m).Bas i = s.Bas (i + 1) ∧
    (slideWindow.shiftedReseeded W s m).Bgs i = s.Bgs (i + 1) ∧
    (slideWindow.shiftedReseeded W s m).pre_integrations i = s.pre_integrations (i + 1) ∧
    (slideWindow.shiftedReseeded W s m).dt_buf i = s.dt_buf (i + 1) ∧
    (slideWindow.shiftedReseeded W s m).linear_acceleration_buf i =
      s.linear_acceleration_buf (i + 1) ∧
    (slideWindow.shiftedReseeded W s m).angular_velocity_buf i =
      s.angular_velocity_buf (i + 1) ∧
    (slideWindow.shiftedReseeded W s m).encoder_velocity_buf i =
      s.encoder_velocity_buf (i + 1) ∧
    (slideWindow.shiftedReseeded W s m).gnss_meas_buf i = s.gnss_meas_buf (i + 1) ∧
    (slideWindow.shiftedReseeded W s m).gnss_ephem_buf i = s.gnss_ephem_buf (i + 1) ∧
    (slideWindow.shiftedReseeded W s m).para_rcv_ddt i = s.para_rcv_ddt (i + 1) ∧
    (∀ k, k < 4 → (slideWindow.shiftedReseeded W s m).para_rcv_dt (i * 4 + k) =
      s.para_rcv_dt ((i + 1) * 4 + k)) := by
  have hne : i ≠ W := by omega
  simp only [slideWindow.shiftedReseeded, slideWindow.reseedLast,
    slideWindow.freshPreIntegration, slideWindow.shifted, Function.update_apply, hne, if_false,
    rotatedSlots, shiftedSlots, hi, if_true, true_and]
  intro k hk
  unfold shiftedClock
  have h1 : i * 4 + k < 4 * W := by omega
  rw [if_pos h1]
  congr 1
  omega

theorem slideWindow.shiftedReseeded_last (W : Nat) (s : Estimator)
    (m : List (Time × ImageFrame)) (hW : 0 < W) :
    (slideWindow.shiftedReseeded W s m).Headers W = s.Headers W ∧
    (slideWindow.shiftedReseeded W s m).Ps W = s.Ps W ∧
    (slideWindow.shiftedReseeded W s m).Rs W = s.Rs W ∧
    (slideWindow.shiftedReseeded W s m).Vs W = s.Vs W ∧
    (slideWindow.shiftedReseeded W s m).Bas W = s.Bas W ∧
    (slideWindow.shiftedReseeded W s m).Bgs W = s.Bgs W ∧
    (slideWindow.shiftedReseeded W s m).pre_integrations W =
      some (IntegrationBase.create s.acc_0 s.gyr_0 (s.Bas W) (s.Bgs W)
        (if s.ENCODER_ENABLE then some s.enc_v_0 else none)) ∧
    (slideWindow.shiftedReseeded W s m).dt_buf W = [] ∧
    (slideWindow.shiftedReseeded W s m).linear_acceleration_buf W = [] ∧
    (slideWindow.shiftedReseeded W s m).angular_velocity_buf W = [] ∧
    (slideWindow.shiftedReseeded W s m).encoder_velocity_buf W = [] ∧
    (slideWindow.shiftedReseeded W s m).gnss_meas_buf W = [] ∧
    (slideWindow.shiftedReseeded W s m).gnss_ephem_buf W = [] := by
  have h1 : W - 1 < W := by omega
  have h2 : W - 1 + 1 = W := by omega
  simp only [slideWindow.shiftedReseeded, slideWindow.reseedLast,
    slideWindow.freshPreIntegration, slideWindow.shifted, Function.update_same,
    rotatedSlots, shiftedSlots, h1, if_true, h2, and_self]

/-- The `MARGIN_OLD` branch on a full window is the loop followed by the statements after
it. -/
theorem slideWindow_old_unfold (W : Nat) (s : Estimator) (hW : 0 < W)
    (hflag : s.marginalization_flag = MarginalizationFlag.MARGIN_OLD)
    (hfc : s.frame_count = W) :
    slideWindow W s = slideWindow.afterShift W (s.Headers 0)
      ((List.range W).foldl slideWindow.shiftSlot
        { s with back_R0 := s.Rs 0, back_P0 := s.Ps 0 }) := by
  have hW0 : W ≠ 0 := by omega
  unfold slideWindow
  rw [hflag]
  simp only
  rw [if_pos hfc, if_neg hW0]

/-- C6. `slideWindow` with `marginalization_flag == MARGIN_OLD`, `frame_count == WINDOW_SIZE` and
IMU enabled, on a state whose evicted header `Headers[0]` is a key of `all_image_frame` with a
temporary pre-integration not yet deleted: the call returns a state `s'` in which, for every
`i` in `[0, W-1]`, slot `i` of `Headers`, `Ps`, `Rs`, `Vs`, `Bas`, `Bgs`, `pre_integrations`,
the four raw-sample buffers, the GNSS observation and ephemeris buffers, `para_rcv_ddt` and
the block `para_rcv_dt[i*4 .. i*4+3]` is the old slot `i + 1`; slot `W` of `Headers`, `Ps`,
`Rs`, `Vs`, `Bas`, `Bgs` equals the new slot `W - 1`, which is the old slot `W`; the
raw-sample and GNSS buffers of slot `W` are empty; and `pre_integrations[W]` is a fresh
pre-integration at the last biases. -/
theorem slideWindow_margin_old (W : Nat) (s : Estimator) (hW : 0 < W)
    (hflag : s.marginalization_flag = MarginalizationFlag.MARGIN_OLD)
    (hfc : s.frame_count = W) (himu : s.USE_IMU = true)
    (hframe : ∃ e, s.all_image_frame.find? (fun e => decide (e.1 = s.Headers 0)) = some e ∧
      e.2.pre_integration ≠ Ptr.deleted) :
    ∃ s', slideWindow W s = some s' ∧
      (∀ i, i < W →
        s'.Headers i = s.Headers (i + 1) ∧ s'.Ps i = s.Ps (i + 1) ∧ s'.Rs i = s.Rs (i + 1) ∧
        s'.Vs i = s.Vs (i + 1) ∧ s'.Bas i = s.Bas (i + 1) ∧ s'.Bgs i = s.Bgs (i + 1) ∧
        s'.pre_integrations i = s.pre_integrations (i + 1) ∧
        s'.dt_buf i = s.dt_buf (i + 1) ∧
        s'.linear_acceleration_buf i = s.linear_acceleration_buf (i + 1) ∧
        s'.angular_velocity_buf i = s.angular_velocity_buf (i + 1) ∧
        s'.encoder_velocity_buf i = s.encoder_velocity_buf (i + 1) ∧
        s'.gnss_meas_buf i = s.gnss_meas_buf (i + 1) ∧
        s'.gnss_ephem_buf i = s.gnss_ephem_buf (i + 1) ∧
        s'.para_rcv_ddt i = s.para_rcv_ddt (i + 1) ∧
        (∀ k, k < 4 → s'.para_rcv_dt (i * 4 + k) = s.para_rcv_dt ((i + 1) * 4 + k))) ∧
      (s'.Headers W = s'.Headers (W - 1) ∧ s'.Ps W = s'.Ps (W - 1) ∧
        s'.Rs W = s'.Rs (W - 1) ∧ s'.Vs W = s'.Vs (W - 1) ∧ s'.Bas W = s'.Bas (W - 1) ∧
        s'.Bgs W = s'.Bgs (W - 1)) ∧
      (s'.Headers W = s.Headers W ∧ s'.Ps W = s.Ps W ∧ s'.Rs W = s.Rs W ∧
        s'.Vs W = s.Vs W ∧ s'.Bas W = s.Bas W ∧ s'.Bgs W = s.Bgs W) ∧
      (s'.dt_buf W = [] ∧ s'.linear_acceleration_buf W = [] ∧
        s'.angular_velocity_buf W = [] ∧ s'.encoder_velocity_buf W = [] ∧
        s'.gnss_meas_buf W = [] ∧ s'.gnss_ephem_buf W = []) ∧
      s'.pre_integrations W =
        some (IntegrationBase.create s.acc_0 s.gyr_0 (s.Bas W) (s.Bgs W)
          (if s.ENCODER_ENABLE then some s.enc_v_0 else none)) := by
  obtain ⟨m, hm⟩ := slideWindow.eraseImageFrames_defined _ _ hframe
  have h := slideWindow_old_unfold W s hW hflag hfc
  rw [slideWindow.afterShift_loop_eq W (s.Headers 0)
    { s with back_R0 := s.Rs 0, back_P0 := s.Ps 0 } m himu hm] at h
  obtain ⟨f1, f2, f3, f4, f5, f6, f7, f8, f9, f10, f11, f12, f13, f14, f15⟩ :=
    slideWindowOld_frame
      (slideWindow.shiftedReseeded W { s with back_R0 := s.Rs 0, back_P0 := s.Ps 0 } m)
  have hslot := slideWindow.shiftedReseeded_slot W
    { s with back_R0 := s.Rs 0, back_P0 := s.Ps 0 } m
  obtain ⟨l1, l2, l3, l4, l5, l6, l7, l8, l9, l10, l11, l12, l13⟩ :=
    slideWindow.shiftedReseeded_last W { s with back_R0 := s.Rs 0, back_P0 := s.Ps 0 } m hW
  obtain ⟨p1, p2, p3, p4, p5, p6, _⟩ := hslot (W - 1) (by omega)
  have hW1 : W - 1 + 1 = W := by omega
  rw [hW1] at p1 p2 p3 p4 p5 p6
  refine ⟨_, h, ?_, ?_, ?_, ?_, ?_⟩
  · intro i hi
    rw [f1, f2, f3, f4, f5, f6, f7, f8, f9, f10, f11, f12, f13, f14, f15]
    exact hslot i hi
  · rw [f1, f2, f3, f4, f5, f6, l1, l2, l3, l4, l5, l6, p1, p2, p3, p4, p5, p6]
    exact ⟨rfl, rfl, rfl, rfl, rfl, rfl⟩
  · rw [f1, f2, f3, f4, f5, f6]
    exact ⟨l1, l2, l3, l4, l5, l6⟩
  · rw [f8, f9, f10, f11, f12, f13]
    exact ⟨l8, l9, l10, l11, l12, l13⟩
  · rw [f7]
    exact l7

/-- Witness of C6: the full window `exampleWindowOld` with `W = 2`. -/
theorem slideWindow_margin_old_witness :
    ∃ s', slideWindow 2 exampleWindowOld = some s' ∧
      (∀ i, i < 2 →
        s'.Headers i = exampleWindowOld.Headers (i + 1) ∧
        s'.Ps i = exampleWindowOld.Ps (i + 1) ∧ s'.Rs i = exampleWindowOld.Rs (i + 1) ∧
        s'.Vs i = exampleWindowOld.Vs (i + 1) ∧ s'.Bas i = exampleWindowOld.Bas (i + 1) ∧
        s'.Bgs i = exampleWindowOld.Bgs (i + 1) ∧
        s'.pre_integrations i = exampleWindowOld.pre_integrations (i + 1) ∧
        s'.dt_buf i = exampleWindowOld.dt_buf (i + 1) ∧
        s'.linear_acceleration_buf i = exampleWindowOld.linear_acceleration_buf (i + 1) ∧
        s'.angular_velocity_buf i = exampleWindowOld.angular_velocity_buf (i + 1) ∧
        s'.encoder_velocity_buf i = exampleWindowOld.encoder_velocity_buf (i + 1) ∧
        s'.gnss_meas_buf i = exampleWindowOld.gnss_meas_buf (i + 1) ∧
        s'.gnss_ephem_buf i = exampleWindowOld.gnss_ephem_buf (i + 1) ∧
        s'.para_rcv_ddt i = exampleWindowOld.para_rcv_ddt (i + 1) ∧
        (∀ k, k < 4 →
          s'.para_rcv_dt (i * 4 + k) = exampleWindowOld.para_rcv_dt ((i + 1) * 4 + k))) ∧
      (s'.Headers 2 = s'.Headers (2 - 1) ∧ s'.Ps 2 = s'.Ps (2 - 1) ∧
        s'.Rs 2 = s'.Rs (2 - 1) ∧ s'.Vs 2 = s'.Vs (2 - 1) ∧ s'.Bas 2 = s'.Bas (2 - 1) ∧
        s'.Bgs 2 = s'.Bgs (2 - 1)) ∧
      (s'.Headers 2 = exampleWindowOld.Headers 2 ∧ s'.Ps 2 = exampleWindowOld.Ps 2 ∧
        s'.Rs 2 = exampleWindowOld.Rs 2 ∧ s'.Vs 2 = exampleWindowOld.Vs 2 ∧
        s'.Bas 2 = exampleWindowOld.Bas 2 ∧ s'.Bgs 2 = exampleWindowOld.Bgs 2) ∧
      (s'.dt_buf 2 = [] ∧ s'.linear_acceleration_buf 2 = [] ∧
        s'.angular_velocity_buf 2 = [] ∧ s'.encoder_velocity_buf 2 = [] ∧
        s'.gnss_meas_buf 2 = [] ∧ s'.gnss_ephem_buf 2 = []) ∧
      s'.pre_integrations 2 =
        some (IntegrationBase.create exampleWindowOld.acc_0 exampleWindowOld.gyr_0
          (exampleWindowOld.Bas 2) (exampleWindowOld.Bgs 2)
          (if exampleWindowOld.ENCODER_ENABLE then some exampleWindowOld.enc_v_0 else none)) :=
  slideWindow_margin_old 2 exampleWindowOld (by decide) rfl rfl rfl
    ⟨(0, { pre_integration := Ptr.null }), by decide, by decide⟩

/-! ## `slideWindow`, branch `MARGIN_SECOND_NEW` -/

theorem slideWindow.folded_zero (s : Estimator) (p : IntegrationBase)
    (hp : s.pre_integrations (s.frame_count - 1) = some p) : slideWindow.folded s p 0 = s := by
  unfold slideWindow.folded slideWindow.foldedSamples
  simp only [List.range_zero, List.map_nil, List.append_nil, List.take_zero, ← hp,
    Function.update_eq_self, ite_self]

theorem slideWindow.foldedSamples_succ (s : Estimator) (k : Nat) :
    slideWindow.foldedSamples s (k + 1) = slideWindow.foldedSamples s k ++
      [{ dt := (s.dt_buf s.frame_count).getD k 0
         acc := (s.linear_acceleration_buf s.frame_count).getD k (0, 0, 0)
         gyr := (s.angular_velocity_buf s.frame_count).getD k (0, 0, 0)
         enc := if s.ENCODER_ENABLE then
             some ((s.encoder_velocity_buf s.frame_count).getD k ((0, 0, 0), (0, 0, 0)))
           else none }] := by
  unfold slideWindow.foldedSamples
  rw [List.range_succ, List.map_append]
  rfl

theorem take_succ_of_lt {γ : Type} (l : List γ) (k : Nat) (h : k < l.length) :
    l.take (k + 1) = l.take k ++ [l[k]] := by
  rw [List.take_succ, List.getElem?_eq_getElem h]
  rfl

/-- One pass of the loop of the `MARGIN_SECOND_NEW` branch. -/
theorem slideWindow.foldSample_folded (s : Estimator) (p : IntegrationBase) (k : Nat)
    (hfc : 0 < s.frame_count) (hdt : k < (s.dt_buf s.frame_count).length)
    (hacc : k < (s.linear_acceleration_buf s.frame_count).length)
    (hgyr : k < (s.angular_velocity_buf s.frame_count).length)
    (henc : s.ENCODER_ENABLE = true → k < (s.encoder_velocity_buf s.frame_count).length) :
    slideWindow.foldSample (slideWindow.folded s p k) k = some (slideWindow.folded s p (k + 1)) := by
  have hne : s.frame_count ≠ s.frame_count - 1 := by omega
  unfold slideWindow.foldSample
  have e1 : (slideWindow.folded s p k).frame_count = s.frame_count := rfl
  have e2 : (slideWindow.folded s p k).dt_buf s.frame_count = s.dt_buf s.frame_count := by
    simp [slideWindow.folded, Function.update_apply, hne]
  have e3 : (slideWindow.folded s p k).linear_acceleration_buf s.frame_count =
      s.linear_acceleration_buf s.frame_count := by
    simp [slideWindow.folded, Function.update_apply, hne]
  have e4 : (slideWindow.folded s p k).angular_velocity_buf s.frame_count =
      s.angular_velocity_buf s.frame_count := by
    simp [slideWindow.folded, Function.update_apply, hne]
  have e5 : (slideWindow.folded s p k).encoder_velocity_buf s.frame_count =
      s.encoder_velocity_buf s.frame_count := by
    by_cases he : s.ENCODER_ENABLE = true <;>
      simp [slideWindow.folded, Function.update_apply, hne, he]
  have e6 : (slideWindow.folded s p k).ENCODER_ENABLE = s.ENCODER_ENABLE := rfl
  rw [e1, e2, e3, e4, e5, e6, List.getElem?_eq_getElem hdt, List.getElem?_eq_getElem hacc,
    List.getElem?_eq_getElem hgyr]
  simp only
  by_cases he : s.ENCODER_ENABLE = true
  · have hk := henc he
    rw [if_pos he, List.getElem?_eq_getElem hk]
    simp only [slideWindow.folded, Function.update_same, he, if_true, Function.update_idem,
      IntegrationBase.push_back, slideWindow.foldedSamples_succ, take_succ_of_lt _ _ hdt,
      take_succ_of_lt _ _ hacc, take_succ_of_lt _ _ hgyr, take_succ_of_lt _ _ hk,
      List.getD_eq_getElem _ _ hdt, List.getD_eq_getElem _ _ hacc,
      List.getD_eq_getElem _ _ hgyr, List.getD_eq_getElem _ _ hk, List.append_assoc]
  · rw [if_neg he]
    simp only [slideWindow.folded, Function.update_same, he, if_false, Function.update_idem,
      IntegrationBase.push_back, slideWindow.foldedSamples_succ, take_succ_of_lt _ _ hdt,
      take_succ_of_lt _ _ hacc, take_succ_of_lt _ _ hgyr, Bool.false_eq_true,
      List.getD_eq_getElem _ _ hdt, List.getD_eq_getElem _ _ hacc,
      List.getD_eq_getElem _ _ hgyr, List.append_assoc]

theorem slideWindow.folded_dt_buf (s : Estimator) (p : IntegrationBase) (k : Nat)
    (hfc : 0 < s.frame_count) :
    (slideWindow.folded s p k).dt_buf (slideWindow.folded s p k).frame_count =
      s.dt_buf s.frame_count := by
  have hne : s.frame_count ≠ s.frame_count - 1 := by omega
  simp [slideWindow.folded, Function.update_apply, hne]

/-- The loop of the `MARGIN_SECOND_NEW` branch from pass `i` on, `j` passes before its end. -/
theorem slideWindow.foldLoop_folded (s : Estimator) (p : IntegrationBase)
    (hfc : 0 < s.frame_count)
    (hacc : (s.dt_buf s.frame_count).length ≤ (s.linear_acceleration_buf s.frame_count).length)
    (hgyr : (s.dt_buf s.frame_count).length ≤ (s.angular_velocity_buf s.frame_count).length)
    (henc : s.ENCODER_ENABLE = true →
      (s.dt_buf s.frame_count).length ≤ (s.encoder_velocity_buf s.frame_count).length)
    (j fuel i : Nat) (hij : i + j = (s.dt_buf s.frame_count).length) (hfuel : j < fuel) :
    slideWindow.foldLoop fuel i (slideWindow.folded s p i) =
      some (slideWindow.folded s p (s.dt_buf s.frame_count).length) := by
  induction j generalizing fuel i with
  | zero =>
    cases fuel with
    | zero => omega
    | succ f =>
      unfold slideWindow.foldLoop
      rw [slideWindow.folded_dt_buf s p i hfc]
      have hi : ¬ i < (s.dt_buf s.frame_count).length := by omega
      have hi' : i = (s.dt_buf s.frame_count).length := by omega
      rw [if_neg hi, ← hi']
  | succ j ih =>
    cases fuel with
    | zero => omega
    | succ f =>
      unfold slideWindow.foldLoop
      rw [slideWindow.folded_dt_buf s p i hfc]
      have hi : i < (s.dt_buf s.frame_count).length := by omega
      rw [if_pos hi, slideWindow.foldSample_folded s p i hfc hi (by omega) (by omega)
        (fun he => by have := henc he; omega)]
      exact ih f (i + 1) (by omega) (by omega)

/-- The `MARGIN_SECOND_NEW` branch on a full window, with IMU, in closed form. -/
theorem slideWindow_second_new_eq (W : Nat) (s : Estimator) (p : IntegrationBase) (hW : 0 < W)
    (hflag : s.marginalization_flag = MarginalizationFlag.MARGIN_SECOND_NEW)
    (hfc : s.frame_count = W) (himu : s.USE_IMU = true)
    (hp : s.pre_integrations (W - 1) = some p)
    (hacc : (s.dt_buf W).length ≤ (s.linear_acceleration_buf W).length)
    (hgyr : (s.dt_buf W).length ≤ (s.angular_velocity_buf W).length)
    (henc : s.ENCODER_ENABLE = true → (s.dt_buf W).length ≤ (s.encoder_velocity_buf W).length) :
    slideWindow W s = some (slideWindow.mergedFolded W s p) := by
  subst hfc
  have hW0 : s.frame_count ≠ 0 := by omega
  have h1 : slideWindow s.frame_count s = slideWindow.secondNew s.frame_count s := by
    unfold slideWindow
    rw [hflag]
    simp [hW0]
  rw [h1]
  unfold slideWindow.secondNew slideWindow.mergedFolded
  simp only
  rw [if_pos himu]
  have hz := slideWindow.folded_zero
    { s with
      Headers := Function.update s.Headers (s.frame_count - 1) (s.Headers s.frame_count)
      Ps := Function.update s.Ps (s.frame_count - 1) (s.Ps s.frame_count)
      Rs := Function.update s.Rs (s.frame_count - 1) (s.Rs s.frame_count) } p hp
  have hl := slideWindow.foldLoop_folded
    { s with
      Headers := Function.update s.Headers (s.frame_count - 1) (s.Headers s.frame_count)
      Ps := Function.update s.Ps (s.frame_count - 1) (s.Ps s.frame_count)
      Rs := Function.update s.Rs (s.frame_count - 1) (s.Rs s.frame_count) } p hW hacc hgyr henc
    (s.dt_buf s.frame_count).length ((s.dt_buf s.frame_count).length + 1) 0 (by simp)
    (Nat.lt_succ_self _)
  rw [hz] at hl
  simp only at hl
  rw [hl]

theorem IntegrationBase.foldl_push_back (p : IntegrationBase) (xs : List RawSample) :
    xs.foldl (fun q x => IntegrationBase.push_back q x.dt x.acc x.gyr x.enc) p =
      { p with samples := p.samples ++ xs } := by
  induction xs generalizing p with
  | nil => simp
  | cons x xs ih =>
    rw [List.foldl_cons, ih]
    simp [IntegrationBase.push_back]

theorem slideWindow.foldedSamples_maps (s : Estimator) (k : Nat)
    (hdt : k ≤ (s.dt_buf s.frame_count).length)
    (hacc : k ≤ (s.linear_acceleration_buf s.frame_count).length)
    (hgyr : k ≤ (s.angular_velocity_buf s.frame_count).length)
    (henc : s.ENCODER_ENABLE = true → k ≤ (s.encoder_velocity_buf s.frame_count).length) :
    (slideWindow.foldedSamples s k).map (fun x => x.dt) = (s.dt_buf s.frame_count).take k ∧
    (slideWindow.foldedSamples s k).map (fun x => x.acc) =
      (s.linear_acceleration_buf s.frame_count).take k ∧
    (slideWindow.foldedSamples s k).map (fun x => x.gyr) =
      (s.angular_velocity_buf s.frame_count).take k ∧
    (slideWindow.foldedSamples s k).map (fun x => x.enc) =
      if s.ENCODER_ENABLE then ((s.encoder_velocity_buf s.frame_count).take k).map some
      else List.replicate k none := by
  induction k with
  | zero => simp [slideWindow.foldedSamples]
  | succ k ih =>
    obtain ⟨i1, i2, i3, i4⟩ := ih (by omega) (by omega) (by omega)
      (fun he => by have := henc he; omega)
    rw [slideWindow.foldedSamples_succ]
    simp only [List.map_append, List.map_cons, List.map_nil, i1, i2, i3, i4]
    refine ⟨?_, ?_, ?_, ?_⟩
    · rw [take_succ_of_lt _ _ (by omega), List.getD_eq_getElem _ _ (by omega)]
    · rw [take_succ_of_lt _ _ (by omega), List.getD_eq_getElem _ _ (by omega)]
    · rw [take_succ_of_lt _ _ (by omega), List.getD_eq_getElem _ _ (by omega)]
    · by_cases he : s.ENCODER_ENABLE = true
      · have hk := henc he
        rw [if_pos he, if_pos he, if_pos he, take_succ_of_lt _ _ (by omega),
          List.getD_eq_getElem _ _ (by omega)]
        simp only [List.map_append, List.map_cons, List.map_nil]
      · rw [if_neg he, if_neg he, if_neg he, List.replicate_succ']

/-- The slots below `frame_count - 1` after the `MARGIN_SECOND_NEW` branch. -/
theorem slideWindow.mergedFolded_low (s : Estimator) (p : IntegrationBase) (i : Nat)
    (hi : i + 1 < s.frame_count) :
    (slideWindow.mergedFolded s.frame_count s p).Headers i = s.Headers i ∧
    (slideWindow.mergedFolded s.frame_count s p).Ps i = s.Ps i ∧
    (slideWindow.mergedFolded s.frame_count s p).Rs i = s.Rs i ∧
    (slideWindow.mergedFolded s.frame_count s p).Vs i = s.Vs i ∧
    (slideWindow.mergedFolded s.frame_count s p).Bas i = s.Bas i ∧
    (slideWindow.mergedFolded s.frame_count s p).Bgs i = s.Bgs i ∧
    (slideWindow.mergedFolded s.frame_count s p).pre_integrations i = s.pre_integrations i ∧
    (slideWindow.mergedFolded s.frame_count s p).dt_buf i = s.dt_buf i ∧
    (slideWindow.mergedFolded s.frame_count s p).linear_acceleration_buf i =
      s.linear_acceleration_buf i ∧
    (slideWindow.mergedFolded s.frame_count s p).angular_velocity_buf i =
      s.angular_velocity_buf i ∧
    (slideWindow.mergedFolded s.frame_count s p).encoder_velocity_buf i =
      s.encoder_velocity_buf i ∧
    (slideWindow.mergedFolded s.frame_count s p).gnss_meas_buf i = s.gnss_meas_buf i ∧
    (slideWindow.mergedFolded s.frame_count s p).gnss_ephem_buf i = s.gnss_ephem_buf i ∧
    (slideWindow.mergedFolded s.frame_count s p).para_rcv_ddt i = s.para_rcv_ddt i ∧
    (∀ k, k < 4 → (slideWindow.mergedFolded s.frame_count s p).para_rcv_dt (i * 4 + k) =
      s.para_rcv_dt (i * 4 + k)) := by
  have h1 : i ≠ s.frame_count - 1 := by omega
  have h2 : i ≠ s.frame_count := by omega
  have hlt : s.frame_count - 1 < s.frame_count := by omega
  have henc : (slideWindow.mergedFolded s.frame_count s p).encoder_velocity_buf i =
      s.encoder_velocity_buf i := by
    by_cases he : s.ENCODER_ENABLE = true <;>
      simp [slideWindow.mergedFolded, slideWindowNew, slideWindow.mergeLast,
        slideWindow.freshPreIntegration, slideWindow.folded, Function.update_apply, h1, he]
  refine ⟨?_, ?_, ?_, ?_, ?_, ?_, ?_, ?_, ?_, ?_, henc, ?_, ?_, ?_, ?_⟩
  all_goals try
    simp only [slideWindow.mergedFolded, slideWindowNew, slideWindow.mergeLast,
      slideWindow.freshPreIntegration, slideWindow.folded, Function.update_apply, h1, h2,
      if_false]
  intro k hk
  rw [copyClockBlock_apply _ _ _ _ hlt]
  have h3 : ¬ ((s.frame_count - 1) * 4 ≤ i * 4 + k ∧ i * 4 + k < (s.frame_count - 1) * 4 + 4) := by
    omega
  rw [if_neg h3]

/-- Slot `frame_count - 1` after the `MARGIN_SECOND_NEW` branch. -/
theorem slideWindow.mergedFolded_merged (s : Estimator) (p : IntegrationBase)
    (hW : 0 < s.frame_count) :
    (slideWindow.mergedFolded s.frame_count s p).Headers (s.frame_count - 1) =
      s.Headers s.frame_count ∧
    (slideWindow.mergedFolded s.frame_count s p).Ps (s.frame_count - 1) = s.Ps s.frame_count ∧
    (slideWindow.mergedFolded s.frame_count s p).Rs (s.frame_count - 1) = s.Rs s.frame_count ∧
    (slideWindow.mergedFolded s.frame_count s p).Vs (s.frame_count - 1) = s.Vs s.frame_count ∧
    (slideWindow.mergedFolded s.frame_count s p).Bas (s.frame_count - 1) =
      s.Bas s.frame_count ∧
    (slideWindow.mergedFolded s.frame_count s p).Bgs (s.frame_count - 1) =
      s.Bgs s.frame_count ∧
    (slideWindow.mergedFolded s.frame_count s p).dt_buf (s.frame_count - 1) =
      s.dt_buf (s.frame_count - 1) ++
        (s.dt_buf s.frame_count).take (s.dt_buf s.frame_count).length ∧
    (slideWindow.mergedFolded s.frame_count s p).linear_acceleration_buf (s.frame_count - 1) =
      s.linear_acceleration_buf (s.frame_count - 1) ++
        (s.linear_acceleration_buf s.frame_count).take (s.dt_buf s.frame_count).length ∧
    (slideWindow.mergedFolded s.frame_count s p).angular_velocity_buf (s.frame_count - 1) =
      s.angular_velocity_buf (s.frame_count - 1) ++
        (s.angular_velocity_buf s.frame_count).take (s.dt_buf s.frame_count).length ∧
    (slideWindow.mergedFolded s.frame_count s p).pre_integrations (s.frame_count - 1) =
      some { p with samples := p.samples ++
        slideWindow.foldedSamples s (s.dt_buf s.frame_count).length } := by
  have h1 : s.frame_count - 1 ≠ s.frame_count := by omega
  simp only [slideWindow.mergedFolded, slideWindowNew, slideWindow.mergeLast,
    slideWindow.freshPreIntegration, slideWindow.folded, Function.update_apply, h1,
    if_false, if_true, true_and]
  rfl

/-- Slot `WINDOW_SIZE` after the `MARGIN_SECOND_NEW` branch: the buffers `dt_buf`,
`linear_acceleration_buf`, `angular_velocity_buf` and the GNSS buffers are cleared, the buffer
`encoder_velocity_buf` is left as it was. -/
theorem slideWindow.mergedFolded_last (s : Estimator) (p : IntegrationBase)
    (hW : 0 < s.frame_count) :
    (slideWindow.mergedFolded s.frame_count s p).dt_buf s.frame_count = [] ∧
    (slideWindow.mergedFolded s.frame_count s p).linear_acceleration_buf s.frame_count = [] ∧
    (slideWindow.mergedFolded s.frame_count s p).angular_velocity_buf s.frame_count = [] ∧
    (slideWindow.mergedFolded s.frame_count s p).gnss_meas_buf s.frame_count = [] ∧
    (slideWindow.mergedFolded s.frame_count s p).gnss_ephem_buf s.frame_count = [] ∧
    (slideWindow.mergedFolded s.frame_count s p).encoder_velocity_buf s.frame_count =
      s.encoder_velocity_buf s.frame_count := by
  have h1 : s.frame_count ≠ s.frame_count - 1 := by omega
  by_cases he : s.ENCODER_ENABLE = true <;>
    simp [slideWindow.mergedFolded, slideWindowNew, slideWindow.mergeLast,
      slideWindow.freshPreIntegration, slideWindow.folded, Function.update_apply, h1, he]

/-- C7. `slideWindow` with `marginalization_flag == MARGIN_SECOND_NEW`,
`frame_count == WINDOW_SIZE` and IMU enabled, on a state whose slot `W - 1` has a
pre-integration `p` and whose slot `W` has raw-sample buffers of one length (with the encoder,
an encoder buffer at least as long): the call returns a state `s'` in which slots `0..W-2` of
every per-frame array are unchanged; slot `W - 1` of `Headers`, `Ps`, `Rs`, `Vs`, `Bas`, `Bgs`
is the old slot `W`; `dt_buf[W-1]`, `linear_acceleration_buf[W-1]` and
`angular_velocity_buf[W-1]` are their old contents followed by the old contents of slot `W`;
and `pre_integrations[W-1]` is `p` after one `push_back` per folded sample, in order, the
samples `pushed` being those of slot `W`. -/
theorem slideWindow_margin_second_new (W : Nat) (s : Estimator) (p : IntegrationBase)
    (hW : 0 < W) (hflag : s.marginalization_flag = MarginalizationFlag.MARGIN_SECOND_NEW)
    (hfc : s.frame_count = W) (himu : s.USE_IMU = true)
    (hp : s.pre_integrations (W - 1) = some p)
    (hacc : (s.linear_acceleration_buf W).length = (s.dt_buf W).length)
    (hgyr : (s.angular_velocity_buf W).length = (s.dt_buf W).length)
    (henc : s.ENCODER_ENABLE = true → (s.dt_buf W).length ≤ (s.encoder_velocity_buf W).length) :
    ∃ (s' : Estimator) (pushed : List RawSample), slideWindow W s = some s' ∧
      (∀ i, i + 1 < W →
        s'.Headers i = s.Headers i ∧ s'.Ps i = s.Ps i ∧ s'.Rs i = s.Rs i ∧
        s'.Vs i = s.Vs i ∧ s'.Bas i = s.Bas i ∧ s'.Bgs i = s.Bgs i ∧
        s'.pre_integrations i = s.pre_integrations i ∧
        s'.dt_buf i = s.dt_buf i ∧
        s'.linear_acceleration_buf i = s.linear_acceleration_buf i ∧
        s'.angular_velocity_buf i = s.angular_velocity_buf i ∧
        s'.encoder_velocity_buf i = s.encoder_velocity_buf i ∧
        s'.gnss_meas_buf i = s.gnss_meas_buf i ∧
        s'.gnss_ephem_buf i = s.gnss_ephem_buf i ∧
        s'.para_rcv_ddt i = s.para_rcv_ddt i ∧
        (∀ k, k < 4 → s'.para_rcv_dt (i * 4 + k) = s.para_rcv_dt (i * 4 + k))) ∧
      (s'.Headers (W - 1) = s.Headers W ∧ s'.Ps (W - 1) = s.Ps W ∧
        s'.Rs (W - 1) = s.Rs W ∧ s'.Vs (W - 1) = s.Vs W ∧ s'.Bas (W - 1) = s.Bas W ∧
        s'.Bgs (W - 1) = s.Bgs W) ∧
      (s'.dt_buf (W - 1) = s.dt_buf (W - 1) ++ s.dt_buf W ∧
        s'.linear_acceleration_buf (W - 1) =
          s.linear_acceleration_buf (W - 1) ++ s.linear_acceleration_buf W ∧
        s'.angular_velocity_buf (W - 1) =
          s.angular_velocity_buf (W - 1) ++ s.angular_velocity_buf W) ∧
      s'.pre_integrations (W - 1) =
        some (pushed.foldl (fun q x => IntegrationBase.push_back q x.dt x.acc x.gyr x.enc) p) ∧
      pushed.map (fun x => x.dt) = s.dt_buf W ∧
      pushed.map (fun x => x.acc) = s.linear_acceleration_buf W ∧
      pushed.map (fun x => x.gyr) = s.angular_velocity_buf W ∧
      pushed.map (fun x => x.enc) =
        (if s.ENCODER_ENABLE then ((s.encoder_velocity_buf W).take (s.dt_buf W).length).map some
         else List.replicate (s.dt_buf W).length none) := by
  subst hfc
  have heq := slideWindow_second_new_eq s.frame_count s p hW hflag rfl himu hp
    (le_of_eq hacc.symm) (le_of_eq hgyr.symm) henc
  obtain ⟨m1, m2, m3, m4, m5, m6, m7, m8, m9, m10⟩ := slideWindow.mergedFolded_merged s p hW
  obtain ⟨q1, q2, q3, q4⟩ := slideWindow.foldedSamples_maps s (s.dt_buf s.frame_count).length
    (le_refl _) (le_of_eq hacc.symm) (le_of_eq hgyr.symm) henc
  rw [List.take_length] at q1 m7
  rw [List.take_of_length_le (le_of_eq hacc)] at q2 m8
  rw [List.take_of_length_le (le_of_eq hgyr)] at q3 m9
  refine ⟨_, slideWindow.foldedSamples s (s.dt_buf s.frame_count).length, heq,
    fun i hi => slideWindow.mergedFolded_low s p i hi, ⟨m1, m2, m3, m4, m5, m6⟩,
    ⟨m7, m8, m9⟩, ?_, q1, q2, q3, q4⟩
  rw [m10, IntegrationBase.foldl_push_back]

/-- Witness of C7: the full window `exampleWindow` with `W = 2`. -/
theorem slideWindow_margin_second_new_witness :
    ∃ (s' : Estimator) (pushed : List RawSample), slideWindow 2 exampleWindow = some s' ∧
      (∀ i, i + 1 < 2 →
        s'.Headers i = exampleWindow.Headers i ∧ s'.Ps i = exampleWindow.Ps i ∧
        s'.Rs i = exampleWindow.Rs i ∧
        s'.Vs i = exampleWindow.Vs i ∧ s'.Bas i = exampleWindow.Bas i ∧
        s'.Bgs i = exampleWindow.Bgs i ∧
        s'.pre_integrations i = exampleWindow.pre_integrations i ∧
        s'.dt_buf i = exampleWindow.dt_buf i ∧
        s'.linear_acceleration_buf i = exampleWindow.linear_acceleration_buf i ∧
        s'.angular_velocity_buf i = exampleWindow.angular_velocity_buf i ∧
        s'.encoder_velocity_buf i = exampleWindow.encoder_velocity_buf i ∧
        s'.gnss_meas_buf i = exampleWindow.gnss_meas_buf i ∧
        s'.gnss_ephem_buf i = exampleWindow.gnss_ephem_buf i ∧
        s'.para_rcv_ddt i = exampleWindow.para_rcv_ddt i ∧
        (∀ k, k < 4 → s'.para_rcv_dt (i * 4 + k) = exampleWindow.para_rcv_dt (i * 4 + k))) ∧
      (s'.Headers (2 - 1) = exampleWindow.Headers 2 ∧ s'.Ps (2 - 1) = exampleWindow.Ps 2 ∧
        s'.Rs (2 - 1) = exampleWindow.Rs 2 ∧ s'.Vs (2 - 1) = exampleWindow.Vs 2 ∧
        s'.Bas (2 - 1) = exampleWindow.Bas 2 ∧
        s'.Bgs (2 - 1) = exampleWindow.Bgs 2) ∧
      (s'.dt_buf (2 - 1) = exampleWindow.dt_buf (2 - 1) ++ exampleWindow.dt_buf 2 ∧
        s'.linear_acceleration_buf (2 - 1) =
          exampleWindow.linear_acceleration_buf (2 - 1) ++
            exampleWindow.linear_acceleration_buf 2 ∧
        s'.angular_velocity_buf (2 - 1) =
          exampleWindow.angular_velocity_buf (2 - 1) ++ exampleWindow.angular_velocity_buf 2) ∧
      s'.pre_integrations (2 - 1) =
        some (pushed.foldl (fun q x => IntegrationBase.push_back q x.dt x.acc x.gyr x.enc)
          (IntegrationBase.create (0, 0, 0) (0, 0, 0) (0, 0, 1) (1, 1, 0)
            (some ((0, 0, 0), (0, 0, 0))))) ∧
      pushed.map (fun x => x.dt) = exampleWindow.dt_buf 2 ∧
      pushed.map (fun x => x.acc) = exampleWindow.linear_acceleration_buf 2 ∧
      pushed.map (fun x => x.gyr) = exampleWindow.angular_velocity_buf 2 ∧
      pushed.map (fun x => x.enc) =
        (if exampleWindow.ENCODER_ENABLE then
          ((exampleWindow.encoder_velocity_buf 2).take (exampleWindow.dt_buf 2).length).map some
         else List.replicate (exampleWindow.dt_buf 2).length none) :=
  slideWindow_margin_second_new 2 exampleWindow
    (IntegrationBase.create (0, 0, 0) (0, 0, 0) (0, 0, 1) (1, 1, 0)
      (some ((0, 0, 0), (0, 0, 0))))
    (by decide) rfl rfl rfl (by decide) (by decide) (by decide) (by decide)

/-- C8, at the failing input. The window `exampleWindow` (`W = 2`, IMU and encoder enabled,
`MARGIN_SECOND_NEW`, full) has one sample in each of the four raw-sample buffers of slot `W`.
After `slideWindow`, `dt_buf[W]`, `linear_acceleration_buf[W]` and `angular_velocity_buf[W]`
are empty and `encoder_velocity_buf[W]` still holds its sample: the four buffers of slot `W`
no longer have one length. The `MARGIN_OLD` branch, on the same window, empties all four. -/
theorem slideWindow_second_new_keeps_encoder_buf :
    exampleWindow.USE_IMU = true ∧ exampleWindow.ENCODER_ENABLE = true ∧
    exampleWindow.marginalization_flag = MarginalizationFlag.MARGIN_SECOND_NEW ∧
    exampleWindow.frame_count = 2 ∧
    (exampleWindow.dt_buf 2).length = 1 ∧
    (exampleWindow.linear_acceleration_buf 2).length = 1 ∧
    (exampleWindow.angular_velocity_buf 2).length = 1 ∧
    (exampleWindow.encoder_velocity_buf 2).length = 1 ∧
    (∃ s', slideWindow 2 exampleWindow = some s' ∧
      s'.dt_buf 2 = [] ∧ s'.linear_acceleration_buf 2 = [] ∧
      s'.angular_velocity_buf 2 = [] ∧
      s'.encoder_velocity_buf 2 = [((0, 0, 1), (0, 0, 1))]) ∧
    (∃ s', slideWindow 2 exampleWindowOld = some s' ∧
      s'.dt_buf 2 = [] ∧ s'.linear_acceleration_buf 2 = [] ∧
      s'.angular_velocity_buf 2 = [] ∧ s'.encoder_velocity_buf 2 = []) := by
  refine ⟨rfl, rfl, rfl, rfl, rfl, rfl, rfl, rfl, ?_, ?_⟩
  · have heq := slideWindow_second_new_eq 2 exampleWindow
      (IntegrationBase.create (0, 0, 0) (0, 0, 0) (0, 0, 1) (1, 1, 0)
        (some ((0, 0, 0), (0, 0, 0))))
      (by decide) rfl rfl rfl (by decide) (by decide) (by decide) (by decide)
    obtain ⟨l1, l2, l3, _, _, l6⟩ := slideWindow.mergedFolded_last exampleWindow
      (IntegrationBase.create (0, 0, 0) (0, 0, 0) (0, 0, 1) (1, 1, 0)
        (some ((0, 0, 0), (0, 0, 0)))) (by decide)
    exact ⟨_, heq, l1, l2, l3, l6⟩
  · obtain ⟨m, hm⟩ := slideWindow.eraseImageFrames_defined (exampleWindowOld.Headers 0)
      exampleWindowOld.all_image_frame
      ⟨(0, { pre_integration := Ptr.null }), by decide, by decide⟩
    have h := slideWindow_old_unfold 2 exampleWindowOld (by decide) rfl rfl
    rw [slideWindow.afterShift_loop_eq 2 (exampleWindowOld.Headers 0)
      { exampleWindowOld with
        back_R0 := exampleWindowOld.Rs 0, back_P0 := exampleWindowOld.Ps 0 } m rfl hm] at h
    obtain ⟨_, _, _, _, _, _, _, f8, f9, f10, f11, _⟩ := slideWindowOld_frame
      (slideWindow.shiftedReseeded 2
        { exampleWindowOld with
          back_R0 := exampleWindowOld.Rs 0, back_P0 := exampleWindowOld.Ps 0 } m)
    obtain ⟨_, _, _, _, _, _, _, l8, l9, l10, l11, _⟩ := slideWindow.shiftedReseeded_last 2
      { exampleWindowOld with
        back_R0 := exampleWindowOld.Rs 0, back_P0 := exampleWindowOld.Ps 0 } m (by decide)
    refine ⟨_, h, ?_, ?_, ?_, ?_⟩
    · rw [f8]; exact l8
    · rw [f9]; exact l9
    · rw [f10]; exact l10
    · rw [f11]; exact l11

/-! ## `slideWindow` and the order of the headers -/

theorem slideWindow.afterShift_Headers (W : Nat) (t_0 : Time) (s s' : Estimator)
    (h : slideWindow.afterShift W t_0 s = some s') :
    s'.Headers = Function.update s.Headers W (s.Headers (W - 1)) := by
  unfold slideWindow.afterShift at h
  simp only at h
  split at h
  · cases h
  · rename_i m hm
    simp only [Option.some.injEq] at h
    subst h
    rw [(slideWindowOld_frame _).1]
    by_cases himu : s.USE_IMU = true <;> simp [himu, slideWindow.reseedLast,
      slideWindow.freshPreIntegration]

theorem slideWindow.foldSample_Headers (s s' : Estimator) (i : Nat)
    (h : slideWindow.foldSample s i = some s') :
    s'.Headers = s.Headers ∧ s'.frame_count = s.frame_count := by
  unfold slideWindow.foldSample at h
  split at h
  · simp only at h
    split at h
    · cases h
    · rename_i s2 hs2
      simp only [Option.some.injEq] at h
      subst h
      split at hs2
      · split at hs2
        · simp only [Option.some.injEq] at hs2
          subst hs2
          simp
        · cases hs2
      · split at hs2
        · simp only [Option.some.injEq] at hs2
          subst hs2
          simp
        · cases hs2
  · cases h

theorem slideWindow.foldLoop_Headers (fuel i : Nat) (s s' : Estimator)
    (h : slideWindow.foldLoop fuel i s = some s') : s'.Headers = s.Headers := by
  induction fuel generalizing i s with
  | zero => simp [slideWindow.foldLoop] at h
  | succ f ih =>
    unfold slideWindow.foldLoop at h
    split at h
    · split at h
      · cases h
      · rename_i s2 hs2
        rw [ih _ _ h, (slideWindow.foldSample_Headers _ _ _ hs2).1]
    · simp only [Option.some.injEq] at h
      rw [h]

theorem slideWindow.secondNew_Headers (W : Nat) (s s' : Estimator)
    (h : slideWindow.secondNew W s = some s') :
    s'.Headers = Function.update s.Headers (s.frame_count - 1) (s.Headers s.frame_count) := by
  unfold slideWindow.secondNew at h
  simp only at h
  split at h
  · split at h
    · cases h
    · rename_i s2 hs2
      simp only [Option.some.injEq] at h
      subst h
      have := slideWindow.foldLoop_Headers _ _ _ _ hs2
      simp only [slideWindowNew, slideWindow.mergeLast, slideWindow.freshPreIntegration, this]
  · simp only [Option.some.injEq] at h
    subst h
    rfl

/-- C10. For both marginalization flags and every window size `W` and state: if
`Headers[0] <= Headers[1] <= ... <= Headers[W]` holds before `slideWindow`, it holds in the
state `slideWindow` returns. -/
theorem slideWindow_headers_sorted (W : Nat) (s s' : Estimator)
    (hsorted : Estimator.HeadersSorted W s) (h : slideWindow W s = some s') :
    Estimator.HeadersSorted W s' := by
  unfold slideWindow at h
  split at h
  · -- MARGIN_OLD
    simp only at h
    split at h
    · split at h
      · cases h
      · rename_i hW0
        have hH := slideWindow.afterShift_Headers _ _ _ _ h
        rw [slideWindow.shiftLoop_Headers] at hH
        intro i hi
        rw [hH]
        simp only [Function.update_apply, shiftedSlots]
        by_cases h1 : i + 1 = W
        · have h2 : i ≠ W := by omega
          have h3 : W - 1 = i := by omega
          have h4 : ¬ i + 1 < W := by omega
          simp only [h1, h2, h3, hi, h4, if_true, if_false]
          subst h1
          exact le_refl _
        · have h2 : i ≠ W := by omega
          have h4 : i + 1 < W := by omega
          simp only [h1, h2, hi, h4, if_true, if_false]
          exact hsorted (i + 1) h4
    · simp only [Option.some.injEq] at h
      subst h
      exact hsorted
  · -- MARGIN_SECOND_NEW
    split at h
    · rename_i hfc
      split at h
      · cases h
      · rename_i hW0
        have hH := slideWindow.secondNew_Headers _ _ _ h
        rw [hfc] at hH
        intro i hi
        rw [hH]
        simp only [Function.update_apply]
        by_cases h1 : i + 1 = W
        · have h2 : i = W - 1 := by omega
          have h3 : i + 1 ≠ W - 1 := by omega
          simp only [h2, h3, if_true, if_false]
          have h5 : W - 1 + 1 = W := by omega
          simp only [h5, ite_self, le_refl]
        · have h3 : i ≠ W - 1 := by omega
          by_cases h4 : i + 1 = W - 1
          · simp only [h3, h4, if_true, if_false]
            have h5 := hsorted i hi
            have h6 := hsorted (i + 1) (by omega)
            have h7 : i + 1 + 1 = W := by omega
            rw [h7] at h6
            exact le_trans h5 h6
          · simp only [h3, h4, if_false]
            exact hsorted i hi
    · simp only [Option.some.injEq] at h
      subst h
      exact hsorted

/-- Witness of C10: the window `exampleWindow`, whose headers are 0, 1, 2, under both flags. -/
theorem slideWindow_headers_sorted_witness :
    Estimator.HeadersSorted 2 exampleWindow ∧ Estimator.HeadersSorted 2 exampleWindowOld ∧
    (∃ s', slideWindow 2 exampleWindow = some s' ∧ Estimator.HeadersSorted 2 s') ∧
    (∃ s', slideWindow 2 exampleWindowOld = some s' ∧ Estimator.HeadersSorted 2 s') := by
  have hs : Estimator.HeadersSorted 2 exampleWindow := by
    intro i hi
    show ((i : ℚ) ≤ ((i + 1 : Nat) : ℚ))
    exact_mod_cast Nat.le_succ i
  have hs' : Estimator.HeadersSorted 2 exampleWindowOld := hs
  have h1 := slideWindow_second_new_eq 2 exampleWindow
    (IntegrationBase.create (0, 0, 0) (0, 0, 0) (0, 0, 1) (1, 1, 0)
      (some ((0, 0, 0), (0, 0, 0))))
    (by decide) rfl rfl rfl (by decide) (by decide) (by decide) (by decide)
  obtain ⟨m, hm⟩ := slideWindow.eraseImageFrames_defined (exampleWindowOld.Headers 0)
    exampleWindowOld.all_image_frame
    ⟨(0, { pre_integration := Ptr.null }), by decide, by decide⟩
  have h2 := slideWindow_old_unfold 2 exampleWindowOld (by decide) rfl rfl
  rw [slideWindow.afterShift_loop_eq 2 (exampleWindowOld.Headers 0)
    { exampleWindowOld with
      back_R0 := exampleWindowOld.Rs 0, back_P0 := exampleWindowOld.Ps 0 } m rfl hm] at h2
  exact ⟨hs, hs', ⟨_, h1, slideWindow_headers_sorted 2 exampleWindow _ hs h1⟩,
    ⟨_, h2, slideWindow_headers_sorted 2 exampleWindowOld _ hs' h2⟩⟩

/-! ## `getEncoderInterval` on a queue without a sample before `t1` -/

/-- On a queue that holds a sample with `ts >= t1` and none with `ts < t1` the first loop drains
nothing, the output vector holds the boundary sample alone, and the index
`encVector.size() - 2` is past its end: the call has no defined result. -/
theorem getEncoderInterval_undefined {α : Type} (t0 t1 : Time) (encBuf : TimePQ α)
    (hb : ∃ s ∈ encBuf, t1 ≤ s.1) (hl : ∀ s ∈ encBuf, ¬ s.1 < t1) :
    getEncoderInterval t0 t1 encBuf [] = none := by
  cases encBuf with
  | nil => simp at hb
  | cons x xs =>
    have hx : ¬ x.1 < t1 := hl x (List.mem_cons_self _ _)
    simp [getEncoderInterval, drainWhileLT, hx]

/-- C20, at the failing input. The encoder queue holds samples at 5 and 7 and `t1 = 3`: there is
a sample with `ts >= t1` and none with `ts < t1`. The output vector then has one element and
`encVector[encVector.size() - 2]` reads past its end, so `getEncoderInterval(1, 3)` has no
defined result. With a sample before `t1` in the queue (samples at 0 and 5) the call returns
and re-pushes the sample at 0. -/
theorem getEncoderInterval_late_queue_undefined :
    TimePQ.Ascending exampleLateEncBuf ∧ (∃ s ∈ exampleLateEncBuf, (3 : Time) ≤ s.1) ∧
    (∀ s ∈ exampleLateEncBuf, ¬ s.1 < (3 : Time)) ∧
    getEncoderInterval 1 3 exampleLateEncBuf [] = none ∧
    getEncoderInterval 1 3 exampleEncBuf [] = some ([(0, 30), (5, 31)], [(0, 30), (5, 31)]) := by
  refine ⟨by unfold TimePQ.Ascending exampleLateEncBuf; decide, ⟨(5, 31), by decide, by decide⟩,
    by decide, by decide, by decide⟩

/-! ## `double2vector` and `vector2double` -/

theorem Matrix3d.mulVec_sub_self (m : Matrix3d) (p : Vector3d) :
    Matrix3d.mulVec m (Vector3d.sub p p) = Vector3d.zero := by
  unfold Matrix3d.mulVec Vector3d.sub Vector3d.zero
  simp only [sub_self, mul_zero, add_zero]

theorem Vector3d.zero_add_vec (v : Vector3d) : Vector3d.add Vector3d.zero v = v := by
  obtain ⟨a, b, c⟩ := v
  unfold Vector3d.add Vector3d.zero
  simp only [zero_add]

theorem Vector3d.add_sub_cancel_vec (u v : Vector3d) :
    Vector3d.sub (Vector3d.add u v) v = u := by
  obtain ⟨a, b, c⟩ := u
  obtain ⟨d, e, f⟩ := v
  unfold Vector3d.add Vector3d.sub
  simp only [add_sub_cancel_right]

theorem Matrix3d.identity_mulVec (v : Vector3d) : Matrix3d.mulVec Matrix3d.identity v = v := by
  obtain ⟨a, b, c⟩ := v
  simp [Matrix3d.mulVec, Matrix3d.identity]

theorem Matrix3d.identity_mul (m : Matrix3d) : Matrix3d.mul Matrix3d.identity m = m := by
  obtain ⟨⟨a, b, c⟩, ⟨d, e, f⟩, ⟨p, q, r⟩⟩ := m
  simp [Matrix3d.mul, Matrix3d.mulVec, Matrix3d.identity]

/-- The positions `double2vector` writes, with IMU. -/
theorem double2vector_Ps (g : Geometry) (fq : FeatureQueries) (W : Nat) (s : Estimator)
    (himu : s.USE_IMU = true) (i : Nat) (hi : i ≤ W) :
    (double2vector g fq W s).Ps i =
      Vector3d.add
        (Matrix3d.mulVec (double2vector.rot_diff g s)
          (Vector3d.sub (posePosition (s.para_Pose i)) (posePosition (s.para_Pose 0))))
        (double2vector.origin g s).2 := by
  unfold double2vector
  by_cases hg : s.gnss_ready = true <;>
    simp [himu, hg, hi, Vector3d.sub, posePosition]

/-- The position of frame 0 after `double2vector`, with IMU and `failure_occur` unset, is the
position before the call. -/
theorem double2vector_Ps_zero (g : Geometry) (fq : FeatureQueries) (W : Nat) (s : Estimator)
    (himu : s.USE_IMU = true) (hfail : s.failure_occur = false) :
    (double2vector g fq W s).Ps 0 = s.Ps 0 := by
  have horigin : (double2vector.origin g s).2 = s.Ps 0 := by
    simp [double2vector.origin, hfail]
  rw [double2vector_Ps g fq W s himu 0 (Nat.zero_le W), horigin,
    Matrix3d.mulVec_sub_self, Vector3d.zero_add_vec]

/-- C12. With IMU enabled and `failure_occur` unset, for every content of the parameter arrays
and every interpretation of the geometry helpers, `double2vector` leaves `Ps[0]` equal to its
value before the call (the position the solver left in `para_Pose[0]` is not read into it),
and for every `i` in `[0, W]` the difference `Ps[i] - Ps[0]` is the one rotation `rot_diff`
applied to the difference of the positions in `para_Pose[i]` and `para_Pose[0]`. -/
theorem double2vector_anchors_position (g : Geometry) (fq : FeatureQueries) (W : Nat)
    (s : Estimator) (himu : s.USE_IMU = true) (hfail : s.failure_occur = false) :
    (double2vector g fq W s).Ps 0 = s.Ps 0 ∧
    ∀ i, i ≤ W →
      Vector3d.sub ((double2vector g fq W s).Ps i) ((double2vector g fq W s).Ps 0) =
        Matrix3d.mulVec (double2vector.rot_diff g s)
          (Vector3d.sub (posePosition (s.para_Pose i)) (posePosition (s.para_Pose 0))) := by
  have horigin : (double2vector.origin g s).2 = s.Ps 0 := by
    simp [double2vector.origin, hfail]
  have h0 : (double2vector g fq W s).Ps 0 = s.Ps 0 :=
    double2vector_Ps_zero g fq W s himu hfail
  refine ⟨h0, ?_⟩
  intro i hi
  rw [h0, double2vector_Ps g fq W s himu i hi, horigin, Vector3d.add_sub_cancel_vec]

/-- Witness of C12: the solved window `exampleSolvedMoved` with `W = 2`. -/
theorem double2vector_anchors_position_witness :
    (double2vector exampleGeometry exampleQueries 2 exampleSolvedMoved).Ps 0 =
      exampleSolvedMoved.Ps 0 ∧
    ∀ i, i ≤ 2 →
      Vector3d.sub ((double2vector exampleGeometry exampleQueries 2 exampleSolvedMoved).Ps i)
          ((double2vector exampleGeometry exampleQueries 2 exampleSolvedMoved).Ps 0) =
        Matrix3d.mulVec (double2vector.rot_diff exampleGeometry exampleSolvedMoved)
          (Vector3d.sub (posePosition (exampleSolvedMoved.para_Pose i))
            (posePosition (exampleSolvedMoved.para_Pose 0))) :=
  double2vector_anchors_position exampleGeometry exampleQueries 2 exampleSolvedMoved rfl rfl

/-- The state `double2vector` leaves, with IMU and `gnss_ready`, when `rot_diff` is the
identity. -/
theorem double2vector_of_identity (g : Geometry) (fq : FeatureQueries) (W : Nat)
    (s : Estimator) (himu : s.USE_IMU = true) (hgnss : s.gnss_ready = true)
    (hfail : s.failure_occur = false)
    (hrot : double2vector.rot_diff g s = Matrix3d.identity) :
    double2vector g fq W s =
      { s with
        Rs := fun i =>
          if i ≤ W then g.toRotationMatrix (g.normalized (poseQuaternion (s.para_Pose i)))
          else s.Rs i
        Ps := fun i =>
          if i ≤ W then
            Vector3d.add
              (Vector3d.sub (posePosition (s.para_Pose i)) (posePosition (s.para_Pose 0)))
              (s.Ps 0)
          else s.Ps i
        Vs := fun i =>
          if i ≤ W then (s.para_SpeedBias i 0, s.para_SpeedBias i 1, s.para_SpeedBias i 2)
          else s.Vs i
        Bas := fun i =>
          if i ≤ W then (s.para_SpeedBias i 3, s.para_SpeedBias i 4, s.para_SpeedBias i 5)
          else s.Bas i
        Bgs := fun i =>
          if i ≤ W then (s.para_SpeedBias i 6, s.para_SpeedBias i 7, s.para_SpeedBias i 8)
          else s.Bgs i
        tic := fun i => if i < s.NUM_OF_CAM then posePosition (s.para_Ex_Pose i) else s.tic i
        ric := fun i =>
          if i < s.NUM_OF_CAM then
            g.toRotationMatrix (g.normalized (poseQuaternion (s.para_Ex_Pose i)))
          else s.ric i
        td := s.para_Td
        f_manager := s.f_manager ++
          [FeatureManagerCall.setDepth
            ((List.range (fq.getFeatureCount s.f_manager)).map s.para_Feature)]
        yaw_enu_local := s.para_yaw_enu_local
        anc_ecef := (s.para_anc_ecef 0, s.para_anc_ecef 1, s.para_anc_ecef 2)
        R_ecef_enu :=
          g.ecef2rotation (s.para_anc_ecef 0, s.para_anc_ecef 1, s.para_anc_ecef 2) } := by
  have horigin : (double2vector.origin g s).2 = s.Ps 0 := by
    simp [double2vector.origin, hfail]
  unfold double2vector
  simp only [himu, hgnss, if_true, hrot, horigin, Matrix3d.identity_mul,
    Matrix3d.identity_mulVec]
  congr 1
  exact hfail.symm

theorem Vector3d.sub_add_cancel_vec (u v : Vector3d) :
    Vector3d.add (Vector3d.sub u v) v = u := by
  obtain ⟨a, b, c⟩ := u
  obtain ⟨d, e, f⟩ := v
  unfold Vector3d.add Vector3d.sub
  simp only [sub_add_cancel]

/-- A pose block packed from its own position and a rotation whose quaternion is its own
quaternion is the block itself. -/
theorem packPose_self (g : Geometry) (R : Matrix3d) (p : Nat → ℚ)
    (hq : g.fromRotationMatrix R = poseQuaternion p) :
    packPose g (posePosition p) R p = p := by
  funext k
  unfold packPose
  rw [hq]
  simp only [posePosition, poseQuaternion]
  split_ifs with h0 h1 h2 h3 h4 h5 h6 <;> first | rfl | (subst_vars; rfl)

theorem packSpeedBias_self (p : Nat → ℚ) :
    packSpeedBias (p 0, p 1, p 2) (p 3, p 4, p 5) (p 6, p 7, p 8) p = p := by
  funext k
  unfold packSpeedBias
  split_ifs <;> first | rfl | (subst_vars; rfl)

/-- C11 (as the code has it). With IMU enabled, `gnss_ready` set and `failure_occur` unset,
for all contents of the parameter arrays and of the estimator state such that the
yaw-anchoring is bypassed (`rot_diff` is the identity), the position in `para_Pose[0]` is
`Ps[0]`, every quaternion block is the quaternion of the rotation it normalizes to, and the
feature manager returns the depths it was given: `double2vector` followed by
`vector2double` leaves every parameter block (`para_Pose`, `para_SpeedBias`,
`para_Ex_Pose`, `para_Feature`, `para_Td`, `para_yaw_enu_local`, `para_anc_ecef`) equal to its
value before the two calls. -/
theorem vector2double_double2vector (g : Geometry) (fq : FeatureQueries) (W : Nat)
    (s : Estimator) (himu : s.USE_IMU = true) (hgnss : s.gnss_ready = true)
    (hfail : s.failure_occur = false)
    (hrot : double2vector.rot_diff g s = Matrix3d.identity)
    (hpos : posePosition (s.para_Pose 0) = s.Ps 0)
    (hquat : ∀ i, i ≤ W →
      g.fromRotationMatrix (g.toRotationMatrix (g.normalized (poseQuaternion (s.para_Pose i))))
        = poseQuaternion (s.para_Pose i))
    (hexq : ∀ i, i < s.NUM_OF_CAM →
      g.fromRotationMatrix
          (g.toRotationMatrix (g.normalized (poseQuaternion (s.para_Ex_Pose i))))
        = poseQuaternion (s.para_Ex_Pose i))
    (hcount : fq.getFeatureCount (s.f_manager ++
        [FeatureManagerCall.setDepth
          ((List.range (fq.getFeatureCount s.f_manager)).map s.para_Feature)]) =
      fq.getFeatureCount s.f_manager)
    (hdepth : ∀ i, i < fq.getFeatureCount s.f_manager →
      fq.getDepthVector (s.f_manager ++
        [FeatureManagerCall.setDepth
          ((List.range (fq.getFeatureCount s.f_manager)).map s.para_Feature)]) i =
      s.para_Feature i) :
    (vector2double g fq W (double2vector g fq W s)).para_Pose = s.para_Pose ∧
    (vector2double g fq W (double2vector g fq W s)).para_SpeedBias = s.para_SpeedBias ∧
    (vector2double g fq W (double2vector g fq W s)).para_Ex_Pose = s.para_Ex_Pose ∧
    (vector2double g fq W (double2vector g fq W s)).para_Feature = s.para_Feature ∧
    (vector2double g fq W (double2vector g fq W s)).para_Td = s.para_Td ∧
    (vector2double g fq W (double2vector g fq W s)).para_yaw_enu_local =
      s.para_yaw_enu_local ∧
    (vector2double g fq W (double2vector g fq W s)).para_anc_ecef = s.para_anc_ecef := by
  rw [double2vector_of_identity g fq W s himu hgnss hfail hrot]
  unfold vector2double
  simp only [himu]
  refine ⟨?_, ?_, ?_, ?_, trivial, trivial, ?_⟩
  · funext i
    by_cases hi : i ≤ W
    · simp only [hi, if_true, ← hpos, Vector3d.sub_add_cancel_vec]
      exact packPose_self g _ _ (hquat i hi)
    · simp only [hi, if_false]
  · funext i
    by_cases hi : i ≤ W
    · simp only [hi, if_true, and_self]
      exact packSpeedBias_self _
    · simp only [hi, if_false, false_and]
  · funext i
    by_cases hi : i < s.NUM_OF_CAM
    · simp only [hi, if_true]
      exact packPose_self g _ _ (hexq i hi)
    · simp only [hi, if_false]
  · funext i
    by_cases hi : i < fq.getFeatureCount s.f_manager
    · simp only [hcount, hi, if_true, hdepth i hi]
    · simp only [hcount, hi, if_false]
  · funext k
    split_ifs <;> first | rfl | (subst_vars; rfl)

/-- Witness of C11 (as the code has it): the solved window `exampleSolved` with `W = 2`. -/
theorem vector2double_double2vector_witness :
    (vector2double exampleGeometry exampleQueries 2
      (double2vector exampleGeometry exampleQueries 2 exampleSolved)).para_Pose =
      exampleSolved.para_Pose ∧
    (vector2double exampleGeometry exampleQueries 2
      (double2vector exampleGeometry exampleQueries 2 exampleSolved)).para_SpeedBias =
      exampleSolved.para_SpeedBias ∧
    (vector2double exampleGeometry exampleQueries 2
      (double2vector exampleGeometry exampleQueries 2 exampleSolved)).para_Ex_Pose =
      exampleSolved.para_Ex_Pose ∧
    (vector2double exampleGeometry exampleQueries 2
      (double2vector exampleGeometry exampleQueries 2 exampleSolved)).para_Feature =
      exampleSolved.para_Feature ∧
    (vector2double exampleGeometry exampleQueries 2
      (double2vector exampleGeometry exampleQueries 2 exampleSolved)).para_Td =
      exampleSolved.para_Td ∧
    (vector2double exampleGeometry exampleQueries 2
      (double2vector exampleGeometry exampleQueries 2 exampleSolved)).para_yaw_enu_local =
      exampleSolved.para_yaw_enu_local ∧
    (vector2double exampleGeometry exampleQueries 2
      (double2vector exampleGeometry exampleQueries 2 exampleSolved)).para_anc_ecef =
      exampleSolved.para_anc_ecef :=
  vector2double_double2vector exampleGeometry exampleQueries 2 exampleSolved rfl rfl rfl
    (by
      have hf : exampleSolved.failure_occur = false := rfl
      unfold double2vector.rot_diff double2vector.origin
      simp only [hf, exampleGeometry]
      norm_num)
    (by simp [posePosition, exampleSolved, exampleWindow])
    (fun i _ => by simp [poseQuaternion, exampleSolved, exampleGeometry])
    (fun i _ => by simp [poseQuaternion, exampleSolved, exampleGeometry])
    rfl
    (fun i hi => absurd hi (Nat.not_lt_zero i))

/-- C11, counterexample. In the state `exampleSolvedMoved` (IMU enabled, `failure_occur`
unset) frame 0 has the identity rotation and `para_Pose[0]` the identity quaternion, so for
every geometry that maps the identity quaternion to the identity matrix the yaw, pitch and
roll of `Rs[0]` are those of the rotation stored in `para_Pose[0]`; `para_Pose[0][0]` is 1
and, whatever the helpers compute, is 0 after `double2vector` and `vector2double`, the `x` of
the old `Ps[0]`. Likewise `para_yaw_enu_local` is not restored when `gnss_ready` is unset
(state `exampleSolvedNoGnss`), nor `para_Td` when the IMU is disabled (state
`exampleSolvedNoImu`). -/
theorem vector2double_double2vector_moves_block :
    exampleSolvedMoved.USE_IMU = true ∧ exampleSolvedMoved.failure_occur = false ∧
    (∀ g : Geometry, g.toRotationMatrix { w := 1, x := 0, y := 0, z := 0 } = Matrix3d.identity →
      g.R2ypr (exampleSolvedMoved.Rs 0) =
        g.R2ypr (g.toRotationMatrix (poseQuaternion (exampleSolvedMoved.para_Pose 0)))) ∧
    exampleSolvedMoved.para_Pose 0 0 = 1 ∧
    (∀ (g : Geometry) (fq : FeatureQueries),
      (vector2double g fq 2 (double2vector g fq 2 exampleSolvedMoved)).para_Pose 0 0 = 0) ∧
    exampleSolvedNoGnss.para_yaw_enu_local = 1 ∧
    (∀ (g : Geometry) (fq : FeatureQueries),
      (vector2double g fq 2 (double2vector g fq 2 exampleSolvedNoGnss)).para_yaw_enu_local
        = 0) ∧
    exampleSolvedNoImu.para_Td = 1 / 100 ∧
    (∀ (g : Geometry) (fq : FeatureQueries),
      (vector2double g fq 2 (double2vector g fq 2 exampleSolvedNoImu)).para_Td = 0) := by
  refine ⟨rfl, rfl, ?_, ?_, ?_, rfl, ?_, rfl, ?_⟩
  · intro g hg
    have hq : poseQuaternion (exampleSolvedMoved.para_Pose 0) =
        { w := 1, x := 0, y := 0, z := 0 } := by
      simp [poseQuaternion, exampleSolvedMoved]
    rw [hq, hg]
    rfl
  · simp [exampleSolvedMoved]
  · intro g fq
    have h := double2vector_Ps_zero g fq 2 exampleSolvedMoved rfl rfl
    have h2 : (vector2double g fq 2 (double2vector g fq 2 exampleSolvedMoved)).para_Pose 0 0 =
        ((double2vector g fq 2 exampleSolvedMoved).Ps 0).1 := by
      simp [vector2double, packPose]
    rw [h2, h]
    simp [exampleSolvedMoved, exampleSolved, exampleWindow]
  · intro g fq
    simp [vector2double, double2vector, exampleSolvedNoGnss, exampleSolved, exampleWindow]
  · intro g fq
    simp [vector2double, double2vector, exampleSolvedNoImu, exampleSolved, exampleWindow]

/-! ## `clearState` and `changeSensorType` -/

theorem popAll_eq_nil {α : Type} (q : TimePQ α) : popAll q = [] := by
  induction q with
  | nil => rfl
  | cons x xs ih => exact ih

/-- What `clearState` does reset, from every state: the solver flag, the frame count,
`gnss_ready`, the five sensor queues, the raw-sample buffers of every slot in `[0, W]` and
`all_image_frame`. -/
theorem clearState_resets (W : Nat) (s : Estimator) :
    (clearState W s).solver_flag = SolverFlag.INITIAL ∧ (clearState W s).frame_count = 0 ∧
    (clearState W s).gnss_ready = false ∧
    (clearState W s).accBuf = [] ∧ (clearState W s).gyrBuf = [] ∧
    (clearState W s).featureBuf = [] ∧ (clearState W s).gnssBuf = [] ∧
    (clearState W s).encBuf = [] ∧ (clearState W s).all_image_frame = [] ∧
    (∀ i, i ≤ W → (clearState W s).dt_buf i = [] ∧
      (clearState W s).linear_acceleration_buf i = [] ∧
      (clearState W s).angular_velocity_buf i = [] ∧
      (clearState W s).encoder_velocity_buf i = []) := by
  refine ⟨rfl, rfl, rfl, popAll_eq_nil _, popAll_eq_nil _, popAll_eq_nil _, popAll_eq_nil _,
    popAll_eq_nil _, rfl, ?_⟩
  intro i hi
  have h : i < W + 1 := by omega
  simp [clearState, h]

/-- The function `clearState` leaves the per-slot GNSS buffers as they are. -/
theorem clearState_keeps_gnss_buffers (W : Nat) (s : Estimator) :
    (clearState W s).gnss_meas_buf = s.gnss_meas_buf ∧
    (clearState W s).gnss_ephem_buf = s.gnss_ephem_buf := ⟨rfl, rfl⟩

/-- C13, at the failing input. The window `exampleWindow` (`W = 2`) holds one observation and
one ephemeris in `gnss_meas_buf[i]` and `gnss_ephem_buf[i]` for every slot `i`. After
`clearState` the solver flag, the frame count, `gnss_ready`, the sensor queues, the raw-sample
buffers and `all_image_frame` are reset, and `gnss_meas_buf[0]`, `gnss_ephem_buf[0]` still
hold their element: not all buffers are empty. -/
theorem clearState_keeps_gnss_observations :
    (clearState 2 exampleWindow).solver_flag = SolverFlag.INITIAL ∧
    (clearState 2 exampleWindow).frame_count = 0 ∧
    (clearState 2 exampleWindow).gnss_ready = false ∧
    (clearState 2 exampleWindow).dt_buf 2 = [] ∧
    (clearState 2 exampleWindow).all_image_frame = [] ∧
    exampleWindow.gnss_meas_buf 0 = [0] ∧
    (clearState 2 exampleWindow).gnss_meas_buf 0 = [0] ∧
    (clearState 2 exampleWindow).gnss_ephem_buf 0 = [100] ∧
    (clearState 2 exampleWindow).gnss_meas_buf 0 ≠ [] := by
  refine ⟨rfl, rfl, rfl, by simp [clearState], rfl, rfl, rfl, rfl, by decide⟩

/-- C16. `changeSensorType(use_imu, use_stereo)`: when both arguments are false the estimator
state, `USE_IMU` and `STEREO` included, is left unchanged and `restart` stays false; otherwise
`USE_IMU` and `STEREO` take the argument values in the state the call leaves, and the
estimator is restarted, by `clearState` then `setParameter` on the state with the new
flags, if and only if `USE_IMU` was off and `use_imu` is on. -/
theorem changeSensorType_contract (W : Nat) (use_imu use_stereo : Bool) (s : Estimator) :
    (use_imu = false ∧ use_stereo = false →
      changeSensorType W use_imu use_stereo s = s ∧
      (changeSensorType.flags use_imu use_stereo s).2 = false) ∧
    (¬ (use_imu = false ∧ use_stereo = false) →
      (changeSensorType W use_imu use_stereo s).USE_IMU = use_imu ∧
      (changeSensorType W use_imu use_stereo s).STEREO = use_stereo ∧
      ((changeSensorType.flags use_imu use_stereo s).2 = true ↔
        (s.USE_IMU = false ∧ use_imu = true)) ∧
      (s.USE_IMU = false ∧ use_imu = true →
        changeSensorType W use_imu use_stereo s =
          setParameter (clearState W { s with USE_IMU := true, STEREO := use_stereo })) ∧
      (¬ (s.USE_IMU = false ∧ use_imu = true) →
        (changeSensorType W use_imu use_stereo s).solver_flag = s.solver_flag ∧
        (changeSensorType W use_imu use_stereo s).frame_count = s.frame_count ∧
        (changeSensorType W use_imu use_stereo s).f_manager = s.f_manager ∧
        (changeSensorType W use_imu use_stereo s).featureBuf = s.featureBuf)) := by
  have hset : ∀ t : Estimator, (setParameter t).USE_IMU = t.USE_IMU ∧
      (setParameter t).STEREO = t.STEREO := by
    intro t
    unfold setParameter
    simp only
    split_ifs <;> exact ⟨rfl, rfl⟩
  cases hu : use_imu <;> cases hst : use_stereo <;> cases hs : s.USE_IMU <;>
    simp [changeSensorType, changeSensorType.flags, hs, hset, clearState]

/-! ## `relativePose` -/

theorem relativePose.loop_spec (h : RelativeHelpers) (fq : FeatureQueries) (W : Nat)
    (s : Estimator) (n : Nat) : ∀ i,
    (relativePose.loop h fq W s n i = none ↔
      ∀ j, i ≤ j → j < i + n → ¬ relativePose.accepts h fq W s j) ∧
    (∀ R T l, relativePose.loop h fq W s n i = some (R, T, l) →
      i ≤ l ∧ l < i + n ∧ relativePose.accepts h fq W s l ∧
      (∀ j, i ≤ j → j < l → ¬ relativePose.accepts h fq W s j) ∧
      h.solveRelativeRT (fq.getCorresponding s.f_manager l W) = some (R, T)) := by
  induction n with
  | zero =>
    intro i
    refine ⟨⟨fun _ j h1 h2 => by omega, fun _ => rfl⟩, ?_⟩
    intro R T l hl
    simp [relativePose.loop] at hl
  | succ n ih =>
    intro i
    have hrest : ∀ (hno : ¬ relativePose.accepts h fq W s i),
        (relativePose.loop h fq W s n (i + 1) = none ↔
          ∀ j, i ≤ j → j < i + (n + 1) → ¬ relativePose.accepts h fq W s j) ∧
        (∀ R T l, relativePose.loop h fq W s n (i + 1) = some (R, T, l) →
          i ≤ l ∧ l < i + (n + 1) ∧ relativePose.accepts h fq W s l ∧
          (∀ j, i ≤ j → j < l → ¬ relativePose.accepts h fq W s j) ∧
          h.solveRelativeRT (fq.getCorresponding s.f_manager l W) = some (R, T)) := by
      intro hno
      obtain ⟨ih1, ih2⟩ := ih (i + 1)
      refine ⟨?_, ?_⟩
      · rw [ih1]
        constructor
        · intro hall j h1 h2
          by_cases hj : j = i
          · subst hj; exact hno
          · exact hall j (by omega) (by omega)
        · intro hall j h1 h2
          exact hall j (by omega) (by omega)
      · intro R T l hl
        obtain ⟨a, b, c, d, e⟩ := ih2 R T l hl
        refine ⟨by omega, by omega, c, ?_, e⟩
        intro j h1 h2
        by_cases hj : j = i
        · subst hj; exact hno
        · exact d j (by omega) h2
    unfold relativePose.loop
    simp only
    by_cases hlen : (fq.getCorresponding s.f_manager i W).length > 20
    · rw [if_pos hlen]
      by_cases hpar : relativePose.average_parallax h (fq.getCorresponding s.f_manager i W) * 460
          > 30
      · rw [if_pos hpar]
        cases hsol : h.solveRelativeRT (fq.getCorresponding s.f_manager i W) with
        | none =>
          refine hrest (fun hacc => ?_)
          have h3 := hacc.2.2
          rw [hsol] at h3
          exact absurd h3 (by simp)
        | some RT =>
          have hacc : relativePose.accepts h fq W s i := ⟨hlen, hpar, by simp [hsol]⟩
          refine ⟨⟨fun hnone => by simp at hnone, fun hall => ?_⟩, ?_⟩
          · exact absurd hacc (hall i (le_refl _) (by omega))
          · intro R T l hl
            simp only [Option.some.injEq, Prod.mk.injEq] at hl
            obtain ⟨h1, h2, h3⟩ := hl
            subst h3
            refine ⟨le_refl _, by omega, hacc, fun j h1 h2 => by omega, ?_⟩
            rw [← h1, ← h2]
            exact hsol
      · rw [if_neg hpar]
        exact hrest (fun hacc => hpar hacc.2.1)
    · rw [if_neg hlen]
      exact hrest (fun hacc => hlen hacc.1)

theorem processGNSS.setTrack_other (s : Estimator) (sat c sat2 : Nat) (hne : sat2 ≠ sat) :
    (processGNSS.setTrack s sat c).sat_track_status sat2 = s.sat_track_status sat2 := by
  simp [processGNSS.setTrack, Function.update, hne]

theorem processGNSS.setTrack_same (s : Estimator) (sat c : Nat) :
    (processGNSS.setTrack s sat c).sat_track_status sat = some c := by
  simp [processGNSS.setTrack]

/-- The two outcomes of `processGNSS.track`: a reset of the counter without admission, or an
increment of the counter with or without admission. -/
theorem processGNSS.track_cases (h : GnssHelpers) (s : Estimator) (v : List Nat × List Nat)
    (obs : Obs) (freq_idx best_ephem : Nat) (s2 : Estimator) (v2 : List Nat × List Nat)
    (hrun : processGNSS.track h s v obs freq_idx best_ephem = some (s2, v2)) :
    ∃ psr, obs.psr_std.get? freq_idx = some psr ∧
      ((psr > h.GNSS_PSR_STD_THRES ∧ s2 = processGNSS.setTrack s obs.sat 0 ∧ v2 = v) ∨
       (¬ psr > h.GNSS_PSR_STD_THRES ∧ ∃ dopp, obs.dopp_std.get? freq_idx = some dopp ∧
        ((dopp > h.GNSS_DOPP_STD_THRES ∧ s2 = processGNSS.setTrack s obs.sat 0 ∧ v2 = v) ∨
         (¬ dopp > h.GNSS_DOPP_STD_THRES ∧
          s2 = processGNSS.setTrack s obs.sat
            ((((s.sat_track_status obs.sat).getD 0) + 1) % 2 ^ 32) ∧
          (v2 = v ∨
           (h.GNSS_TRACK_NUM_THRES ≤ (((s.sat_track_status obs.sat).getD 0) + 1) % 2 ^ 32 ∧
            v2 = (v.1 ++ [obs.ptr], v.2 ++ [best_ephem]))))))) := by
  unfold processGNSS.track at hrun
  cases hp : obs.psr_std.get? freq_idx with
  | none => rw [hp] at hrun; simp at hrun
  | some psr =>
    rw [hp] at hrun
    simp only at hrun
    refine ⟨psr, rfl, ?_⟩
    by_cases h1 : psr > h.GNSS_PSR_STD_THRES
    · rw [if_pos h1] at hrun
      simp only [Option.some.injEq, Prod.mk.injEq] at hrun
      exact Or.inl ⟨h1, hrun.1.symm, hrun.2.symm⟩
    · rw [if_neg h1] at hrun
      refine Or.inr ⟨h1, ?_⟩
      cases hd : obs.dopp_std.get? freq_idx with
      | none => rw [hd] at hrun; simp at hrun
      | some dopp =>
        rw [hd] at hrun
        simp only at hrun
        refine ⟨dopp, rfl, ?_⟩
        by_cases h2 : dopp > h.GNSS_DOPP_STD_THRES
        · rw [if_pos h2] at hrun
          simp only [Option.some.injEq, Prod.mk.injEq] at hrun
          exact Or.inl ⟨h2, hrun.1.symm, hrun.2.symm⟩
        · rw [if_neg h2] at hrun
          refine Or.inr ⟨h2, ?_⟩
          split_ifs at hrun with h3 h4
          · simp only [Option.some.injEq, Prod.mk.injEq] at hrun
            exact ⟨hrun.1.symm, Or.inl hrun.2.symm⟩
          · simp only [Option.some.injEq, Prod.mk.injEq] at hrun
            exact ⟨hrun.1.symm, Or.inl hrun.2.symm⟩
          · simp only [Option.some.injEq, Prod.mk.injEq] at hrun
            exact ⟨hrun.1.symm, Or.inr ⟨Nat.le_of_not_lt h3, hrun.2.symm⟩⟩

/-- One pass of the loop of `processGNSS` writes no counter but the one of the satellite of
its observation. -/
theorem processGNSS.body_other (h : GnssHelpers) (s : Estimator) (v : List Nat × List Nat)
    (obs : Obs) (s2 : Estimator) (v2 : List Nat × List Nat)
    (hrun : processGNSS.body h s v obs = some (s2, v2)) (sat : Nat) (hne : sat ≠ obs.sat) :
    s2.sat_track_status sat = s.sat_track_status sat := by
  unfold processGNSS.body at hrun
  cases hsel : processGNSS.select h s obs with
  | none => rw [hsel] at hrun; simp at hrun
  | some r =>
    rw [hsel] at hrun
    cases r with
    | none =>
      simp only [Option.some.injEq, Prod.mk.injEq] at hrun
      rw [← hrun.1]
    | some r =>
      simp only at hrun
      obtain ⟨psr, _, hc⟩ := processGNSS.track_cases h s v obs r.1 r.2 s2 v2 hrun
      rcases hc with ⟨_, hs, _⟩ | ⟨_, dopp, _, ⟨_, hs, _⟩ | ⟨_, hs, _⟩⟩ <;>
        rw [hs] <;> exact processGNSS.setTrack_other s obs.sat _ sat hne

/-- An epoch without an observation of `sat` leaves the counter of `sat` as it is. -/
theorem processGNSS.loop_other (h : GnssHelpers) (sat : Nat) (gnss_meas : List Obs) :
    ∀ (s : Estimator) (v : List Nat × List Nat) (s2 : Estimator) (v2 : List Nat × List Nat),
    processGNSS.loop h s v gnss_meas = some (s2, v2) → (∀ o ∈ gnss_meas, o.sat ≠ sat) →
    s2.sat_track_status sat = s.sat_track_status sat := by
  induction gnss_meas with
  | nil =>
    intro s v s2 v2 hrun _
    simp only [processGNSS.loop, Option.some.injEq, Prod.mk.injEq] at hrun
    rw [← hrun.1]
  | cons obs rest ih =>
    intro s v s2 v2 hrun hall
    unfold processGNSS.loop at hrun
    cases hb : processGNSS.body h s v obs with
    | none => rw [hb] at hrun; simp at hrun
    | some r =>
      rw [hb] at hrun
      simp only at hrun
      rw [ih r.1 r.2 s2 v2 hrun (fun o ho => hall o (List.mem_cons_of_mem _ ho))]
      exact processGNSS.body_other h s v obs r.1 r.2 hb sat
        (fun heq => hall obs (List.mem_cons_self _ _) heq.symm)

/-- C15, amended. The tracking gate of `processGNSS`, on an observation of satellite `s` that
reaches it: if its pseudorange or Doppler standard deviation exceeds its threshold, the
counter of `s` is set to 0 and the observation is rejected; if both pass, the counter of `s`
is incremented (from 0 when `s` has none); the observation is admitted only if both pass and
the incremented counter has reached `GNSS_TRACK_NUM_THRES`, that is, it is at least the
`GNSS_TRACK_NUM_THRES`-th observation of `s` to pass since the counter of `s` was last set to
0. No counter of another satellite is written, and an epoch without an observation of `s`
leaves the counter of `s` as it is: such an epoch does not break the count. -/
theorem processGNSS_tracking_gate (h : GnssHelpers) (s : Estimator) (v : List Nat × List Nat)
    (obs : Obs) (freq_idx best_ephem : Nat) (s2 : Estimator) (v2 : List Nat × List Nat)
    (hrun : processGNSS.track h s v obs freq_idx best_ephem = some (s2, v2)) :
    (((∃ p, obs.psr_std.get? freq_idx = some p ∧ p > h.GNSS_PSR_STD_THRES) ∨
      (∃ d, obs.dopp_std.get? freq_idx = some d ∧ d > h.GNSS_DOPP_STD_THRES)) →
      s2.sat_track_status obs.sat = some 0 ∧ v2 = v) ∧
    ((∃ p d, obs.psr_std.get? freq_idx = some p ∧ p ≤ h.GNSS_PSR_STD_THRES ∧
      obs.dopp_std.get? freq_idx = some d ∧ d ≤ h.GNSS_DOPP_STD_THRES) →
      s2.sat_track_status obs.sat =
        some ((((s.sat_track_status obs.sat).getD 0) + 1) % 2 ^ 32)) ∧
    (v2 ≠ v →
      (∃ p d, obs.psr_std.get? freq_idx = some p ∧ p ≤ h.GNSS_PSR_STD_THRES ∧
        obs.dopp_std.get? freq_idx = some d ∧ d ≤ h.GNSS_DOPP_STD_THRES) ∧
      h.GNSS_TRACK_NUM_THRES ≤ (((s.sat_track_status obs.sat).getD 0) + 1) % 2 ^ 32 ∧
      v2 = (v.1 ++ [obs.ptr], v.2 ++ [best_ephem])) ∧
    (∀ sat, sat ≠ obs.sat → s2.sat_track_status sat = s.sat_track_status sat) ∧
    (∀ (gnss_meas : List Obs) (t : Estimator) (w : List Nat × List Nat) (t2 : Estimator)
      (w2 : List Nat × List Nat), processGNSS.loop h t w gnss_meas = some (t2, w2) →
      (∀ o ∈ gnss_meas, o.sat ≠ obs.sat) →
      t2.sat_track_status obs.sat = t.sat_track_status obs.sat) := by
  obtain ⟨psr, hp, hc⟩ := processGNSS.track_cases h s v obs freq_idx best_ephem s2 v2 hrun
  refine ⟨?_, ?_, ?_, ?_, ?_⟩
  · intro hex
    rcases hc with ⟨_, hs, hv⟩ | ⟨h1, dopp, hd, ⟨_, hs, hv⟩ | ⟨h2, _, _⟩⟩
    · exact ⟨by rw [hs]; exact processGNSS.setTrack_same s obs.sat 0, hv⟩
    · exact ⟨by rw [hs]; exact processGNSS.setTrack_same s obs.sat 0, hv⟩
    · exfalso
      rcases hex with ⟨p, hp2, hgt⟩ | ⟨d, hd2, hgt⟩
      · rw [hp] at hp2
        exact h1 (by rw [Option.some.inj hp2]; exact hgt)
      · rw [hd] at hd2
        exact h2 (by rw [Option.some.inj hd2]; exact hgt)
  · rintro ⟨p, d, hp2, hple, hd2, hdle⟩
    rw [hp] at hp2
    have hpe : psr = p := Option.some.inj hp2
    rcases hc with ⟨h1, _, _⟩ | ⟨_, dopp, hd, ⟨h2, _, _⟩ | ⟨_, hs, _⟩⟩
    · exact absurd h1 (by rw [hpe]; exact not_lt.mpr hple)
    · rw [hd] at hd2
      exact absurd h2 (by rw [Option.some.inj hd2]; exact not_lt.mpr hdle)
    · rw [hs]; exact processGNSS.setTrack_same s obs.sat _
  · intro hne
    rcases hc with ⟨_, _, hv⟩ | ⟨h1, dopp, hd, ⟨_, _, hv⟩ | ⟨h2, _, hv | ⟨hge, hv⟩⟩⟩
    · exact absurd hv hne
    · exact absurd hv hne
    · exact absurd hv hne
    · exact ⟨⟨psr, dopp, hp, not_lt.mp h1, hd, not_lt.mp h2⟩, hge, hv⟩
  · intro sat hne
    rcases hc with ⟨_, hs, _⟩ | ⟨_, dopp, _, ⟨_, hs, _⟩ | ⟨_, hs, _⟩⟩ <;>
      rw [hs] <;> exact processGNSS.setTrack_other s obs.sat _ sat hne
  · intro gnss_meas t w t2 w2 hloop hall
    exact processGNSS.loop_other h obs.sat gnss_meas t w t2 w2 hloop hall

/-- Witness of C15: the first observation of satellite 7 passes the
thresholds, its counter becomes 1, below the 2 required, and it is not admitted. -/
theorem processGNSS_tracking_gate_witness :
    processGNSS.track exampleGnss exampleTracking ([], []) (exampleObs 1 7) 0 100 =
      some (processGNSS.setTrack exampleTracking 7 1, ([], [])) ∧
    (processGNSS.setTrack exampleTracking 7 1).sat_track_status 7 = some 1 ∧
    (processGNSS.setTrack exampleTracking 7 1).sat_track_status 8 =
      exampleTracking.sat_track_status 8 := by
  have hrun : processGNSS.track exampleGnss exampleTracking ([], []) (exampleObs 1 7) 0 100 =
      some (processGNSS.setTrack exampleTracking 7 1, ([], [])) := by
    simp [processGNSS.track, exampleGnss, exampleObs, exampleTracking]
  have hspec := processGNSS_tracking_gate exampleGnss exampleTracking ([], []) (exampleObs 1 7)
    0 100 (processGNSS.setTrack exampleTracking 7 1) ([], []) hrun
  refine ⟨hrun, ?_, hspec.2.2.2.1 8 (by decide)⟩
  exact hspec.2.1 ⟨1, 1, rfl, by decide, rfl, by decide⟩

/-- C15, counterexample. With `GNSS_TRACK_NUM_THRES = 2`: satellite 7 passes the thresholds in
a first epoch (counter 1, not admitted), is missing from the second epoch, which holds
satellite 8 only, and passes again in the third. Its observation in the third epoch is
admitted to the valid list of the frame, with counter 2, although satellite 7 was missing in
the epoch before. -/
theorem processGNSS_admits_after_missing_epoch :
    exampleGnss.GNSS_TRACK_NUM_THRES = 2 ∧
    ((processGNSS exampleGnss exampleTracking [exampleObs 1 7]).bind fun s1 =>
      (processGNSS exampleGnss s1 [exampleObs 2 8]).bind fun s2 =>
        (processGNSS exampleGnss s2 [exampleObs 3 7]).map fun s3 =>
          (s1.gnss_meas_buf 0, s1.sat_track_status 7, s2.gnss_meas_buf 0,
            s2.sat_track_status 7, s3.gnss_meas_buf 0, s3.sat_track_status 7)) =
      some ([], some 1, [], some 1, [3], some 2) := by
  refine ⟨rfl, ?_⟩
  simp [processGNSS, processGNSS.loop, processGNSS.body, processGNSS.select, processGNSS.track,
    processGNSS.findEphem, processGNSS.setTrack, exampleGnss, exampleTracking, exampleObs,
    Function.update]
  norm_num

/-! ## `GNSSVIAlign` -/

theorem GNSSVIAlign.fold_sum (f g : Nat → ℚ) (n : Nat) :
    (List.range n).foldl (fun a i => (a.1 + f i, a.2 + g i)) ((0 : ℚ), (0 : ℚ)) =
      (∑ i in Finset.range n, f i, ∑ i in Finset.range n, g i) := by
  induction n with
  | zero => rfl
  | succ n ih =>
    rw [List.range_succ, List.foldl_append, ih]
    simp [Finset.sum_range_succ]

/-- The norm of the sum of the vectors `(|x i|, |y i|)` is at most the sum of the norms of the
vectors `(x i, y i)`. -/
theorem GNSSVIAlign.norm_sum_abs_le (x y : Nat → ℚ) (n : Nat) :
    Real.sqrt (((∑ i in Finset.range n, |x i| : ℚ) : ℝ) ^ 2 +
        ((∑ i in Finset.range n, |y i| : ℚ) : ℝ) ^ 2) ≤
      ∑ i in Finset.range n, Real.sqrt ((x i : ℝ) ^ 2 + (y i : ℝ) ^ 2) := by
  have h := norm_sum_le (Finset.range n) (fun i => (⟨((|x i| : ℚ) : ℝ), ((|y i| : ℚ) : ℝ)⟩ : ℂ))
  have hl : ‖∑ i in Finset.range n, (⟨((|x i| : ℚ) : ℝ), ((|y i| : ℚ) : ℝ)⟩ : ℂ)‖ =
      Real.sqrt (((∑ i in Finset.range n, |x i| : ℚ) : ℝ) ^ 2 +
        ((∑ i in Finset.range n, |y i| : ℚ) : ℝ) ^ 2) := by
    rw [Complex.norm_eq_abs, Complex.abs_apply, Complex.normSq_apply, Complex.re_sum,
      Complex.im_sum]
    simp only [Rat.cast_sum, sq]
  have hr : ∀ i, ‖(⟨((|x i| : ℚ) : ℝ), ((|y i| : ℚ) : ℝ)⟩ : ℂ)‖ =
      Real.sqrt ((x i : ℝ) ^ 2 + (y i : ℝ) ^ 2) := by
    intro i
    rw [Complex.norm_eq_abs, Complex.abs_apply, Complex.normSq_apply]
    simp only [Rat.cast_abs, abs_mul_abs_self, sq]
  rw [hl] at h
  simpa only [hr] using h

/-- If the average of the horizontal speeds of the frames is below a positive threshold, so is
the norm of the average of their component-wise absolute horizontal velocities, which is what
the code tests. -/
theorem GNSSVIAlign.slow_of_average (W : Nat) (s : Estimator) (c : ℚ) (hc : 0 < c)
    (h : (∑ i in Finset.range (W + 1),
      Real.sqrt (((s.Vs i).1 : ℝ) ^ 2 + ((s.Vs i).2.1 : ℝ) ^ 2)) / ((W : ℝ) + 1) < (c : ℝ)) :
    Vector2d.normLt (GNSSVIAlign.avg_hor_vel W s) c = true := by
  unfold Vector2d.normLt GNSSVIAlign.avg_hor_vel
  rw [GNSSVIAlign.fold_sum (fun i => |(s.Vs i).1|) (fun i => |(s.Vs i).2.1|)]
  simp only [decide_eq_true_eq]
  have hcr : (0 : ℝ) < (c : ℝ) := by exact_mod_cast hc
  have hn : (0 : ℝ) < (W : ℝ) + 1 := by positivity
  have h1 := GNSSVIAlign.norm_sum_abs_le (fun i => (s.Vs i).1) (fun i => (s.Vs i).2.1) (W + 1)
  have h2 : (∑ i in Finset.range (W + 1),
      Real.sqrt (((s.Vs i).1 : ℝ) ^ 2 + ((s.Vs i).2.1 : ℝ) ^ 2)) < (c : ℝ) * ((W : ℝ) + 1) := by
    rwa [div_lt_iff₀ hn] at h
  have h3 := lt_of_le_of_lt h1 h2
  have h4 : (0 : ℝ) < (c : ℝ) * ((W : ℝ) + 1) := by positivity
  rw [Real.sqrt_lt' h4] at h3
  have key : (((∑ i in Finset.range (W + 1), |(s.Vs i).1| : ℚ) : ℝ) / ((W : ℝ) + 1)) *
        (((∑ i in Finset.range (W + 1), |(s.Vs i).1| : ℚ) : ℝ) / ((W : ℝ) + 1)) +
      (((∑ i in Finset.range (W + 1), |(s.Vs i).2.1| : ℚ) : ℝ) / ((W : ℝ) + 1)) *
        (((∑ i in Finset.range (W + 1), |(s.Vs i).2.1| : ℚ) : ℝ) / ((W : ℝ) + 1)) <
      (c : ℝ) * (c : ℝ) := by
    have e : ∀ a b : ℝ, a / ((W : ℝ) + 1) * (a / ((W : ℝ) + 1)) +
        b / ((W : ℝ) + 1) * (b / ((W : ℝ) + 1)) = (a ^ 2 + b ^ 2) / ((W : ℝ) + 1) ^ 2 := by
      intro a b
      field_simp
      ring
    rw [e, div_lt_iff₀ (by positivity)]
    calc _ < ((c : ℝ) * ((W : ℝ) + 1)) ^ 2 := h3
      _ = (c : ℝ) * (c : ℝ) * ((W : ℝ) + 1) ^ 2 := by ring
  have cast : ((((∑ i in Finset.range (W + 1), |(s.Vs i).1|) / (((W + 1 : Nat) : ℚ)) *
        ((∑ i in Finset.range (W + 1), |(s.Vs i).1|) / (((W + 1 : Nat) : ℚ))) +
      (∑ i in Finset.range (W + 1), |(s.Vs i).2.1|) / (((W + 1 : Nat) : ℚ)) *
        ((∑ i in Finset.range (W + 1), |(s.Vs i).2.1|) / (((W + 1 : Nat) : ℚ))) : ℚ) : ℝ) <
      (((c * c : ℚ) : ℝ))) := by
    push_cast at key ⊢
    exact key
  exact_mod_cast cast

theorem literal_0_3_lt : 0 < literal_0_3 ∧ literal_0_3 < 3 / 10 := by
  unfold literal_0_3
  constructor <;> norm_num

theorem DispatcherFrame.refl (s : Estimator) : DispatcherFrame s s := ⟨rfl, rfl, rfl⟩

theorem DispatcherFrame.trans {s s2 s3 : Estimator} (h1 : DispatcherFrame s s2)
    (h2 : DispatcherFrame s2 s3) : DispatcherFrame s s3 :=
  ⟨h2.1.trans h1.1, h2.2.1.trans h1.2.1, h2.2.2.trans h1.2.2⟩

theorem processMeasurements.imuStateLoop_frame (c : DispatchCallees)
    (hc : c.KeepsDispatcher) (accVector gyrVector : List (Time × Vector3d)) (remaining : Nat) :
    ∀ (i : Nat) (s s2 : Estimator),
      processMeasurements.imuStateLoop c accVector gyrVector remaining i s = some s2 →
      DispatcherFrame s s2 := by
  induction remaining with
  | zero =>
    intro i s s2 hrun
    simp only [processMeasurements.imuStateLoop, Option.some.injEq] at hrun
    rw [← hrun]
    exact DispatcherFrame.refl s
  | succ n ih =>
    intro i s s2 hrun
    unfold processMeasurements.imuStateLoop at hrun
    split at hrun
    · exact DispatcherFrame.trans (hc.processIMU _ s) (ih _ _ _ hrun)
    · cases hrun

theorem processMeasurements.imuPart_frame (c : DispatchCallees) (hc : c.KeepsDispatcher)
    (s s2 : Estimator) (accVector gyrVector : List (Time × Vector3d))
    (hrun : processMeasurements.imuPart c s accVector gyrVector = some s2) :
    DispatcherFrame s s2 := by
  unfold processMeasurements.imuPart at hrun
  have hinit : DispatcherFrame s
      (if (!s.initFirstPoseFlag) = true then c.initFirstIMUPose accVector s else s) := by
    split_ifs
    · exact hc.initFirstIMUPose accVector s
    · exact DispatcherFrame.refl s
  by_cases himu : s.USE_IMU = true
  · rw [if_pos himu] at hrun
    simp only at hrun
    generalize (if (!s.initFirstPoseFlag) = true then c.initFirstIMUPose accVector s else s) = s1
      at hrun hinit
    by_cases henc : s1.ENCODER_ENABLE = true
    · rw [if_pos henc] at hrun
      by_cases hlate : s1.latest_encoder_time < s1.curTime
      · rw [if_pos hlate] at hrun
        cases hrun
      · rw [if_neg hlate] at hrun
        split at hrun
        · cases hrun
        · have h2 := hc.encoderLoop _ _ _ _ _ hrun
          exact DispatcherFrame.trans hinit ⟨h2.1, h2.2.1, h2.2.2⟩
    · rw [if_neg henc] at hrun
      exact DispatcherFrame.trans hinit
        (processMeasurements.imuStateLoop_frame c hc accVector gyrVector _ _ _ _ hrun)
  · rw [if_neg himu] at hrun
    simp only [Option.some.injEq] at hrun
    rw [← hrun]
    exact DispatcherFrame.refl s

theorem processGNSS.body_frame (h : GnssHelpers) (s : Estimator) (v : List Nat × List Nat)
    (obs : Obs) (s2 : Estimator) (v2 : List Nat × List Nat)
    (hrun : processGNSS.body h s v obs = some (s2, v2)) : DispatcherFrame s s2 := by
  unfold processGNSS.body at hrun
  cases hsel : processGNSS.select h s obs with
  | none => rw [hsel] at hrun; simp at hrun
  | some r =>
    rw [hsel] at hrun
    cases r with
    | none =>
      simp only [Option.some.injEq, Prod.mk.injEq] at hrun
      rw [← hrun.1]
      exact DispatcherFrame.refl s
    | some r =>
      simp only at hrun
      obtain ⟨psr, _, hcase⟩ := processGNSS.track_cases h s v obs r.1 r.2 s2 v2 hrun
      rcases hcase with ⟨_, hs, _⟩ | ⟨_, dopp, _, ⟨_, hs, _⟩ | ⟨_, hs, _⟩⟩ <;>
        rw [hs] <;> exact ⟨rfl, rfl, rfl⟩

theorem processGNSS.loop_frame (h : GnssHelpers) (gnss_meas : List Obs) :
    ∀ (s : Estimator) (v : List Nat × List Nat) (s2 : Estimator) (v2 : List Nat × List Nat),
    processGNSS.loop h s v gnss_meas = some (s2, v2) → DispatcherFrame s s2 := by
  induction gnss_meas with
  | nil =>
    intro s v s2 v2 hrun
    simp only [processGNSS.loop, Option.some.injEq, Prod.mk.injEq] at hrun
    rw [← hrun.1]
    exact DispatcherFrame.refl s
  | cons obs rest ih =>
    intro s v s2 v2 hrun
    unfold processGNSS.loop at hrun
    cases hb : processGNSS.body h s v obs with
    | none => rw [hb] at hrun; simp at hrun
    | some r =>
      rw [hb] at hrun
      simp only at hrun
      exact DispatcherFrame.trans (processGNSS.body_frame h s v obs r.1 r.2 hb)
        (ih r.1 r.2 s2 v2 hrun)

theorem processGNSS_frame (h : GnssHelpers) (s s2 : Estimator) (gnss_meas : List Obs)
    (hrun : processGNSS h s gnss_meas = some s2) : DispatcherFrame s s2 := by
  unfold processGNSS at hrun
  cases hl : processGNSS.loop h s ([], []) gnss_meas with
  | none => rw [hl] at hrun; simp at hrun
  | some r =>
    rw [hl] at hrun
    simp only [Option.some.injEq] at hrun
    rw [← hrun]
    exact DispatcherFrame.trans (processGNSS.loop_frame h gnss_meas s _ r.1 r.2 hl)
      ⟨rfl, rfl, rfl⟩

theorem processMeasurements.gnssLoop_frame (h : GnssHelpers)
    (gnssVector : List (Time × List Obs)) :
    ∀ (s s2 : Estimator), processMeasurements.gnssLoop h s gnssVector = some s2 →
      DispatcherFrame s s2 := by
  induction gnssVector with
  | nil =>
    intro s s2 hrun
    simp only [processMeasurements.gnssLoop, Option.some.injEq] at hrun
    rw [← hrun]
    exact DispatcherFrame.refl s
  | cons m rest ih =>
    intro s s2 hrun
    unfold processMeasurements.gnssLoop at hrun
    cases hp : processGNSS h s m.2 with
    | none => rw [hp] at hrun; simp at hrun
    | some s1 =>
      rw [hp] at hrun
      simp only at hrun
      exact DispatcherFrame.trans (processGNSS_frame h s s1 m.2 hp) (ih s1 s2 hrun)

theorem processMeasurements.gnssPart_frame (h : GnssHelpers) (s s2 : Estimator)
    (hrun : processMeasurements.gnssPart h s = some s2) : DispatcherFrame s s2 := by
  unfold processMeasurements.gnssPart at hrun
  split_ifs at hrun with h1
  · split at hrun
    · cases hrun
    · have h2 := processMeasurements.gnssLoop_frame h _ _ _ hrun
      exact ⟨h2.1, h2.2.1, h2.2.2⟩
  · simp only [Option.some.injEq] at hrun
    rw [← hrun]
    exact DispatcherFrame.refl s

/-- One call of `processMeasurements` without `MULTIPLE_THREAD` on a feature queue whose top is
`(t, frame)`: with the IMU late it returns at once and leaves the queue as it is; otherwise, if
it returns, the top frame alone is popped, `processImage` was called on it and on no other
frame, and `prevTime` is `t + td`: the single pass of lines 558-559. -/
theorem processMeasurements_head (c : DispatchCallees) (h : GnssHelpers)
    (hc : c.KeepsDispatcher) (s : Estimator) (t : Time) (frame : Nat)
    (rest : List (Time × Nat))
    (hsingle : s.MULTIPLE_THREAD = false) (hbuf : s.featureBuf = (t, frame) :: rest) :
    ((s.USE_IMU = true ∧ s.latest_imu_time < t + s.td) →
      ∃ r, processMeasurements c h s = some r ∧
        r.1.featureBuf = (t, frame) :: rest ∧ r.2 = [] ∧ r.1.prevTime = s.prevTime ∧
        r.1.MULTIPLE_THREAD = false) ∧
    (¬ (s.USE_IMU = true ∧ s.latest_imu_time < t + s.td) →
      ∀ r, processMeasurements c h s = some r →
        r.1.featureBuf = rest ∧ r.2 = [(t, frame)] ∧ r.1.prevTime = t + s.td) := by
  constructor
  · intro hlate
    unfold processMeasurements
    rw [hbuf]
    simp only [List.head?_cons]
    rw [if_pos hlate]
    simp only [hsingle, Bool.not_false, if_true]
    exact ⟨_, rfl, rfl, rfl, rfl, rfl⟩
  · intro hlate r hret
    unfold processMeasurements at hret
    rw [hbuf] at hret
    simp only [List.head?_cons] at hret
    rw [if_neg hlate] at hret
    split at hret
    · cases hret
    · rename_i r0 _
      split at hret
      · cases hret
      · rename_i s1 h1
        split at hret
        · cases hret
        · rename_i s2 h2
          have f1 := processMeasurements.imuPart_frame c hc _ s1 _ _ h1
          have f2 := processMeasurements.gnssPart_frame h s1 s2 h2
          have f3 := hc.processImage frame t s2
          have f := DispatcherFrame.trans (DispatcherFrame.trans f1 f2) f3
          obtain ⟨fa, fb, fc⟩ := f
          simp only [List.tail_cons] at fa fb fc
          split_ifs at hret with hmt
          · simp only [Option.some.injEq] at hret
            rw [← hret]
            exact ⟨fa, rfl, fb⟩

/-- With the IMU late and `MULTIPLE_THREAD` off, `processMeasurements` sets `curTime` and
returns. -/
theorem processMeasurements_late (c : DispatchCallees) (h : GnssHelpers) (s : Estimator)
    (t : Time) (frame : Nat) (hsingle : s.MULTIPLE_THREAD = false)
    (hbuf : s.featureBuf = [(t, frame)])
    (hlate : s.USE_IMU = true ∧ s.latest_imu_time < t + s.td) :
    processMeasurements c h s = some ({ s with curTime := t + s.td }, []) := by
  unfold processMeasurements
  rw [hbuf]
  simp only [List.head?_cons]
  rw [if_pos hlate]
  simp only [hsingle, Bool.not_false, if_true]

theorem inputFeature_single_eq (c : DispatchCallees) (h : GnssHelpers) (s : Estimator)
    (t : Time) (featureFrame : Nat) (hsingle : s.MULTIPLE_THREAD = false)
    (hempty : s.featureBuf = []) :
    inputFeature c h t featureFrame s =
      processMeasurements c h { s with featureBuf := [(t, featureFrame)] } := by
  unfold inputFeature
  simp only [hsingle, hempty, TimePQ.push, Bool.not_false, if_true]

theorem inputImage_single_eq (c : DispatchCallees) (h : GnssHelpers) (s : Estimator)
    (t : Time) (featureFrame : Nat) (hsingle : s.MULTIPLE_THREAD = false)
    (hempty : s.featureBuf = []) :
    inputImage c h t featureFrame s =
      processMeasurements c h { s with
        inputImageCnt := s.inputImageCnt + 1
        featureTracker := s.featureTracker ++ [FeatureTrackerCall.trackImage t]
        featureBuf := [(t, featureFrame)] } := by
  unfold inputImage
  simp only [hsingle, hempty, TimePQ.push, Bool.false_eq_true, if_false]

theorem inputFeature_queued_eq (c : DispatchCallees) (h : GnssHelpers) (s : Estimator)
    (t t2 : Time) (frame frame2 : Nat) (hsingle : s.MULTIPLE_THREAD = false)
    (hbuf : s.featureBuf = [(t, frame)]) (hlt : t < t2) :
    inputFeature c h t2 frame2 s =
      processMeasurements c h { s with featureBuf := [(t, frame), (t2, frame2)] } := by
  unfold inputFeature
  simp only [hsingle, hbuf, TimePQ.push, Bool.not_false, if_true, if_neg (not_lt.2 hlt.le)]

theorem inputImage_queued_eq (c : DispatchCallees) (h : GnssHelpers) (s : Estimator)
    (t t2 : Time) (frame frame2 : Nat) (hsingle : s.MULTIPLE_THREAD = false)
    (hbuf : s.featureBuf = [(t, frame)]) (hlt : t < t2) :
    inputImage c h t2 frame2 s =
      processMeasurements c h { s with
        inputImageCnt := s.inputImageCnt + 1
        featureTracker := s.featureTracker ++ [FeatureTrackerCall.trackImage t2]
        featureBuf := [(t, frame), (t2, frame2)] } := by
  unfold inputImage
  simp only [hsingle, hbuf, TimePQ.push, Bool.false_eq_true, if_false, if_neg (not_lt.2 hlt.le)]

theorem exampleCallees_keeps : exampleCallees.KeepsDispatcher :=
  { initFirstIMUPose := fun _ s => DispatcherFrame.refl s
    processIMU := fun _ s => DispatcherFrame.refl s
    encoderLoop := fun _ _ _ s s2 hrun => by
      simp only [exampleCallees, Option.some.injEq] at hrun
      rw [← hrun]
      exact DispatcherFrame.refl s
    processImage := fun _ _ s => DispatcherFrame.refl s }

theorem heldAfter_append (t1 t2 : List LockEvent) :
    ∀ held, heldAfter held (t1 ++ t2) = heldAfter (heldAfter held t1) t2 := by
  induction t1 with
  | nil => intro held; rfl
  | cons e rest ih => intro held; exact ih _

theorem respects_append (allows : List Mutex → LockEvent → Bool) (t1 t2 : List LockEvent) :
    ∀ held, respects allows held (t1 ++ t2) =
      (respects allows held t1 && respects allows (heldAfter held t1) t2) := by
  induction t1 with
  | nil => intro held; simp [respects, heldAfter]
  | cons e rest ih =>
    intro held
    rw [List.cons_append]
    simp only [respects, heldAfter]
    rw [ih, Bool.and_assoc]

theorem LockOrdered.append {t1 t2 : List LockEvent} (h1 : LockOrdered t1)
    (h2 : LockOrdered t2) : LockOrdered (t1 ++ t2) := by
  refine ⟨?_, ?_⟩
  · rw [respects_append, h1.1, h1.2, h2.1]
    rfl
  · rw [heldAfter_append, h1.2, h2.2]

/-- Inside the section of `mProcess`, `processImage` follows the order and gives back what it
took. -/
theorem processImage.locks_inside (W : Nat) (s solved : Estimator) (result : Bool) :
    respects orderDiscipline [Mutex.mProcess] (processImage.locks W s solved result) = true ∧
    heldAfter [Mutex.mProcess] (processImage.locks W s solved result) = [Mutex.mProcess] := by
  unfold processImage.locks
  rw [failureDetection_eq_false]
  simp only [Bool.false_eq_true, if_false]
  split_ifs <;> exact ⟨by decide, by decide⟩

theorem LockOrdered.around (pre img : List LockEvent) (hpre : LockOrdered pre)
    (himg : respects orderDiscipline [Mutex.mProcess] img = true ∧
      heldAfter [Mutex.mProcess] img = [Mutex.mProcess]) :
    LockOrdered (pre ++ [LockEvent.lock Mutex.mProcess] ++ img ++
      [LockEvent.unlock Mutex.mProcess]) := by
  have e1 : heldAfter [] (pre ++ [LockEvent.lock Mutex.mProcess]) = [Mutex.mProcess] := by
    rw [heldAfter_append, hpre.2]
    rfl
  have e2 : heldAfter [] (pre ++ [LockEvent.lock Mutex.mProcess] ++ img) = [Mutex.mProcess] := by
    rw [heldAfter_append, e1, himg.2]
  refine ⟨?_, ?_⟩
  · rw [respects_append, e2, respects_append, e1, himg.1, respects_append, hpre.1, hpre.2]
    decide
  · rw [heldAfter_append, e2]
    decide

theorem processMeasurements.passLocks_ordered (W : Nat) (p : DispatchPass) :
    LockOrdered (processMeasurements.passLocks W p) := by
  unfold processMeasurements.passLocks
  have himg := processImage.locks_inside W p.image p.solved p.result
  cases p.top.featureBuf.head? with
  | none => exact ⟨rfl, rfl⟩
  | some feature =>
    simp only
    split_ifs
    all_goals first
      | exact ⟨rfl, rfl⟩
      | exact LockOrdered.around _ _ ⟨by decide, by decide⟩ himg

/-- C19, amended. Lock discipline, as an invariant of the sequence of lock/unlock events of any
single call chain starting at `processMeasurements` (any number of passes), `inputIMU`,
`clearState`, `setParameter` or `changeSensorType`: the mutexes are acquired nested in the
order `mProcess`, `mPropagate`, `mBuf` (a mutex is acquired only while the mutexes held come
before it in that order, so `mProcess` is never acquired while `mBuf` or `mPropagate` is held
and `mPropagate` never while `mBuf` is held), the mutex released is the one acquired last, and
none is held at the end. The chains from `inputIMU`, `clearState`, `setParameter` and
`changeSensorType` hold one mutex at a time, as the specification has it. -/
theorem lock_order_of_call_chains (W : Nat) :
    (∀ passes, LockOrdered (processMeasurements.locks W passes)) ∧
    (∀ s, LockOrdered (inputIMU.locks s) ∧
      respects specDiscipline [] (inputIMU.locks s) = true) ∧
    (LockOrdered clearState.locks ∧ respects specDiscipline [] clearState.locks = true) ∧
    (LockOrdered setParameter.locks ∧ respects specDiscipline [] setParameter.locks = true) ∧
    (∀ use_imu use_stereo s, LockOrdered (changeSensorType.locks use_imu use_stereo s) ∧
      respects specDiscipline [] (changeSensorType.locks use_imu use_stereo s) = true) := by
  refine ⟨?_, ?_, ⟨⟨rfl, rfl⟩, rfl⟩, ⟨⟨rfl, rfl⟩, rfl⟩, ?_⟩
  · intro passes
    induction passes with
    | nil => exact ⟨rfl, rfl⟩
    | cons p rest ih =>
      exact LockOrdered.append (processMeasurements.passLocks_ordered W p) ih
  · intro s
    unfold inputIMU.locks
    split_ifs <;> exact ⟨⟨rfl, rfl⟩, rfl⟩
  · intro use_imu use_stereo s
    unfold changeSensorType.locks
    split_ifs <;> exact ⟨⟨rfl, rfl⟩, rfl⟩

/-- C19, counterexample. One pass of `processMeasurements` on the initialized window
`examplePass` (a frame queued, the IMU ahead of it): inside the section of `mProcess`,
`processImage` calls `updateLatestStates`, which acquires `mPropagate` and then `mBuf`. After
the fifth event the three mutexes are held together, and the sequence breaks the discipline of
the specification. -/
theorem processMeasurements_nests_locks :
    processMeasurements.locks 2 [examplePass] =
      [LockEvent.lock Mutex.mBuf, LockEvent.unlock Mutex.mBuf, LockEvent.lock Mutex.mProcess,
        LockEvent.lock Mutex.mPropagate, LockEvent.lock Mutex.mBuf, LockEvent.unlock Mutex.mBuf,
        LockEvent.unlock Mutex.mPropagate, LockEvent.unlock Mutex.mProcess] ∧
    heldAfter [] ((processMeasurements.locks 2 [examplePass]).take 5) =
      [Mutex.mBuf, Mutex.mPropagate, Mutex.mProcess] ∧
    respects specDiscipline [] (processMeasurements.locks 2 [examplePass]) = false := by
  have htrace : processMeasurements.locks 2 [examplePass] =
      [LockEvent.lock Mutex.mBuf, LockEvent.unlock Mutex.mBuf, LockEvent.lock Mutex.mProcess,
        LockEvent.lock Mutex.mPropagate, LockEvent.lock Mutex.mBuf, LockEvent.unlock Mutex.mBuf,
        LockEvent.unlock Mutex.mPropagate, LockEvent.unlock Mutex.mProcess] := by
    have hnot : ¬ ((3 : ℚ) < 2 + 0) := by norm_num
    simp [processMeasurements.locks, processMeasurements.passLocks, processImage.locks,
      examplePass, exampleDispatch, exampleWindow, failureDetection,
      updateLatestStates.locks, hnot]
    norm_num
  rw [htrace]
  exact ⟨rfl, by decide, by decide⟩

/-! ## The image frames after the `MARGIN_OLD` slide -/

theorem slideWindow.shiftSlot_all_image_frame (s : Estimator) (i : Nat) :
    (slideWindow.shiftSlot s i).all_image_frame = s.all_image_frame := by
  unfold slideWindow.shiftSlot
  by_cases h : s.USE_IMU = true <;> simp [h]

theorem slideWindow.shiftLoop_all_image_frame (s : Estimator) (k : Nat) :
    ((List.range k).foldl slideWindow.shiftSlot s).all_image_frame = s.all_image_frame := by
  induction k with
  | zero => rfl
  | succ k ih =>
    rw [List.range_succ, List.foldl_append]
    simp only [List.foldl_cons, List.foldl_nil]
    rw [slideWindow.shiftSlot_all_image_frame, ih]

theorem slideWindowOld_all_image_frame (s : Estimator) :
    (slideWindowOld s).all_image_frame = s.all_image_frame := by
  unfold slideWindowOld
  by_cases h : s.solver_flag = SolverFlag.NON_LINEAR <;> simp [h]

theorem slideWindow.afterShift_all_image_frame (W : Nat) (t_0 : Time) (s s2 : Estimator)
    (h : slideWindow.afterShift W t_0 s = some s2) :
    slideWindow.eraseImageFrames t_0 s.all_image_frame = some s2.all_image_frame := by
  unfold slideWindow.afterShift at h
  simp only at h
  have hsame : (if s.USE_IMU = true then
      slideWindow.reseedLast W
        { s with
          Headers := Function.update s.Headers W (s.Headers (W - 1))
          Ps := Function.update s.Ps W (s.Ps (W - 1))
          Rs := Function.update s.Rs W (s.Rs (W - 1))
          gnss_meas_buf := Function.update s.gnss_meas_buf W []
          gnss_ephem_buf := Function.update s.gnss_ephem_buf W [] }
      else
        { s with
          Headers := Function.update s.Headers W (s.Headers (W - 1))
          Ps := Function.update s.Ps W (s.Ps (W - 1))
          Rs := Function.update s.Rs W (s.Rs (W - 1))
          gnss_meas_buf := Function.update s.gnss_meas_buf W []
          gnss_ephem_buf := Function.update s.gnss_ephem_buf W [] }).all_image_frame =
      s.all_image_frame := by
    by_cases himu : s.USE_IMU = true <;>
      simp [himu, slideWindow.reseedLast, slideWindow.freshPreIntegration]
  rw [hsame] at h
  split at h
  · cases h
  · rename_i m hm
    simp only [Option.some.injEq] at h
    rw [← h, slideWindowOld_all_image_frame]
    exact hm

/-- What the block on `all_image_frame` leaves: the entry of `t_0` with its pre-integration
deleted, followed by the later entries; the entries before it are dropped as they are. -/
theorem slideWindow.eraseImageFrames_spec (t_0 : Time) (m m2 : List (Time × ImageFrame))
    (h : slideWindow.eraseImageFrames t_0 m = some m2) :
    ∃ e p rest, m = slideWindow.erasedImageFrames t_0 m ++ e :: rest ∧ e.1 = t_0 ∧
      Ptr.delete e.2.pre_integration = some p ∧
      m2 = (t_0, ({ pre_integration := p } : ImageFrame)) :: rest := by
  induction m with
  | nil => simp [slideWindow.eraseImageFrames] at h
  | cons x xs ih =>
    unfold slideWindow.eraseImageFrames at h
    by_cases hx : x.1 = t_0
    · rw [if_pos hx] at h
      cases hp : Ptr.delete x.2.pre_integration with
      | none => rw [hp] at h; cases h
      | some p =>
        rw [hp] at h
        simp only [Option.some.injEq] at h
        refine ⟨x, p, xs, ?_, hx, hp, ?_⟩
        · simp [slideWindow.erasedImageFrames, List.takeWhile, hx]
        · rw [← h, hx]
    · rw [if_neg hx] at h
      obtain ⟨e, p, rest, h1, h2, h3, h4⟩ := ih h
      refine ⟨e, p, rest, ?_, h2, h3, h4⟩
      have hd : decide (x.1 ≠ t_0) = true := by simpa using hx
      simp only [slideWindow.erasedImageFrames, List.takeWhile_cons, hd, if_true,
        List.cons_append]
      congr 1

/-- After every `MARGIN_OLD` slide of a full window that returns, `all_image_frame` starts with
an entry at the evicted timestamp, whose pre-integration pointer is not live. -/
theorem slideWindow_old_keeps_evicted_frame (W : Nat) (s s2 : Estimator) (hW : 0 < W)
    (hflag : s.marginalization_flag = MarginalizationFlag.MARGIN_OLD)
    (hfc : s.frame_count = W) (hrun : slideWindow W s = some s2) :
    ∃ e p rest, s.all_image_frame =
        slideWindow.erasedImageFrames (s.Headers 0) s.all_image_frame ++ e :: rest ∧
      e.1 = s.Headers 0 ∧ Ptr.delete e.2.pre_integration = some p ∧
      s2.all_image_frame = (s.Headers 0, ({ pre_integration := p } : ImageFrame)) :: rest := by
  rw [slideWindow_old_unfold W s hW hflag hfc] at hrun
  have h := slideWindow.afterShift_all_image_frame W (s.Headers 0) _ s2 hrun
  rw [slideWindow.shiftLoop_all_image_frame] at h
  exact slideWindow.eraseImageFrames_spec (s.Headers 0) s.all_image_frame s2.all_image_frame h

/-- C24, at the failing input. The full window `exampleFrames` (`W = 2`, `MARGIN_OLD`) has
headers 1, 2, 3 and image frames at 0, 1, 2, 3 with live temporary pre-integrations; the slide
evicts the frame with timestamp `t_0 = 1`. After it `all_image_frame` still holds the entry at
1, a timestamp `<= t_0`, now with a dangling pre-integration pointer, and the entry at 0 was
erased with its pre-integration still live, never deleted. -/
theorem slideWindow_old_leaves_evicted_frame :
    exampleFrames.marginalization_flag = MarginalizationFlag.MARGIN_OLD ∧
    exampleFrames.frame_count = 2 ∧ exampleFrames.Headers 0 = 1 ∧
    (∃ s2, slideWindow 2 exampleFrames = some s2 ∧
      s2.all_image_frame =
        [(1, { pre_integration := Ptr.deleted }),
          (2, { pre_integration :=
            Ptr.live (IntegrationBase.create (0, 0, 2) (0, 0, 0) (0, 0, 0) (0, 0, 0) none) }),
          (3, { pre_integration :=
            Ptr.live (IntegrationBase.create (0, 0, 3) (0, 0, 0) (0, 0, 0) (0, 0, 0) none) })] ∧
      (∃ e ∈ s2.all_image_frame, e.1 ≤ exampleFrames.Headers 0)) ∧
    slideWindow.erasedImageFrames 1 exampleFrames.all_image_frame =
      [(0, { pre_integration :=
        Ptr.live (IntegrationBase.create (0, 0, 0) (0, 0, 0) (0, 0, 0) (0, 0, 0) none) })] := by
  have hH : exampleFrames.Headers 0 = 1 := by simp [exampleFrames]
  have hm : slideWindow.eraseImageFrames (exampleFrames.Headers 0)
      exampleFrames.all_image_frame =
      some [(1, { pre_integration := Ptr.deleted }),
        (2, { pre_integration :=
          Ptr.live (IntegrationBase.create (0, 0, 2) (0, 0, 0) (0, 0, 0) (0, 0, 0) none) }),
        (3, { pre_integration :=
          Ptr.live (IntegrationBase.create (0, 0, 3) (0, 0, 0) (0, 0, 0) (0, 0, 0) none) })] := by
    rw [hH]
    simp [slideWindow.eraseImageFrames, exampleFrames, Ptr.delete]
  have hrun := slideWindow.afterShift_loop_eq 2 (exampleFrames.Headers 0)
    { exampleFrames with back_R0 := exampleFrames.Rs 0, back_P0 := exampleFrames.Ps 0 } _ rfl hm
  rw [← slideWindow_old_unfold 2 exampleFrames (by decide) rfl rfl] at hrun
  refine ⟨rfl, rfl, hH, ⟨_, hrun, ?_, ?_⟩, ?_⟩
  · rw [slideWindowOld_all_image_frame]
    rfl
  · rw [slideWindowOld_all_image_frame, hH]
    exact ⟨(1, { pre_integration := Ptr.deleted }), List.mem_cons_self _ _, le_refl _⟩
  · simp [slideWindow.erasedImageFrames, exampleFrames, List.takeWhile]

/-! ## `getGNSSInterval` on a queue without a batch at or after `t1` -/

theorem popWhileLE_suffix {α : Type} (t0 : Time) (q q2 : TimePQ α)
    (h : popWhileLE t0 q = some q2) : ∀ x ∈ q2, x ∈ q := by
  induction q with
  | nil => simp [popWhileLE] at h
  | cons y ys ih =>
    unfold popWhileLE at h
    by_cases hy : y.1 ≤ t0
    · rw [if_pos hy] at h
      intro x hx
      exact List.mem_cons_of_mem _ (ih h x hx)
    · rw [if_neg hy] at h
      simp only [Option.some.injEq] at h
      rw [← h]
      intro x hx
      exact hx

theorem drainWhileLT_undefined {α : Type} (t1 : Time) (q : TimePQ α)
    (h : ∀ x ∈ q, x.1 < t1) : ∀ v, drainWhileLT t1 q v = none := by
  induction q with
  | nil => intro v; rfl
  | cons y ys ih =>
    intro v
    unfold drainWhileLT
    rw [if_pos (h y (List.mem_cons_self _ _))]
    exact ih (fun x hx => h x (List.mem_cons_of_mem _ hx)) _

/-- On a queue that is empty, or whose batches are all before `t1`, one of the two loops of
`getGNSSInterval` reads the top of the empty queue. -/
theorem getGNSSInterval_undefined {α : Type} (t0 t1 : Time) (gnssBuf : TimePQ α)
    (gnssVector : List (Time × α)) (h : ∀ x ∈ gnssBuf, x.1 < t1) :
    getGNSSInterval t0 t1 gnssBuf gnssVector = none := by
  unfold getGNSSInterval
  cases hp : popWhileLE t0 gnssBuf with
  | none => rfl
  | some q =>
    exact drainWhileLT_undefined t1 q
      (fun x hx => h x (popWhileLE_suffix t0 gnssBuf q hp x hx)) _

/-- With GNSS enabled and no batch at or after `curTime` in the queue, the GNSS block of the
dispatcher has no defined result. -/
theorem processMeasurements.gnssPart_undefined (h : GnssHelpers) (s : Estimator)
    (hg : s.GNSS_ENABLE = true) (hall : ∀ x ∈ s.gnssBuf, x.1 < s.curTime) :
    processMeasurements.gnssPart h s = none := by
  unfold processMeasurements.gnssPart
  rw [if_pos hg, getGNSSInterval_undefined s.prevTime s.curTime s.gnssBuf [] hall]

/-- C28, at the failing inputs. In `exampleGnssDispatch` GNSS is enabled, one frame is queued
at time 2 (`curTime = 2`, `prevTime = 0`) and the GNSS queue is empty: `getGNSSInterval(0, 2)`
reads the top of the empty queue in its first loop, and so does it, in its second loop, after
`inputGNSS` has queued one batch at time 1; each time the pass of the dispatcher has no
defined result. -/
theorem getGNSSInterval_reads_empty_queue :
    exampleGnssDispatch.GNSS_ENABLE = true ∧ exampleGnssDispatch.gnssBuf = [] ∧
    getGNSSInterval 0 2 exampleGnssDispatch.gnssBuf [] = none ∧
    popWhileLE 0 exampleGnssDispatch.gnssBuf = none ∧
    (inputGNSS 1 [exampleObs 1 7] exampleGnssDispatch).gnssBuf = [(1, [exampleObs 1 7])] ∧
    popWhileLE 0 (inputGNSS 1 [exampleObs 1 7] exampleGnssDispatch).gnssBuf =
      some [(1, [exampleObs 1 7])] ∧
    drainWhileLT 2 [((1 : Time), [exampleObs 1 7])] [] = none ∧
    getGNSSInterval 0 2 (inputGNSS 1 [exampleObs 1 7] exampleGnssDispatch).gnssBuf [] = none ∧
    processMeasurements exampleCallees exampleGnss exampleGnssDispatch = none ∧
    processMeasurements exampleCallees exampleGnss
      (inputGNSS 1 [exampleObs 1 7] exampleGnssDispatch) = none := by
  have h2 : (inputGNSS 1 [exampleObs 1 7] exampleGnssDispatch).gnssBuf =
      [(1, [exampleObs 1 7])] := rfl
  have hpop : popWhileLE 0 [((1 : Time), [exampleObs 1 7])] = some [(1, [exampleObs 1 7])] := by
    unfold popWhileLE
    rw [if_neg (by norm_num)]
  have hdrain : drainWhileLT 2 [((1 : Time), [exampleObs 1 7])] [] = none :=
    drainWhileLT_undefined 2 _ (by intro x hx; simp at hx; rw [hx]; norm_num) _
  refine ⟨rfl, rfl, rfl, rfl, h2, by rw [h2]; exact hpop, hdrain, ?_, ?_, ?_⟩
  · rw [h2]
    unfold getGNSSInterval
    rw [hpop]
    exact hdrain
  · simp [processMeasurements, processMeasurements.imuPart, processMeasurements.gnssPart,
      getGNSSInterval, popWhileLE, exampleGnssDispatch, exampleDispatch, exampleWindow,
      exampleCallees]
  · simp [processMeasurements, processMeasurements.imuPart, processMeasurements.gnssPart,
      getGNSSInterval, popWhileLE, inputGNSS, TimePQ.push, exampleGnssDispatch,
      exampleDispatch, exampleWindow, exampleCallees]
    norm_num [hdrain]

/-! ## `inputEphem` and the ephemeris matching of `processGNSS` -/

theorem mem_mapEmplace_of_fresh (toe : ℚ) (idx : Nat) (m : List (ℚ × Nat))
    (hfresh : ∀ e ∈ m, e.1 ≠ toe) (x : ℚ × Nat) :
    x ∈ mapEmplace toe idx m ↔ x = (toe, idx) ∨ x ∈ m := by
  induction m with
  | nil => simp [mapEmplace]
  | cons e m ih =>
    unfold mapEmplace
    have hne : ¬ toe = e.1 := fun h => hfresh e (List.mem_cons_self _ _) h.symm
    by_cases hlt : toe < e.1
    · rw [if_pos hlt]
      simp
    · rw [if_neg hlt, if_neg hne, List.mem_cons,
        ih (fun e2 he2 => hfresh e2 (List.mem_cons_of_mem _ he2)), List.mem_cons]
      tauto

/-- Empty maps agree. -/
theorem EphemIndexed.of_empty (toeOf : Nat → ℚ) (s : Estimator)
    (h1 : ∀ sat, s.sat2ephem sat = none) (h2 : ∀ sat, s.sat2time_index sat = none) :
    EphemIndexed toeOf s :=
  fun sat => Or.inl ⟨h1 sat, h2 sat⟩

/-- The function `clearState` leaves the two maps empty, hence in agreement. -/
theorem EphemIndexed.of_clearState (toeOf : Nat → ℚ) (W : Nat) (s : Estimator) :
    EphemIndexed toeOf (clearState W s) :=
  EphemIndexed.of_empty toeOf _ (fun _ => rfl) (fun _ => rfl)

/-- The function `inputEphem` keeps the two maps in agreement. -/
theorem EphemIndexed.of_inputEphem (toeOf : Nat → ℚ) (s : Estimator) (ephem_ptr sat : Nat)
    (hinv : EphemIndexed toeOf s) :
    EphemIndexed toeOf (inputEphem ephem_ptr sat (toeOf ephem_ptr) s) := by
  unfold inputEphem
  split_ifs with hnew
  · intro sat2
    by_cases hs : sat2 = sat
    · subst hs
      right
      simp only [Function.update_same]
      rcases hinv sat2 with ⟨he, ht⟩ | ⟨ephems, time2index, he, ht, h1, h2⟩
      · refine ⟨_, _, rfl, rfl, ?_, ?_⟩
        · intro e hmem
          simp only [he, ht, Option.getD_none, List.nil_append, List.length_singleton,
            mapEmplace, List.mem_singleton] at hmem
          subst hmem
          exact ⟨ephem_ptr, by simp [he], rfl⟩
        · intro i p hget
          simp only [he, Option.getD_none, List.nil_append] at hget
          have hi : i = 0 := by
            by_contra hne
            have : [ephem_ptr].get? i = none := by
              rw [List.get?_eq_none]
              simp only [List.length_singleton]
              omega
            rw [this] at hget
            cases hget
          subst hi
          simp only [List.get?_cons_zero, Option.some.injEq] at hget
          subst hget
          simp [he, ht, mapEmplace]
      · have hfresh : ∀ e ∈ time2index, e.1 ≠ toeOf ephem_ptr := by
          intro e hmem heq
          simp only [ht, Option.isNone_some, Bool.false_or, Option.getD_some,
            Bool.not_eq_true', List.any_eq_false, decide_eq_true_eq] at hnew
          exact hnew e hmem heq
        refine ⟨_, _, rfl, rfl, ?_, ?_⟩
        · intro e hmem
          simp only [he, ht, Option.getD_some, List.length_append, List.length_singleton,
            Nat.add_sub_cancel] at hmem ⊢
          rw [mem_mapEmplace_of_fresh _ _ _ hfresh] at hmem
          rcases hmem with hmem | hmem
          · subst hmem
            exact ⟨ephem_ptr, by simp, rfl⟩
          · obtain ⟨p, hp, htoe⟩ := h1 e hmem
            refine ⟨p, ?_, htoe⟩
            have hlt : e.2 < ephems.length := by
              by_contra hge
              have : ephems.get? e.2 = none := List.get?_eq_none.mpr (by omega)
              rw [this] at hp
              cases hp
            rw [List.get?_eq_getElem?, List.getElem?_append_left hlt, ← List.get?_eq_getElem?]
            exact hp
        · intro i p hget
          simp only [he, ht, Option.getD_some, List.length_append, List.length_singleton,
            Nat.add_sub_cancel] at hget ⊢
          rw [mem_mapEmplace_of_fresh _ _ _ hfresh]
          by_cases hlt : i < ephems.length
          · rw [List.get?_eq_getElem?, List.getElem?_append_left hlt,
              ← List.get?_eq_getElem?] at hget
            exact Or.inr (h2 i p hget)
          · have hi : i = ephems.length := by
              by_contra hne
              have : (ephems ++ [ephem_ptr]).get? i = none := by
                rw [List.get?_eq_none]
                simp only [List.length_append, List.length_singleton]
                omega
              rw [this] at hget
              cases hget
            subst hi
            simp only [List.get?_eq_getElem?, List.getElem?_concat_length,
              Option.some.injEq] at hget
            subst hget
            exact Or.inl rfl
    · simp only [Function.update_noteq hs]
      exact hinv sat2
  · exact hinv

/-- The loop of the ephemeris search from any starting pair: the time it ends with is at most
the starting one and at most every distance in the map, and the pair it ends with is either
the starting pair, no distance being below the starting time, or an entry of the map with
its distance, below the starting time. -/
theorem processGNSS.findEphem_fold (t : ℚ) (l : List (ℚ × Nat)) :
    ∀ acc : ℚ × Nat, ∃ r : ℚ × Nat,
      r = l.foldl
        (fun acc ti => if |ti.1 - t| < acc.1 then (|ti.1 - t|, ti.2) else acc) acc ∧
      r.1 ≤ acc.1 ∧ (∀ ti ∈ l, r.1 ≤ |ti.1 - t|) ∧
      ((r = acc ∧ ∀ ti ∈ l, acc.1 ≤ |ti.1 - t|) ∨
        (∃ ti ∈ l, r = (|ti.1 - t|, ti.2) ∧ r.1 < acc.1)) := by
  induction l with
  | nil =>
    intro acc
    exact ⟨acc, rfl, le_refl _, fun _ h => absurd h (List.not_mem_nil _),
      Or.inl ⟨rfl, fun _ h => absurd h (List.not_mem_nil _)⟩⟩
  | cons x rest ih =>
    intro acc
    by_cases hx : |x.1 - t| < acc.1
    · obtain ⟨r, hr, h1, h2, h3⟩ := ih (|x.1 - t|, x.2)
      refine ⟨r, ?_, ?_, ?_, ?_⟩
      · rw [hr, List.foldl_cons, if_pos hx]
      · exact le_trans h1 (le_of_lt hx)
      · intro ti hti
        rcases List.mem_cons.mp hti with h | h
        · rw [h]; exact h1
        · exact h2 ti h
      · right
        rcases h3 with ⟨heq, _⟩ | ⟨ti, hti, heq, hlt⟩
        · exact ⟨x, List.mem_cons_self _ _, heq, by rw [heq]; exact hx⟩
        · exact ⟨ti, List.mem_cons_of_mem _ hti, heq, lt_trans hlt hx⟩
    · obtain ⟨r, hr, h1, h2, h3⟩ := ih acc
      refine ⟨r, ?_, h1, ?_, ?_⟩
      · rw [hr, List.foldl_cons, if_neg hx]
      · intro ti hti
        rcases List.mem_cons.mp hti with h | h
        · rw [h]; exact le_trans h1 (not_lt.mp hx)
        · exact h2 ti h
      · rcases h3 with ⟨heq, hall⟩ | ⟨ti, hti, heq, hlt⟩
        · left
          refine ⟨heq, ?_⟩
          intro ti hti
          rcases List.mem_cons.mp hti with h | h
          · rw [h]; exact not_lt.mp hx
          · exact hall ti h
        · exact Or.inr ⟨ti, List.mem_cons_of_mem _ hti, heq, hlt⟩

/-- C26. Ephemeris matching of `processGNSS`, in a state whose two ephemeris maps agree (as
after `clearState` and any calls of `inputEphem`), for an observation that reaches the matching
step (system accepted, satellite with stored ephemerides `ephems`, a signal, an L1 frequency):
the step does not throw; the observation is rejected there if and only if no stored ephemeris
of its satellite has `|toe - obs_time| < EPH_VALID_SECONDS`; otherwise the index used is within
the bounds of `sat2ephem[sat]` and the ephemeris fetched with it has a `|toe - obs_time|`
that is minimal among the stored ephemerides of the satellite. -/
theorem processGNSS_ephemeris_match (h : GnssHelpers) (toeOf : Nat → ℚ) (s : Estimator)
    (obs : Obs) (ephems : List Nat) (hinv : EphemIndexed toeOf s)
    (hsys : h.validSys obs.sat = true) (heph : s.sat2ephem obs.sat = some ephems)
    (hfreq : obs.freqs_empty = false) (hL1 : 0 ≤ h.L1_freq obs) :
    processGNSS.select h s obs ≠ none ∧
    (processGNSS.select h s obs = some none ↔
      ∀ p ∈ ephems, ¬ |toeOf p - obs.time| < h.EPH_VALID_SECONDS) ∧
    ((∃ p ∈ ephems, |toeOf p - obs.time| < h.EPH_VALID_SECONDS) →
      ∃ best,
        (processGNSS.findEphem h obs.time ((s.sat2time_index obs.sat).getD [])).2 <
          ephems.length ∧
        ephems.get?
          (processGNSS.findEphem h obs.time ((s.sat2time_index obs.sat).getD [])).2 =
          some best ∧
        processGNSS.select h s obs = some (some ((h.L1_freq obs).toNat, best)) ∧
        ∀ p ∈ ephems, |toeOf best - obs.time| ≤ |toeOf p - obs.time|) := by
  rcases hinv obs.sat with ⟨he, _⟩ | ⟨ephems2, time2index, he, ht, h1, h2⟩
  · rw [he] at heph
    cases heph
  rw [he] at heph
  have hsame : ephems2 = ephems := Option.some.inj heph
  subst hsame
  have hstored : ∀ p ∈ ephems2, ∃ ti ∈ time2index, ti.1 = toeOf p := by
    intro p hp
    obtain ⟨i, hi⟩ := List.mem_iff_get?.mp hp
    exact ⟨(toeOf p, i), h2 i p hi, rfl⟩
  have hL : ¬ h.L1_freq obs < 0 := not_lt.mpr hL1
  have hsel : processGNSS.select h s obs =
      if (processGNSS.findEphem h obs.time time2index).1 ≥ h.EPH_VALID_SECONDS then some none
      else
        match ephems2.get? (processGNSS.findEphem h obs.time time2index).2 with
        | none => none
        | some best_ephem => some (some ((h.L1_freq obs).toNat, best_ephem)) := by
    unfold processGNSS.select
    simp only [hsys, Bool.true_eq_false, Bool.false_eq_true, if_false, he, hfreq, hL, ht]
  obtain ⟨r, hr, hle, hall, hcase⟩ :=
    processGNSS.findEphem_fold obs.time time2index (h.EPH_VALID_SECONDS, 2 ^ 64 - 1)
  have hr2 : processGNSS.findEphem h obs.time time2index = r := by
    rw [hr]
    rfl
  simp only [ht, Option.getD_some]
  rw [hsel, hr2]
  rcases hcase with ⟨heq, hnone⟩ | ⟨ti, hti, heq, hlt⟩
  · have hge : r.1 ≥ h.EPH_VALID_SECONDS := by rw [heq]
    have hno : ∀ p ∈ ephems2, ¬ |toeOf p - obs.time| < h.EPH_VALID_SECONDS := by
      intro p hp
      obtain ⟨ti, hti, htoe⟩ := hstored p hp
      rw [← htoe]
      exact not_lt.mpr (hnone ti hti)
    rw [if_pos hge]
    refine ⟨by simp, ⟨fun _ => hno, fun _ => rfl⟩, ?_⟩
    rintro ⟨p, hp, hlt⟩
    exact absurd hlt (hno p hp)
  · have hnge : ¬ r.1 ≥ h.EPH_VALID_SECONDS := not_le.mpr hlt
    obtain ⟨best, hbest, htoe⟩ := h1 ti hti
    have hidx : r.2 = ti.2 := by rw [heq]
    have hdist : r.1 = |toeOf best - obs.time| := by rw [heq, htoe]
    rw [if_neg hnge, hidx, hbest]
    have hbound : ti.2 < ephems2.length := by
      by_contra hge
      have : ephems2.get? ti.2 = none := List.get?_eq_none.mpr (by omega)
      rw [this] at hbest
      cases hbest
    refine ⟨by simp, ⟨fun hrej => by simp at hrej, fun hno => ?_⟩, ?_⟩
    · exfalso
      apply hno best (List.get?_mem hbest)
      rw [← hdist]
      exact hlt
    · intro _
      refine ⟨best, hbound, rfl, rfl, ?_⟩
      intro p hp
      obtain ⟨tj, htj, htoe2⟩ := hstored p hp
      rw [← hdist, ← htoe2]
      exact hall tj htj

theorem exampleEphems_indexed : EphemIndexed exampleToe exampleEphems := by
  have e1 : exampleToe 100 = 0 := by unfold exampleToe; norm_num
  have e2 : exampleToe 150 = 50 := by unfold exampleToe; norm_num
  have e3 : exampleToe 120 = 20 := by unfold exampleToe; norm_num
  unfold exampleEphems
  rw [← e1, ← e2, ← e3]
  exact EphemIndexed.of_inputEphem _ _ _ _ (EphemIndexed.of_inputEphem _ _ _ _
    (EphemIndexed.of_inputEphem _ _ _ _
      (EphemIndexed.of_empty _ _ (fun _ => rfl) (fun _ => rfl))))

/-- Witness of C26: satellite 7 has the ephemerides 100, 150 and 120, with reference times 0,
50 and 20; an observation at time 18 is paired with 120, fetched with index 2. -/
theorem processGNSS_ephemeris_match_witness :
    exampleEphems.sat2ephem 7 = some [100, 150, 120] ∧
    exampleEphems.sat2time_index 7 = some [(0, 0), (20, 2), (50, 1)] ∧
    ∃ best,
      (processGNSS.findEphem exampleGnss (exampleObs 18 7).time
        ((exampleEphems.sat2time_index (exampleObs 18 7).sat).getD [])).2 < 3 ∧
      [100, 150, 120].get?
        (processGNSS.findEphem exampleGnss (exampleObs 18 7).time
          ((exampleEphems.sat2time_index (exampleObs 18 7).sat).getD [])).2 = some best ∧
      processGNSS.select exampleGnss exampleEphems (exampleObs 18 7) =
        some (some ((exampleGnss.L1_freq (exampleObs 18 7)).toNat, best)) ∧
      ∀ p ∈ [100, 150, 120],
        |exampleToe best - (exampleObs 18 7).time| ≤ |exampleToe p - (exampleObs 18 7).time| := by
  have hE : exampleEphems.sat2ephem 7 = some [100, 150, 120] := by
    norm_num [exampleEphems, inputEphem, exampleTracking, mapEmplace, Function.update]
  have hT : exampleEphems.sat2time_index 7 = some [(0, 0), (20, 2), (50, 1)] := by
    norm_num [exampleEphems, inputEphem, exampleTracking, mapEmplace, Function.update]
  refine ⟨hE, hT, ?_⟩
  refine (processGNSS_ephemeris_match exampleGnss exampleToe exampleEphems (exampleObs 18 7)
    [100, 150, 120] exampleEphems_indexed rfl hE rfl (by decide)).2.2 ⟨120, by simp, ?_⟩
  simp only [exampleToe, exampleObs, exampleGnss]
  norm_num [abs_lt]

/-! ## `optimization`: the extrinsic blocks -/

theorem optimization.extrinsicLoop_closed (W : Nat) (s : Estimator)
    (h : ¬ optimization.estimatesExtrinsic W s) (k : Nat) :
    (List.range k).foldl (optimization.extrinsicStep W) (s, []) =
      (s, (List.range k).map ParamBlock.Ex_Pose) := by
  induction k with
  | zero => rfl
  | succ k ih =>
    rw [List.range_succ, List.foldl_append, ih]
    simp only [List.foldl_cons, List.foldl_nil, optimization.extrinsicStep, h, if_false,
      List.map_append, List.map_cons, List.map_nil]

theorem optimization.extrinsicLoop_open (W : Nat) (s : Estimator)
    (h : optimization.estimatesExtrinsic W s) (k : Nat) :
    (List.range (k + 1)).foldl (optimization.extrinsicStep W) (s, []) =
      ({ s with openExEstimation := true }, []) := by
  induction k with
  | zero =>
    simp only [List.range_succ, List.range_zero, List.nil_append, List.foldl_cons,
      List.foldl_nil, optimization.extrinsicStep, h, if_true]
  | succ k ih =>
    rw [List.range_succ, List.foldl_append, ih]
    have h2 : optimization.estimatesExtrinsic W { s with openExEstimation := true } :=
      Or.inr rfl
    simp only [List.foldl_cons, List.foldl_nil, optimization.extrinsicStep, h2, if_true]

/-- At the boundary: for `Vs[0] = (0.2, 0, 0)`, the double of the literal, the test
`Vs[0].norm() > 0.2` is false, while the norm exceeds 1/5. -/
theorem optimization.estimatesExtrinsic_boundary :
    Vector3d.normGt (literal_0_2, 0, 0) literal_0_2 = false ∧
    Vector3d.normGt (literal_0_2, 0, 0) (1 / 5) = true ∧ (1 / 5 : ℚ) < literal_0_2 := by
  refine ⟨?_, ?_, ?_⟩
  · simp only [Vector3d.normGt, Vector3d.squaredNorm, literal_0_2, decide_eq_false_iff_not]
    norm_num
  · simp only [Vector3d.normGt, Vector3d.squaredNorm, literal_0_2, decide_eq_true_eq]
    norm_num
  · unfold literal_0_2
    norm_num

theorem vector2double_pre_integrations (g : Geometry) (fq : FeatureQueries) (W : Nat)
    (s : Estimator) :
    (vector2double g fq W s).pre_integrations = s.pre_integrations ∧
    (vector2double g fq W s).USE_IMU = s.USE_IMU ∧
    (vector2double g fq W s).ENCODER_ENABLE = s.ENCODER_ENABLE ∧
    (vector2double g fq W s).frame_count = s.frame_count :=
  ⟨rfl, rfl, rfl, rfl⟩

theorem double2vector_pre_integrations (g : Geometry) (fq : FeatureQueries) (W : Nat)
    (s : Estimator) :
    (double2vector g fq W s).pre_integrations = s.pre_integrations ∧
    (double2vector g fq W s).USE_IMU = s.USE_IMU ∧
    (double2vector g fq W s).ENCODER_ENABLE = s.ENCODER_ENABLE ∧
    (double2vector g fq W s).frame_count = s.frame_count := by
  unfold double2vector
  simp only
  split_ifs <;> exact ⟨rfl, rfl, rfl, rfl⟩

theorem optimization.imuFactor_zero_ne (s : Estimator) (i : Nat) (d : List Nat) :
    optimization.imuFactor s 0 d ≠ optimization.imuFactor s (i + 1) d := by
  intro h
  have h2 := congrArg ResidualBlockInfo.parameter_blocks h
  simp [optimization.imuFactor] at h2

theorem optimization.problemImuLoop_mem (s : Estimator) (n i : Nat) (L : List ResidualBlockInfo)
    (h : optimization.problemImuLoop s n (i + 1) = some L) :
    optimization.imuFactor s 0 [] ∉ L := by
  induction n generalizing i L with
  | zero =>
    simp only [optimization.problemImuLoop, Option.some.injEq] at h
    rw [← h]
    exact List.not_mem_nil _
  | succ n ih =>
    rw [optimization.problemImuLoop] at h
    cases hp : s.pre_integrations (i + 1 + 1) with
    | none => simp [hp] at h
    | some p =>
      cases hr : optimization.problemImuLoop s n (i + 1 + 1) with
      | none => simp [hp, hr] at h
      | some rest =>
        simp only [hp, hr] at h
        have hrest := ih (i + 1) rest hr
        split_ifs at h
        · simp at h
          rw [← h]
          exact hrest
        · simp at h
          rw [← h]
          intro hm
          rcases List.mem_cons.mp hm with h0 | h0
          · exact optimization.imuFactor_zero_ne s i [] h0
          · exact hrest h0

/-- The problem holds the IMU factor between the frames 0 and 1 exactly when `sum_dt` of
`pre_integrations[1]` is at most 10. -/
theorem optimization.problemImuFactors_first (s : Estimator) (p : IntegrationBase)
    (L : List ResidualBlockInfo) (himu : s.USE_IMU = true) (hfc : 1 ≤ s.frame_count)
    (hp : s.pre_integrations 1 = some p) (hL : optimization.problemImuFactors s = some L) :
    optimization.imuFactor s 0 [] ∈ L ↔ IntegrationBase.sum_dt p ≤ 10 := by
  obtain ⟨n, hn⟩ : ∃ n, s.frame_count = n + 1 := ⟨s.frame_count - 1, by omega⟩
  simp only [optimization.problemImuFactors, himu, if_true, hn] at hL
  rw [optimization.problemImuLoop] at hL
  simp only [Nat.zero_add, hp] at hL
  cases hr : optimization.problemImuLoop s n (0 + 1) with
  | none => simp [hr] at hL
  | some rest =>
    simp only [hr] at hL
    have hrest := optimization.problemImuLoop_mem s n 0 rest hr
    split_ifs at hL with hgt
    · simp at hL
      rw [← hL]
      constructor
      · intro hm
        exact absurd hm hrest
      · intro hle
        exact absurd hgt (not_lt.mpr hle)
    · simp at hL
      rw [← hL]
      constructor
      · intro _
        exact not_lt.mp hgt
      · intro _
        exact List.mem_cons_self _ _

/-- The marginalization holds the IMU factor between the frames 0 and 1 exactly when `sum_dt`
of `pre_integrations[1]` is below 10. -/
theorem optimization.marginImuOld_first (s : Estimator) (p : IntegrationBase)
    (himu : s.USE_IMU = true) (hp : s.pre_integrations 1 = some p) :
    optimization.marginImuOld s =
      some (if IntegrationBase.sum_dt p < 10 then [optimization.imuFactor s 0 [0, 1]] else []) := by
  simp only [optimization.marginImuOld, himu, if_true, hp]
  split_ifs <;> rfl

/-- C29: when `sum_dt` of `pre_integrations[1]` is exactly 10, the problem that `optimization`
solves holds the IMU factor between the frames 0 and 1 and the `MARGIN_OLD` marginalization of
the same call, which reads the same pre-integrations, does not. -/
theorem optimization_margin_imu_differs_at_ten (s t : Estimator) (p : IntegrationBase)
    (L : List ResidualBlockInfo) (himu : s.USE_IMU = true) (hfc : 1 ≤ s.frame_count)
    (hp : s.pre_integrations 1 = some p) (hsum : IntegrationBase.sum_dt p = 10)
    (hL : optimization.problemImuFactors s = some L)
    (hpre : t.pre_integrations = s.pre_integrations) (hflag : t.USE_IMU = s.USE_IMU) :
    optimization.imuFactor s 0 [] ∈ L ∧ optimization.marginImuOld t = some [] := by
  refine ⟨(optimization.problemImuFactors_first s p L himu hfc hp hL).mpr (le_of_eq hsum), ?_⟩
  rw [optimization.marginImuOld_first t p (hflag.trans himu) (by rw [hpre]; exact hp), hsum]
  simp

theorem exampleTenSeconds_problem :
    optimization.problemImuFactors (vector2double exampleGeometry exampleQueries 2 exampleTenSeconds) =
      some [optimization.imuFactor exampleTenSeconds 0 [],
        optimization.imuFactor exampleTenSeconds 1 []] := by
  norm_num [optimization.problemImuFactors, optimization.problemImuLoop, vector2double,
    exampleTenSeconds, exampleWindowOld, exampleWindow, IntegrationBase.sum_dt,
    IntegrationBase.push_back, IntegrationBase.create, optimization.imuFactor]

/-- Witness of C29: the window `exampleTenSeconds`. -/
theorem optimization_margin_imu_differs_at_ten_witness :
    optimization.imuFactor (vector2double exampleGeometry exampleQueries 2 exampleTenSeconds) 0 [] ∈
      [optimization.imuFactor exampleTenSeconds 0 [], optimization.imuFactor exampleTenSeconds 1 []] ∧
    optimization.marginImuOld
      (vector2double exampleGeometry exampleQueries 2
        (double2vector exampleGeometry exampleQueries 2
          (vector2double exampleGeometry exampleQueries 2 exampleTenSeconds))) = some [] :=
  optimization_margin_imu_differs_at_ten
    (vector2double exampleGeometry exampleQueries 2 exampleTenSeconds)
    (vector2double exampleGeometry exampleQueries 2
      (double2vector exampleGeometry exampleQueries 2
        (vector2double exampleGeometry exampleQueries 2 exampleTenSeconds)))
    _ _ rfl (by decide) rfl (by norm_num [IntegrationBase.sum_dt, IntegrationBase.push_back, IntegrationBase.create])
    exampleTenSeconds_problem
    (((vector2double_pre_integrations _ _ _ _).1).trans
      ((double2vector_pre_integrations _ _ _ _).1))
    (((vector2double_pre_integrations _ _ _ _).2.1).trans
      ((double2vector_pre_integrations _ _ _ _).2.1))

/-! ## `optimization`: the table `addr_shift` -/

theorem optimization.addrShiftSlot_apply (imu : Bool) (t : ParamBlock → Option ParamBlock)
    (i j : Nat) (b : ParamBlock) :
    optimization.addrShiftSlot imu t i j b =
      match b with
      | ParamBlock.Pose n => if n = i then some (ParamBlock.Pose j) else t b
      | ParamBlock.SpeedBias n =>
        if imu = true ∧ n = i then some (ParamBlock.SpeedBias j) else t b
      | ParamBlock.rcv_dt n =>
        if i * 4 ≤ n ∧ n < i * 4 + 4 then some (ParamBlock.rcv_dt (j * 4 + (n - i * 4))) else t b
      | ParamBlock.rcv_ddt n => if n = i then some (ParamBlock.rcv_ddt j) else t b
      | _ => t b := by
  have h4 : List.range 4 = [0, 1, 2, 3] := by decide
  cases b <;> cases imu <;>
    simp only [optimization.addrShiftSlot, h4, List.foldl, Function.update_apply] <;>
    simp <;> split_ifs <;>
    first | rfl | omega | (simp; omega) | simp [Function.update_apply, *]

theorem optimization.addrShiftSlots_loop (imu : Bool) (W : Nat) (b : ParamBlock) :
    (List.range W).foldl (fun t n => optimization.addrShiftSlot imu t (n + 1) n) (fun _ => none) b
      = optimization.addrShiftSlots imu W b := by
  induction W generalizing b with
  | zero =>
    cases b <;> simp only [List.range_zero, List.foldl_nil, optimization.addrShiftSlots] <;>
      first | rfl | (rw [if_neg]; omega)
  | succ W ih =>
    rw [List.range_succ, List.foldl_append, List.foldl_cons, List.foldl_nil,
      optimization.addrShiftSlot_apply]
    cases b <;> simp only [ih, optimization.addrShiftSlots] <;> split_ifs <;>
      first | rfl | omega | (simp; omega) | (exfalso; simp_all; omega) | (exfalso; simp_all)

theorem optimization.addrShiftTail_loop (t : ParamBlock → Option ParamBlock) (n : Nat)
    (b : ParamBlock) :
    (List.range n).foldl (fun t i =>
      Function.update t (ParamBlock.Ex_Pose i) (some (ParamBlock.Ex_Pose i))) t b =
      match b with
      | ParamBlock.Ex_Pose i => if i < n then some (ParamBlock.Ex_Pose i) else t b
      | _ => t b := by
  induction n generalizing b with
  | zero => cases b <;> simp
  | succ n ih =>
    rw [List.range_succ, List.foldl_append, List.foldl_cons, List.foldl_nil,
      Function.update_apply]
    cases b <;> simp only [ih] <;> simp
    rename_i i
    split_ifs <;> first | rfl | omega | (simp; omega)

theorem optimization.addrShiftTail_apply (s : Estimator) (t : ParamBlock → Option ParamBlock)
    (b : ParamBlock) :
    optimization.addrShiftTail s t b =
      if optimization.addrShiftFixed s.NUM_OF_CAM b then some b else t b := by
  unfold optimization.addrShiftTail
  simp only [Function.update_apply, optimization.addrShiftTail_loop]
  cases b <;> simp [optimization.addrShiftFixed]

theorem optimization.addrShiftOld_apply (W : Nat) (s : Estimator) (b : ParamBlock) :
    optimization.addrShiftOld W s b =
      if optimization.addrShiftFixed s.NUM_OF_CAM b then some b
      else optimization.addrShiftSlots s.USE_IMU W b := by
  unfold optimization.addrShiftOld
  rw [optimization.addrShiftTail_apply, optimization.addrShiftSlots_loop]



/-- C21: the table `addr_shift` of the `MARGIN_OLD` branch sends, for every slot `i` in
`[1, W]`, the pose, the speed and bias (with the IMU), the four clock biases and the clock
drift of slot `i` to those of slot `i - 1`; it sends the extrinsic blocks of the `NUM_OF_CAM`
cameras, the time offset, the yaw and the anchor to themselves; it has no entry for a block
of slot 0; and no two blocks have the same entry. -/
theorem optimization_addr_shift_old (W : Nat) (s : Estimator) :
    (∀ i, 1 ≤ i → i ≤ W →
      optimization.addrShiftOld W s (ParamBlock.Pose i) = some (ParamBlock.Pose (i - 1)) ∧
      (s.USE_IMU = true → optimization.addrShiftOld W s (ParamBlock.SpeedBias i) =
        some (ParamBlock.SpeedBias (i - 1))) ∧
      (∀ k, k < 4 → optimization.addrShiftOld W s (ParamBlock.rcv_dt (i * 4 + k)) =
        some (ParamBlock.rcv_dt ((i - 1) * 4 + k))) ∧
      optimization.addrShiftOld W s (ParamBlock.rcv_ddt i) = some (ParamBlock.rcv_ddt (i - 1))) ∧
    (∀ i, i < s.NUM_OF_CAM →
      optimization.addrShiftOld W s (ParamBlock.Ex_Pose i) = some (ParamBlock.Ex_Pose i)) ∧
    optimization.addrShiftOld W s ParamBlock.Td = some ParamBlock.Td ∧
    optimization.addrShiftOld W s ParamBlock.yaw_enu_local = some ParamBlock.yaw_enu_local ∧
    optimization.addrShiftOld W s ParamBlock.anc_ecef = some ParamBlock.anc_ecef ∧
    (optimization.addrShiftOld W s (ParamBlock.Pose 0) = none ∧
      optimization.addrShiftOld W s (ParamBlock.SpeedBias 0) = none ∧
      (∀ k, k < 4 → optimization.addrShiftOld W s (ParamBlock.rcv_dt k) = none) ∧
      optimization.addrShiftOld W s (ParamBlock.rcv_ddt 0) = none) ∧
    (∀ b c d, optimization.addrShiftOld W s b = some d →
      optimization.addrShiftOld W s c = some d → b = c) := by
  refine ⟨?_, ?_, ?_, ?_, ?_, ⟨?_, ?_, ?_, ?_⟩, ?_⟩
  · intro i h1 hW
    refine ⟨?_, ?_, ?_, ?_⟩
    · simp [optimization.addrShiftOld_apply, optimization.addrShiftFixed,
        optimization.addrShiftSlots, h1, hW]
    · intro himu
      simp [optimization.addrShiftOld_apply, optimization.addrShiftFixed,
        optimization.addrShiftSlots, h1, hW, himu]
    · intro k hk
      simp only [optimization.addrShiftOld_apply, optimization.addrShiftFixed,
        optimization.addrShiftSlots]
      rw [if_neg (by simp), if_pos (by omega)]
      congr 2
      omega
    · simp [optimization.addrShiftOld_apply, optimization.addrShiftFixed,
        optimization.addrShiftSlots, h1, hW]
  · intro i hi
    simp [optimization.addrShiftOld_apply, optimization.addrShiftFixed, hi]
  · simp [optimization.addrShiftOld_apply, optimization.addrShiftFixed]
  · simp [optimization.addrShiftOld_apply, optimization.addrShiftFixed]
  · simp [optimization.addrShiftOld_apply, optimization.addrShiftFixed]
  · simp [optimization.addrShiftOld_apply, optimization.addrShiftFixed,
      optimization.addrShiftSlots]
  · simp [optimization.addrShiftOld_apply, optimization.addrShiftFixed,
      optimization.addrShiftSlots]
  · intro k hk
    simp only [optimization.addrShiftOld_apply, optimization.addrShiftFixed,
      optimization.addrShiftSlots]
    rw [if_neg (by simp), if_neg (by omega)]
  · simp [optimization.addrShiftOld_apply, optimization.addrShiftFixed,
      optimization.addrShiftSlots]
  · intro b c d hb hc
    rw [optimization.addrShiftOld_apply] at hb hc
    cases b <;> cases c <;>
      simp only [optimization.addrShiftFixed, optimization.addrShiftSlots] at hb hc <;>
      split_ifs at hb hc <;>
      first
        | rfl
        | (have h := hb.trans hc.symm
           simp at h
           done)
        | (have h := hb.trans hc.symm
           simp at h
           congr 1
           done)
        | (have h := hb.trans hc.symm
           simp at h
           congr 1
           omega)

/-! ## `optimization`: the speed and bias blocks of the prior -/

/-- The blocks of the factors of the feature loop hold no speed and bias block. -/
theorem optimization.marginFeatureFrames_blocks (STEREO : Bool) (imu_i idx imu_j : Nat)
    (frames : List Bool) (f : ResidualBlockInfo) (b : ParamBlock)
    (hf : f ∈ optimization.marginFeatureFrames STEREO imu_i idx imu_j frames)
    (hb : b ∈ f.parameter_blocks) : b.isSpeedBias = false := by
  induction frames generalizing imu_j with
  | nil => simp [optimization.marginFeatureFrames] at hf
  | cons x rest ih =>
    rw [optimization.marginFeatureFrames] at hf
    rcases List.mem_append.mp hf with h | h
    · rcases List.mem_append.mp h with h | h
      · split_ifs at h
        · simp at h
          subst h
          simp at hb
          rcases hb with rfl | rfl | rfl | rfl | rfl <;> rfl
        · simp at h
      · split_ifs at h
        · simp at h
          subst h
          simp at hb
          rcases hb with rfl | rfl | rfl | rfl | rfl | rfl <;> rfl
        · simp at h
          subst h
          simp at hb
          rcases hb with rfl | rfl | rfl | rfl <;> rfl
        · simp at h
    · exact ih _ h

theorem optimization.marginFeatureOld_blocks (STEREO : Bool) (used : Nat)
    (feature : List FeaturePerId) (f : ResidualBlockInfo) (b : ParamBlock)
    (hf : f ∈ optimization.marginFeatureOld STEREO used feature)
    (hb : b ∈ f.parameter_blocks) : b.isSpeedBias = false := by
  induction feature generalizing used with
  | nil => simp [optimization.marginFeatureOld] at hf
  | cons x rest ih =>
    rw [optimization.marginFeatureOld] at hf
    split_ifs at hf
    · exact ih _ hf
    · exact ih _ hf
    · rcases List.mem_append.mp hf with h | h
      · exact optimization.marginFeatureFrames_blocks _ _ _ _ _ f b h hb
      · exact ih _ h

theorem optimization.marginGnssObs_blocks (q : MarginInputs) (meas ephem : List Nat)
    (L : List ResidualBlockInfo) (f : ResidualBlockInfo) (b : ParamBlock)
    (hL : optimization.marginGnssObs q meas ephem = some L) (hf : f ∈ L)
    (hb : b ∈ f.parameter_blocks) (hsb : b.isSpeedBias = true) :
    b = ParamBlock.SpeedBias 0 ∨ b = ParamBlock.SpeedBias 1 := by
  induction meas generalizing ephem L with
  | nil =>
    simp [optimization.marginGnssObs] at hL
    subst hL
    simp at hf
  | cons obs meas ih =>
    cases ephem with
    | nil => simp [optimization.marginGnssObs] at hL
    | cons e ephem =>
      rw [optimization.marginGnssObs] at hL
      cases h1 : q.sys_idx obs with
      | none => simp [h1] at hL
      | some sys_idx =>
        cases h2 : optimization.marginGnssObs q meas ephem with
        | none => simp [h1, h2] at hL
        | some rest =>
          simp only [h1, h2, Option.some.injEq] at hL
          subst hL
          rcases List.mem_cons.mp hf with h | h
          · subst h
            simp at hb
            rcases hb with rfl | rfl | rfl | rfl | rfl | rfl | rfl | rfl <;>
              simp [ParamBlock.isSpeedBias] at hsb ⊢
          · exact ih ephem rest h2 h

theorem optimization.marginGnssOld_blocks (q : MarginInputs) (s : Estimator)
    (L : List ResidualBlockInfo) (f : ResidualBlockInfo) (b : ParamBlock)
    (hL : optimization.marginGnssOld q s = some L) (hf : f ∈ L)
    (hb : b ∈ f.parameter_blocks) (hsb : b.isSpeedBias = true) :
    b = ParamBlock.SpeedBias 0 ∨ b = ParamBlock.SpeedBias 1 := by
  unfold optimization.marginGnssOld at hL
  split_ifs at hL
  · cases h : optimization.marginGnssObs q (s.gnss_meas_buf 0) (s.gnss_ephem_buf 0) with
    | none => simp [h] at hL
    | some obs =>
      simp only [h, Option.some.injEq] at hL
      subst hL
      rcases List.mem_append.mp hf with h1 | h1
      · rcases List.mem_append.mp h1 with h2 | h2
        · exact optimization.marginGnssObs_blocks q _ _ obs f b h h2 hb hsb
        · obtain ⟨k, _, rfl⟩ := List.mem_map.mp h2
          simp at hb
          rcases hb with rfl | rfl | rfl | rfl <;> simp [ParamBlock.isSpeedBias] at hsb
      · simp at h1
        subst h1
        simp at hb
        rcases hb with rfl | rfl <;> simp [ParamBlock.isSpeedBias] at hsb
  · simp at hL
    subst hL
    simp at hf

theorem optimization.marginImuOld_blocks (s : Estimator)
    (L : List ResidualBlockInfo) (f : ResidualBlockInfo) (b : ParamBlock)
    (hL : optimization.marginImuOld s = some L) (hf : f ∈ L)
    (hb : b ∈ f.parameter_blocks) (hsb : b.isSpeedBias = true) :
    (b = ParamBlock.SpeedBias 0 ∨ b = ParamBlock.SpeedBias 1) ∧ s.USE_IMU = true := by
  unfold optimization.marginImuOld at hL
  split_ifs at hL with himu
  · cases hp : s.pre_integrations 1 with
    | none => simp [hp] at hL
    | some p =>
      simp only [hp] at hL
      split_ifs at hL
      · simp at hL
        subst hL
        simp at hf
        subst hf
        simp [optimization.imuFactor] at hb
        rcases hb with rfl | rfl | rfl | rfl <;> simp [ParamBlock.isSpeedBias, himu] at hsb ⊢
      · simp at hL
        subst hL
        simp at hf
  · simp at hL
    subst hL
    simp at hf

theorem optimization.priorOld_blocks (s : Estimator) (f : ResidualBlockInfo)
    (hf : f ∈ optimization.priorOld s) :
    f.parameter_blocks = s.last_marginalization_parameter_blocks := by
  unfold optimization.priorOld at hf
  cases h : s.last_marginalization_info with
  | none => simp [h] at hf
  | some info =>
    simp only [h] at hf
    split_ifs at hf
    · simp at hf
      subst hf
      rfl
    · simp at hf

theorem optimization.priorSecondNew_blocks (W : Nat) (s : Estimator)
    (L : List ResidualBlockInfo) (f : ResidualBlockInfo)
    (hL : optimization.priorSecondNew W s = some L) (hf : f ∈ L) :
    f.parameter_blocks = s.last_marginalization_parameter_blocks := by
  unfold optimization.priorSecondNew at hL
  cases h : s.last_marginalization_info with
  | none =>
    simp [h] at hL
    subst hL
    simp at hf
  | some info =>
    simp only [h] at hL
    split_ifs at hL
    · cases hd : optimization.dropSetSecondNew W 0 s.last_marginalization_parameter_blocks with
      | none => simp [hd] at hL
      | some d =>
        simp [hd] at hL
        subst hL
        simp at hf
        subst hf
        rfl
    · simp at hL
      subst hL
      simp at hf

theorem MarginalizationInfo.mem_getParameterBlocks (factors : List ResidualBlockInfo)
    (addr_shift : ParamBlock → Option ParamBlock) (e : ParamBlock)
    (he : e ∈ MarginalizationInfo.getParameterBlocks factors addr_shift) :
    ∃ f ∈ factors, ∃ b ∈ f.parameter_blocks, e = (addr_shift b).getD ParamBlock.null := by
  unfold MarginalizationInfo.getParameterBlocks at he
  simp only [List.mem_map, List.mem_filter, List.mem_dedup, List.mem_flatMap] at he
  obtain ⟨b, ⟨⟨f, hf, hb⟩, _⟩, rfl⟩ := he
  exact ⟨f, hf, b, hb, rfl⟩

theorem optimization.addrShiftOld_speedBias (W : Nat) (s : Estimator) (b e : ParamBlock)
    (h : optimization.addrShiftOld W s b = some e) (he : e.isSpeedBias = true) :
    ∃ i, 1 ≤ i ∧ b = ParamBlock.SpeedBias i ∧ e = ParamBlock.SpeedBias (i - 1) ∧
      s.USE_IMU = true := by
  rw [optimization.addrShiftOld_apply] at h
  cases b
  case SpeedBias i =>
    simp only [optimization.addrShiftFixed, optimization.addrShiftSlots,
      Bool.false_eq_true, if_false] at h
    split_ifs at h with hc
    simp only [Option.some.injEq] at h
    exact ⟨i, hc.2.1, rfl, h.symm, hc.1⟩
  all_goals
    simp only [optimization.addrShiftFixed, optimization.addrShiftSlots] at h
    split_ifs at h <;> simp at h <;> subst h <;> simp [ParamBlock.isSpeedBias] at he

theorem optimization.ShiftsSpeedBias.slot (imu : Bool) (t : ParamBlock → Option ParamBlock)
    (i j : Nat) (hj : j = i ∨ j = i - 1) (ht : optimization.ShiftsSpeedBias t) :
    optimization.ShiftsSpeedBias (optimization.addrShiftSlot imu t i j) := by
  intro b e h he
  rw [optimization.addrShiftSlot_apply] at h
  cases b
  case SpeedBias n =>
    simp only at h
    split_ifs at h with hc
    · simp only [Option.some.injEq] at h
      subst h
      rcases hj with rfl | rfl
      · exact ⟨n, rfl, Or.inl (by rw [hc.2])⟩
      · exact ⟨n, rfl, Or.inr (by rw [hc.2])⟩
    · exact ht _ e h he
  all_goals
    simp only at h
    first
      | exact ht _ e h he
      | (split_ifs at h
         · simp only [Option.some.injEq] at h
           subst h
           simp [ParamBlock.isSpeedBias] at he
         · exact ht _ e h he)

theorem optimization.ShiftsSpeedBias.tail (s : Estimator) (t : ParamBlock → Option ParamBlock)
    (ht : optimization.ShiftsSpeedBias t) :
    optimization.ShiftsSpeedBias (optimization.addrShiftTail s t) := by
  intro b e h he
  rw [optimization.addrShiftTail_apply] at h
  split_ifs at h with hfix
  · simp at h
    subst h
    cases b <;> simp [ParamBlock.isSpeedBias, optimization.addrShiftFixed] at he hfix
  · exact ht b e h he

theorem optimization.ShiftsSpeedBias.secondNew (W : Nat) (s : Estimator) :
    optimization.ShiftsSpeedBias (optimization.addrShiftSecondNew W s) := by
  unfold optimization.addrShiftSecondNew
  apply optimization.ShiftsSpeedBias.tail
  generalize W + 1 = n
  induction n with
  | zero =>
    intro b e h
    simp at h
  | succ n ih =>
    rw [List.range_succ, List.foldl_append, List.foldl_cons, List.foldl_nil]
    split_ifs
    · exact ih
    · exact optimization.ShiftsSpeedBias.slot _ _ _ _ (Or.inr rfl) ih
    · exact optimization.ShiftsSpeedBias.slot _ _ _ _ (Or.inl rfl) ih

theorem optimization.marginalize_speedBias (g : Geometry) (fq : FeatureQueries)
    (q : MarginInputs) (W : Nat) (s t : Estimator)
    (hrun : optimization.marginalize g fq q W s = some t)
    (hs : optimization.SpeedBiasAtZero s.last_marginalization_parameter_blocks) :
    optimization.SpeedBiasAtZero t.last_marginalization_parameter_blocks := by
  unfold optimization.marginalize at hrun
  by_cases hfc : s.frame_count < W
  · rw [if_pos hfc] at hrun
    obtain rfl := Option.some.inj hrun
    exact hs
  rw [if_neg hfc] at hrun
  by_cases hW : W = 0
  · rw [if_pos hW] at hrun
    exact absurd hrun (by simp)
  rw [if_neg hW] at hrun
  · cases hflag : s.marginalization_flag with
    | MARGIN_OLD =>
      simp only [hflag] at hrun
      cases himu : optimization.marginImuOld (vector2double g fq W s) with
      | none => simp [himu] at hrun
      | some imu =>
        cases hgnss : optimization.marginGnssOld q (vector2double g fq W s) with
        | none => simp [himu, hgnss] at hrun
        | some gnss =>
          simp only [himu, hgnss, Option.some.injEq] at hrun
          subst hrun
          intro e he hsb
          obtain ⟨f, hf, b, hb, rfl⟩ := MarginalizationInfo.mem_getParameterBlocks _ _ e he
          cases hshift : optimization.addrShiftOld W (vector2double g fq W s) b with
          | none =>
            rw [hshift] at hsb
            simp [ParamBlock.isSpeedBias] at hsb
          | some c =>
            rw [hshift] at hsb
            simp only [Option.getD_some] at hsb ⊢
            obtain ⟨i, hi, rfl, rfl, _⟩ :=
              optimization.addrShiftOld_speedBias W _ b c hshift hsb
            have hcases : ParamBlock.SpeedBias i = ParamBlock.SpeedBias 0 ∨
                ParamBlock.SpeedBias i = ParamBlock.SpeedBias 1 := by
              rcases List.mem_append.mp hf with h1 | h1
              · rcases List.mem_append.mp h1 with h2 | h2
                · rcases List.mem_append.mp h2 with h3 | h3
                  · have h4 := optimization.priorOld_blocks _ f h3
                    rw [h4] at hb
                    exact Or.inl (hs _ hb rfl)
                  · exact (optimization.marginImuOld_blocks _ imu f _ himu h3 hb rfl).1
                · exact optimization.marginGnssOld_blocks q _ gnss f _ hgnss h2 hb rfl
              · have h4 := optimization.marginFeatureOld_blocks _ _ _ f _ h1 hb
                simp [ParamBlock.isSpeedBias] at h4
            rcases hcases with h0 | h0
            · simp at h0
              omega
            · simp at h0
              subst h0
              rfl
    | MARGIN_SECOND_NEW =>
      simp only [hflag] at hrun
      split_ifs at hrun with hcond
      · cases hprior : optimization.priorSecondNew W (vector2double g fq W s) with
        | none => simp [hprior] at hrun
        | some factors =>
          simp only [hprior, Option.some.injEq] at hrun
          subst hrun
          intro e he hsb
          obtain ⟨f, hf, b, hb, rfl⟩ := MarginalizationInfo.mem_getParameterBlocks _ _ e he
          cases hshift : optimization.addrShiftSecondNew W (vector2double g fq W s) b with
          | none =>
            rw [hshift] at hsb
            simp [ParamBlock.isSpeedBias] at hsb
          | some c =>
            rw [hshift] at hsb
            simp only [Option.getD_some] at hsb ⊢
            obtain ⟨i, rfl, hc⟩ := optimization.ShiftsSpeedBias.secondNew W _ b c hshift hsb
            have h4 := optimization.priorSecondNew_blocks W _ factors f hprior hf
            rw [h4] at hb
            have h0 := hs _ hb rfl
            simp at h0
            subst h0
            rcases hc with rfl | rfl <;> rfl
      · obtain rfl := Option.some.inj hrun
        exact hs

theorem MarginReachable.speedBiasAtZero (g : Geometry) (fq : FeatureQueries) (W : Nat)
    (s : Estimator) (h : MarginReachable g fq W s) :
    optimization.SpeedBiasAtZero s.last_marginalization_parameter_blocks := by
  induction h with
  | start s hinfo hblocks =>
    rw [hblocks]
    intro b hb
    exact absurd hb (List.not_mem_nil _)
  | other s t _ hinfo hblocks ih =>
    rw [hblocks]
    exact ih
  | marginalize q s t _ hrun ih => exact optimization.marginalize_speedBias g fq q W s t hrun ih

theorem optimization.dropSetSecondNew_eq (W : Nat) (blocks : List ParamBlock) (i : Nat)
    (h : ParamBlock.SpeedBias (W - 1) ∉ blocks) :
    optimization.dropSetSecondNew W i blocks = some (optimization.poseIndices W i blocks) := by
  induction blocks generalizing i with
  | nil => rfl
  | cons b rest ih =>
    have hb : b ≠ ParamBlock.SpeedBias (W - 1) := fun hb => h (hb ▸ List.mem_cons_self _ _)
    have hrest : ParamBlock.SpeedBias (W - 1) ∉ rest := fun hr => h (List.mem_cons_of_mem _ hr)
    simp only [optimization.dropSetSecondNew, optimization.poseIndices, if_neg hb, ih (i + 1) hrest]
    split_ifs <;> rfl

theorem optimization.poseIndices_spec (W : Nat) (blocks : List ParamBlock) (i k : Nat) :
    k ∈ optimization.poseIndices W i blocks ↔
      i ≤ k ∧ blocks.get? (k - i) = some (ParamBlock.Pose (W - 1)) := by
  induction blocks generalizing i with
  | nil => simp [optimization.poseIndices]
  | cons b rest ih =>
    rw [optimization.poseIndices]
    by_cases hk : k = i
    · subst hk
      split_ifs with hb
      · simp [hb]
      · simp only [ih, Nat.sub_self, List.get?_cons_zero, Option.some.injEq]
        constructor
        · intro h
          omega
        · intro h
          exact absurd h.2 hb
    · have hsub : i ≤ k → k - i = (k - (i + 1)) + 1 := fun h => by omega
      split_ifs with hb
      · simp only [List.mem_cons, ih, hk, false_or]
        constructor
        · intro h
          refine ⟨by omega, ?_⟩
          rw [hsub (by omega), List.get?_cons_succ]
          exact h.2
        · intro h
          refine ⟨by omega, ?_⟩
          have h2 := h.2
          rw [hsub h.1, List.get?_cons_succ] at h2
          exact h2
      · simp only [ih]
        constructor
        · intro h
          refine ⟨by omega, ?_⟩
          rw [hsub (by omega), List.get?_cons_succ]
          exact h.2
        · intro h
          refine ⟨by omega, ?_⟩
          have h2 := h.2
          rw [hsub h.1, List.get?_cons_succ] at h2
          exact h2

theorem exampleMarginalized_run :
    optimization.marginalize exampleGeometry exampleQueries exampleMargin 2 exampleWindowOld =
      some exampleMarginalized := by
  have h : (optimization.marginalize exampleGeometry exampleQueries exampleMargin 2
      exampleWindowOld).isSome = true := by
    simp [optimization.marginalize, optimization.marginImuOld, optimization.marginGnssOld,
      optimization.marginGnssObs, exampleWindowOld, exampleWindow, vector2double, exampleMargin,
      IntegrationBase.sum_dt, IntegrationBase.create]
  unfold exampleMarginalized
  cases hm : optimization.marginalize exampleGeometry exampleQueries exampleMargin 2
      exampleWindowOld with
  | none =>
    rw [hm] at h
    exact absurd h (by simp)
  | some t => rfl

/-- C22: for `WINDOW_SIZE >= 2`, in every state that sequences of marginalizations reach,
`last_marginalization_parameter_blocks` does not hold `para_SpeedBias[WINDOW_SIZE - 1]`; the
loop of the `MARGIN_SECOND_NEW` branch then passes its assertion at every index and its drop
set holds exactly the indices of `para_Pose[WINDOW_SIZE - 1]`, and a `MARGIN_SECOND_NEW`
marginalization returns. -/
theorem optimization_second_new_never_drops_speed_bias (g : Geometry) (fq : FeatureQueries)
    (W : Nat) (s : Estimator) (hW : 2 ≤ W) (h : MarginReachable g fq W s) :
    ParamBlock.SpeedBias (W - 1) ∉ s.last_marginalization_parameter_blocks ∧
    optimization.dropSetSecondNew W 0 s.last_marginalization_parameter_blocks =
      some (optimization.poseIndices W 0 s.last_marginalization_parameter_blocks) ∧
    (∀ k, k ∈ optimization.poseIndices W 0 s.last_marginalization_parameter_blocks ↔
      s.last_marginalization_parameter_blocks.get? k = some (ParamBlock.Pose (W - 1))) ∧
    (∀ q, s.marginalization_flag = MarginalizationFlag.MARGIN_SECOND_NEW →
      (optimization.marginalize g fq q W s).isSome = true) := by
  have hinv := MarginReachable.speedBiasAtZero g fq W s h
  have hnot : ParamBlock.SpeedBias (W - 1) ∉ s.last_marginalization_parameter_blocks := by
    intro hm
    have h0 := hinv _ hm rfl
    simp only [ParamBlock.SpeedBias.injEq] at h0
    omega
  have hdrop := optimization.dropSetSecondNew_eq W s.last_marginalization_parameter_blocks 0 hnot
  refine ⟨hnot, hdrop, ?_, ?_⟩
  · intro k
    rw [optimization.poseIndices_spec]
    simp
  · intro q hflag
    unfold optimization.marginalize
    by_cases hfc : s.frame_count < W
    · rw [if_pos hfc]
      rfl
    rw [if_neg hfc, if_neg (by omega)]
    simp only [hflag]
    split_ifs with hcond
    · have hprior : ∃ L, optimization.priorSecondNew W (vector2double g fq W s) = some L := by
        unfold optimization.priorSecondNew
        have hblocks : (vector2double g fq W s).last_marginalization_parameter_blocks =
          s.last_marginalization_parameter_blocks := rfl
        cases hi : (vector2double g fq W s).last_marginalization_info with
        | none => exact ⟨_, rfl⟩
        | some info =>
          simp only [hblocks, hdrop]
          split_ifs
          · exact ⟨_, rfl⟩
          · exact ⟨_, rfl⟩
      obtain ⟨L, hL⟩ := hprior
      simp only [hL]
      rfl
    · rfl

/-- Witness of C22: a window of `W = 2` after one `MARGIN_OLD` marginalization, flagged
`MARGIN_SECOND_NEW`. -/
theorem optimization_second_new_never_drops_speed_bias_witness :
    ParamBlock.SpeedBias (2 - 1) ∉
      exampleMarginalizedSecond.last_marginalization_parameter_blocks ∧
    optimization.dropSetSecondNew 2 0
        exampleMarginalizedSecond.last_marginalization_parameter_blocks =
      some (optimization.poseIndices 2 0
        exampleMarginalizedSecond.last_marginalization_parameter_blocks) ∧
    (∀ k, k ∈ optimization.poseIndices 2 0
        exampleMarginalizedSecond.last_marginalization_parameter_blocks ↔
      exampleMarginalizedSecond.last_marginalization_parameter_blocks.get? k =
        some (ParamBlock.Pose (2 - 1))) ∧
    (∀ q, exampleMarginalizedSecond.marginalization_flag =
        MarginalizationFlag.MARGIN_SECOND_NEW →
      (optimization.marginalize exampleGeometry exampleQueries q 2
        exampleMarginalizedSecond).isSome = true) :=
  optimization_second_new_never_drops_speed_bias exampleGeometry exampleQueries 2
    exampleMarginalizedSecond (by decide)
    (MarginReachable.other exampleMarginalized exampleMarginalizedSecond
      (MarginReachable.marginalize exampleMargin exampleWindowOld exampleMarginalized
        (MarginReachable.start exampleWindowOld rfl rfl) exampleMarginalized_run)
      rfl rfl)

/-! ## The encoder loop of the dispatcher -/

theorem processMeasurements.encoderScan_bracket (t : Time) (encVector : List (Time × Vector6d))
    (b : EncoderBracket) (h0 : b.t0 > 0 → b.t0 ≤ t ∧ b.vel0.isSome = true)
    (h1 : b.t1 > 0 → t < b.t1 ∧ b.vel1.isSome = true) :
    ((processMeasurements.encoderScan t encVector b).t0 > 0 →
      (processMeasurements.encoderScan t encVector b).t0 ≤ t ∧
      (processMeasurements.encoderScan t encVector b).vel0.isSome = true) ∧
    ((processMeasurements.encoderScan t encVector b).t1 > 0 →
      t < (processMeasurements.encoderScan t encVector b).t1 ∧
      (processMeasurements.encoderScan t encVector b).vel1.isSome = true) := by
  induction encVector generalizing b with
  | nil => exact ⟨h0, h1⟩
  | cons e rest ih =>
    rw [processMeasurements.encoderScan]
    split_ifs with he
    · exact ih _ (fun _ => ⟨he, rfl⟩) h1
    · exact ⟨h0, fun _ => ⟨not_le.mp he, rfl⟩⟩

/-- The assertions of lines 488-490 never fail and the interpolation of line 492 reads
assigned velocities: lines 462-493 always leave a value in `encoder_velocity`. -/
theorem processMeasurements.encoderVelocity_ok (Vs_frame_count : Vector3d) (t : Time)
    (encVector : List (Time × Vector6d)) :
    ∃ v, processMeasurements.encoderVelocity Vs_frame_count t encVector = Except.ok v := by
  have hb := processMeasurements.encoderScan_bracket t encVector
    { t0 := 0, vel0 := none, t1 := 0, vel1 := none }
    (fun h => absurd h (lt_irrefl _)) (fun h => absurd h (lt_irrefl _))
  unfold processMeasurements.encoderVelocity
  simp only
  generalize processMeasurements.encoderScan t encVector
    { t0 := 0, vel0 := none, t1 := 0, vel1 := none } = b at hb
  by_cases hpos : b.t0 > 0 ∧ b.t1 > 0
  · obtain ⟨h00, h01⟩ := hb.1 hpos.1
    obtain ⟨h10, h11⟩ := hb.2 hpos.2
    rw [if_pos hpos]
    have e0 : ¬ ¬ t - b.t0 ≥ 0 := by
      rw [not_not]
      linarith
    have e1 : ¬ ¬ b.t1 - t ≥ 0 := by
      rw [not_not]
      linarith
    have e2 : ¬ ¬ t - b.t0 + (b.t1 - t) > 0 := by
      rw [not_not]
      linarith
    rw [if_neg e0, if_neg e1, if_neg e2]
    obtain ⟨v0, hv0⟩ := Option.isSome_iff_exists.mp h01
    obtain ⟨v1, hv1⟩ := Option.isSome_iff_exists.mp h11
    rw [hv0, hv1]
    exact ⟨_, rfl⟩
  · rw [if_neg hpos]
    exact ⟨_, rfl⟩

/-- C27 fails on the vector that holds only the boundary sample: when `accVector` is one
sample after `curTime`, pass 0 of the encoder loop takes the interpolation branch and reads
`accVector[i - 1]` with `i = 0`, past the end of the vector; every assertion before it
holds. -/
theorem processMeasurements_encoder_reads_before_first
    (processIMUEncoder : ProcessIMUEncoderCall → Estimator → Estimator) (s : Estimator)
    (a : Time × Vector3d) (gyrVector : List (Time × Vector3d))
    (encVector : List (Time × Vector6d)) (hprev : s.prevTime ≤ a.1) (hcur : s.curTime < a.1) :
    processMeasurements.encoderCalls processIMUEncoder [a] gyrVector encVector s =
      Except.error EncoderFault.outOfRange := by
  obtain ⟨v, hv⟩ := processMeasurements.encoderVelocity_ok (s.Vs s.frame_count) a.1 encVector
  have e0 : ¬ ¬ a.1 - s.prevTime ≥ 0 := by
    rw [not_not]
    linarith
  have e1 : ¬ a.1 ≤ s.curTime := not_le.mpr hcur
  have e2 : ¬ ¬ a.1 - s.curTime ≥ 0 := by
    rw [not_not]
    linarith
  have e3 : ¬ ¬ a.1 - s.prevTime + (a.1 - s.curTime) > 0 := by
    rw [not_not]
    linarith
  simp only [processMeasurements.encoderCalls, List.length_singleton,
    processMeasurements.encoderLoop, processMeasurements.encoderPass,
    processMeasurements.imuDt, List.getElem?_cons_zero, hv, if_true, if_neg e0, if_neg e1,
    if_neg e2, if_neg e3]

theorem processMeasurements.encoderPass_ok (prevTime curTime : Time) (Vs_frame_count : Vector3d)
    (accVector gyrVector : List (Time × Vector3d)) (encVector : List (Time × Vector6d))
    (h : processMeasurements.EncoderInput prevTime curTime accVector gyrVector)
    (i : Nat) (last_velocity : Option Vector6d) (hi : i < accVector.length)
    (hlast : i = 0 ∨ last_velocity.isSome = true) :
    ∃ r, processMeasurements.encoderPass prevTime curTime Vs_frame_count accVector gyrVector
      encVector i last_velocity = Except.ok r := by
  obtain ⟨a, ha⟩ : ∃ a, accVector[i]? = some a := ⟨_, List.getElem?_eq_getElem hi⟩
  obtain ⟨g, hg⟩ : ∃ g, gyrVector[i]? = some g :=
    ⟨_, List.getElem?_eq_getElem (by rw [h.gyr]; exact hi)⟩
  obtain ⟨v, hv⟩ := processMeasurements.encoderVelocity_ok Vs_frame_count a.1 encVector
  unfold processMeasurements.encoderPass
  simp only [ha, hv, hg]
  by_cases h0 : i = 0
  · subst h0
    have hdt : processMeasurements.imuDt prevTime curTime accVector 0 = some (a.1 - prevTime) := by
      simp [processMeasurements.imuDt, ha]
    have hin := h.inside 0 a ha (by have := h.two; omega)
    have hfirst := h.first a ha
    simp only [hdt]
    rw [if_neg (by rw [not_not]; linarith), if_pos (le_of_lt hin)]
    exact ⟨_, rfl⟩
  · have hi1 : i - 1 < accVector.length := by omega
    obtain ⟨a1, ha1⟩ : ∃ a1, accVector[i - 1]? = some a1 := ⟨_, List.getElem?_eq_getElem hi1⟩
    obtain ⟨g1, hg1⟩ : ∃ g1, gyrVector[i - 1]? = some g1 :=
      ⟨_, List.getElem?_eq_getElem (by rw [h.gyr]; exact hi1)⟩
    have hin := h.inside (i - 1) a1 ha1 (by omega)
    have hord : a1.1 ≤ a.1 := h.ordered (i - 1) a1 a ha1 (by
      rw [show i - 1 + 1 = i by omega]
      exact ha)
    obtain ⟨last, hl⟩ : ∃ last, last_velocity = some last := by
      rcases hlast with h1 | h1
      · exact absurd h1 h0
      · exact Option.isSome_iff_exists.mp h1
    obtain ⟨dt, hdt, hdt0, hdtc⟩ : ∃ dt,
        processMeasurements.imuDt prevTime curTime accVector i = some dt ∧ 0 ≤ dt ∧
        (curTime < a.1 → 0 < dt) := by
      by_cases hend : i = accVector.length - 1
      · refine ⟨curTime - a1.1, ?_, by linarith, fun _ => by linarith⟩
        unfold processMeasurements.imuDt
        rw [if_neg h0, if_pos hend, ha1]
      · refine ⟨a.1 - a1.1, ?_, by linarith, fun hc => ?_⟩
        · unfold processMeasurements.imuDt
          rw [if_neg h0, if_neg hend, ha, ha1]
        · have := h.inside i a ha (by omega)
          linarith
    simp only [hdt, ha1, hg1, hl]
    rw [if_neg (by rw [not_not]; exact hdt0)]
    by_cases hle : a.1 ≤ curTime
    · rw [if_pos hle]
      exact ⟨_, rfl⟩
    · have hc := not_le.mp hle
      have hd := hdtc hc
      rw [if_neg hle, if_neg (by rw [not_not]; exact hdt0),
        if_neg (by rw [not_not]; linarith), if_neg (by rw [not_not]; linarith), if_neg h0]
      exact ⟨_, rfl⟩

theorem processMeasurements.encoderLoop_ok
    (processIMUEncoder : ProcessIMUEncoderCall → Estimator → Estimator)
    (hkeep : ∀ c s, (processIMUEncoder c s).prevTime = s.prevTime ∧
      (processIMUEncoder c s).curTime = s.curTime)
    (accVector gyrVector : List (Time × Vector3d)) (encVector : List (Time × Vector6d))
    (remaining : Nat) :
    ∀ (i : Nat) (last_velocity : Option Vector6d) (s : Estimator),
      processMeasurements.EncoderInput s.prevTime s.curTime accVector gyrVector →
      i + remaining = accVector.length → (i = 0 ∨ last_velocity.isSome = true) →
      ∃ s2, processMeasurements.encoderLoop processIMUEncoder accVector gyrVector encVector
        remaining i last_velocity s = Except.ok s2 := by
  induction remaining with
  | zero =>
    intro i last_velocity s _ _ _
    exact ⟨s, rfl⟩
  | succ n ih =>
    intro i last_velocity s h hn hlast
    obtain ⟨r, hr⟩ := processMeasurements.encoderPass_ok s.prevTime s.curTime
      (s.Vs s.frame_count) accVector gyrVector encVector h i last_velocity (by omega) hlast
    rw [processMeasurements.encoderLoop]
    simp only [hr]
    apply ih
    · rw [(hkeep r.1 s).1, (hkeep r.1 s).2]
      exact h
    · omega
    · exact Or.inr rfl

/-- On vectors of two or more samples the encoder loop reads in range and passes every
assertion, whatever the encoder samples are. -/
theorem processMeasurements.encoderCalls_ok
    (processIMUEncoder : ProcessIMUEncoderCall → Estimator → Estimator)
    (hkeep : ∀ c s, (processIMUEncoder c s).prevTime = s.prevTime ∧
      (processIMUEncoder c s).curTime = s.curTime)
    (accVector gyrVector : List (Time × Vector3d)) (encVector : List (Time × Vector6d))
    (s : Estimator)
    (h : processMeasurements.EncoderInput s.prevTime s.curTime accVector gyrVector) :
    ∃ s2, processMeasurements.encoderCalls processIMUEncoder accVector gyrVector encVector s =
      Except.ok s2 :=
  processMeasurements.encoderLoop_ok processIMUEncoder hkeep accVector gyrVector encVector
    accVector.length 0 none s h (by omega) (Or.inl rfl)

theorem exampleSparse_interval :
    getIMUInterval exampleEncoderPass.prevTime exampleEncoderPass.curTime exampleSparseAcc
      exampleSparseGyr [] [] =
      some { accBuf := [(20, (0, 0, 9)), (30, (0, 0, 9))]
             gyrBuf := [(20, (0, 0, 0)), (30, (0, 0, 0))]
             accVector := [(20, (0, 0, 9))]
             gyrVector := [(20, (0, 0, 0))] } := by
  norm_num [getIMUInterval, getIMUInterval.discard, getIMUInterval.drain, exampleSparseAcc,
    exampleSparseGyr, exampleEncoderPass]

/-- Witness of C27: the vectors that `getIMUInterval(12, 15, ...)` extracts from queues with
samples at 10, 20 and 30. -/
theorem processMeasurements_encoder_reads_before_first_witness :
    processMeasurements.encoderCalls (fun _ s => s) [((20 : ℚ), ((0 : ℚ), (0 : ℚ), (9 : ℚ)))]
      [(20, (0, 0, 0))] [(5, ((0, 0, 1), (0, 0, 1))), (25, ((0, 0, 1), (0, 0, 1)))]
      exampleEncoderPass = Except.error EncoderFault.outOfRange :=
  processMeasurements_encoder_reads_before_first (fun _ s => s) exampleEncoderPass
    (20, (0, 0, 9)) [(20, (0, 0, 0))] [(5, ((0, 0, 1), (0, 0, 1))), (25, ((0, 0, 1), (0, 0, 1)))]
    (by norm_num [exampleEncoderPass]) (by norm_num [exampleEncoderPass])

/-! ## `IMUEncoderFactor::Evaluate` -/

theorem le_foldl_max (m : List ℚ) (a c : ℚ) (h : c ≤ a ∨ c ∈ m) : c ≤ m.foldl max a := by
  induction m generalizing a with
  | nil =>
    rcases h with h | h
    · exact h
    · exact absurd h (List.not_mem_nil _)
  | cons b rest ih =>
    rw [List.foldl_cons]
    apply ih
    rcases h with h | h
    · exact Or.inl (le_trans h (le_max_left _ _))
    · rcases List.mem_cons.mp h with rfl | h
      · exact Or.inl (le_max_right _ _)
      · exact Or.inr h

theorem foldl_min_le (m : List ℚ) (a c : ℚ) (h : a ≤ c ∨ c ∈ m) : m.foldl min a ≤ c := by
  induction m generalizing a with
  | nil =>
    rcases h with h | h
    · exact h
    · exact absurd h (List.not_mem_nil _)
  | cons b rest ih =>
    rw [List.foldl_cons]
    apply ih
    rcases h with h | h
    · exact Or.inl (le_trans (min_le_left _ _) h)
    · rcases List.mem_cons.mp h with rfl | h
      · exact Or.inl (min_le_right _ _)
      · exact Or.inr h

theorem IMUEncoderFactor.unstable_of_mem (m : List ℚ) (c : ℚ) (hc : c ∈ m)
    (h : c > 100000000 ∨ c < -100000000) : IMUEncoderFactor.unstable m = true := by
  unfold IMUEncoderFactor.unstable
  rw [decide_eq_true_eq]
  rcases h with h | h
  · exact Or.inl (lt_of_lt_of_le h (le_foldl_max m _ c (Or.inr hc)))
  · exact Or.inr (lt_of_le_of_lt (foldl_min_le m _ c (Or.inr hc)) h)

/-- A coefficient of `jacobian_enc` beyond `1e8` is a warning only: when the weighted Jacobian
of the pose of frame `i` is not asked for or is within bounds, `Evaluate` returns true with
the residuals and every Jacobian asked for written. -/
theorem IMUEncoderFactor.Evaluate_returns (x : EvaluateInputs) (r : Bool × Bool × Bool × Bool)
    (hj : x.jacobians = some r)
    (h : r.1 = false ∨ IMUEncoderFactor.unstable x.jacobian_pose_i = false) :
    IMUEncoderFactor.Evaluate x =
      EvaluateOutcome.returned true
        { residuals := some x.residual
          jacobian_pose_i := if r.1 then some x.jacobian_pose_i else none
          jacobian_speedbias_i := if r.2.1 then some x.jacobian_speedbias_i else none
          jacobian_pose_j := if r.2.2.1 then some x.jacobian_pose_j else none
          jacobian_speedbias_j := if r.2.2.2 then some x.jacobian_speedbias_j else none }
        (if IMUEncoderFactor.unstable x.jacobian_enc then [EvaluateWarning.preintegration]
          else []) := by
  obtain ⟨a, b, c, d⟩ := r
  unfold IMUEncoderFactor.Evaluate
  simp only [hj]
  rcases h with h | h
  · simp only at h
    subst h
    cases b <;> cases c <;> cases d <;> simp
  · rw [h]
    cases a <;> cases b <;> cases c <;> cases d <;> simp

/-- C25 fails: when the Jacobian of the pose of frame `i` is asked for and a coefficient of the
weighted Jacobian is beyond `1e8` in magnitude, `Evaluate` does not return: `ROS_BREAK()`
stops the process before the other three Jacobians are written. -/
theorem IMUEncoderFactor_Evaluate_breaks (x : EvaluateInputs) (r : Bool × Bool × Bool × Bool)
    (c : ℚ) (hj : x.jacobians = some r) (hpose : r.1 = true) (hc : c ∈ x.jacobian_pose_i)
    (hbig : c > 100000000 ∨ c < -100000000) :
    IMUEncoderFactor.Evaluate x =
      EvaluateOutcome.aborted
        { residuals := some x.residual, jacobian_pose_i := some x.jacobian_pose_i }
        ((if IMUEncoderFactor.unstable x.jacobian_enc then [EvaluateWarning.preintegration]
          else []) ++ [EvaluateWarning.jacobians]) := by
  obtain ⟨a, b, c2, d⟩ := r
  simp only at hpose
  subst hpose
  unfold IMUEncoderFactor.Evaluate
  simp only [hj, IMUEncoderFactor.unstable_of_mem x.jacobian_pose_i c hc hbig, Bool.and_self,
    if_true]

/-- Witness of C25: the call `exampleEvaluate`. -/
theorem IMUEncoderFactor_Evaluate_breaks_witness :
    IMUEncoderFactor.Evaluate exampleEvaluate =
      EvaluateOutcome.aborted
        { residuals := some exampleEvaluate.residual
          jacobian_pose_i := some exampleEvaluate.jacobian_pose_i }
        ((if IMUEncoderFactor.unstable exampleEvaluate.jacobian_enc then
            [EvaluateWarning.preintegration]
          else []) ++ [EvaluateWarning.jacobians]) :=
  IMUEncoderFactor_Evaluate_breaks exampleEvaluate (true, true, true, true) 1000000000 rfl rfl
    (by simp [exampleEvaluate]) (Or.inl (by norm_num))

theorem exampleEvaluateEnc_returns :
    IMUEncoderFactor.Evaluate exampleEvaluateEnc =
      EvaluateOutcome.returned true
        { residuals := some [0], jacobian_pose_i := some [1, 0],
          jacobian_speedbias_i := some [1], jacobian_pose_j := some [1],
          jacobian_speedbias_j := some [1] }
        [EvaluateWarning.preintegration] := by
  decide

/-! ## `processImage`: the window count -/

theorem Estimator.SameCount.unchanged (s : Estimator) : Estimator.SameCount s s := ⟨rfl, rfl⟩

theorem Estimator.SameCount.chain {s t u : Estimator} (h1 : Estimator.SameCount s t)
    (h2 : Estimator.SameCount t u) : Estimator.SameCount s u :=
  ⟨h2.1.trans h1.1, h2.2.trans h1.2⟩

theorem slideWindow.shiftSlot_sameCount (s : Estimator) (i : Nat) :
    Estimator.SameCount s (slideWindow.shiftSlot s i) := by
  unfold slideWindow.shiftSlot
  by_cases h : s.USE_IMU = true <;> simp [h, Estimator.SameCount]

theorem slideWindow.shiftLoop_sameCount (s : Estimator) (k : Nat) :
    Estimator.SameCount s ((List.range k).foldl slideWindow.shiftSlot s) := by
  induction k with
  | zero => exact Estimator.SameCount.unchanged s
  | succ k ih =>
    rw [List.range_succ, List.foldl_append]
    simp only [List.foldl_cons, List.foldl_nil]
    exact ih.chain (slideWindow.shiftSlot_sameCount _ _)

theorem slideWindowOld_sameCount (s : Estimator) : Estimator.SameCount s (slideWindowOld s) := by
  unfold slideWindowOld
  by_cases h : s.solver_flag = SolverFlag.NON_LINEAR <;> simp [h, Estimator.SameCount]

theorem slideWindow.afterShift_sameCount (W : Nat) (t_0 : Time) (s t : Estimator)
    (h : slideWindow.afterShift W t_0 s = some t) : Estimator.SameCount s t := by
  unfold slideWindow.afterShift at h
  simp only at h
  split at h
  · cases h
  · rename_i m hm
    simp only [Option.some.injEq] at h
    subst h
    refine Estimator.SameCount.chain ?_ (slideWindowOld_sameCount _)
    by_cases himu : s.USE_IMU = true <;>
      simp [himu, slideWindow.reseedLast, slideWindow.freshPreIntegration, Estimator.SameCount]

theorem slideWindow.foldSample_sameCount (s t : Estimator) (i : Nat)
    (h : slideWindow.foldSample s i = some t) : Estimator.SameCount s t := by
  unfold slideWindow.foldSample at h
  split at h
  · simp only at h
    split at h
    · cases h
    · rename_i s2 hs2
      simp only [Option.some.injEq] at h
      subst h
      split at hs2
      · split at hs2
        · simp only [Option.some.injEq] at hs2
          subst hs2
          exact ⟨rfl, rfl⟩
        · cases hs2
      · split at hs2
        · simp only [Option.some.injEq] at hs2
          subst hs2
          exact ⟨rfl, rfl⟩
        · cases hs2
  · cases h

theorem slideWindow.foldLoop_sameCount (fuel i : Nat) (s t : Estimator)
    (h : slideWindow.foldLoop fuel i s = some t) : Estimator.SameCount s t := by
  induction fuel generalizing i s with
  | zero => simp [slideWindow.foldLoop] at h
  | succ f ih =>
    unfold slideWindow.foldLoop at h
    split at h
    · split at h
      · cases h
      · rename_i s2 hs2
        exact (slideWindow.foldSample_sameCount _ _ _ hs2).chain (ih _ _ h)
    · simp only [Option.some.injEq] at h
      rw [h]
      exact Estimator.SameCount.unchanged t

theorem slideWindow.secondNew_sameCount (W : Nat) (s t : Estimator)
    (h : slideWindow.secondNew W s = some t) : Estimator.SameCount s t := by
  unfold slideWindow.secondNew at h
  simp only at h
  split at h
  · split at h
    · cases h
    · rename_i s2 hs2
      simp only [Option.some.injEq] at h
      subst h
      have h2 := slideWindow.foldLoop_sameCount _ _ _ _ hs2
      refine Estimator.SameCount.chain (t := s2) ⟨h2.1, h2.2⟩ ?_
      simp [slideWindowNew, slideWindow.mergeLast, slideWindow.freshPreIntegration,
        Estimator.SameCount]
  · simp only [Option.some.injEq] at h
    subst h
    exact ⟨rfl, rfl⟩

/-- The function `slideWindow` writes neither `frame_count` nor `solver_flag`. -/
theorem slideWindow_sameCount (W : Nat) (s t : Estimator) (h : slideWindow W s = some t) :
    Estimator.SameCount s t := by
  unfold slideWindow at h
  cases hflag : s.marginalization_flag with
  | MARGIN_OLD =>
    simp only [hflag] at h
    split_ifs at h with hfc hW
    · have h1 := (slideWindow.shiftLoop_sameCount _ _).chain
        (slideWindow.afterShift_sameCount _ _ _ _ h)
      exact ⟨h1.1, h1.2⟩
    · simp only [Option.some.injEq] at h
      subst h
      exact ⟨rfl, rfl⟩
  | MARGIN_SECOND_NEW =>
    simp only [hflag] at h
    split_ifs at h with hfc hW
    · exact slideWindow.secondNew_sameCount _ _ _ h
    · simp only [Option.some.injEq] at h
      subst h
      exact ⟨rfl, rfl⟩

theorem GNSSVIAlign.restore_sameCount (W : Nat) (rough_xyzt refined_xyzt : Nat → ℚ)
    (aligned_rcv_ddt : ℚ) (s : Estimator) :
    Estimator.SameCount s (GNSSVIAlign.restore W rough_xyzt refined_xyzt aligned_rcv_ddt s) := by
  unfold GNSSVIAlign.restore
  generalize W + 1 = n
  induction n with
  | zero => exact Estimator.SameCount.unchanged s
  | succ n ih =>
    rw [List.range_succ, List.foldl_append]
    simp only [List.foldl_cons, List.foldl_nil]
    exact ih.chain ⟨rfl, rfl⟩

/-- The function `GNSSVIAlign` writes neither `frame_count` nor `solver_flag`. -/
theorem GNSSVIAlign_sameCount (g : Geometry) (ini : GnssInitializer) (W : Nat) (s : Estimator) :
    Estimator.SameCount s (GNSSVIAlign g ini W s).2 := by
  unfold GNSSVIAlign
  split_ifs
  · exact Estimator.SameCount.unchanged s
  · exact Estimator.SameCount.unchanged s
  · exact Estimator.SameCount.unchanged s
  · exact Estimator.SameCount.unchanged s
  · dsimp only
    split
    · exact Estimator.SameCount.unchanged s
    · split
      · exact Estimator.SameCount.unchanged s
      · split
        · exact Estimator.SameCount.unchanged s
        · exact (GNSSVIAlign.restore_sameCount _ _ _ _ s).chain ⟨rfl, rfl⟩

theorem setParameter_sameCount (s : Estimator) : Estimator.SameCount s (setParameter s) := by
  unfold setParameter
  simp only
  split_ifs <;> exact ⟨rfl, rfl⟩

theorem Estimator.WindowCount.of_sameCount {W : Nat} {s t : Estimator}
    (h : Estimator.SameCount s t) (hs : Estimator.WindowCount W s) :
    Estimator.WindowCount W t := by
  unfold Estimator.WindowCount
  rw [h.1, h.2]
  exact hs

theorem clearState_windowCount (W : Nat) (s : Estimator) :
    Estimator.WindowCount W (clearState W s) :=
  ⟨Nat.zero_le W, fun h => absurd h (by simp [clearState])⟩

theorem changeSensorType.flags_sameCount (use_imu use_stereo : Bool) (s : Estimator) :
    Estimator.SameCount s (changeSensorType.flags use_imu use_stereo s).1 := by
  unfold changeSensorType.flags
  cases use_imu <;> cases use_stereo <;> cases h : s.USE_IMU <;>
    simp [Estimator.SameCount, h]

theorem changeSensorType_windowCount (W : Nat) (use_imu use_stereo : Bool) (s : Estimator)
    (hs : Estimator.WindowCount W s) :
    Estimator.WindowCount W (changeSensorType W use_imu use_stereo s) := by
  unfold changeSensorType
  simp only
  split_ifs with hr
  · exact Estimator.WindowCount.of_sameCount (setParameter_sameCount _)
      (clearState_windowCount W _)
  · exact Estimator.WindowCount.of_sameCount (changeSensorType.flags_sameCount _ _ s) hs

theorem processImage.addFrame_sameCount (c : ProcessImageCallees) (hc : c.KeepsCount)
    (image : Nat) (header : Time) (s : Estimator) :
    Estimator.SameCount s (processImage.addFrame c image header s) :=
  (hc.addFeatureCheckParallax image s).chain ⟨rfl, rfl⟩

theorem processImage.calibrate_sameCount (c : ProcessImageCallees) (s t : Estimator)
    (h : processImage.calibrate c s = some t) : Estimator.SameCount s t := by
  unfold processImage.calibrate at h
  split_ifs at h
  · cases hp : s.pre_integrations s.frame_count with
    | none => simp [hp] at h
    | some p =>
      simp only [hp] at h
      cases hr : c.CalibrationExRotation s p with
      | none =>
        simp only [hr, Option.some.injEq] at h
        subst h
        exact Estimator.SameCount.unchanged s
      | some calib_ric =>
        simp only [hr, Option.some.injEq] at h
        subst h
        exact ⟨rfl, rfl⟩
  · obtain rfl := Option.some.inj h
    exact Estimator.SameCount.unchanged s
  · obtain rfl := Option.some.inj h
    exact Estimator.SameCount.unchanged s

theorem processImage.finishInitialization_count (c : ProcessImageCallees) (hc : c.KeepsCount)
    (W : Nat) (s t : Estimator) (h : processImage.finishInitialization c W s = some t) :
    t.frame_count = s.frame_count ∧ t.solver_flag = SolverFlag.NON_LINEAR := by
  unfold processImage.finishInitialization at h
  cases ho : c.optimization s with
  | none => simp [ho] at h
  | some s1 =>
    simp only [ho] at h
    have h1 := hc.optimization s s1 ho
    have h2 := hc.updateLatestStates s1
    have h3 := slideWindow_sameCount W _ t h
    exact ⟨h3.1.trans (h2.1.trans h1.1), h3.2⟩

theorem processImage.BlockStep.of_kept {W : Nat} {s t : Estimator}
    (h : Estimator.SameCount s t) : processImage.BlockStep W s t :=
  ⟨h.1, Or.inl h.2⟩

theorem processImage.BlockStep.windowCount {W : Nat} {s t : Estimator}
    (h : processImage.BlockStep W s t) (hs : Estimator.WindowCount W s) :
    Estimator.WindowCount W t := by
  refine ⟨by rw [h.1]; exact hs.1, fun hn => ?_⟩
  rw [h.1]
  rcases h.2 with h2 | h2
  · exact hs.2 (h2 ▸ hn)
  · exact h2.2

theorem processImage.monoImu_step (c : ProcessImageCallees) (hc : c.KeepsCount) (W : Nat)
    (header : Time) (s t : Estimator) (h : processImage.monoImu c W header s = some t) :
    processImage.BlockStep W s t := by
  unfold processImage.monoImu at h
  by_cases hflags : (!s.STEREO && s.USE_IMU) = true
  · rw [if_pos hflags] at h
    by_cases hfull : s.frame_count = W
    · rw [if_pos hfull] at h
      dsimp only at h
      by_cases hinit : s.ESTIMATE_EXTRINSIC ≠ 2 ∧ header - s.initial_timestamp > literal_0_1
      · rw [if_pos hinit] at h
        dsimp only at h
        have h2 := hc.initialStructure s
        split_ifs at h with hres
        · have h1 := processImage.finishInitialization_count c hc W _ t h
          exact ⟨h1.1.trans h2.1, Or.inr ⟨h1.2, hfull⟩⟩
        · have h1 := slideWindow_sameCount W _ t h
          exact ⟨h1.1.trans h2.1, Or.inl (h1.2.trans h2.2)⟩
      · rw [if_neg hinit] at h
        dsimp only at h
        rw [if_neg (by simp)] at h
        exact processImage.BlockStep.of_kept (slideWindow_sameCount W _ t h)
    · rw [if_neg hfull] at h
      obtain rfl := Option.some.inj h
      exact processImage.BlockStep.of_kept (Estimator.SameCount.unchanged s)
  · rw [if_neg hflags] at h
    obtain rfl := Option.some.inj h
    exact processImage.BlockStep.of_kept (Estimator.SameCount.unchanged s)

theorem processImage.stereoImu_step (c : ProcessImageCallees) (hc : c.KeepsCount) (W : Nat)
    (s t : Estimator) (h : processImage.stereoImu c W s = some t) :
    processImage.BlockStep W s t := by
  unfold processImage.stereoImu at h
  dsimp only at h
  have hpre : Estimator.SameCount s (c.triangulate (c.initFramePoseByPnP s)) :=
    (hc.initFramePoseByPnP s).chain (hc.triangulate _)
  split_ifs at h with hflags hfull
  · cases hg : c.solveGyroscopeBias (c.triangulate (c.initFramePoseByPnP s)) with
    | none => simp [hg] at h
    | some s1 =>
      simp only [hg] at h
      have h1 := processImage.finishInitialization_count c hc W _ t h
      have h2 := hc.solveGyroscopeBias _ s1 hg
      exact ⟨h1.1.trans (h2.1.trans hpre.1), Or.inr ⟨h1.2, hpre.1.symm.trans hfull⟩⟩
  · obtain rfl := Option.some.inj h
    exact processImage.BlockStep.of_kept hpre
  · obtain rfl := Option.some.inj h
    exact processImage.BlockStep.of_kept (Estimator.SameCount.unchanged s)

theorem processImage.stereoOnly_step (c : ProcessImageCallees) (hc : c.KeepsCount) (W : Nat)
    (s t : Estimator) (h : processImage.stereoOnly c W s = some t) :
    processImage.BlockStep W s t := by
  unfold processImage.stereoOnly at h
  dsimp only at h
  have hpre : Estimator.SameCount s (c.triangulate (c.initFramePoseByPnP s)) :=
    (hc.initFramePoseByPnP s).chain (hc.triangulate _)
  split_ifs at h with hflags
  · cases ho : c.optimization (c.triangulate (c.initFramePoseByPnP s)) with
    | none => simp [ho] at h
    | some s1 =>
      simp only [ho] at h
      have h2 := hpre.chain (hc.optimization _ s1 ho)
      split_ifs at h with hfull
      · have h1 := processImage.finishInitialization_count c hc W _ t h
        exact ⟨h1.1.trans h2.1, Or.inr ⟨h1.2, h2.1.symm.trans hfull⟩⟩
      · obtain rfl := Option.some.inj h
        exact processImage.BlockStep.of_kept h2
  · obtain rfl := Option.some.inj h
    exact processImage.BlockStep.of_kept (Estimator.SameCount.unchanged s)

theorem processImage.grow_windowCount (W : Nat) (s : Estimator)
    (hs : Estimator.WindowCount W s) : Estimator.WindowCount W (processImage.grow W s) := by
  unfold processImage.grow
  split_ifs with hlt
  · refine ⟨Nat.succ_le_of_lt hlt, fun hn => ?_⟩
    have := hs.2 hn
    omega
  · exact hs

theorem processImage.initial_windowCount (c : ProcessImageCallees) (hc : c.KeepsCount) (W : Nat)
    (header : Time) (s t : Estimator) (hs : Estimator.WindowCount W s)
    (h : processImage.initial c W header s = some t) : Estimator.WindowCount W t := by
  unfold processImage.initial at h
  cases h1 : processImage.monoImu c W header s with
  | none => simp [h1] at h
  | some s1 =>
    simp only [h1] at h
    cases h2 : processImage.stereoImu c W s1 with
    | none => simp [h2] at h
    | some s2 =>
      simp only [h2] at h
      cases h3 : processImage.stereoOnly c W s2 with
      | none => simp [h3] at h
      | some s3 =>
        simp only [h3, Option.some.injEq] at h
        subst h
        exact processImage.grow_windowCount W s3
          ((processImage.stereoOnly_step c hc W s2 s3 h3).windowCount
            ((processImage.stereoImu_step c hc W s1 s2 h2).windowCount
              ((processImage.monoImu_step c hc W header s s1 h1).windowCount hs)))

theorem processImage.align_sameCount (g : Geometry) (ini : GnssInitializer) (W : Nat)
    (s : Estimator) : Estimator.SameCount s (processImage.align g ini W s) := by
  have h1 := GNSSVIAlign_sameCount g ini W s
  exact ⟨h1.1, h1.2⟩

theorem processImage.gnss_sameCount (c : ProcessImageCallees) (hc : c.KeepsCount)
    (g : Geometry) (ini : GnssInitializer) (W : Nat) (s : Estimator) :
    Estimator.SameCount s (processImage.gnss c g ini W s) := by
  unfold processImage.gnss
  dsimp only
  have halign := processImage.align_sameCount g ini W s
  split_ifs
  · exact halign.chain (hc.updateGNSSStatistics _)
  · exact halign
  · exact hc.updateGNSSStatistics s
  · exact Estimator.SameCount.unchanged s
  · exact Estimator.SameCount.unchanged s

theorem processImage.solve_sameCount (c : ProcessImageCallees) (hc : c.KeepsCount)
    (s t : Estimator) (h : processImage.solve c s = some t) : Estimator.SameCount s t := by
  unfold processImage.solve at h
  dsimp only at h
  split_ifs at h
  · exact ((hc.initFramePoseByPnP s).chain (hc.triangulate _)).chain (hc.optimization _ t h)
  · exact (hc.triangulate s).chain (hc.optimization _ t h)

theorem processImage.finishFrame_sameCount (c : ProcessImageCallees) (hc : c.KeepsCount)
    (W : Nat) (s t : Estimator) (h : processImage.finishFrame c W s = some t) :
    Estimator.SameCount s t := by
  unfold processImage.finishFrame at h
  cases hslide : slideWindow W s with
  | none => simp [hslide] at h
  | some s2 =>
    simp only [hslide, Option.some.injEq] at h
    subst h
    have h4 := (slideWindow_sameCount W s s2 hslide).chain (hc.removeFailures s2)
    have h5 := hc.updateLatestStates
      { c.removeFailures s2 with
        last_R0 := (c.removeFailures s2).Rs 0, last_P0 := (c.removeFailures s2).Ps 0 }
    exact ⟨h5.1.trans h4.1, h5.2.trans h4.2⟩

theorem processImage.nonLinear_windowCount (c : ProcessImageCallees) (hc : c.KeepsCount)
    (g : Geometry) (ini : GnssInitializer) (W : Nat) (s t : Estimator)
    (hs : Estimator.WindowCount W s) (h : processImage.nonLinear c g ini W s = some t) :
    Estimator.WindowCount W t := by
  unfold processImage.nonLinear at h
  cases ho : processImage.solve c s with
  | none => simp [ho] at h
  | some s1 =>
    simp only [ho] at h
    have h2 := ((processImage.solve_sameCount c hc s s1 ho).chain
      (processImage.gnss_sameCount c hc g ini W s1)).chain (hc.rejectOutliers _)
    split_ifs at h with hfail
    · obtain rfl := Option.some.inj h
      exact Estimator.WindowCount.of_sameCount (setParameter_sameCount _)
        (clearState_windowCount W _)
    · exact Estimator.WindowCount.of_sameCount
        (h2.chain (processImage.finishFrame_sameCount c hc W _ t h)) hs

/-- A call of `processImage` that returns keeps the invariant of the window count. -/
theorem processImage_windowCount (c : ProcessImageCallees) (hc : c.KeepsCount) (g : Geometry)
    (ini : GnssInitializer) (W : Nat) (image : Nat) (header : Time) (s t : Estimator)
    (hs : Estimator.WindowCount W s) (h : processImage c g ini W image header s = some t) :
    Estimator.WindowCount W t := by
  unfold processImage at h
  cases hcal : processImage.calibrate c (processImage.addFrame c image header s) with
  | none => simp [hcal] at h
  | some s1 =>
    simp only [hcal] at h
    have h1 : Estimator.WindowCount W s1 :=
      Estimator.WindowCount.of_sameCount
        ((processImage.addFrame_sameCount c hc image header s).chain
          (processImage.calibrate_sameCount c _ s1 hcal)) hs
    split_ifs at h
    · exact processImage.initial_windowCount c hc W header s1 t h1 h
    · exact processImage.nonLinear_windowCount c hc g ini W s1 t h1 h

theorem exampleImageCallees_keeps : exampleImageCallees.KeepsCount where
  addFeatureCheckParallax := fun _ _ => ⟨rfl, rfl⟩
  initialStructure := fun _ => ⟨rfl, rfl⟩
  optimization := fun s t h => by
    obtain rfl := Option.some.inj h
    exact ⟨rfl, rfl⟩
  updateLatestStates := fun _ => ⟨rfl, rfl⟩
  initFramePoseByPnP := fun _ => ⟨rfl, rfl⟩
  triangulate := fun _ => ⟨rfl, rfl⟩
  solveGyroscopeBias := fun s t h => by
    obtain rfl := Option.some.inj h
    exact ⟨rfl, rfl⟩
  updateGNSSStatistics := fun _ => ⟨rfl, rfl⟩
  rejectOutliers := fun _ => ⟨rfl, rfl⟩
  removeFailures := fun _ => ⟨rfl, rfl⟩

theorem exampleFirstFrame_eq :
    processImage exampleImageCallees exampleGeometry exampleInitializer 1 7 1
      exampleConstructed =
      some (processImage.grow 1
        (processImage.addFrame exampleImageCallees 7 1 exampleConstructed)) := by
  simp [processImage, processImage.calibrate, processImage.addFrame, processImage.initial,
    processImage.monoImu, processImage.stereoImu, processImage.stereoOnly,
    exampleImageCallees, exampleConstructed, clearState, exampleWindow]

theorem exampleFirstFrame_run :
    processImage exampleImageCallees exampleGeometry exampleInitializer 1 7 1
      exampleConstructed = some exampleFirstFrame := by
  unfold exampleFirstFrame
  rw [exampleFirstFrame_eq]
  rfl

theorem exampleSecondFrame_run :
    processImage exampleImageCallees exampleGeometry exampleInitializer 1 8 2
      exampleFirstFrame = some exampleSecondFrame := by
  have h : (processImage exampleImageCallees exampleGeometry exampleInitializer 1 8 2
      exampleFirstFrame).isSome = true := by
    have e : exampleFirstFrame = processImage.grow 1
        (processImage.addFrame exampleImageCallees 7 1 exampleConstructed) := by
      unfold exampleFirstFrame
      rw [exampleFirstFrame_eq]
      rfl
    rw [e]
    simp [processImage, processImage.calibrate, processImage.addFrame, processImage.initial,
      processImage.monoImu, processImage.stereoImu, processImage.stereoOnly,
      processImage.finishInitialization, processImage.grow, slideWindow, slideWindow.secondNew,
      exampleImageCallees, exampleConstructed, clearState, exampleWindow]
  unfold exampleSecondFrame
  cases hm : processImage exampleImageCallees exampleGeometry exampleInitializer 1 8 2
      exampleFirstFrame with
  | none =>
    rw [hm] at h
    exact absurd h (by simp)
  | some t => rfl

theorem exampleSecondFrame_full :
    exampleSecondFrame.solver_flag = SolverFlag.NON_LINEAR ∧
      exampleSecondFrame.frame_count = 1 := by
  have e : exampleFirstFrame = processImage.grow 1
      (processImage.addFrame exampleImageCallees 7 1 exampleConstructed) := by
    unfold exampleFirstFrame
    rw [exampleFirstFrame_eq]
    rfl
  unfold exampleSecondFrame
  rw [e]
  simp [processImage, processImage.calibrate, processImage.addFrame, processImage.initial,
    processImage.monoImu, processImage.stereoImu, processImage.stereoOnly,
    processImage.finishInitialization, processImage.grow, slideWindow, slideWindow.secondNew,
    slideWindowNew, exampleImageCallees, exampleConstructed, clearState, exampleWindow]

/-- C30: in every state that an estimator reaches from its constructor by calls of
`processImage` that return, `clearState` and `changeSensorType`, `frame_count` lies in
`[0, WINDOW_SIZE]`, and it is `WINDOW_SIZE` when `solver_flag` is `NON_LINEAR`, provided the
callees of `processImage` that are not embedded write neither member. -/
theorem processImage_window_count (c : ProcessImageCallees) (hc : c.KeepsCount) (g : Geometry)
    (ini : GnssInitializer) (W : Nat) (s : Estimator) (h : WindowReachable c g ini W s) :
    0 ≤ s.frame_count ∧ s.frame_count ≤ W ∧
      (s.solver_flag = SolverFlag.NON_LINEAR → s.frame_count = W) := by
  have hinv : Estimator.WindowCount W s := by
    induction h with
    | constructed s => exact clearState_windowCount W _
    | processImage image header s t _ hrun ih =>
      exact processImage_windowCount c hc g ini W image header s t ih hrun
    | clearState s _ _ => exact clearState_windowCount W s
    | changeSensorType use_imu use_stereo s _ ih =>
      exact changeSensorType_windowCount W use_imu use_stereo s ih
  exact ⟨Nat.zero_le _, hinv.1, hinv.2⟩

/-- Witness of C30: a stereo estimator with a window of `W = 1` after its first two frames. -/
theorem processImage_window_count_witness :
    0 ≤ exampleSecondFrame.frame_count ∧ exampleSecondFrame.frame_count ≤ 1 ∧
      (exampleSecondFrame.solver_flag = SolverFlag.NON_LINEAR →
        exampleSecondFrame.frame_count = 1) :=
  processImage_window_count exampleImageCallees exampleImageCallees_keeps exampleGeometry
    exampleInitializer 1 exampleSecondFrame
    (WindowReachable.processImage 8 2 exampleFirstFrame exampleSecondFrame
      (WindowReachable.processImage 7 1 exampleConstructed exampleFirstFrame
        (WindowReachable.constructed
          { exampleWindow with STEREO := true, USE_IMU := false })
        exampleFirstFrame_run)
      exampleSecondFrame_run)

end VINS
